import Mathlib

/-!
Permafrost Engine: the combat subsystem (`src/game/combat.c`)

A shallow embedding of the combat state machine, target acquisition, attack resolution
and persistence of `combat.c`, and of the serializer of colours of
`src/script/py_ui_style.c` (namespace `UIStyle`), followed by theorems about them.

Modelling conventions

* A C `float` (armour fraction, positions, radii, distances, damage) is a value of the
  type `c_float`: IEEE 754 binary32 with the infinities and NaN.  A finite value is given
  by the rational number it denotes; every arithmetic operation rounds its exact result
  to binary32 (to nearest, ties to even), as with `FLT_EVAL_METHOD` 0.  The sign of a
  zero is not modelled: no operation of `combat.c` observes it.  A conversion of a
  `float` to `int` whose result does not fit 32 bits is undefined in ISO C; the model
  gives it the value `INT_MIN` that the conversion instruction of x86-64 returns.
* `int` values are unbounded integers, entity uids (`uint32_t`) are natural numbers.
* An `enum` object can hold any `int` (a load stores the `int` it reads): the types
  `combat_stance` and `combat_phase` have, next to the enumerators, one value for every
  other `int`.
* An entity pointer is identified by the uid of the entity it points to, so a pointer
  comparison `a == b` is the comparison `a.uid = b.uid`.
* A failed `assert` and a dereference of a `NULL` record abort the run: every function
  that can do so returns an `Option`, with `none` for the abort.
* The hash table `s_entity_state_table` is a list of `(uid, record)` pairs with distinct
  keys; the list order stands for the iteration order of the table.  A write through a
  record pointer (`cs->state = ...`) is an in-place `combatstate_modify`.
* `ent->rotation`, written by `entity_turn_to_target`, is read by no combat code and is
  not part of the state; the `assert` inside `quat_from_vec` is kept.
-/

namespace Combat

/-! ## Data model -/

/-- A value of the C type `float` (IEEE 754 binary32): a finite value, given by the
rational number it denotes, an infinity with its sign, or a NaN. -/
inductive c_float where
  | fin (q : ℚ)
  | inf (negative : Bool)
  | nan
deriving DecidableEq, Repr

/-- The power of two with an integer exponent. -/
def pow2 (e : Int) : ℚ :=
  if 0 ≤ e then ((2 ^ e.toNat : Nat) : ℚ) else 1 / ((2 ^ (-e).toNat : Nat) : ℚ)

/-- The binary logarithm of a natural number, rounded down, by repeated halving; the
first argument bounds the number of halvings. -/
def log2_fuel : Nat → Nat → Nat
  | 0, _ => 0
  | fuel + 1, n => if 2 ≤ n then log2_fuel fuel (n / 2) + 1 else 0

/-- The binary logarithm of a natural number, rounded down (`0` for `0`). -/
def nat_log2 (n : Nat) : Nat := log2_fuel n n

/-- The binary exponent of a positive rational `a`: the integer `e` with
`2 ^ e ≤ a < 2 ^ (e + 1)`.  For `1 ≤ a` it is the logarithm of the integer part of `a`;
for `a < 1` it is found from the least integer not below `1 / a`. -/
def ilog2 (a : ℚ) : Int :=
  if 1 ≤ a then (nat_log2 (a.num / a.den).toNat : Int)
  else -((nat_log2 ((-((-(1 / a).num) / (1 / a).den)).toNat - 1) : Int) + 1)

/-- The rounding of a non-negative rational to an integer: to nearest, ties to even. -/
def round_half_even (x : ℚ) : Int :=
  let f : Int := x.num / x.den
  let r : ℚ := x - f
  if r < 1 / 2 then f
  else if 1 / 2 < r then f + 1
  else if f % 2 = 0 then f
  else f + 1

/-- The unit in the last place of binary32 at the magnitude of a positive rational `a`:
24 significant bits, and no exponent below that of the subnormal values. -/
def f32_ulp (a : ℚ) : ℚ := pow2 (max (ilog2 a) (-126) - 23)

/-- The rounding of a rational to binary32: to the nearest multiple of the unit in the
last place, ties to even, and to an infinity when the rounded magnitude reaches
`2 ^ 128`. -/
def f32_round (q : ℚ) : c_float :=
  if q = 0 then c_float.fin 0
  else
    let a : ℚ := if q < 0 then -q else q
    let u : ℚ := f32_ulp a
    let r : ℚ := (round_half_even (a / u) : ℚ) * u
    if pow2 128 ≤ r then c_float.inf (decide (q < 0))
    else c_float.fin (if q < 0 then -r else r)

/-- The negation of a `float`. -/
def c_float.neg : c_float → c_float
  | c_float.fin a => c_float.fin (-a)
  | c_float.inf s => c_float.inf (!s)
  | c_float.nan => c_float.nan

/-- The sum of two `float`s, rounded. -/
def c_float.add : c_float → c_float → c_float
  | c_float.fin a, c_float.fin b => f32_round (a + b)
  | c_float.fin _, c_float.inf t => c_float.inf t
  | c_float.inf s, c_float.fin _ => c_float.inf s
  | c_float.inf s, c_float.inf t => if s = t then c_float.inf s else c_float.nan
  | _, _ => c_float.nan

/-- The difference of two `float`s, rounded. -/
def c_float.sub : c_float → c_float → c_float
  | c_float.fin a, c_float.fin b => f32_round (a - b)
  | c_float.fin _, c_float.inf t => c_float.inf (!t)
  | c_float.inf s, c_float.fin _ => c_float.inf s
  | c_float.inf s, c_float.inf t => if s = t then c_float.nan else c_float.inf s
  | _, _ => c_float.nan

/-- The product of two `float`s, rounded. -/
def c_float.mul : c_float → c_float → c_float
  | c_float.fin a, c_float.fin b => f32_round (a * b)
  | c_float.fin a, c_float.inf t =>
    if a = 0 then c_float.nan else c_float.inf (xor (decide (a < 0)) t)
  | c_float.inf s, c_float.fin b =>
    if b = 0 then c_float.nan else c_float.inf (xor s (decide (b < 0)))
  | c_float.inf s, c_float.inf t => c_float.inf (xor s t)
  | _, _ => c_float.nan

/-- The quotient of two `float`s, rounded. -/
def c_float.div : c_float → c_float → c_float
  | c_float.fin a, c_float.fin b =>
    if b = 0 then (if a = 0 then c_float.nan else c_float.inf (decide (a < 0)))
    else f32_round (a / b)
  | c_float.fin _, c_float.inf _ => c_float.fin 0
  | c_float.inf s, c_float.fin b => c_float.inf (xor s (decide (b < 0)))
  | _, _ => c_float.nan

/-- The absolute value of a `float`. -/
def c_float.abs : c_float → c_float
  | c_float.fin a => c_float.fin (if a < 0 then -a else a)
  | c_float.inf _ => c_float.inf false
  | c_float.nan => c_float.nan

/-- The comparison `<` of two `float`s; it is false when an operand is a NaN. -/
def c_float.lt : c_float → c_float → Bool
  | c_float.fin a, c_float.fin b => decide (a < b)
  | c_float.fin _, c_float.inf t => !t
  | c_float.inf s, c_float.fin _ => s
  | c_float.inf s, c_float.inf t => s && !t
  | _, _ => false

/-- The comparison `<=` of two `float`s; it is false when an operand is a NaN. -/
def c_float.le : c_float → c_float → Bool
  | c_float.fin a, c_float.fin b => decide (a ≤ b)
  | c_float.fin _, c_float.inf t => !t
  | c_float.inf s, c_float.fin _ => s
  | c_float.inf s, c_float.inf t => s || !t
  | _, _ => false

instance c_float_has_lt : LT c_float := ⟨fun a b => c_float.lt a b = true⟩

instance c_float_has_le : LE c_float := ⟨fun a b => c_float.le a b = true⟩

instance c_float_decidable_lt (a b : c_float) : Decidable (a < b) :=
  inferInstanceAs (Decidable (c_float.lt a b = true))

instance c_float_decidable_le (a b : c_float) : Decidable (a ≤ b) :=
  inferInstanceAs (Decidable (c_float.le a b = true))

/-- A decimal constant without a fraction, such as `5.0f`: its value rounded. -/
instance c_float_of_nat (n : Nat) : OfNat c_float n := ⟨f32_round (n : ℚ)⟩

instance c_float_has_neg : Neg c_float := ⟨c_float.neg⟩

instance c_float_has_add : Add c_float := ⟨c_float.add⟩

instance c_float_has_sub : Sub c_float := ⟨c_float.sub⟩

instance c_float_has_mul : Mul c_float := ⟨c_float.mul⟩

instance c_float_has_div : Div c_float := ⟨c_float.div⟩

/-- The conversion of an `int` to `float`: the value rounded. -/
def int_to_float (i : Int) : c_float := f32_round (i : ℚ)

/-- The conversion of a `float` to an `int` on assignment: the fractional part is
discarded.  When the result does not fit 32 bits, and for an infinity or a NaN, the
behaviour is undefined in ISO C; the value is the `INT_MIN` that x86-64 gives. -/
def c_float_to_int : c_float → Int
  | c_float.fin q =>
    let t := Int.tdiv q.num q.den
    if -2147483648 ≤ t ∧ t ≤ 2147483647 then t else -2147483648
  | _ => -2147483648

/-- A 2D vector `vec2_t` (`raw[0]`, `raw[1]`). -/
structure vec2 where
  x : c_float
  z : c_float
deriving DecidableEq, Repr

/-- The three entity flag bits that `combat.c` reads or writes. -/
structure entity_flags where
  combatable : Bool
  zombie : Bool
  selectable : Bool
deriving DecidableEq, Repr

/-- The fields of `struct entity` used by `combat.c`. -/
structure entity where
  uid : Nat
  flags : entity_flags
  faction_id : Int
  max_hp : Int
  selection_radius : c_float
deriving DecidableEq, Repr

/-- The stance of an entity, `enum combat_stance`. -/
inductive combat_stance where
  | COMBAT_STANCE_AGGRESSIVE
  | COMBAT_STANCE_HOLD_POSITION
  | COMBAT_STANCE_NO_ENGAGEMENT
  /-- An `int` that is not the value of an enumerator. -/
  | COMBAT_STANCE_OTHER (i : Int) (h : i < 0 ∨ 2 < i)
deriving DecidableEq, Repr

/-- The phase of the combat state machine, the anonymous `enum` of `struct combatstate`. -/
inductive combat_phase where
  | STATE_NOT_IN_COMBAT
  | STATE_MOVING_TO_TARGET
  | STATE_CAN_ATTACK
  | STATE_ATTACK_ANIM_PLAYING
  | STATE_DEATH_ANIM_PLAYING
  /-- An `int` that is not the value of an enumerator. -/
  | STATE_OTHER (i : Int) (h : i < 0 ∨ 4 < i)
deriving DecidableEq, Repr

/-- Whether a stance is the value of an enumerator of `enum combat_stance`. -/
def stance_known : combat_stance → Bool
  | combat_stance.COMBAT_STANCE_OTHER _ _ => false
  | _ => true

/-- Whether a phase is the value of an enumerator of the `enum` of `struct combatstate`. -/
def phase_known : combat_phase → Bool
  | combat_phase.STATE_OTHER _ _ => false
  | _ => true

/-- The result of a diplomacy query, `enum diplomacy_state`. -/
inductive diplomacy_state where
  | DIPLOMACY_STATE_ALLY
  | DIPLOMACY_STATE_PEACE
  | DIPLOMACY_STATE_WAR
deriving DecidableEq, Repr

open combat_stance combat_phase diplomacy_state

/-- The combat profile `struct combatstats`. -/
structure combatstats where
  base_dmg : Int
  base_armour_pc : c_float
deriving DecidableEq, Repr

/-- One record of the combat state table, `struct combatstate`. -/
structure combatstate where
  stats : combatstats
  current_hp : Int
  stance : combat_stance
  state : combat_phase
  target_uid : Nat
  move_cmd_interrupted : Bool
  move_cmd_xz : vec2
deriving DecidableEq, Repr

/-- The two handlers that `combat.c` registers for `EVENT_ANIM_CYCLE_FINISHED`. -/
inductive anim_handler where
  | attack_anim_finish
  | death_anim_finish
deriving DecidableEq, Repr

/-- The entity events that `combat.c` emits with `E_Entity_Notify`. -/
inductive event_kind where
  | EVENT_ATTACK_START
  | EVENT_ATTACK_END
  | EVENT_ENTITY_DEATH
deriving DecidableEq, Repr

/-- Modelled from the spec: the order the movement subsystem (`movement.c`, not in the
source tree) holds for a unit: stopped, moving to a destination, or seeking enemies. -/
inductive move_order where
  | stopped
  | dest (xz : vec2)
  | seek_enemies
deriving DecidableEq, Repr

/-- The mutable state: the two static variables of `combat.c` and the state of the
collaborators it writes to. -/
structure State where
  /-- The table `s_entity_state_table`. -/
  table : List (Nat × combatstate)
  /-- The vector `s_dying_ents`, each entity pointer given by its uid. -/
  dying : List Nat
  /-- The entity registry behind `G_EntityForUID`. -/
  ents : List entity
  /-- The handlers registered for `EVENT_ANIM_CYCLE_FINISHED`, keyed by uid. -/
  handlers : List (Nat × anim_handler)
  /-- The notifications emitted so far, oldest first. -/
  notified : List (event_kind × Nat)
  /-- The movement orders, latest binding first. -/
  move : List (Nat × move_order)
  /-- The active selection set. -/
  selection : List Nat
deriving DecidableEq, Repr

/-- The collaborators that the combat code only reads. -/
structure World where
  /-- The position of an entity on the map plane. -/
  G_Pos_GetXZ : Nat → vec2
  /-- The length of a vector. -/
  PFM_Vec2_Len : vec2 → c_float
  /-- The normalisation of a vector. -/
  PFM_Vec2_Normal : vec2 → vec2
  /-- The entities within a radius of a point, in the order the query writes them. -/
  G_Pos_EntsInCircle : vec2 → c_float → List entity
  /-- The diplomacy table; `none` when the query reports failure. -/
  G_GetDiplomacyState : Int → Int → Option diplomacy_state
  /-- The dynamic entities, in the iteration order of the set. -/
  G_GetDynamicEntsSet : List entity

/-! ## Constants and macros -/

/-- The macro `ENEMY_TARGET_ACQUISITION_RANGE`, `50.0f`. -/
def ENEMY_TARGET_ACQUISITION_RANGE : c_float := 50

/-- The macro `ENEMY_MELEE_ATTACK_RANGE`, `5.0f`. -/
def ENEMY_MELEE_ATTACK_RANGE : c_float := 5

/-- The macro `EPSILON`, `1.0f/1024`. -/
def EPSILON : c_float := 1 / 1024

/-- The constant `FLT_MAX` of `float.h`, the largest finite value of binary32. -/
def FLT_MAX : c_float := 340282346638528859811704183484516925440

/-- The macro `MAX` at type `float`: `(a) > (b) ? (a) : (b)`. -/
def MAX (a b : c_float) : c_float := if a > b then a else b

/-- The macro `MIN` at type `int`. -/
def MIN (a b : Int) : Int := if a < b then a else b

/-- The size of the buffer `near_ents`. -/
def NEAR_ENTS_SIZE : Nat := 128

/-! ## The state table -/

/-- The lookup `combatstate_get`: the record stored under `uid`, if any. -/
def combatstate_get : List (Nat × combatstate) → Nat → Option combatstate
  | [], _ => none
  | (k, cs) :: rest, uid => if k = uid then some cs else combatstate_get rest uid

/-- A write through the pointer returned by `combatstate_get`. -/
def combatstate_modify (f : combatstate → combatstate) :
    List (Nat × combatstate) → Nat → List (Nat × combatstate)
  | [], _ => []
  | (k, cs) :: rest, uid =>
    if k = uid then (k, f cs) :: rest else (k, cs) :: combatstate_modify f rest uid

/-- The insertion `combatstate_set`; it aborts when the entity is not combatable or the
key is already present. -/
def combatstate_set (tbl : List (Nat × combatstate)) (ent : entity) (cs : combatstate) :
    Option (List (Nat × combatstate)) :=
  if !ent.flags.combatable then none
  else if (combatstate_get tbl ent.uid).isSome then none
  else some (tbl ++ [(ent.uid, cs)])

/-- The deletion `combatstate_remove`. -/
def combatstate_remove (tbl : List (Nat × combatstate)) (ent : entity) :
    Option (List (Nat × combatstate)) :=
  if !ent.flags.combatable then none
  else some (tbl.filter (fun p => p.1 ≠ ent.uid))

/-- The removal `dying_remove`: the first occurrence of the entity is deleted. -/
def dying_remove (dying : List Nat) (ent : entity) : List Nat :=
  dying.erase ent.uid

/-! ## Collaborators -/

/-- Modelled from the spec: the lookup `G_EntityForUID` of the entity registry (not in the
source tree) returns the live entity with the given identifier, if there is one. -/
def G_EntityForUID (s : State) (uid : Nat) : Option entity :=
  s.ents.find? (fun e => e.uid = uid)

/-- Modelled from the spec: `E_Entity_Register` of the event bus (`event.c`, not in the
source tree) adds a callback under the key (event kind, entity id). -/
def E_Entity_Register (s : State) (uid : Nat) (h : anim_handler) : State :=
  { s with handlers := s.handlers ++ [(uid, h)] }

/-- Modelled from the spec: `E_Entity_Unregister` of the event bus (`event.c`, not in the
source tree) removes the callback registered under the key (event kind, entity id). -/
def E_Entity_Unregister (s : State) (uid : Nat) (h : anim_handler) : State :=
  { s with handlers := s.handlers.filter (fun p => p ≠ (uid, h)) }

/-- Modelled from the spec: `E_Entity_Notify` of the event bus (`event.c`, not in the
source tree) delivers a notification; the model records it. -/
def E_Entity_Notify (s : State) (ev : event_kind) (uid : Nat) : State :=
  { s with notified := s.notified ++ [(ev, uid)] }

/-- Whether a handler is registered for an entity. -/
def registered (s : State) (uid : Nat) (h : anim_handler) : Prop :=
  (uid, h) ∈ s.handlers

/-- Modelled from the spec: `G_Move_Stop` of the movement subsystem (`movement.c`, not in
the source tree) stops the unit. -/
def G_Move_Stop (s : State) (uid : Nat) : State :=
  { s with move := (uid, move_order.stopped) :: s.move }

/-- Modelled from the spec: `G_Move_SetDest` of the movement subsystem sets the
destination of the unit. -/
def G_Move_SetDest (s : State) (uid : Nat) (xz : vec2) : State :=
  { s with move := (uid, move_order.dest xz) :: s.move }

/-- Modelled from the spec: `G_Move_SetSeekEnemies` of the movement subsystem puts the
unit in the pursuit mode. -/
def G_Move_SetSeekEnemies (s : State) (uid : Nat) : State :=
  { s with move := (uid, move_order.seek_enemies) :: s.move }

/-- Modelled from the spec: `G_Move_RemoveEntity` of the movement subsystem removes the
movement association of the unit. -/
def G_Move_RemoveEntity (s : State) (uid : Nat) : State :=
  { s with move := s.move.filter (fun p => p.1 ≠ uid) }

/-- The current movement order of a unit, if it has one. -/
def move_order_of : List (Nat × move_order) → Nat → Option move_order
  | [], _ => none
  | (k, o) :: rest, uid => if k = uid then some o else move_order_of rest uid

/-- Modelled from the spec: `G_Move_GetDest` of the movement subsystem reports the
destination the unit is moving to, if it has one. -/
def G_Move_GetDest (s : State) (uid : Nat) : Option vec2 :=
  match move_order_of s.move uid with
  | some (move_order.dest xz) => some xz
  | _ => none

/-- Modelled from the spec: `G_Sel_Remove` of the selection collaborator removes the
entity from the active selection set. -/
def G_Sel_Remove (s : State) (uid : Nat) : State :=
  { s with selection := s.selection.filter (fun u => u ≠ uid) }

/-- The write `target->flags &= ~ENTITY_FLAG_SELECTABLE` on the registry. -/
def clear_selectable (s : State) (uid : Nat) : State :=
  { s with ents := s.ents.map (fun e =>
      if e.uid = uid then { e with flags := { e.flags with selectable := false } } else e) }

/-- Modelled from the spec: the vector difference `PFM_Vec2_Sub` (`pf_math.c` is not in
the source tree): the difference of the components, each a `float` subtraction. -/
def PFM_Vec2_Sub (a b : vec2) : vec2 := ⟨a.x - b.x, a.z - b.z⟩

/-! ## Static functions of `combat.c` -/

/-- The function `enemies`: different factions that are at war; it aborts when the
diplomacy query fails. -/
def enemies (w : World) (a b : entity) : Option Bool :=
  if a.faction_id = b.faction_id then some false
  else
    match w.G_GetDiplomacyState a.faction_id b.faction_id with
    | none => none
    | some ds => some (decide (ds = DIPLOMACY_STATE_WAR))

/-- The function `ents_distance`: the distance of the centres minus both radii,
`PFM_Vec2_Len(&dist) - a->selection_radius - b->selection_radius`: two `float`
subtractions, from left to right, each rounded. -/
def ents_distance (w : World) (a b : entity) : c_float :=
  w.PFM_Vec2_Len (PFM_Vec2_Sub (w.G_Pos_GetXZ a.uid) (w.G_Pos_GetXZ b.uid))
    - a.selection_radius - b.selection_radius

/-- The loop of `closest_enemy_in_range` over the candidates, carrying `min_dist` and
`ret`. -/
def closest_enemy_loop (w : World) (tbl : List (Nat × combatstate)) (ent : entity) :
    List entity → c_float → Option entity → Option (Option entity)
  | [], _, ret => some ret
  | curr :: rest, min_dist, ret =>
    if curr.uid = ent.uid then closest_enemy_loop w tbl ent rest min_dist ret
    else if !curr.flags.combatable then closest_enemy_loop w tbl ent rest min_dist ret
    else if curr.flags.zombie then closest_enemy_loop w tbl ent rest min_dist ret
    else
      match enemies w ent curr with
      | none => none
      | some false => closest_enemy_loop w tbl ent rest min_dist ret
      | some true =>
        match combatstate_get tbl curr.uid with
        | none => none
        | some cs =>
          if cs.state = STATE_DEATH_ANIM_PLAYING then
            closest_enemy_loop w tbl ent rest min_dist ret
          else if ents_distance w ent curr < min_dist then
            closest_enemy_loop w tbl ent rest (ents_distance w ent curr) (some curr)
          else closest_enemy_loop w tbl ent rest min_dist ret

/-- The candidates of `closest_enemy_in_range`: what the spatial query writes into the
buffer of 128 entries. -/
def near_ents (w : World) (ent : entity) : List entity :=
  (w.G_Pos_EntsInCircle (w.G_Pos_GetXZ ent.uid) ENEMY_TARGET_ACQUISITION_RANGE).take
    NEAR_ENTS_SIZE

/-- The function `closest_enemy_in_range`; the outer `none` is an abort, the inner one
the `NULL` result. -/
def closest_enemy_in_range (w : World) (tbl : List (Nat × combatstate)) (ent : entity) :
    Option (Option entity) :=
  closest_enemy_loop w tbl ent (near_ents w ent) FLT_MAX none

/-- The functions `entity_turn_to_target` and `quat_from_vec`: whether the `assert` on
the length of the normalised direction passes. -/
def entity_turn_to_target (w : World) (ent target : entity) : Bool :=
  decide (w.PFM_Vec2_Len (w.PFM_Vec2_Normal
    (PFM_Vec2_Sub (w.G_Pos_GetXZ target.uid) (w.G_Pos_GetXZ ent.uid))) > EPSILON)

/-- The getter `G_Combat_GetBaseDamage`. -/
def G_Combat_GetBaseDamage (s : State) (ent : entity) : Option Int :=
  (combatstate_get s.table ent.uid).map (fun cs => cs.stats.base_dmg)

/-- The getter `G_Combat_GetBaseArmour`. -/
def G_Combat_GetBaseArmour (s : State) (ent : entity) : Option c_float :=
  (combatstate_get s.table ent.uid).map (fun cs => cs.stats.base_armour_pc)

/-- The fatal-hit branch of `on_attack_anim_finish` for the target. -/
def kill_target (s : State) (target : entity) (target_uid : Nat) : State :=
  let s := G_Move_Stop s target.uid
  let s := if target.flags.selectable then clear_selectable (G_Sel_Remove s target.uid) target.uid
    else s
  let s := E_Entity_Unregister s target_uid anim_handler.attack_anim_finish
  let s := E_Entity_Notify s event_kind.EVENT_ENTITY_DEATH target_uid
  let s := E_Entity_Register s target_uid anim_handler.death_anim_finish
  let s := { s with dying := s.dying ++ [target.uid] }
  let tbl := combatstate_modify (fun c => { c with state := STATE_DEATH_ANIM_PLAYING })
    s.table target_uid
  { s with table := tbl }

/-- The callback `on_attack_anim_finish` with `user = self`. -/
def on_attack_anim_finish (w : World) (s : State) (self : entity) : Option State :=
  let s := E_Entity_Unregister s self.uid anim_handler.attack_anim_finish
  match combatstate_get s.table self.uid with
  | none => none
  | some cs =>
    if cs.state ≠ STATE_ATTACK_ANIM_PLAYING then none
    else
      let tbl := combatstate_modify (fun c => { c with state := STATE_CAN_ATTACK })
        s.table self.uid
      let s := { s with table := tbl }
      match G_EntityForUID s cs.target_uid with
      | none => some s
      | some target =>
        if target.flags.zombie then some s
        else
          match combatstate_get s.table cs.target_uid with
          | none => none
          | some target_cs =>
            if target_cs.state = STATE_DEATH_ANIM_PLAYING then some s
            else if ents_distance w self target ≤ ENEMY_MELEE_ATTACK_RANGE then
              match G_Combat_GetBaseDamage s self, G_Combat_GetBaseArmour s target with
              | some base_dmg, some armour =>
                let dmg : c_float := int_to_float base_dmg * (1 - armour)
                let hp : Int := c_float_to_int (MAX 0 (int_to_float target_cs.current_hp - dmg))
                let tbl := combatstate_modify (fun c => { c with current_hp := hp })
                  s.table cs.target_uid
                let s := { s with table := tbl }
                if hp = 0 ∧ target.max_hp > 0 then some (kill_target s target cs.target_uid)
                else some s
              | _, _ => none
            else some s

/-- The setter `G_Combat_SetHP`. -/
def G_Combat_SetHP (s : State) (ent : entity) (hp : Int) : Option State :=
  match combatstate_get s.table ent.uid with
  | none => none
  | some _ =>
    let tbl := combatstate_modify (fun c => { c with current_hp := MIN hp ent.max_hp })
      s.table ent.uid
    some { s with table := tbl }

/-- The function `G_Combat_AddEntity`; it aborts when the entity has a record already or
is not combatable.  The fields that the initialiser leaves out are zero. -/
def G_Combat_AddEntity (s : State) (ent : entity) (initial : combat_stance) :
    Option State :=
  if (combatstate_get s.table ent.uid).isSome then none
  else if !ent.flags.combatable then none
  else
    let new_cs : combatstate :=
      { stats := ⟨0, 0⟩, current_hp := ent.max_hp, stance := initial,
        state := STATE_NOT_IN_COMBAT, target_uid := 0, move_cmd_interrupted := false,
        move_cmd_xz := ⟨0, 0⟩ }
    (combatstate_set s.table ent new_cs).map (fun tbl => { s with table := tbl })

/-- The function `G_Combat_ClearSavedMoveCmd`. -/
def G_Combat_ClearSavedMoveCmd (s : State) (ent : entity) : State :=
  match combatstate_get s.table ent.uid with
  | none => s
  | some _ =>
    let tbl := combatstate_modify (fun c => { c with move_cmd_interrupted := false })
      s.table ent.uid
    { s with table := tbl }

/-- The function `G_Combat_SetBaseArmour`. -/
def G_Combat_SetBaseArmour (s : State) (ent : entity) (armour_pc : c_float) :
    Option State :=
  match combatstate_get s.table ent.uid with
  | none => none
  | some _ =>
    let tbl := combatstate_modify
      (fun c => { c with stats := { c.stats with base_armour_pc := armour_pc } })
      s.table ent.uid
    some { s with table := tbl }

/-- The function `G_Combat_SetBaseDamage`. -/
def G_Combat_SetBaseDamage (s : State) (ent : entity) (dmg : Int) : Option State :=
  match combatstate_get s.table ent.uid with
  | none => none
  | some _ =>
    let tbl := combatstate_modify (fun c => { c with stats := { c.stats with base_dmg := dmg } })
      s.table ent.uid
    some { s with table := tbl }

/-- The function `G_Combat_GetCurrentHP`; it aborts when the entity is not combatable or
has no record. -/
def G_Combat_GetCurrentHP (s : State) (ent : entity) : Option Int :=
  if !ent.flags.combatable then none
  else (combatstate_get s.table ent.uid).map (fun cs => cs.current_hp)

/-- The restoration of an interrupted move command, as `on_30hz_tick` and
`G_Combat_StopAttack` do it: `G_Move_SetDest` with the saved destination, then the flag
`move_cmd_interrupted` is cleared. -/
def restore_move_cmd (s : State) (uid : Nat) (cs : combatstate) : State :=
  let s := G_Move_SetDest s uid cs.move_cmd_xz
  let tbl := combatstate_modify (fun c => { c with move_cmd_interrupted := false }) s.table uid
  { s with table := tbl }

/-- The function `G_Combat_StopAttack`. -/
def G_Combat_StopAttack (s : State) (ent : entity) : State :=
  match combatstate_get s.table ent.uid with
  | none => s
  | some cs =>
    let s := E_Entity_Unregister s ent.uid anim_handler.attack_anim_finish
    let s :=
      if cs.state = STATE_ATTACK_ANIM_PLAYING ∨ cs.state = STATE_CAN_ATTACK then
        E_Entity_Notify s event_kind.EVENT_ATTACK_END ent.uid
      else s
    let tbl := combatstate_modify (fun c => { c with state := STATE_NOT_IN_COMBAT })
      s.table ent.uid
    let s := { s with table := tbl }
    if cs.move_cmd_interrupted then restore_move_cmd s ent.uid cs else s

/-- The function `G_Combat_RemoveEntity`; it aborts when a combatable entity has no
record. -/
def G_Combat_RemoveEntity (s : State) (ent : entity) : Option State :=
  if !ent.flags.combatable then some s
  else
    match combatstate_get s.table ent.uid with
    | none => none
    | some cs =>
      let s := E_Entity_Unregister s ent.uid anim_handler.attack_anim_finish
      let s := E_Entity_Unregister s ent.uid anim_handler.death_anim_finish
      let s :=
        if cs.state = STATE_ATTACK_ANIM_PLAYING ∨ cs.state = STATE_CAN_ATTACK then
          E_Entity_Notify s event_kind.EVENT_ATTACK_END ent.uid
        else s
      let s := { s with dying := dying_remove s.dying ent }
      (combatstate_remove s.table ent).map (fun tbl => { s with table := tbl })

/-- The function `G_Combat_SetStance`; it aborts when the entity is not combatable or has
no record. -/
def G_Combat_SetStance (s : State) (ent : entity) (stance : combat_stance) : Option State :=
  if !ent.flags.combatable then none
  else
    match combatstate_get s.table ent.uid with
    | none => none
    | some cs =>
      if stance = cs.stance then some s
      else
        let s := if stance = COMBAT_STANCE_NO_ENGAGEMENT then G_Combat_StopAttack s ent else s
        let s :=
          match combatstate_get s.table ent.uid with
          | none => s
          | some cs1 =>
            if stance = COMBAT_STANCE_HOLD_POSITION ∧ cs1.state = STATE_MOVING_TO_TARGET then
              let s := G_Move_RemoveEntity s ent.uid
              let tbl := combatstate_modify
                (fun c => { c with state := STATE_NOT_IN_COMBAT, move_cmd_interrupted := false })
                s.table ent.uid
              { s with table := tbl }
            else s
        let tbl := combatstate_modify (fun c => { c with stance := stance }) s.table ent.uid
        some { s with table := tbl }

/-- The case `STATE_NOT_IN_COMBAT` of the `switch` of `on_30hz_tick`. -/
def tick_not_in_combat (w : World) (s : State) (curr : entity) (cs : combatstate) :
    Option State :=
  if cs.stance = COMBAT_STANCE_NO_ENGAGEMENT then some s
  else
    match closest_enemy_in_range w s.table curr with
    | none => none
    | some none => some s
    | some (some enemy) =>
      if ents_distance w curr enemy ≤ ENEMY_MELEE_ATTACK_RANGE then
        if ¬ (cs.stance = COMBAT_STANCE_AGGRESSIVE ∨ cs.stance = COMBAT_STANCE_HOLD_POSITION)
        then none
        else
          let tbl := combatstate_modify
            (fun c => { c with target_uid := enemy.uid, state := STATE_CAN_ATTACK })
            s.table curr.uid
          let s := { s with table := tbl }
          if !entity_turn_to_target w curr enemy then none
          else some (E_Entity_Notify s event_kind.EVENT_ATTACK_START curr.uid)
      else if cs.stance = COMBAT_STANCE_AGGRESSIVE then
        let tbl := combatstate_modify
          (fun c => { c with target_uid := enemy.uid, state := STATE_MOVING_TO_TARGET })
          s.table curr.uid
        let s := { s with table := tbl }
        let s :=
          match cs.move_cmd_interrupted, G_Move_GetDest s curr.uid with
          | false, some move_dest_xz =>
            let tbl := combatstate_modify
              (fun c => { c with move_cmd_interrupted := true, move_cmd_xz := move_dest_xz })
              s.table curr.uid
            { s with table := tbl }
          | _, _ => s
        some (G_Move_SetSeekEnemies s curr.uid)
      else some s

/-- The case `STATE_MOVING_TO_TARGET` of the `switch` of `on_30hz_tick`. -/
def tick_moving_to_target (w : World) (s : State) (curr : entity) (cs : combatstate) :
    Option State :=
  match closest_enemy_in_range w s.table curr with
  | none => none
  | some none =>
    let tbl := combatstate_modify (fun c => { c with state := STATE_NOT_IN_COMBAT })
      s.table curr.uid
    let s := { s with table := tbl }
    if cs.move_cmd_interrupted then some (restore_move_cmd s curr.uid cs)
    else some (G_Move_Stop s curr.uid)
  | some (some enemy) =>
    let tbl :=
      if enemy.uid ≠ cs.target_uid then
        combatstate_modify (fun c => { c with target_uid := enemy.uid }) s.table curr.uid
      else s.table
    let s := { s with table := tbl }
    if ents_distance w curr enemy ≤ ENEMY_MELEE_ATTACK_RANGE then
      let tbl := combatstate_modify (fun c => { c with state := STATE_CAN_ATTACK })
        s.table curr.uid
      let s := G_Move_Stop { s with table := tbl } curr.uid
      if !entity_turn_to_target w curr enemy then none
      else some (E_Entity_Notify s event_kind.EVENT_ATTACK_START curr.uid)
    else some s

/-- The test of `STATE_CAN_ATTACK` on the current target: whether it is gone, a zombie,
dying or out of the melee range; `none` when the target has no record to read. -/
def target_invalid (w : World) (s : State) (curr : entity) (cs : combatstate) :
    Option Bool :=
  match G_EntityForUID s cs.target_uid with
  | none => some true
  | some target =>
    if target.flags.zombie then some true
    else
      match combatstate_get s.table cs.target_uid with
      | none => none
      | some target_cs =>
        if target_cs.state = STATE_DEATH_ANIM_PLAYING then some true
        else some (decide (ents_distance w curr target > ENEMY_MELEE_ATTACK_RANGE))

/-- The end of an attack in `STATE_CAN_ATTACK` when no other target is in range: back to
`STATE_NOT_IN_COMBAT`, `EVENT_ATTACK_END`, and the interrupted move command restored. -/
def attack_ends (s : State) (curr : entity) (cs : combatstate) : State :=
  let tbl := combatstate_modify (fun c => { c with state := STATE_NOT_IN_COMBAT })
    s.table curr.uid
  let s := E_Entity_Notify { s with table := tbl } event_kind.EVENT_ATTACK_END curr.uid
  if cs.move_cmd_interrupted then restore_move_cmd s curr.uid cs else s

/-- The case `STATE_CAN_ATTACK` of the `switch` of `on_30hz_tick`. -/
def tick_can_attack (w : World) (s : State) (curr : entity) (cs : combatstate) :
    Option State :=
  match target_invalid w s curr cs with
  | none => none
  | some true =>
    match closest_enemy_in_range w s.table curr with
    | none => none
    | some none => some (attack_ends s curr cs)
    | some (some enemy) =>
      if ents_distance w curr enemy ≤ ENEMY_MELEE_ATTACK_RANGE then
        let tbl := combatstate_modify (fun c => { c with target_uid := enemy.uid })
          s.table curr.uid
        if !entity_turn_to_target w curr enemy then none
        else some { s with table := tbl }
      else some (attack_ends s curr cs)
  | some false =>
    let tbl := combatstate_modify (fun c => { c with state := STATE_ATTACK_ANIM_PLAYING })
      s.table curr.uid
    some (E_Entity_Register { s with table := tbl } curr.uid anim_handler.attack_anim_finish)

/-- The body of the loop of `on_30hz_tick` for one dynamic entity. -/
def tick_entity (w : World) (s : State) (curr : entity) : Option State :=
  if !curr.flags.combatable then some s
  else
    match combatstate_get s.table curr.uid with
    | none => none
    | some cs =>
      match cs.state with
      | STATE_NOT_IN_COMBAT => tick_not_in_combat w s curr cs
      | STATE_MOVING_TO_TARGET => tick_moving_to_target w s curr cs
      | STATE_CAN_ATTACK => tick_can_attack w s curr cs
      | STATE_ATTACK_ANIM_PLAYING => some s
      | STATE_DEATH_ANIM_PLAYING => some s
      | STATE_OTHER _ _ => none

/-- The loop `kh_foreach` of `on_30hz_tick` over the dynamic entities. -/
def tick_loop (w : World) : List entity → State → Option State
  | [], s => some s
  | curr :: rest, s =>
    match tick_entity w s curr with
    | none => none
    | some s1 => tick_loop w rest s1

/-- The handler `on_30hz_tick`. -/
def on_30hz_tick (w : World) (s : State) : Option State :=
  tick_loop w w.G_GetDynamicEntsSet s

/-- Consecutive ticks, one for each world of the list. -/
def run_ticks : List World → State → Option State
  | [], s => some s
  | w :: rest, s =>
    match on_30hz_tick w s with
    | none => none
    | some s1 => run_ticks rest s1

/-! ## Observations -/

/-- The filters of the loop body of `closest_enemy_in_range` on one candidate: `some true`
when the candidate reaches the distance comparison, `some false` when it is skipped,
`none` when an `assert` fails. -/
def candidate_filter (w : World) (tbl : List (Nat × combatstate)) (ent curr : entity) :
    Option Bool :=
  if curr.uid = ent.uid then some false
  else if !curr.flags.combatable then some false
  else if curr.flags.zombie then some false
  else
    match enemies w ent curr with
    | none => none
    | some false => some false
    | some true =>
      match combatstate_get tbl curr.uid with
      | none => none
      | some cs => some (decide (cs.state ≠ STATE_DEATH_ANIM_PLAYING))

/-- A candidate that survives the filters of target acquisition: it is not the querying
entity, it is combat-capable, it is not a zombie, its faction differs from the faction of
the querying entity and is at war with it, and its combat phase is not Dying. -/
def valid_enemy (w : World) (tbl : List (Nat × combatstate)) (ent c : entity) : Prop :=
  c.uid ≠ ent.uid ∧ c.flags.combatable = true ∧ c.flags.zombie = false
    ∧ c.faction_id ≠ ent.faction_id
    ∧ w.G_GetDiplomacyState ent.faction_id c.faction_id = some DIPLOMACY_STATE_WAR
    ∧ ∃ cs, combatstate_get tbl c.uid = some cs ∧ cs.state ≠ STATE_DEATH_ANIM_PLAYING


/-- The phase of an entity, if it has a record. -/
def phase_of (s : State) (uid : Nat) : Option combat_phase :=
  (combatstate_get s.table uid).map (fun c => c.state)

/-- The hit points of an entity, if it has a record. -/
def hp_of (s : State) (uid : Nat) : Option Int :=
  (combatstate_get s.table uid).map (fun c => c.current_hp)

/-- The state in which `on_attack_anim_finish` looks at the target: the handler of the
attacker is unregistered and the attacker is in `STATE_CAN_ATTACK`. -/
def attack_resolved (s : State) (self : entity) : State :=
  { s with
    handlers := s.handlers.filter (fun p => p ≠ (self.uid, anim_handler.attack_anim_finish))
    table := combatstate_modify (fun c => { c with state := STATE_CAN_ATTACK }) s.table
      self.uid }

/-- The damage that `on_attack_anim_finish` computes,
`G_Combat_GetBaseDamage(self) * (1.0f - G_Combat_GetBaseArmour(target))`: the base damage
converted to `float`, times the rounded difference, rounded. -/
def hit_damage (attacker target : combatstate) : c_float :=
  int_to_float attacker.stats.base_dmg * (1 - target.stats.base_armour_pc)

/-- The hit points that the damage formula of `on_attack_anim_finish` stores,
`MAX(0, target_cs->current_hp - dmg)`: the hit points converted to `float`, the rounded
difference, and the conversion to `int` on assignment. -/
def hp_after_hit (attacker target : combatstate) : Int :=
  c_float_to_int (MAX 0 (int_to_float target.current_hp - hit_damage attacker target))

/-- The state after the hit points of the target are written. -/
def hit_applied (s : State) (self : entity) (target_uid : Nat) (hp : Int) : State :=
  { attack_resolved s self with
    table := combatstate_modify (fun c => { c with current_hp := hp })
      (attack_resolved s self).table target_uid }

/-- The truncation of a rational toward zero. -/
def trunc_toward_zero (q : ℚ) : Int := if 0 ≤ q then ⌊q⌋ else ⌈q⌉

/-- Following the spec: the hit points after a hit by the formula of the spec, in exact
arithmetic: `max(0, current_hp - base_damage * (1 - armour))`, truncated toward zero. -/
def spec_hp_after_hit (current_hp base_dmg : Int) (armour : ℚ) : Int :=
  trunc_toward_zero (max 0 ((current_hp : ℚ) - (base_dmg : ℚ) * (1 - armour)))

/-- Following the spec: the surface-to-surface distance in exact arithmetic, the distance
of the centres minus both radii; `none` when one of the three is not finite. -/
def spec_surface_distance (w : World) (a b : entity) : Option ℚ :=
  match w.PFM_Vec2_Len (PFM_Vec2_Sub (w.G_Pos_GetXZ a.uid) (w.G_Pos_GetXZ b.uid)),
    a.selection_radius, b.selection_radius with
  | c_float.fin d, c_float.fin ra, c_float.fin rb => some (d - ra - rb)
  | _, _, _ => none

/-- Whether the registry shows an entity as selectable. -/
def selectable_of (s : State) (uid : Nat) : Option Bool :=
  (G_EntityForUID s uid).map (fun e => e.flags.selectable)

/-- What a tick keeps of a record: the hit points, the stance, the combat profile,
whether the phase is Dying, and that the phase is the value of an enumerator. -/
def record_kept (c c1 : combatstate) : Prop :=
  c1.current_hp = c.current_hp ∧ c1.stance = c.stance ∧ c1.stats = c.stats
    ∧ (c1.state = STATE_DEATH_ANIM_PLAYING ↔ c.state = STATE_DEATH_ANIM_PLAYING)
    ∧ (phase_known c.state = true → phase_known c1.state = true)

/-- What a tick keeps of the values of the enumerations in a table: every record of the
new table has the stance of the record of the old table, and a phase that is the value
of an enumerator if the old phase was one. -/
def enums_kept (s s1 : State) : Prop :=
  ∀ v c1, combatstate_get s1.table v = some c1 →
    ∃ c, combatstate_get s.table v = some c ∧ c1.stance = c.stance
      ∧ (phase_known c.state = true → phase_known c1.state = true)

/-- What target acquisition reads of the table: whether an entity has a record, and
whether that record is in the phase Dying. -/
def dying_view (tbl : List (Nat × combatstate)) (uid : Nat) : Option Bool :=
  (combatstate_get tbl uid).map (fun c => decide (c.state = STATE_DEATH_ANIM_PLAYING))

/-- A condition under which no `assert` of `on_30hz_tick` fails: every combat-capable
dynamic entity has a record; for every dynamic entity and every candidate of its spatial
query the diplomacy query succeeds, a combat-capable candidate has a record, and a
candidate other than the entity itself passes the `assert` of `quat_from_vec`; every
live registry entity has a record; and the stance and the phase of the record of every
dynamic entity are values of enumerators (the `assert` on the stance in the case
`STATE_NOT_IN_COMBAT` and the `default: assert(0)` of the `switch` on the phase). -/
def tick_ok (w : World) (s : State) : Prop :=
  (∀ e ∈ w.G_GetDynamicEntsSet, e.flags.combatable = true →
      combatstate_get s.table e.uid ≠ none)
  ∧ (∀ e ∈ w.G_GetDynamicEntsSet, ∀ c ∈ near_ents w e,
      w.G_GetDiplomacyState e.faction_id c.faction_id ≠ none
      ∧ (c.flags.combatable = true → combatstate_get s.table c.uid ≠ none)
      ∧ (c.uid ≠ e.uid → entity_turn_to_target w e c = true))
  ∧ (∀ t target, G_EntityForUID s t = some target → target.flags.zombie = false →
      combatstate_get s.table t ≠ none)
  ∧ (∀ e ∈ w.G_GetDynamicEntsSet, ∀ c, combatstate_get s.table e.uid = some c →
      stance_known c.stance = true ∧ phase_known c.state = true)

/-! ## Operations and reachable states -/

/-- The operations on the combat subsystem: the functions that `combat.c` exports, the
tick, and the delivery of the attack-animation-completion event to an entity. -/
inductive combat_op where
  | add (ent : entity) (initial : combat_stance)
  | remove (ent : entity)
  | tick (w : World)
  | attack_anim_finish (w : World) (self : entity)
  | set_stance (ent : entity) (stance : combat_stance)
  | stop_attack (ent : entity)
  | clear_saved_move_cmd (ent : entity)
  | set_hp (ent : entity) (hp : Int)
  | set_base_damage (ent : entity) (dmg : Int)
  | set_base_armour (ent : entity) (armour_pc : c_float)

/-- The effect of one operation; `none` when an `assert` fails, for the
attack-animation-completion event when `on_attack_anim_finish` is not registered for the
entity, so that the event bus does not call it, and for a stance argument that is not the
value of an enumerator of `enum combat_stance`, which no caller passes. -/
def apply_op (s : State) : combat_op → Option State
  | combat_op.add ent initial =>
    if stance_known initial then G_Combat_AddEntity s ent initial else none
  | combat_op.remove ent => G_Combat_RemoveEntity s ent
  | combat_op.tick w => on_30hz_tick w s
  | combat_op.attack_anim_finish w self =>
    if (self.uid, anim_handler.attack_anim_finish) ∈ s.handlers then
      on_attack_anim_finish w s self
    else none
  | combat_op.set_stance ent stance =>
    if stance_known stance then G_Combat_SetStance s ent stance else none
  | combat_op.stop_attack ent => some (G_Combat_StopAttack s ent)
  | combat_op.clear_saved_move_cmd ent => some (G_Combat_ClearSavedMoveCmd s ent)
  | combat_op.set_hp ent hp => G_Combat_SetHP s ent hp
  | combat_op.set_base_damage ent dmg => G_Combat_SetBaseDamage s ent dmg
  | combat_op.set_base_armour ent armour_pc => G_Combat_SetBaseArmour s ent armour_pc

/-- A sequence of operations, each applied to the state the previous one returned. -/
def run_ops : List combat_op → State → Option State
  | [], s => some s
  | op :: rest, s =>
    match apply_op s op with
    | none => none
    | some s1 => run_ops rest s1

/-- The empty subsystem, as `G_Combat_Init` leaves it: no record, no dying entity, no
handler of the subsystem registered. -/
def empty_subsystem (s : State) : Prop :=
  s.table = [] ∧ s.dying = [] ∧ s.handlers = []

/-- The invariant that an entity out of combat holds no saved move command. -/
def idle_has_no_saved_cmd (s : State) : Prop :=
  ∀ u c, combatstate_get s.table u = some c → c.state = STATE_NOT_IN_COMBAT →
    c.move_cmd_interrupted = false

/-! ## Persistence -/

/-- Modelled from the spec: the value of an attribute of the save stream (`lib/attr.c` is
not in the source tree): an integer, a boolean, a 2D vector, a value of another type, or
text that `Attr_Parse` cannot read. -/
inductive attr_val where
  | as_int (i : Int)
  | as_bool (b : Bool)
  | as_vec2 (v : vec2)
  | as_other
  | unparsable
deriving DecidableEq, Repr

/-- Modelled from the spec: a named attribute of the save stream, `struct attr` with the
name that `Attr_Write` gives it. -/
structure attr where
  key : String
  val : attr_val
deriving DecidableEq, Repr

/-- Modelled from the spec: `Attr_Parse` reads the next attribute of the stream; it fails
at the end of the stream and on text that it cannot read. -/
def Attr_Parse : List attr → Option (attr × List attr)
  | [] => none
  | a :: rest => if a.val = attr_val.unparsable then none else some (a, rest)

/-- The two checks `Attr_Parse(stream, &attr, true)` and `attr.type == TYPE_INT`. -/
def parse_int (stream : List attr) : Option (Int × List attr) :=
  match Attr_Parse stream with
  | some (⟨_, attr_val.as_int i⟩, rest) => some (i, rest)
  | _ => none

/-- The two checks `Attr_Parse(stream, &attr, true)` and `attr.type == TYPE_BOOL`. -/
def parse_bool (stream : List attr) : Option (Bool × List attr) :=
  match Attr_Parse stream with
  | some (⟨_, attr_val.as_bool b⟩, rest) => some (b, rest)
  | _ => none

/-- The two checks `Attr_Parse(stream, &attr, true)` and `attr.type == TYPE_VEC2`. -/
def parse_vec2 (stream : List attr) : Option (vec2 × List attr) :=
  match Attr_Parse stream with
  | some (⟨_, attr_val.as_vec2 v⟩, rest) => some (v, rest)
  | _ => none

/-- The conversion of an unsigned value to `int` (32 bits, two's complement). -/
def unsigned_to_int (n : Nat) : Int :=
  if n % 4294967296 < 2147483648 then (n % 4294967296 : Nat)
  else ((n % 4294967296 : Nat) : Int) - 4294967296

/-- The conversion of an `int` to `uint32_t`. -/
def int_to_uint32 (i : Int) : Nat := (i % 4294967296).toNat

/-- The conversion of an `int` to `size_t` (64 bits). -/
def int_to_size_t (i : Int) : Nat := (i % 18446744073709551616).toNat

/-- The value of a stance as an `int`; the enumerators of `enum combat_stance` (declared
in `combat.h`, which is not in the source tree) are numbered in the order of
`combat_stance`. -/
def stance_to_int : combat_stance → Int
  | COMBAT_STANCE_AGGRESSIVE => 0
  | COMBAT_STANCE_HOLD_POSITION => 1
  | COMBAT_STANCE_NO_ENGAGEMENT => 2
  | COMBAT_STANCE_OTHER i _ => i

/-- The stance that the assignment `cs->stance = attr.val.as_int` stores. -/
def stance_of_int (i : Int) : combat_stance :=
  if h0 : i = 0 then COMBAT_STANCE_AGGRESSIVE
  else if h1 : i = 1 then COMBAT_STANCE_HOLD_POSITION
  else if h2 : i = 2 then COMBAT_STANCE_NO_ENGAGEMENT
  else COMBAT_STANCE_OTHER i (by omega)

/-- The value of a phase as an `int`, by the order of the enumerators in
`struct combatstate`. -/
def phase_to_int : combat_phase → Int
  | STATE_NOT_IN_COMBAT => 0
  | STATE_MOVING_TO_TARGET => 1
  | STATE_CAN_ATTACK => 2
  | STATE_ATTACK_ANIM_PLAYING => 3
  | STATE_DEATH_ANIM_PLAYING => 4
  | STATE_OTHER i _ => i

/-- The phase that the assignment `cs->state = attr.val.as_int` stores. -/
def phase_of_int (i : Int) : combat_phase :=
  if h0 : i = 0 then STATE_NOT_IN_COMBAT
  else if h1 : i = 1 then STATE_MOVING_TO_TARGET
  else if h2 : i = 2 then STATE_CAN_ATTACK
  else if h3 : i = 3 then STATE_ATTACK_ANIM_PLAYING
  else if h4 : i = 4 then STATE_DEATH_ANIM_PLAYING
  else STATE_OTHER i (by omega)

/-- The attributes that the body of the loop of `G_Combat_SaveState` writes for one entry
of the table. -/
def save_record (p : Nat × combatstate) : List attr :=
  [⟨"uid", attr_val.as_int (unsigned_to_int p.1)⟩,
   ⟨"stance", attr_val.as_int (stance_to_int p.2.stance)⟩,
   ⟨"state", attr_val.as_int (phase_to_int p.2.state)⟩,
   ⟨"target_uid", attr_val.as_int (unsigned_to_int p.2.target_uid)⟩,
   ⟨"move_cmd_interrupted", attr_val.as_bool p.2.move_cmd_interrupted⟩,
   ⟨"move_cmd_xz", attr_val.as_vec2 p.2.move_cmd_xz⟩]

/-- The loop `kh_foreach` of `G_Combat_SaveState` over the table. -/
def save_records : List (Nat × combatstate) → List attr
  | [] => []
  | p :: rest => save_record p ++ save_records rest

/-- The loop of `G_Combat_SaveState` over `s_dying_ents`. -/
def save_dying : List Nat → List attr
  | [] => []
  | u :: rest => ⟨"dying_ent_uid", attr_val.as_int (unsigned_to_int u)⟩ :: save_dying rest

/-- The function `G_Combat_SaveState`: the attributes that it writes to the stream, in
order.  A write to the stream does not fail in the model, so the function returns
`true`. -/
def G_Combat_SaveState (s : State) : List attr :=
  ⟨"num_ents", attr_val.as_int (unsigned_to_int s.table.length)⟩ :: save_records s.table
    ++ ⟨"num_dying", attr_val.as_int (unsigned_to_int s.dying.length)⟩ :: save_dying s.dying

/-- The outcome of a load, or of a part of it: `loaded` with the state and the rest of
the stream when no check failed, `failed` with the state at the `return false`. -/
inductive load_result where
  | loaded (s : State) (rest : List attr)
  | failed (s : State)
deriving DecidableEq, Repr

/-- The re-registration of `on_attack_anim_finish` in the loop of `G_Combat_LoadState`,
for a record loaded in `STATE_ATTACK_ANIM_PLAYING`; `none` when the entity is not in the
registry. -/
def load_reregister (s : State) (uid : Nat) (state : combat_phase) : Option State :=
  if state = STATE_ATTACK_ANIM_PLAYING then
    match G_EntityForUID s uid with
    | none => none
    | some _ => some (E_Entity_Register s uid anim_handler.attack_anim_finish)
  else some s

/-- The write of one field of the record of `uid` in `G_Combat_LoadState`. -/
def load_write (s : State) (uid : Nat) (f : combatstate → combatstate) : State :=
  { s with table := combatstate_modify f s.table uid }

/-- The body of the first loop of `G_Combat_LoadState`: one record is read and written
over the record of its entity. -/
def load_record (s : State) (stream : List attr) : load_result :=
  match parse_int stream with
  | none => load_result.failed s
  | some (i, stream) =>
    let uid := int_to_uint32 i
    match combatstate_get s.table uid with
    | none => load_result.failed s
    | some _ =>
      match parse_int stream with
      | none => load_result.failed s
      | some (i, stream) =>
        let s := load_write s uid (fun c => { c with stance := stance_of_int i })
        match parse_int stream with
        | none => load_result.failed s
        | some (i, stream) =>
          let state := phase_of_int i
          let s := load_write s uid (fun c => { c with state := state })
          match load_reregister s uid state with
          | none => load_result.failed s
          | some s =>
            match parse_int stream with
            | none => load_result.failed s
            | some (i, stream) =>
              let s := load_write s uid (fun c => { c with target_uid := int_to_uint32 i })
              match parse_bool stream with
              | none => load_result.failed s
              | some (b, stream) =>
                let s := load_write s uid (fun c => { c with move_cmd_interrupted := b })
                match parse_vec2 stream with
                | none => load_result.failed s
                | some (v, stream) =>
                  load_result.loaded
                    (load_write s uid (fun c => { c with move_cmd_xz := v })) stream

/-- The first loop of `G_Combat_LoadState`, for the given number of records. -/
def load_records : Nat → State → List attr → load_result
  | 0, s, stream => load_result.loaded s stream
  | n + 1, s, stream =>
    match load_record s stream with
    | load_result.loaded s1 rest => load_records n s1 rest
    | load_result.failed s1 => load_result.failed s1

/-- The body of the second loop of `G_Combat_LoadState`: the uid of a dying entity is
read, the entity is pushed to `s_dying_ents` and `on_death_anim_finish` is registered. -/
def load_dying_ent (s : State) (stream : List attr) : load_result :=
  match parse_int stream with
  | none => load_result.failed s
  | some (i, stream) =>
    let uid := int_to_uint32 i
    match G_EntityForUID s uid with
    | none => load_result.failed s
    | some ent =>
      let s := { s with dying := s.dying ++ [ent.uid] }
      load_result.loaded (E_Entity_Register s uid anim_handler.death_anim_finish) stream

/-- The second loop of `G_Combat_LoadState`, for the given number of dying entities. -/
def load_dying : Nat → State → List attr → load_result
  | 0, s, stream => load_result.loaded s stream
  | n + 1, s, stream =>
    match load_dying_ent s stream with
    | load_result.loaded s1 rest => load_dying n s1 rest
    | load_result.failed s1 => load_result.failed s1

/-- The function `G_Combat_LoadState`. -/
def G_Combat_LoadState (s : State) (stream : List attr) : load_result :=
  match parse_int stream with
  | none => load_result.failed s
  | some (i, stream) =>
    match load_records (int_to_size_t i) s stream with
    | load_result.failed s1 => load_result.failed s1
    | load_result.loaded s stream =>
      match parse_int stream with
      | none => load_result.failed s
      | some (i, stream) => load_dying (int_to_size_t i) s stream

/-- The state in which a load ends. -/
def load_result.state : load_result → Option State
  | load_result.loaded s _ => some s
  | load_result.failed s => some s

/-- What the loop of `G_Combat_LoadState` does with a saved record when no check fails:
the five saved fields are written over the record of the entity, and
`on_attack_anim_finish` is registered again for a record in `STATE_ATTACK_ANIM_PLAYING`. -/
def restore_record (s : State) (p : Nat × combatstate) : State :=
  let s := load_write s p.1 (fun c => { c with stance := p.2.stance })
  let s := load_write s p.1 (fun c => { c with state := p.2.state })
  let s := if p.2.state = STATE_ATTACK_ANIM_PLAYING then
      E_Entity_Register s p.1 anim_handler.attack_anim_finish
    else s
  let s := load_write s p.1 (fun c => { c with target_uid := p.2.target_uid })
  let s := load_write s p.1 (fun c => { c with move_cmd_interrupted := p.2.move_cmd_interrupted })
  load_write s p.1 (fun c => { c with move_cmd_xz := p.2.move_cmd_xz })

/-- The saved records restored one after the other. -/
def restore_records : List (Nat × combatstate) → State → State
  | [], s => s
  | p :: rest, s => restore_records rest (restore_record s p)

/-- What the second loop of `G_Combat_LoadState` does with the saved dying entities when
no check fails. -/
def restore_dying : List Nat → State → State
  | [], s => s
  | u :: rest, s =>
    restore_dying rest
      (E_Entity_Register { s with dying := s.dying ++ [u] } u anim_handler.death_anim_finish)

/-- The conditions under which the loop of `G_Combat_LoadState` accepts a saved record:
the entity has a record, and is in the registry when the saved phase is
`STATE_ATTACK_ANIM_PLAYING`. -/
def record_loadable (s : State) (p : Nat × combatstate) : Prop :=
  (∃ c, combatstate_get s.table p.1 = some c)
    ∧ (p.2.state = STATE_ATTACK_ANIM_PLAYING → ∃ e, G_EntityForUID s p.1 = some e)

/-- A table with the hit points of every record set to 0. -/
def erase_hp (tbl : List (Nat × combatstate)) : List (Nat × combatstate) :=
  tbl.map (fun p => (p.1, { p.2 with current_hp := 0 }))

/-- What a load keeps of the state in which it starts, also when it fails: the keys of
the table and, for every record, the hit points and the combat profile; the dying
entities and the registered handlers, after which it only appends; the registry, the
notifications, the move orders and the selection. -/
def load_frame (s0 s1 : State) : Prop :=
  s1.table.map Prod.fst = s0.table.map Prod.fst
    ∧ (∀ u, (combatstate_get s1.table u).map (fun c => (c.current_hp, c.stats))
          = (combatstate_get s0.table u).map (fun c => (c.current_hp, c.stats)))
    ∧ (∃ l, s1.dying = s0.dying ++ l)
    ∧ (∃ h, s1.handlers = s0.handlers ++ h)
    ∧ s1.ents = s0.ents ∧ s1.notified = s0.notified ∧ s1.move = s0.move
    ∧ s1.selection = s0.selection

/-- The six attributes of one record as `G_Combat_LoadState` reads them from the stream,
each with `Attr_Parse` and the check of its type, without the checks on the entity: the
id and the record with the fields that the stream holds; the hit points and the combat
profile, which the stream does not hold, are zero. -/
def read_record (stream : List attr) : Option ((Nat × combatstate) × List attr) :=
  match parse_int stream with
  | none => none
  | some (uid, stream) =>
    match parse_int stream with
    | none => none
    | some (stance, stream) =>
      match parse_int stream with
      | none => none
      | some (state, stream) =>
        match parse_int stream with
        | none => none
        | some (target, stream) =>
          match parse_bool stream with
          | none => none
          | some (b, stream) =>
            match parse_vec2 stream with
            | none => none
            | some (v, stream) =>
              some ((int_to_uint32 uid,
                ⟨⟨0, 0⟩, 0, stance_of_int stance, phase_of_int state, int_to_uint32 target, b,
                  v⟩), stream)

/-- The records that the first loop of `G_Combat_LoadState` reads, for the given number
of records. -/
def read_records : Nat → List attr → Option (List (Nat × combatstate) × List attr)
  | 0, stream => some ([], stream)
  | n + 1, stream =>
    match read_record stream with
    | none => none
    | some (p, rest) =>
      match read_records n rest with
      | none => none
      | some (l, rest) => some (p :: l, rest)

/-- The ids that the second loop of `G_Combat_LoadState` reads, for the given number of
dying entities. -/
def read_dying : Nat → List attr → Option (List Nat × List attr)
  | 0, stream => some ([], stream)
  | n + 1, stream =>
    match parse_int stream with
    | none => none
    | some (i, rest) =>
      match read_dying n rest with
      | none => none
      | some (l, rest) => some (int_to_uint32 i :: l, rest)

/-- The layout of the stream that `G_Combat_LoadState` reads: the count of records, the
records, the count of dying entities and their ids; `none` when an attribute is missing,
cannot be read or has another type. -/
def read_stream (stream : List attr) :
    Option (List (Nat × combatstate) × List Nat × List attr) :=
  match parse_int stream with
  | none => none
  | some (n, stream) =>
    match read_records (int_to_size_t n) stream with
    | none => none
    | some (recs, stream) =>
      match parse_int stream with
      | none => none
      | some (m, stream) =>
        match read_dying (int_to_size_t m) stream with
        | none => none
        | some (ds, rest) => some (recs, ds, rest)

/-- The invariant that only an aggressive entity is pursuing. -/
def pursuing_is_aggressive (s : State) : Prop :=
  ∀ u c, combatstate_get s.table u = some c → c.state = STATE_MOVING_TO_TARGET →
    c.stance = COMBAT_STANCE_AGGRESSIVE

/-- The invariant that `on_attack_anim_finish` is registered once for every entity in the
phase Striking and not at all for any other entity. -/
def attack_handler_iff_striking (s : State) : Prop :=
  ∀ u, s.handlers.count (u, anim_handler.attack_anim_finish)
    = if phase_of s u = some STATE_ATTACK_ANIM_PLAYING then 1 else 0

/-! ## Example worlds -/

/-- The length of an axis-parallel vector; the example worlds place every entity on the
first axis, where this is the Euclidean length. -/
def axis_len (v : vec2) : c_float := c_float.abs v.x + c_float.abs v.z

/-- An example world: entity `2` stands at (3, 0), entity `6` at (-3, 0) and every other
entity at the origin; all factions are at war; the spatial query and the dynamic set
return the given lists. -/
def ex_world (near dyn : List entity) : World where
  G_Pos_GetXZ := fun u => if u = 2 then ⟨3, 0⟩ else if u = 6 then ⟨-3, 0⟩ else ⟨0, 0⟩
  PFM_Vec2_Len := axis_len
  PFM_Vec2_Normal := fun v => ⟨v.x / axis_len v, v.z / axis_len v⟩
  G_Pos_EntsInCircle := fun _ _ => near
  G_GetDiplomacyState := fun _ _ => some DIPLOMACY_STATE_WAR
  G_GetDynamicEntsSet := dyn

/-- An example entity: combatable, selectable, alive, of radius 0. -/
def ex_entity (uid : Nat) (faction : Int) (max_hp : Int) : entity :=
  ⟨uid, ⟨true, false, true⟩, faction, max_hp, 0⟩

/-- An example record. -/
def ex_record (dmg : Int) (armour : c_float) (hp : Int) (stance : combat_stance)
    (state : combat_phase) (target : Nat) : combatstate :=
  ⟨⟨dmg, armour⟩, hp, stance, state, target, false, ⟨0, 0⟩⟩

/-- The attacker of the lethal-hit scenario: entity `1`, of faction `0`. -/
def scenario_attacker : entity := ex_entity 1 0 10

/-- The target of the lethal-hit scenario: entity `2`, of faction `1`. -/
def scenario_target : entity := ex_entity 2 1 10

/-- The state of the lethal-hit scenario: the attacker, with base damage 10, is striking
the target, which has armour fraction 1/2 and 10 hit points. -/
def scenario_state : State where
  table := [(1, ex_record 10 0 10 COMBAT_STANCE_AGGRESSIVE STATE_ATTACK_ANIM_PLAYING 2),
            (2, ex_record 0 (1 / 2) 10 COMBAT_STANCE_AGGRESSIVE STATE_NOT_IN_COMBAT 0)]
  dying := []
  ents := [scenario_attacker, scenario_target]
  handlers := [(1, anim_handler.attack_anim_finish)]
  notified := []
  move := []
  selection := []

/-- A state in which the hit is lethal: the target, itself striking, has no armour and
10 hit points, and the attacker has base damage 10. -/
def lethal_state : State where
  table := [(1, ex_record 10 0 10 COMBAT_STANCE_AGGRESSIVE STATE_ATTACK_ANIM_PLAYING 2),
            (2, ex_record 0 0 10 COMBAT_STANCE_AGGRESSIVE STATE_ATTACK_ANIM_PLAYING 1)]
  dying := []
  ents := [scenario_attacker, scenario_target]
  handlers := [(1, anim_handler.attack_anim_finish), (2, anim_handler.attack_anim_finish)]
  notified := []
  move := []
  selection := [2]

/-- The state that attack resolution reaches from `lethal_state`. -/
def lethal_state_after : State where
  table := [(1, ex_record 10 0 10 COMBAT_STANCE_AGGRESSIVE STATE_CAN_ATTACK 2),
            (2, ex_record 0 0 0 COMBAT_STANCE_AGGRESSIVE STATE_DEATH_ANIM_PLAYING 1)]
  dying := [2]
  ents := [scenario_attacker, ⟨2, ⟨true, false, false⟩, 1, 10, 0⟩]
  handlers := [(2, anim_handler.death_anim_finish)]
  notified := [(event_kind.EVENT_ENTITY_DEATH, 2)]
  move := [(2, move_order.stopped)]
  selection := []

/-- The candidates of the acquisition example, as the spatial query lists them: the
querying entity `1` itself, an ally `3`, a zombie `4`, and the enemies `5`, `2` and `6`;
`2` and `6` both stand 3 units away and `5`, which is dying, stands on the spot. -/
def acquisition_candidates : List entity :=
  [ex_entity 1 0 10, ex_entity 3 0 10, ⟨4, ⟨true, true, false⟩, 1, 10, 0⟩,
   ex_entity 5 1 10, ex_entity 2 1 10, ex_entity 6 1 10]

/-- The world of the acquisition example. -/
def acquisition_world : World := ex_world acquisition_candidates [ex_entity 1 0 10]

/-- The table of the acquisition example. -/
def acquisition_table : List (Nat × combatstate) :=
  [(1, ex_record 10 0 10 COMBAT_STANCE_AGGRESSIVE STATE_NOT_IN_COMBAT 0),
   (2, ex_record 10 0 10 COMBAT_STANCE_AGGRESSIVE STATE_NOT_IN_COMBAT 0),
   (3, ex_record 10 0 10 COMBAT_STANCE_AGGRESSIVE STATE_NOT_IN_COMBAT 0),
   (5, ex_record 10 0 0 COMBAT_STANCE_AGGRESSIVE STATE_DEATH_ANIM_PLAYING 0),
   (6, ex_record 10 0 10 COMBAT_STANCE_AGGRESSIVE STATE_NOT_IN_COMBAT 0)]

/-- A state in which entity `1`, out of combat, has the stance no-engagement, and its
enemy `2`, aggressive and out of combat, stands 3 units away. -/
def no_engagement_state : State where
  table := [(1, ex_record 10 0 10 COMBAT_STANCE_NO_ENGAGEMENT STATE_NOT_IN_COMBAT 0),
            (2, ex_record 10 0 10 COMBAT_STANCE_AGGRESSIVE STATE_NOT_IN_COMBAT 0)]
  dying := []
  ents := [scenario_attacker, scenario_target]
  handlers := []
  notified := []
  move := []
  selection := []

/-- The state that a tick of `scenario_world` reaches from `no_engagement_state`: entity
`1` is untouched, entity `2` is ready to attack it. -/
def no_engagement_state_after : State where
  table := [(1, ex_record 10 0 10 COMBAT_STANCE_NO_ENGAGEMENT STATE_NOT_IN_COMBAT 0),
            (2, ex_record 10 0 10 COMBAT_STANCE_AGGRESSIVE STATE_CAN_ATTACK 1)]
  dying := []
  ents := [scenario_attacker, scenario_target]
  handlers := []
  notified := [(event_kind.EVENT_ATTACK_START, 2)]
  move := []
  selection := []

/-- A world in which entity `1` has only itself and its ally `3` around it. -/
def quiet_world : World :=
  ex_world [ex_entity 1 0 10, ex_entity 3 0 10] [ex_entity 1 0 10, ex_entity 3 0 10]

/-- A state in which the aggressive entities `1` and `3`, allies, are out of combat. -/
def quiet_state : State where
  table := [(1, ex_record 10 0 10 COMBAT_STANCE_AGGRESSIVE STATE_NOT_IN_COMBAT 0),
            (3, ex_record 10 0 10 COMBAT_STANCE_AGGRESSIVE STATE_NOT_IN_COMBAT 0)]
  dying := []
  ents := [ex_entity 1 0 10, ex_entity 3 0 10]
  handlers := []
  notified := []
  move := []
  selection := []

/-- A state in which the aggressive entity `1` pursues its enemy `2`, with the interrupted
move command to (5, 5) saved, and entity `3` is ready to attack `2`. -/
def pursuing_state : State where
  table := [(1, ⟨⟨10, 0⟩, 10, COMBAT_STANCE_AGGRESSIVE, STATE_MOVING_TO_TARGET, 2, true, ⟨5, 5⟩⟩),
            (2, ex_record 10 0 10 COMBAT_STANCE_AGGRESSIVE STATE_NOT_IN_COMBAT 0),
            (3, ex_record 10 0 10 COMBAT_STANCE_HOLD_POSITION STATE_CAN_ATTACK 2)]
  dying := []
  ents := [ex_entity 1 0 10, ex_entity 2 1 10, ex_entity 3 0 10]
  handlers := [(1, anim_handler.attack_anim_finish)]
  notified := []
  move := [(1, move_order.seek_enemies)]
  selection := []

/-- A world in which the enemies `1` and `2` stand 10 units apart, beyond the melee
range. -/
def far_world : World where
  G_Pos_GetXZ := fun u => if u = 2 then ⟨10, 0⟩ else ⟨0, 0⟩
  PFM_Vec2_Len := axis_len
  PFM_Vec2_Normal := fun v => ⟨v.x / axis_len v, v.z / axis_len v⟩
  G_Pos_EntsInCircle := fun _ _ => [scenario_attacker, scenario_target]
  G_GetDiplomacyState := fun _ _ => some DIPLOMACY_STATE_WAR
  G_GetDynamicEntsSet := [scenario_attacker, scenario_target]

/-- An empty subsystem in a registry that holds the enemies `1` and `2`; movement has
entity `1` on its way to (5, 5). -/
def empty_state : State where
  table := []
  dying := []
  ents := [scenario_attacker, scenario_target]
  handlers := []
  notified := []
  move := [(1, move_order.dest ⟨5, 5⟩)]
  selection := []

/-- The operations of the pursuit example: the enemies `1` and `2` are added, a tick of
`far_world` makes both pursue, and the attack of entity `1` is stopped. -/
def pursuit_ops : List combat_op :=
  [combat_op.add scenario_attacker COMBAT_STANCE_AGGRESSIVE,
   combat_op.add scenario_target COMBAT_STANCE_AGGRESSIVE,
   combat_op.tick far_world,
   combat_op.stop_attack scenario_attacker]

/-- The state that `pursuit_ops` reaches from `empty_state`. -/
def pursuit_ops_end : State where
  table := [(1, ⟨⟨0, 0⟩, 10, COMBAT_STANCE_AGGRESSIVE, STATE_NOT_IN_COMBAT, 2, false, ⟨5, 5⟩⟩),
            (2, ex_record 0 0 10 COMBAT_STANCE_AGGRESSIVE STATE_MOVING_TO_TARGET 1)]
  dying := []
  ents := [scenario_attacker, scenario_target]
  handlers := []
  notified := []
  move := [(1, move_order.dest ⟨5, 5⟩), (2, move_order.seek_enemies),
           (1, move_order.seek_enemies), (1, move_order.dest ⟨5, 5⟩)]
  selection := []

/-- A state to save: entity `1` pursues entity `2` with the interrupted move command to
(5, 5) saved and 7 hit points left, entity `2` strikes entity `1`, and entity `3` is
dying. -/
def saved_state : State where
  table := [(1, ⟨⟨10, 0⟩, 7, COMBAT_STANCE_AGGRESSIVE, STATE_MOVING_TO_TARGET, 2, true, ⟨5, 5⟩⟩),
            (2, ⟨⟨4, 1 / 2⟩, 10, COMBAT_STANCE_HOLD_POSITION, STATE_ATTACK_ANIM_PLAYING, 1, false,
                ⟨0, 0⟩⟩),
            (3, ⟨⟨0, 0⟩, 0, COMBAT_STANCE_AGGRESSIVE, STATE_DEATH_ANIM_PLAYING, 1, false, ⟨0, 0⟩⟩)]
  dying := [3]
  ents := [ex_entity 1 0 10, ex_entity 2 1 10, ⟨3, ⟨true, false, false⟩, 1, 10, 0⟩]
  handlers := [(2, anim_handler.attack_anim_finish), (3, anim_handler.death_anim_finish)]
  notified := []
  move := [(1, move_order.seek_enemies)]
  selection := []

/-- The state of `saved_state` with other hit points. -/
def saved_state_other_hp : State where
  table := [(1, ⟨⟨10, 0⟩, 10, COMBAT_STANCE_AGGRESSIVE, STATE_MOVING_TO_TARGET, 2, true, ⟨5, 5⟩⟩),
            (2, ⟨⟨4, 1 / 2⟩, 3, COMBAT_STANCE_HOLD_POSITION, STATE_ATTACK_ANIM_PLAYING, 1, false,
                ⟨0, 0⟩⟩),
            (3, ⟨⟨0, 0⟩, -2, COMBAT_STANCE_AGGRESSIVE, STATE_DEATH_ANIM_PLAYING, 1, false, ⟨0, 0⟩⟩)]
  dying := [3]
  ents := [ex_entity 1 0 10, ex_entity 2 1 10, ⟨3, ⟨true, false, false⟩, 1, 10, 0⟩]
  handlers := [(2, anim_handler.attack_anim_finish), (3, anim_handler.death_anim_finish)]
  notified := []
  move := [(1, move_order.seek_enemies)]
  selection := []

/-- A subsystem before a load: the entities `1`, `2` and `3` are in the registry, each
with a fresh record, in another order than in `saved_state`; no entity is dying and no
handler is registered. -/
def fresh_state : State where
  table := [(3, ⟨⟨0, 0⟩, 10, COMBAT_STANCE_AGGRESSIVE, STATE_NOT_IN_COMBAT, 0, false, ⟨0, 0⟩⟩),
            (1, ⟨⟨10, 0⟩, 7, COMBAT_STANCE_AGGRESSIVE, STATE_NOT_IN_COMBAT, 0, false, ⟨0, 0⟩⟩),
            (2, ⟨⟨4, 1 / 2⟩, 10, COMBAT_STANCE_AGGRESSIVE, STATE_NOT_IN_COMBAT, 0, false, ⟨0, 0⟩⟩)]
  dying := []
  ents := [ex_entity 1 0 10, ex_entity 2 1 10, ⟨3, ⟨true, false, false⟩, 1, 10, 0⟩]
  handlers := []
  notified := []
  move := []
  selection := []

/-- The state that the load of the stream of `saved_state` reaches from `fresh_state`. -/
def fresh_state_loaded : State where
  table := [(3, ⟨⟨0, 0⟩, 10, COMBAT_STANCE_AGGRESSIVE, STATE_DEATH_ANIM_PLAYING, 1, false, ⟨0, 0⟩⟩),
            (1, ⟨⟨10, 0⟩, 7, COMBAT_STANCE_AGGRESSIVE, STATE_MOVING_TO_TARGET, 2, true, ⟨5, 5⟩⟩),
            (2, ⟨⟨4, 1 / 2⟩, 10, COMBAT_STANCE_HOLD_POSITION, STATE_ATTACK_ANIM_PLAYING, 1, false,
                ⟨0, 0⟩⟩)]
  dying := [3]
  ents := [ex_entity 1 0 10, ex_entity 2 1 10, ⟨3, ⟨true, false, false⟩, 1, 10, 0⟩]
  handlers := [(2, anim_handler.attack_anim_finish), (3, anim_handler.death_anim_finish)]
  notified := []
  move := []
  selection := []

/-- A state whose stream names the entity `9`, which is in no registry of the examples:
entity `2` strikes entity `1`, and the entities `3` and `9` are dying. -/
def unknown_dying_state : State where
  table := [(2, ⟨⟨4, 1 / 2⟩, 10, COMBAT_STANCE_HOLD_POSITION, STATE_ATTACK_ANIM_PLAYING, 1, true,
                ⟨5, 5⟩⟩)]
  dying := [3, 9]
  ents := []
  handlers := []
  notified := []
  move := []
  selection := []

/-- The state in which the load of the stream of `unknown_dying_state` fails from
`fresh_state`: the record of entity `2` is overwritten and its handler registered, and
entity `3` is in the list of dying entities with its handler registered. -/
def fresh_state_failed : State where
  table := [(3, ⟨⟨0, 0⟩, 10, COMBAT_STANCE_AGGRESSIVE, STATE_NOT_IN_COMBAT, 0, false, ⟨0, 0⟩⟩),
            (1, ⟨⟨10, 0⟩, 7, COMBAT_STANCE_AGGRESSIVE, STATE_NOT_IN_COMBAT, 0, false, ⟨0, 0⟩⟩),
            (2, ⟨⟨4, 1 / 2⟩, 10, COMBAT_STANCE_HOLD_POSITION, STATE_ATTACK_ANIM_PLAYING, 1, true,
                ⟨5, 5⟩⟩)]
  dying := [3]
  ents := [ex_entity 1 0 10, ex_entity 2 1 10, ⟨3, ⟨true, false, false⟩, 1, 10, 0⟩]
  handlers := [(2, anim_handler.attack_anim_finish), (3, anim_handler.death_anim_finish)]
  notified := []
  move := []
  selection := []

/-- A state whose stream names, in its second record, the entity `9`, which has no record
and is not in the registry of `fresh_state`. -/
def unknown_record_state : State where
  table := [(1, ⟨⟨10, 0⟩, 7, COMBAT_STANCE_NO_ENGAGEMENT, STATE_NOT_IN_COMBAT, 0, false, ⟨0, 0⟩⟩),
            (9, ⟨⟨0, 0⟩, 10, COMBAT_STANCE_AGGRESSIVE, STATE_NOT_IN_COMBAT, 0, false, ⟨0, 0⟩⟩)]
  dying := []
  ents := []
  handlers := []
  notified := []
  move := []
  selection := []

/-- The world of the lethal-hit scenario. -/
def scenario_world : World :=
  ex_world [scenario_attacker, scenario_target] [scenario_attacker, scenario_target]

/-- The enemy `2` of the tie example, of radius `0.3f`. -/
def tie_enemy_a : entity := ⟨2, ⟨true, false, true⟩, 1, 10, 3 / 10⟩

/-- The enemy `6` of the tie example; its radius is the next `float` above `0.3f`. -/
def tie_enemy_b : entity := ⟨6, ⟨true, false, true⟩, 1, 10, c_float.fin (10066331 / 33554432)⟩

/-- The world of the tie example: entity `2` stands at (10, 0), entity `6` at (-10, 0)
and entity `1` at the origin; the spatial query lists `1`, `2` and `6`. -/
def tie_world : World where
  G_Pos_GetXZ := fun u => if u = 2 then ⟨10, 0⟩ else if u = 6 then ⟨-10, 0⟩ else ⟨0, 0⟩
  PFM_Vec2_Len := axis_len
  PFM_Vec2_Normal := fun v => ⟨v.x / axis_len v, v.z / axis_len v⟩
  G_Pos_EntsInCircle := fun _ _ => [ex_entity 1 0 10, tie_enemy_a, tie_enemy_b]
  G_GetDiplomacyState := fun _ _ => some DIPLOMACY_STATE_WAR
  G_GetDynamicEntsSet := [ex_entity 1 0 10]

/-- The table of the tie example. -/
def tie_table : List (Nat × combatstate) :=
  [(1, ex_record 10 0 10 COMBAT_STANCE_AGGRESSIVE STATE_NOT_IN_COMBAT 0),
   (2, ex_record 10 0 10 COMBAT_STANCE_AGGRESSIVE STATE_NOT_IN_COMBAT 0),
   (6, ex_record 10 0 10 COMBAT_STANCE_AGGRESSIVE STATE_NOT_IN_COMBAT 0)]

/-- An enemy `2` whose selection radius is `-FLT_MAX`. -/
def remote_enemy : entity :=
  ⟨2, ⟨true, false, true⟩, 1, 10, c_float.fin (-340282346638528859811704183484516925440)⟩

/-- A world in which the enemy `2` stands 3 units from entity `1`, within the acquisition
range, and has the selection radius `-FLT_MAX`: its computed distance from entity `1` is
`FLT_MAX`. -/
def remote_world : World where
  G_Pos_GetXZ := fun u => if u = 2 then ⟨3, 0⟩ else ⟨0, 0⟩
  PFM_Vec2_Len := axis_len
  PFM_Vec2_Normal := fun v => ⟨v.x / axis_len v, v.z / axis_len v⟩
  G_Pos_EntsInCircle := fun _ _ => [ex_entity 1 0 10, remote_enemy]
  G_GetDiplomacyState := fun _ _ => some DIPLOMACY_STATE_WAR
  G_GetDynamicEntsSet := [ex_entity 1 0 10]

/-- An entity `2` with 16777219 maximum hit points, more than `2 ^ 24`. -/
def big_hp_target : entity := ex_entity 2 1 16777219

/-- A state in which the attacker `1`, with base damage 0, is striking the target `2`,
which has 16777219 hit points, its maximum. -/
def big_hp_state : State where
  table := [(1, ex_record 0 0 10 COMBAT_STANCE_AGGRESSIVE STATE_ATTACK_ANIM_PLAYING 2),
            (2, ex_record 0 0 16777219 COMBAT_STANCE_AGGRESSIVE STATE_NOT_IN_COMBAT 0)]
  dying := []
  ents := [scenario_attacker, big_hp_target]
  handlers := [(1, anim_handler.attack_anim_finish)]
  notified := []
  move := []
  selection := []

/-- A state in which the attacker `1`, with base damage 10, is striking the target `2`,
which has the armour fraction 2 and 10 hit points, its maximum. -/
def negative_damage_state : State where
  table := [(1, ex_record 10 0 10 COMBAT_STANCE_AGGRESSIVE STATE_ATTACK_ANIM_PLAYING 2),
            (2, ex_record 0 2 10 COMBAT_STANCE_AGGRESSIVE STATE_NOT_IN_COMBAT 0)]
  dying := []
  ents := [scenario_attacker, scenario_target]
  handlers := [(1, anim_handler.attack_anim_finish)]
  notified := []
  move := []
  selection := []

/-- A state in which rounding changes the outcome of a hit: the attacker `1`, with base
damage 10, is striking the target `2`, which has the armour fraction `0.7f` and 4 hit
points. -/
def rounding_state : State where
  table := [(1, ex_record 10 0 10 COMBAT_STANCE_AGGRESSIVE STATE_ATTACK_ANIM_PLAYING 2),
            (2, ex_record 0 (7 / 10) 4 COMBAT_STANCE_AGGRESSIVE STATE_NOT_IN_COMBAT 0)]
  dying := []
  ents := [scenario_attacker, scenario_target]
  handlers := [(1, anim_handler.attack_anim_finish)]
  notified := []
  move := []
  selection := []

/-- The operations that set up the self-target example: entity `1` is added and its base
damage is set to 10. -/
def self_target_ops : List combat_op :=
  [combat_op.add scenario_attacker COMBAT_STANCE_AGGRESSIVE,
   combat_op.set_base_damage scenario_attacker 10]

/-- A stream in the save format with one record: entity `1`, aggressive, in the phase
Striking, with itself as the target. -/
def self_target_stream : List attr :=
  [⟨"num_ents", attr_val.as_int 1⟩, ⟨"uid", attr_val.as_int 1⟩,
   ⟨"stance", attr_val.as_int 0⟩, ⟨"state", attr_val.as_int 3⟩,
   ⟨"target_uid", attr_val.as_int 1⟩, ⟨"move_cmd_interrupted", attr_val.as_bool false⟩,
   ⟨"move_cmd_xz", attr_val.as_vec2 ⟨0, 0⟩⟩, ⟨"num_dying", attr_val.as_int 0⟩]

/-- The state that the load of `self_target_stream` reaches after `self_target_ops`:
entity `1` is striking itself, with its handler registered. -/
def self_target_state : State where
  table := [(1, ex_record 10 0 10 COMBAT_STANCE_AGGRESSIVE STATE_ATTACK_ANIM_PLAYING 1)]
  dying := []
  ents := [scenario_attacker, scenario_target]
  handlers := [(1, anim_handler.attack_anim_finish)]
  notified := []
  move := [(1, move_order.dest ⟨5, 5⟩)]
  selection := []

/-- A world in which entity `2`, of radius `0.3f`, stands at (`5.3f`, 0) and every other
entity at the origin. -/
def edge_world : World where
  G_Pos_GetXZ := fun u => if u = 2 then ⟨53 / 10, 0⟩ else ⟨0, 0⟩
  PFM_Vec2_Len := axis_len
  PFM_Vec2_Normal := fun v => ⟨v.x / axis_len v, v.z / axis_len v⟩
  G_Pos_EntsInCircle := fun _ _ => []
  G_GetDiplomacyState := fun _ _ => some DIPLOMACY_STATE_WAR
  G_GetDynamicEntsSet := []

/-- The target of the edge example: entity `2`, of radius `0.3f`. -/
def edge_target : entity := ⟨2, ⟨true, false, true⟩, 1, 10, 3 / 10⟩

/-- The state of the edge example: the attacker `1`, with base damage 10, is striking the
target `2`, which has no armour and 10 hit points. -/
def edge_state : State where
  table := [(1, ex_record 10 0 10 COMBAT_STANCE_AGGRESSIVE STATE_ATTACK_ANIM_PLAYING 2),
            (2, ex_record 0 0 10 COMBAT_STANCE_AGGRESSIVE STATE_NOT_IN_COMBAT 0)]
  dying := []
  ents := [scenario_attacker, edge_target]
  handlers := [(1, anim_handler.attack_anim_finish)]
  notified := []
  move := []
  selection := []

/-- A state without any entity, record, dying entity or handler. -/
def bare_state : State where
  table := []
  dying := []
  ents := []
  handlers := []
  notified := []
  move := []
  selection := []

/-- The state that `G_Combat_AddEntity` for an entity `9` reaches from `bare_state`:
entity `9` has a record and is not in the registry. -/
def orphan_state : State where
  table := [(9, ex_record 0 0 10 COMBAT_STANCE_AGGRESSIVE STATE_NOT_IN_COMBAT 0)]
  dying := []
  ents := []
  handlers := []
  notified := []
  move := []
  selection := []

/-- A stream in the save format with one record: entity `9`, holding its position, out of
combat. -/
def orphan_stream : List attr :=
  [⟨"num_ents", attr_val.as_int 1⟩, ⟨"uid", attr_val.as_int 9⟩,
   ⟨"stance", attr_val.as_int 1⟩, ⟨"state", attr_val.as_int 0⟩,
   ⟨"target_uid", attr_val.as_int 0⟩, ⟨"move_cmd_interrupted", attr_val.as_bool false⟩,
   ⟨"move_cmd_xz", attr_val.as_vec2 ⟨0, 0⟩⟩, ⟨"num_dying", attr_val.as_int 0⟩]

/-- The state that the load of `orphan_stream` reaches from `orphan_state`. -/
def orphan_state_loaded : State where
  table := [(9, ex_record 0 0 10 COMBAT_STANCE_HOLD_POSITION STATE_NOT_IN_COMBAT 0)]
  dying := []
  ents := []
  handlers := []
  notified := []
  move := []
  selection := []

/-- The operations of the double-kill example: the enemies `1` and `2` are added, entity
`1` strikes and kills entity `2`, the attack of the dying entity `2` is stopped, which
puts it back in the phase Idle, and entity `1` strikes and kills it a second time. -/
def double_kill_ops : List combat_op :=
  [combat_op.add scenario_attacker COMBAT_STANCE_AGGRESSIVE,
   combat_op.add scenario_target COMBAT_STANCE_AGGRESSIVE,
   combat_op.set_base_damage scenario_attacker 10,
   combat_op.tick scenario_world, combat_op.tick scenario_world,
   combat_op.attack_anim_finish scenario_world scenario_attacker,
   combat_op.stop_attack scenario_target,
   combat_op.tick scenario_world,
   combat_op.attack_anim_finish scenario_world scenario_attacker]

/-- A state in which the enemies `1`, aggressive, and `2`, holding its position, are out
of combat, and movement has entity `1` on its way to (5, 5). -/
def idle_pair_state : State where
  table := [(1, ex_record 10 0 10 COMBAT_STANCE_AGGRESSIVE STATE_NOT_IN_COMBAT 0),
            (2, ex_record 0 0 10 COMBAT_STANCE_HOLD_POSITION STATE_NOT_IN_COMBAT 0)]
  dying := []
  ents := [scenario_attacker, scenario_target]
  handlers := []
  notified := []
  move := [(1, move_order.dest ⟨5, 5⟩)]
  selection := []

/-- The state that the first three operations of `pursuit_ops` reach from `empty_state`:
the enemies `1` and `2` pursue each other, and entity `1` has its move command to (5, 5)
saved. -/
def pursuit_ops_mid : State where
  table := [(1, ⟨⟨0, 0⟩, 10, COMBAT_STANCE_AGGRESSIVE, STATE_MOVING_TO_TARGET, 2, true, ⟨5, 5⟩⟩),
            (2, ex_record 0 0 10 COMBAT_STANCE_AGGRESSIVE STATE_MOVING_TO_TARGET 1)]
  dying := []
  ents := [scenario_attacker, scenario_target]
  handlers := []
  notified := []
  move := [(2, move_order.seek_enemies), (1, move_order.seek_enemies),
           (1, move_order.dest ⟨5, 5⟩)]
  selection := []

/-- The state that the first five operations of `double_kill_ops` reach from
`empty_state`: the enemies `1` and `2` strike each other, each with its handler
registered. -/
def striking_pair_state : State where
  table := [(1, ex_record 10 0 10 COMBAT_STANCE_AGGRESSIVE STATE_ATTACK_ANIM_PLAYING 2),
            (2, ex_record 0 0 10 COMBAT_STANCE_AGGRESSIVE STATE_ATTACK_ANIM_PLAYING 1)]
  dying := []
  ents := [scenario_attacker, scenario_target]
  handlers := [(1, anim_handler.attack_anim_finish), (2, anim_handler.attack_anim_finish)]
  notified := [(event_kind.EVENT_ATTACK_START, 1), (event_kind.EVENT_ATTACK_START, 2)]
  move := [(1, move_order.dest ⟨5, 5⟩)]
  selection := []

end Combat

namespace UIStyle

/-! ## The serializer of colours of the UI style (`src/script/py_ui_style.c`) -/

/-- The colour `struct nk_color` of Nuklear: the four channels, each of type `nk_byte`,
a natural number below 256. -/
structure nk_color where
  r : Nat
  g : Nat
  b : Nat
  a : Nat
deriving DecidableEq, Repr

/-- Modelled from the spec: the Python objects that the serializer of colours builds and
reads (the Python C API is not in the source tree): a tuple of integers, or an object of
another kind. -/
inductive PyObject where
  | tuple_of_ints (items : List Int)
  | other
deriving DecidableEq, Repr

/-- Modelled from the spec: `Py_BuildValue("iiii", ...)` of the Python C API builds a
tuple of four Python integers from four C `int` values. -/
def Py_BuildValue_iiii (v0 v1 v2 v3 : Int) : PyObject :=
  PyObject.tuple_of_ints [v0, v1, v2, v3]

/-- Modelled from the spec: `PyArg_ParseTuple(obj, "iiii", ...)` of the Python C API
succeeds on a tuple of exactly four integers that fit a C `int`, and gives the four
values in order. -/
def PyArg_ParseTuple_iiii : PyObject → Option (Int × Int × Int × Int)
  | PyObject.tuple_of_ints [v0, v1, v2, v3] =>
    if (-2147483648 ≤ v0 ∧ v0 < 2147483648) ∧ (-2147483648 ≤ v1 ∧ v1 < 2147483648)
        ∧ (-2147483648 ≤ v2 ∧ v2 < 2147483648) ∧ (-2147483648 ≤ v3 ∧ v3 < 2147483648) then
      some (v0, v1, v2, v3)
    else none
  | _ => none

/-- Modelled from the spec: `S_PickleObjgraph` (`py_pickle.c`, not in the source tree)
writes the object, with the separator that follows it, at the end of the stream; the
stream is the list of the objects written and not yet read. -/
def S_PickleObjgraph (obj : PyObject) (stream : List PyObject) : List PyObject :=
  stream ++ [obj]

/-- Modelled from the spec: `S_UnpickleObjgraph` (`py_pickle.c`, not in the source tree)
reads the next object of the stream; it fails at the end of the stream. -/
def S_UnpickleObjgraph : List PyObject → Option (PyObject × List PyObject)
  | [] => none
  | obj :: rest => some (obj, rest)

/-- The store of an `int` through the address of an `nk_byte` channel, as
`PyArg_ParseTuple` does it for the format unit `i`: the channel gets the low byte of the
value (little-endian); the bytes that the store writes after the channel are overwritten
by the stores that follow, or lie beyond the colour and are not modelled. -/
def store_channel (v : Int) : Nat := (v % 256).toNat

/-- The function `save_color`: the stream after the write.  The build of the tuple and
the write do not fail in the model, so the function returns `true`. -/
def save_color (stream : List PyObject) (clr : nk_color) : List PyObject :=
  S_PickleObjgraph (Py_BuildValue_iiii clr.r clr.g clr.g clr.a) stream

/-- The function `load_color`: the colour written to `out` and the rest of the stream,
or `none` when it returns `false`.  The read of the separator after the object is part of
the read of the object. -/
def load_color (stream : List PyObject) : Option (nk_color × List PyObject) :=
  match S_UnpickleObjgraph stream with
  | none => none
  | some (obj, rest) =>
    match PyArg_ParseTuple_iiii obj with
    | none => none
    | some (v0, v1, v2, v3) =>
      some (⟨store_channel v0, store_channel v1, store_channel v2, store_channel v3⟩, rest)

end UIStyle

namespace Combat

open combat_stance combat_phase diplomacy_state

/-! ## Lemmas on the state table and the collaborators -/

theorem combatstate_get_modify_self (f : combatstate → combatstate)
    (tbl : List (Nat × combatstate)) (u : Nat) :
    combatstate_get (combatstate_modify f tbl u) u = (combatstate_get tbl u).map f := by
  induction tbl with
  | nil => rfl
  | cons p rest ih =>
    obtain ⟨k, c⟩ := p
    by_cases hk : k = u
    · simp [combatstate_modify, combatstate_get, hk]
    · simp [combatstate_modify, combatstate_get, hk, ih]

theorem combatstate_get_modify_other (f : combatstate → combatstate)
    (tbl : List (Nat × combatstate)) {u v : Nat} (h : v ≠ u) :
    combatstate_get (combatstate_modify f tbl u) v = combatstate_get tbl v := by
  induction tbl with
  | nil => rfl
  | cons p rest ih =>
    obtain ⟨k, c⟩ := p
    by_cases hk : k = u
    · subst hk
      simp [combatstate_modify, combatstate_get, Ne.symm h]
    · by_cases hv : k = v
      · subst hv
        simp [combatstate_modify, combatstate_get, hk]
      · simp [combatstate_modify, combatstate_get, hk, hv, ih]

theorem G_EntityForUID_uid {s : State} {u : Nat} {e : entity}
    (h : G_EntityForUID s u = some e) : e.uid = u := by
  have := List.find?_some h
  simpa using this

theorem not_registered_unregister (s : State) (u : Nat) (h : anim_handler) :
    ¬ registered (E_Entity_Unregister s u h) u h := by
  simp [registered, E_Entity_Unregister]

/-! ## Lemmas on `float` -/

theorem c_float_lt_fin (a b : ℚ) : (c_float.fin a < c_float.fin b) ↔ a < b := by
  show c_float.lt _ _ = true ↔ _
  simp [c_float.lt]

theorem c_float_le_fin (a b : ℚ) : (c_float.fin a ≤ c_float.fin b) ↔ a ≤ b := by
  show c_float.le _ _ = true ↔ _
  simp [c_float.le]

theorem c_float_zero : (0 : c_float) = c_float.fin 0 := by decide!

theorem c_float_one : (1 : c_float) = c_float.fin 1 := by decide!

/-- Values of the rounding that IEEE 754 fixes: `0.7f`, the `float` nearest to 1/3, the
ties 2 ^ 24 + 1 and 2 ^ 24 + 3, which go to the even significand, `FLT_MAX`, the overflow
to infinity from `FLT_MAX` plus half a unit in the last place, the least subnormal value
and the tie of half of it, which goes to zero. -/
theorem f32_round_examples :
    f32_round (7 / 10) = c_float.fin (11744051 / 16777216)
    ∧ f32_round (1 / 3) = c_float.fin (11184811 / 33554432)
    ∧ f32_round 16777217 = c_float.fin 16777216
    ∧ f32_round 16777219 = c_float.fin 16777220
    ∧ f32_round 340282346638528859811704183484516925440
        = c_float.fin 340282346638528859811704183484516925440
    ∧ f32_round (340282346638528859811704183484516925440 + 2 ^ 103) = c_float.inf false
    ∧ f32_round (-(340282346638528859811704183484516925440 + 2 ^ 103)) = c_float.inf true
    ∧ f32_round (1 / 2 ^ 149) = c_float.fin (1 / 2 ^ 149)
    ∧ f32_round (1 / 2 ^ 150) = c_float.fin 0
    ∧ c_float_to_int (int_to_float 2147483647) = -2147483648 := by
  refine ⟨by decide!, by decide!, by decide!, by decide!, by decide!, by decide!, by decide!,
    by decide!, by decide!, by decide!⟩

theorem c_float_sub_fin (a b : ℚ) : c_float.fin a - c_float.fin b = f32_round (a - b) := rfl

theorem c_float_mul_fin (a b : ℚ) : c_float.fin a * c_float.fin b = f32_round (a * b) := rfl

/-- A comparison `a < b` that holds excludes `b <= a`. -/
theorem c_float_not_le_of_lt {a b : c_float} (h : a < b) : ¬ b ≤ a := by
  intro h2
  change c_float.lt a b = true at h
  change c_float.le b a = true at h2
  cases a <;> cases b <;> simp [c_float.lt, c_float.le] at h h2
  · exact absurd h (not_lt.mpr h2)
  · rw [h] at h2; exact absurd h2 (by decide)
  · rw [h] at h2; exact absurd h2 (by decide)
  · rcases h with ⟨h1, h3⟩
    rcases h2 with h2 | h2
    · rw [h2] at h3; exact absurd h3 (by decide)
    · rw [h1] at h2; exact absurd h2 (by decide)

theorem c_float_lt_irrefl (a : c_float) : ¬ a < a := by
  intro h
  change c_float.lt a a = true at h
  cases a <;> simp [c_float.lt] at h

theorem c_float_le_of_lt {a b : c_float} (h : a < b) : a ≤ b := by
  change c_float.lt a b = true at h
  show c_float.le a b = true
  cases a <;> cases b <;> simp [c_float.lt, c_float.le] at h ⊢
  · exact le_of_lt h
  · exact h
  · exact h
  · exact Or.inl h.1

theorem c_float_lt_trans {a b c : c_float} (h1 : a < b) (h2 : b < c) : a < c := by
  change c_float.lt a b = true at h1
  change c_float.lt b c = true at h2
  show c_float.lt a c = true
  cases a <;> cases b <;> cases c <;> simp [c_float.lt] at h1 h2 ⊢ <;>
    first
    | exact lt_trans h1 h2
    | exact h2
    | exact h1
    | (rw [h1] at h2; exact absurd h2 (by decide))
    | exact h2.2
    | exact h1.1
    | exact ⟨h1.1, h2.2⟩
    | exact ⟨h1, h2⟩

theorem c_float_lt_of_lt_of_le {a b c : c_float} (h1 : a < b) (h2 : b ≤ c) : a < c := by
  change c_float.lt a b = true at h1
  change c_float.le b c = true at h2
  show c_float.lt a c = true
  cases a <;> cases b <;> cases c <;> simp [c_float.lt, c_float.le] at h1 h2 ⊢ <;>
    first
    | exact lt_of_lt_of_le h1 h2
    | exact h2
    | exact h1
    | (rw [h1] at h2; exact absurd h2 (by decide))
    | exact h1.1
    | exact ⟨h1, h2⟩
    | (rcases h2 with h2 | h2
       · rw [h2] at h1; exact absurd h1.2 (by simp)
       · exact ⟨h1.1, h2⟩)
    | (rcases h2 with h2 | h2
       · rw [h2] at h1; exact absurd h1 (by simp)
       · exact h2)

theorem c_float_lt_of_le_of_lt {a b c : c_float} (h1 : a ≤ b) (h2 : b < c) : a < c := by
  change c_float.le a b = true at h1
  change c_float.lt b c = true at h2
  show c_float.lt a c = true
  cases a <;> cases b <;> cases c <;> simp [c_float.lt, c_float.le] at h1 h2 ⊢ <;>
    first
    | exact lt_of_le_of_lt h1 h2
    | exact h2
    | exact h1
    | (rw [h1] at h2; exact absurd h2 (by decide))
    | exact h2.2
    | exact ⟨h1, h2⟩
    | (rcases h1 with h1 | h1
       · exact ⟨h1, h2.2⟩
       · rw [h1] at h2; exact absurd h2.1 (by simp))
    | (rcases h1 with h1 | h1
       · exact h1
       · rw [h1] at h2; exact absurd h2 (by simp))

/-- The comparison `<` says that neither operand is a NaN. -/
theorem c_float_ne_nan_of_lt {a b : c_float} (h : a < b) :
    a ≠ c_float.nan ∧ b ≠ c_float.nan := by
  change c_float.lt a b = true at h
  cases a <;> cases b <;> simp [c_float.lt] at h ⊢

/-- Two `float`s that are not NaN are comparable. -/
theorem c_float_le_of_not_lt {a b : c_float} (ha : a ≠ c_float.nan) (hb : b ≠ c_float.nan)
    (h : ¬ a < b) : b ≤ a := by
  change ¬ c_float.lt a b = true at h
  show c_float.le b a = true
  cases a <;> cases b <;> simp [c_float.lt, c_float.le] at h ha hb ⊢
  · exact h
  · exact h
  · exact h
  · rename_i s t
    cases s <;> cases t <;> simp at h ⊢

theorem c_float_le_refl {a : c_float} (ha : a ≠ c_float.nan) : a ≤ a := by
  show c_float.le a a = true
  cases a <;> simp [c_float.le] at ha ⊢

theorem pow2_pos (e : Int) : 0 < pow2 e := by
  unfold pow2
  split_ifs
  · positivity
  · positivity

theorem pow2_of_nonpos {e : Int} (he : e ≤ 0) : ∃ m : Nat, pow2 e = 1 / (2 : ℚ) ^ m := by
  unfold pow2
  split_ifs with h
  · have : e = 0 := le_antisymm he h
    subst this
    exact ⟨0, by simp⟩
  · exact ⟨(-e).toNat, by push_cast; rfl⟩

theorem round_half_even_cases (x : ℚ) :
    (round_half_even x = ⌊x⌋ ∧ x - ⌊x⌋ ≤ 1 / 2)
    ∨ (round_half_even x = ⌊x⌋ + 1 ∧ 1 / 2 ≤ x - ⌊x⌋) := by
  have hf : x.num / (x.den : Int) = ⌊x⌋ := (Rat.floor_def' x).symm
  unfold round_half_even
  simp only [hf]
  split_ifs with h1 h2 h3
  · exact Or.inl ⟨rfl, le_of_lt h1⟩
  · exact Or.inr ⟨rfl, le_of_lt h2⟩
  · exact Or.inl ⟨rfl, not_lt.mp h2⟩
  · exact Or.inr ⟨rfl, not_lt.mp h1⟩

theorem round_half_even_nonneg {x : ℚ} (hx : 0 ≤ x) : 0 ≤ round_half_even x := by
  have hfl : 0 ≤ ⌊x⌋ := Int.floor_nonneg.mpr hx
  rcases round_half_even_cases x with ⟨h, -⟩ | ⟨h, -⟩ <;> rw [h] <;> omega

theorem round_half_even_le {x : ℚ} {n : Int} (hx : x ≤ n) : round_half_even x ≤ n := by
  have hfl : ⌊x⌋ ≤ n := Int.floor_le_iff.mpr (lt_of_le_of_lt hx (by exact_mod_cast Int.lt_succ n))
  rcases round_half_even_cases x with ⟨h, -⟩ | ⟨h, hr⟩
  · rw [h]; exact hfl
  · rw [h]
    by_contra hc
    have heq : ⌊x⌋ = n := by omega
    rw [heq] at hr
    linarith

theorem round_half_even_int (n : Int) : round_half_even (n : ℚ) = n := by
  rcases round_half_even_cases (n : ℚ) with ⟨h, -⟩ | ⟨h, hr⟩
  · rw [h]; simp
  · simp at hr
    norm_num at hr

theorem log2_fuel_le : ∀ (fuel n k : Nat), n < 2 ^ (k + 1) → log2_fuel fuel n ≤ k := by
  intro fuel
  induction fuel with
  | zero => intro n k _; simp [log2_fuel]
  | succ f ih =>
    intro n k hn
    unfold log2_fuel
    split_ifs with h2
    · cases k with
      | zero => simp at hn; omega
      | succ k1 =>
        have : n / 2 < 2 ^ (k1 + 1) := by
          apply Nat.div_lt_of_lt_mul
          rw [pow_succ] at hn
          omega
        have := ih (n / 2) k1 this
        omega
    · omega

theorem ilog2_le {a : ℚ} (k : Nat) (ha : a < 2 ^ (k + 1)) : ilog2 a ≤ k := by
  unfold ilog2
  split_ifs with h1
  · have hf : a.num / (a.den : Int) = ⌊a⌋ := (Rat.floor_def' a).symm
    rw [hf]
    have hfl : ⌊a⌋ < 2 ^ (k + 1) := by
      have : (⌊a⌋ : ℚ) < 2 ^ (k + 1) := lt_of_le_of_lt (Int.floor_le a) ha
      exact_mod_cast this
    have h0 : 0 ≤ ⌊a⌋ := Int.floor_nonneg.mpr (le_trans zero_le_one h1)
    have hn : ⌊a⌋.toNat < 2 ^ (k + 1) := by
      have h3 : ((⌊a⌋.toNat : Nat) : Int) = ⌊a⌋ := Int.toNat_of_nonneg h0
      have h4 : ((⌊a⌋.toNat : Nat) : Int) < ((2 ^ (k + 1) : Nat) : Int) := by
        rw [h3]; exact_mod_cast hfl
      exact_mod_cast h4
    have := log2_fuel_le ⌊a⌋.toNat ⌊a⌋.toNat k hn
    unfold nat_log2
    exact_mod_cast this
  · omega

/-- The rounding of a positive rational below `2 ^ 24` does not exceed an integer that the
rational does not exceed, and is exact on an integer. -/
theorem f32_round_le_int {q : ℚ} {n : Int} (hq : 0 < q) (hq2 : q < 16777216)
    (hqn : q ≤ n) (hn : n ≤ 16777216) :
    ∃ r : ℚ, f32_round q = c_float.fin r ∧ 0 ≤ r ∧ r ≤ n ∧ (q = n → r = n) := by
  have hne : q ≠ 0 := ne_of_gt hq
  have hnl : ¬ q < 0 := not_lt.mpr (le_of_lt hq)
  have he : ilog2 q ≤ 23 := by
    have := ilog2_le (a := q) 23 (by norm_num; exact hq2)
    exact_mod_cast this
  obtain ⟨m, hm⟩ := pow2_of_nonpos (e := max (ilog2 q) (-126) - 23) (by omega)
  have hu : f32_ulp q = 1 / (2 : ℚ) ^ m := hm
  have hpos : (0 : ℚ) < 2 ^ m := by positivity
  have hx : q / f32_ulp q = q * 2 ^ m := by rw [hu]; field_simp
  have hxn : q * 2 ^ m ≤ ((n * 2 ^ m : Int) : ℚ) := by
    push_cast
    exact mul_le_mul_of_nonneg_right hqn (le_of_lt hpos)
  have hr1 : round_half_even (q * 2 ^ m) ≤ n * 2 ^ m := round_half_even_le hxn
  have hr0 : 0 ≤ round_half_even (q * 2 ^ m) :=
    round_half_even_nonneg (mul_nonneg (le_of_lt hq) (le_of_lt hpos))
  have hrn : (round_half_even (q * 2 ^ m) : ℚ) * (1 / (2 : ℚ) ^ m) ≤ n := by
    have h1 : (round_half_even (q * 2 ^ m) : ℚ) ≤ (n : ℚ) * 2 ^ m := by exact_mod_cast hr1
    rw [mul_one_div, div_le_iff₀ hpos]
    exact h1
  have hrnn : 0 ≤ (round_half_even (q * 2 ^ m) : ℚ) * (1 / (2 : ℚ) ^ m) := by
    have h1 : (0 : ℚ) ≤ (round_half_even (q * 2 ^ m) : ℚ) := by exact_mod_cast hr0
    positivity
  have hbig : ¬ pow2 128 ≤ (round_half_even (q * 2 ^ m) : ℚ) * (1 / (2 : ℚ) ^ m) := by
    have hp : (16777216 : ℚ) < pow2 128 := by decide!
    have h2 : (n : ℚ) ≤ 16777216 := by exact_mod_cast hn
    intro hc
    linarith
  refine ⟨(round_half_even (q * 2 ^ m) : ℚ) * (1 / (2 : ℚ) ^ m), ?_, hrnn, hrn, ?_⟩
  · have hx2 : q / (1 / (2 : ℚ) ^ m) = q * 2 ^ m := by field_simp
    unfold f32_round
    simp only [hne, hnl, if_false, hu, hx2, hbig]
  · intro heq
    have h1 : q * 2 ^ m = ((n * 2 ^ m : Int) : ℚ) := by push_cast; rw [heq]
    rw [h1, round_half_even_int]
    push_cast
    field_simp

/-- The rounding keeps the sign: a rational that is not positive rounds to a value that is
not positive, or to the negative infinity. -/
theorem f32_round_nonpos {q : ℚ} (hq : q ≤ 0) :
    (∃ r : ℚ, f32_round q = c_float.fin r ∧ r ≤ 0) ∨ f32_round q = c_float.inf true := by
  by_cases h0 : q = 0
  · exact Or.inl ⟨0, by simp [f32_round, h0], le_refl _⟩
  · have hlt : q < 0 := lt_of_le_of_ne hq h0
    have hr0 : (0 : ℚ) ≤ (round_half_even (-q / f32_ulp (-q)) : ℚ) * f32_ulp (-q) := by
      have h1 : 0 ≤ round_half_even (-q / f32_ulp (-q)) :=
        round_half_even_nonneg (div_nonneg (by linarith) (le_of_lt (pow2_pos _)))
      have h2 : (0 : ℚ) ≤ (round_half_even (-q / f32_ulp (-q)) : ℚ) := by exact_mod_cast h1
      exact mul_nonneg h2 (le_of_lt (pow2_pos _))
    unfold f32_round
    simp only [h0, hlt, if_false, if_true]
    split_ifs with hb
    · right; simp
    · left; exact ⟨_, rfl, by linarith⟩

/-- The rounding keeps the sign: a rational that is not negative rounds to a value that is
not negative, or to the positive infinity. -/
theorem f32_round_nonneg {q : ℚ} (hq : 0 ≤ q) :
    (∃ r : ℚ, f32_round q = c_float.fin r ∧ 0 ≤ r) ∨ f32_round q = c_float.inf false := by
  by_cases h0 : q = 0
  · exact Or.inl ⟨0, by simp [f32_round, h0], le_refl _⟩
  · have hlt : ¬ q < 0 := not_lt.mpr hq
    have hr0 : (0 : ℚ) ≤ (round_half_even (q / f32_ulp q) : ℚ) * f32_ulp q := by
      have h1 : 0 ≤ round_half_even (q / f32_ulp q) :=
        round_half_even_nonneg (div_nonneg hq (le_of_lt (pow2_pos _)))
      have h2 : (0 : ℚ) ≤ (round_half_even (q / f32_ulp q) : ℚ) := by exact_mod_cast h1
      exact mul_nonneg h2 (le_of_lt (pow2_pos _))
    unfold f32_round
    simp only [h0, hlt, if_false]
    split_ifs with hb
    · right; simp [hlt]
    · left; exact ⟨_, rfl, hr0⟩

/-- The conversion to `int` of a value that is not negative and fits is its floor. -/
theorem c_float_to_int_of_nonneg {q : ℚ} (hq : 0 ≤ q) (hq2 : q < 2147483648) :
    c_float_to_int (c_float.fin q) = ⌊q⌋ := by
  have ht : Int.tdiv q.num q.den = ⌊q⌋ := by
    have hf : q.num / (q.den : Int) = ⌊q⌋ := (Rat.floor_def' q).symm
    rw [← hf]
    exact Int.tdiv_eq_ediv (Rat.num_nonneg.mpr hq) (Int.ofNat_nonneg _)
  have h0 : 0 ≤ ⌊q⌋ := Int.floor_nonneg.mpr hq
  have h1 : ⌊q⌋ < 2147483648 := by
    have : (⌊q⌋ : ℚ) < 2147483648 := lt_of_le_of_lt (Int.floor_le q) hq2
    exact_mod_cast this
  unfold c_float_to_int
  simp only [ht]
  rw [if_pos ⟨by omega, by omega⟩]

theorem f32_round_two_pow_24 : f32_round 16777216 = c_float.fin 16777216 := by decide!

/-- The conversion to `float` of a positive `int` up to `2 ^ 24` is exact. -/
theorem int_to_float_exact {h : Int} (h0 : 0 < h) (hh : h ≤ 16777216) :
    int_to_float h = c_float.fin h := by
  unfold int_to_float
  by_cases he : h = 16777216
  · subst he
    exact f32_round_two_pow_24
  · have h1 : (0 : ℚ) < (h : ℚ) := by exact_mod_cast h0
    have h2 : (h : ℚ) < 16777216 := by
      have : h < 16777216 := by omega
      exact_mod_cast this
    obtain ⟨r, hr, -, -, hex⟩ := f32_round_le_int h1 h2 (le_refl _) hh
    rw [hr, hex rfl]

/-- The difference `current_hp - dmg` of the damage formula, for hit points up to
`2 ^ 24` and a damage that is not negative: a value that exceeds neither the hit points
nor, for negative hit points, zero. -/
theorem hit_difference_cases (h : Int) (dmg : c_float) (hh : h ≤ 16777216) (hd : 0 ≤ dmg) :
    (∃ r : ℚ, int_to_float h - dmg = c_float.fin r ∧ r ≤ max h 0)
    ∨ int_to_float h - dmg = c_float.inf true := by
  have hmax0 : (0 : ℚ) ≤ ((max h 0 : Int) : ℚ) := by exact_mod_cast le_max_right h 0
  have hmaxh : (h : ℚ) ≤ ((max h 0 : Int) : ℚ) := by exact_mod_cast le_max_left h 0
  rw [c_float_zero] at hd
  by_cases hpos : 0 < h
  · rw [int_to_float_exact hpos hh]
    cases dmg with
    | nan => exact absurd hd (by decide)
    | inf s =>
      cases s with
      | true => exact absurd hd (by decide)
      | false => exact Or.inr rfl
    | fin d =>
      have hd0 : 0 ≤ d := (c_float_le_fin 0 d).mp hd
      rw [c_float_sub_fin]
      by_cases hq : (h : ℚ) - d ≤ 0
      · rcases f32_round_nonpos hq with ⟨r, hr, hr0⟩ | hinf
        · exact Or.inl ⟨r, hr, by push_cast at hmax0 ⊢; linarith⟩
        · exact Or.inr hinf
      · have hq0 : 0 < (h : ℚ) - d := not_le.mp hq
        have hqh : (h : ℚ) - d ≤ h := by linarith
        by_cases hlt : (h : ℚ) - d < 16777216
        · obtain ⟨r, hr, -, hrn, -⟩ := f32_round_le_int hq0 hlt hqh hh
          exact Or.inl ⟨r, hr, by push_cast at hmaxh ⊢; linarith⟩
        · have hh2 : (h : ℚ) ≤ 16777216 := by exact_mod_cast hh
          have heq : (h : ℚ) - d = 16777216 := by linarith
          rw [heq, f32_round_two_pow_24]
          exact Or.inl ⟨16777216, rfl, by push_cast at hmaxh ⊢; linarith⟩
  · have hq : ((h : Int) : ℚ) ≤ 0 := by exact_mod_cast not_lt.mp hpos
    unfold int_to_float
    rcases f32_round_nonpos hq with ⟨ρ, hρ, hρ0⟩ | hinf
    · rw [hρ]
      cases dmg with
      | nan => exact absurd hd (by decide)
      | inf s =>
        cases s with
        | true => exact absurd hd (by decide)
        | false => exact Or.inr rfl
      | fin d =>
        have hd0 : 0 ≤ d := (c_float_le_fin 0 d).mp hd
        rw [c_float_sub_fin]
        rcases f32_round_nonpos (show ρ - d ≤ 0 by linarith) with ⟨r, hr, hr0⟩ | hinf
        · exact Or.inl ⟨r, hr, by linarith⟩
        · exact Or.inr hinf
    · rw [hinf]
      cases dmg with
      | nan => exact absurd hd (by decide)
      | inf s =>
        cases s with
        | true => exact absurd hd (by decide)
        | false => exact Or.inr rfl
      | fin d => exact Or.inr rfl

/-- The value that the damage formula stores, for hit points up to `2 ^ 24` and a damage
that is not negative: it is not negative, and exceeds neither the hit points nor, for
negative hit points, zero. -/
theorem hit_value_bounds (h : Int) (dmg : c_float) (hh : h ≤ 16777216) (hd : 0 ≤ dmg) :
    0 ≤ c_float_to_int (MAX 0 (int_to_float h - dmg))
    ∧ c_float_to_int (MAX 0 (int_to_float h - dmg)) ≤ max h 0 := by
  have hzero : c_float_to_int (c_float.fin 0) = 0 := by decide!
  have hm0 : (0 : Int) ≤ max h 0 := le_max_right h 0
  rcases hit_difference_cases h dmg hh hd with ⟨r, hr, hrm⟩ | hinf
  · rw [hr]
    unfold MAX
    rw [c_float_zero]
    by_cases hneg : r < 0
    · rw [if_pos ((c_float_lt_fin r 0).mpr hneg), hzero]
      exact ⟨le_refl _, hm0⟩
    · rw [if_neg (fun hc => hneg ((c_float_lt_fin r 0).mp hc))]
      have hr0 : 0 ≤ r := not_lt.mp hneg
      have hmax : max h 0 ≤ 16777216 := max_le hh (by norm_num)
      have hmaxq : ((max h 0 : Int) : ℚ) ≤ 16777216 := by exact_mod_cast hmax
      rw [c_float_to_int_of_nonneg hr0 (by linarith)]
      refine ⟨Int.floor_nonneg.mpr hr0, ?_⟩
      have : (⌊r⌋ : ℚ) ≤ ((max h 0 : Int) : ℚ) := le_trans (Int.floor_le r) hrm
      exact_mod_cast this
  · rw [hinf]
    have : MAX 0 (c_float.inf true) = c_float.fin 0 := by decide!
    rw [this, hzero]
    exact ⟨le_refl _, hm0⟩

/-- The damage formula gives the truncation of the exact value when no operation rounds
and the value fits an `int`. -/
theorem hp_after_hit_exact (h b : Int) (a : ℚ)
    (h1 : f32_round (1 - a) = c_float.fin (1 - a))
    (h2 : f32_round (b : ℚ) = c_float.fin b)
    (h3 : f32_round ((b : ℚ) * (1 - a)) = c_float.fin ((b : ℚ) * (1 - a)))
    (h4 : f32_round (h : ℚ) = c_float.fin h)
    (h5 : f32_round ((h : ℚ) - (b : ℚ) * (1 - a)) = c_float.fin ((h : ℚ) - (b : ℚ) * (1 - a)))
    (h6 : (h : ℚ) - (b : ℚ) * (1 - a) < 2147483648) :
    c_float_to_int (MAX 0 (int_to_float h - int_to_float b * (1 - c_float.fin a)))
      = trunc_toward_zero (max 0 ((h : ℚ) - (b : ℚ) * (1 - a))) := by
  have hzero : c_float_to_int (c_float.fin 0) = 0 := by decide!
  unfold int_to_float
  rw [c_float_one, c_float_sub_fin, h1, h2, c_float_mul_fin, h3, h4, c_float_sub_fin, h5]
  unfold MAX
  rw [c_float_zero]
  by_cases hneg : (h : ℚ) - (b : ℚ) * (1 - a) < 0
  · rw [if_pos ((c_float_lt_fin _ 0).mpr hneg), hzero, max_eq_left (le_of_lt hneg)]
    simp [trunc_toward_zero]
  · rw [if_neg (fun hc => hneg ((c_float_lt_fin _ 0).mp hc))]
    have h0 : 0 ≤ (h : ℚ) - (b : ℚ) * (1 - a) := not_lt.mp hneg
    rw [c_float_to_int_of_nonneg h0 h6, max_eq_right h0]
    simp [trunc_toward_zero, h0]

/-- The damage of a hit is not negative for a base damage from 0 to `2 ^ 24` and an
armour fraction from 0 to 1. -/
theorem damage_nonneg (b : Int) (a : ℚ) (hb0 : 0 ≤ b) (hb : b ≤ 16777216) (ha0 : 0 ≤ a)
    (ha : a ≤ 1) : 0 ≤ int_to_float b * (1 - c_float.fin a) := by
  have hγ : ∃ γ : ℚ, (1 : c_float) - c_float.fin a = c_float.fin γ ∧ 0 ≤ γ := by
    rw [c_float_one, c_float_sub_fin]
    by_cases h1 : 1 - a = 0
    · rw [h1]
      exact ⟨0, by simp [f32_round], le_refl _⟩
    · have hpos : 0 < 1 - a := lt_of_le_of_ne (by linarith) (Ne.symm h1)
      obtain ⟨r, hr, hr0, -, -⟩ := f32_round_le_int (n := 1) hpos (by linarith)
        (by push_cast; linarith) (by norm_num)
      exact ⟨r, hr, hr0⟩
  have hβ : ∃ β : ℚ, int_to_float b = c_float.fin β ∧ 0 ≤ β := by
    by_cases h0 : b = 0
    · subst h0
      exact ⟨0, by simp [int_to_float, f32_round], le_refl _⟩
    · have hpos : 0 < b := by omega
      exact ⟨b, int_to_float_exact hpos hb, by exact_mod_cast hb0⟩
  obtain ⟨γ, hγ1, hγ0⟩ := hγ
  obtain ⟨β, hβ1, hβ0⟩ := hβ
  rw [hγ1, hβ1, c_float_mul_fin, c_float_zero]
  rcases f32_round_nonneg (mul_nonneg hβ0 hγ0) with ⟨r, hr, hr0⟩ | hinf
  · rw [hr]; exact (c_float_le_fin 0 r).mpr hr0
  · rw [hinf]; decide

/-! ## Attack resolution -/

/-- The record of the target as `on_attack_anim_finish` reads it: the record of the
initial state, with the phase already reset when the attacker targets itself. -/
theorem attack_resolved_get (s : State) (self : entity) (u : Nat) :
    combatstate_get (attack_resolved s self).table u
      = if u = self.uid then
          (combatstate_get s.table u).map (fun c => { c with state := STATE_CAN_ATTACK })
        else combatstate_get s.table u := by
  by_cases h : u = self.uid
  · subst h
    simp [attack_resolved, combatstate_get_modify_self]
  · simp [attack_resolved, h, combatstate_get_modify_other _ _ h]

/-- The body of `on_attack_anim_finish` for an attacker that has a record in phase
`STATE_ATTACK_ANIM_PLAYING`, with the getters evaluated. -/
theorem on_attack_anim_finish_eq (w : World) (s : State) (self : entity) (cs : combatstate)
    (hcs : combatstate_get s.table self.uid = some cs)
    (hst : cs.state = STATE_ATTACK_ANIM_PLAYING) :
    on_attack_anim_finish w s self =
      match G_EntityForUID s cs.target_uid with
      | none => some (attack_resolved s self)
      | some target =>
        if target.flags.zombie then some (attack_resolved s self)
        else
          match combatstate_get (attack_resolved s self).table cs.target_uid with
          | none => none
          | some tcs =>
            if tcs.state = STATE_DEATH_ANIM_PLAYING then some (attack_resolved s self)
            else if ents_distance w self target ≤ ENEMY_MELEE_ATTACK_RANGE then
              if hp_after_hit cs tcs = 0 ∧ target.max_hp > 0 then
                some (kill_target (hit_applied s self cs.target_uid (hp_after_hit cs tcs))
                  target cs.target_uid)
              else some (hit_applied s self cs.target_uid (hp_after_hit cs tcs))
            else some (attack_resolved s self) := by
  unfold on_attack_anim_finish
  simp only [E_Entity_Unregister, hcs, hst]
  have hreg : ∀ u, G_EntityForUID
      { table := combatstate_modify (fun c => { c with state := STATE_CAN_ATTACK }) s.table
          self.uid,
        dying := s.dying, ents := s.ents,
        handlers := s.handlers.filter (fun p => p ≠ (self.uid, anim_handler.attack_anim_finish)),
        notified := s.notified, move := s.move, selection := s.selection } u
      = G_EntityForUID s u := fun u => rfl
  simp only [hreg]
  cases htar : G_EntityForUID s cs.target_uid with
  | none => simp [attack_resolved]
  | some target =>
    have huid := G_EntityForUID_uid htar
    by_cases hz : target.flags.zombie = true
    · simp [hz, attack_resolved]
    · simp only [hz]
      cases htcs : combatstate_get (attack_resolved s self).table cs.target_uid with
      | none =>
        simp only [attack_resolved] at htcs
        simp [htcs]
      | some tcs =>
        have htcs2 := htcs
        simp only [attack_resolved] at htcs2
        simp only [htcs2]
        by_cases hd : tcs.state = STATE_DEATH_ANIM_PLAYING
        · simp [hd, attack_resolved]
        · by_cases hr : ents_distance w self target ≤ ENEMY_MELEE_ATTACK_RANGE
          · have hself : combatstate_get (attack_resolved s self).table self.uid
                = some { cs with state := STATE_CAN_ATTACK } := by
              rw [attack_resolved_get]; simp [hcs]
            simp only [attack_resolved] at hself
            simp [hd, hr, G_Combat_GetBaseDamage, G_Combat_GetBaseArmour, huid, hself, htcs2,
              hp_after_hit, hit_damage, hit_applied, attack_resolved]
          · simp [hd, hr, attack_resolved]

theorem attack_resolved_target (s : State) (self : entity) {u : Nat} {tcs : combatstate}
    (htcs : combatstate_get s.table u = some tcs) :
    ∃ tcs1, combatstate_get (attack_resolved s self).table u = some tcs1
      ∧ tcs1.current_hp = tcs.current_hp ∧ tcs1.stats = tcs.stats
      ∧ (tcs.state ≠ STATE_DEATH_ANIM_PLAYING → tcs1.state ≠ STATE_DEATH_ANIM_PLAYING)
      ∧ (u ≠ self.uid → tcs1 = tcs) := by
  rw [attack_resolved_get]
  by_cases h : u = self.uid
  · subst h
    exact ⟨{ tcs with state := STATE_CAN_ATTACK }, by simp [htcs], rfl, rfl,
      fun _ => by simp, fun hne => absurd rfl hne⟩
  · exact ⟨tcs, by simp [h, htcs], rfl, rfl, fun hd => hd, fun _ => rfl⟩

theorem hit_applied_get (s : State) (self : entity) (t : Nat) (hp : Int) (u : Nat) :
    combatstate_get (hit_applied s self t hp).table u
      = if u = t then
          (combatstate_get (attack_resolved s self).table u).map
            (fun c => { c with current_hp := hp })
        else combatstate_get (attack_resolved s self).table u := by
  by_cases h : u = t
  · subst h
    simp [hit_applied, combatstate_get_modify_self]
  · simp [hit_applied, h, combatstate_get_modify_other _ _ h]

/-- The outcome of `on_attack_anim_finish` when the hit is applied: the target is alive,
has a record that is not dying, and is within the melee range. -/
theorem on_attack_anim_finish_hit (w : World) (s : State) (self target : entity)
    (cs tcs : combatstate)
    (hcs : combatstate_get s.table self.uid = some cs)
    (hst : cs.state = STATE_ATTACK_ANIM_PLAYING)
    (htar : G_EntityForUID s cs.target_uid = some target)
    (hz : target.flags.zombie = false)
    (htcs : combatstate_get s.table cs.target_uid = some tcs)
    (hd : tcs.state ≠ STATE_DEATH_ANIM_PLAYING)
    (hr : ents_distance w self target ≤ ENEMY_MELEE_ATTACK_RANGE) :
    on_attack_anim_finish w s self =
      if hp_after_hit cs tcs = 0 ∧ target.max_hp > 0 then
        some (kill_target (hit_applied s self cs.target_uid (hp_after_hit cs tcs))
          target cs.target_uid)
      else some (hit_applied s self cs.target_uid (hp_after_hit cs tcs)) := by
  obtain ⟨tcs1, h1, hhp, hstats, hdying, _⟩ := attack_resolved_target s self htcs
  rw [on_attack_anim_finish_eq w s self cs hcs hst]
  have hh : hp_after_hit cs tcs1 = hp_after_hit cs tcs := by
    simp [hp_after_hit, hit_damage, hhp, hstats]
  simp [htar, hz, h1, hdying hd, hr, hh]

/-- C1 (counterexample): in the scenario of the claim (attacker striking with base damage
10, target with armour fraction 1/2 and 10 hit points, 3 units away) the hit stores
10 - 10 * (1 - 1/2) = 5 hit points and the target stays out of the dying phase, so the
claimed outcome (0 hit points, target dying) does not occur. -/
theorem C1_lethal_hit_scenario_refuted :
    ents_distance scenario_world scenario_attacker scenario_target ≤ ENEMY_MELEE_ATTACK_RANGE
    ∧ (on_attack_anim_finish scenario_world scenario_state scenario_attacker).map
        (fun s1 => (hp_of s1 2, phase_of s1 2, s1.dying))
      = some (some 5, some STATE_NOT_IN_COMBAT, [])
    ∧ ¬ ∃ s1, on_attack_anim_finish scenario_world scenario_state scenario_attacker = some s1
        ∧ hp_of s1 2 = some 0 ∧ phase_of s1 2 = some STATE_DEATH_ANIM_PLAYING := by
  have hrun : (on_attack_anim_finish scenario_world scenario_state scenario_attacker).map
        (fun s1 => (hp_of s1 2, phase_of s1 2, s1.dying))
      = some (some 5, some STATE_NOT_IN_COMBAT, []) := by decide!
  refine ⟨by decide!, hrun, ?_⟩
  rintro ⟨s1, h1, hhp, -⟩
  rw [h1] at hrun
  simp only [Option.map_some', Option.some.injEq, Prod.mk.injEq] at hrun
  rw [hrun.1] at hhp
  exact absurd hhp (by decide)

/-- C1 (amended): when the attack-animation-completion callback fires for an attacker in
phase Striking with base damage 10 whose target (alive, not dying, within melee range) has
armour fraction 1/2 and 10 hit points, the target is left with 5 hit points and does not
enter the dying phase, the pending-death set is unchanged, the callback of the attacker
is deregistered and the attacker is in phase Ready. -/
theorem C1_scenario_hit_leaves_five (w : World) (s : State) (self target : entity)
    (cs tcs : combatstate)
    (hcs : combatstate_get s.table self.uid = some cs)
    (hst : cs.state = STATE_ATTACK_ANIM_PLAYING)
    (hdmg : cs.stats.base_dmg = 10)
    (htar : G_EntityForUID s cs.target_uid = some target)
    (hz : target.flags.zombie = false)
    (htcs : combatstate_get s.table cs.target_uid = some tcs)
    (hd : tcs.state ≠ STATE_DEATH_ANIM_PLAYING)
    (harm : tcs.stats.base_armour_pc = 1 / 2)
    (hhp : tcs.current_hp = 10)
    (hr : ents_distance w self target ≤ ENEMY_MELEE_ATTACK_RANGE) :
    ∃ s1, on_attack_anim_finish w s self = some s1
      ∧ hp_of s1 cs.target_uid = some 5
      ∧ phase_of s1 cs.target_uid ≠ some STATE_DEATH_ANIM_PLAYING
      ∧ s1.dying = s.dying
      ∧ ¬ registered s1 self.uid anim_handler.attack_anim_finish
      ∧ phase_of s1 self.uid = some STATE_CAN_ATTACK := by
  have hval : hp_after_hit cs tcs = 5 := by
    simp only [hp_after_hit, hit_damage, hdmg, harm, hhp]
    decide!
  obtain ⟨tcs1, h1, -, -, hdying, -⟩ := attack_resolved_target s self htcs
  refine ⟨hit_applied s self cs.target_uid 5, ?_, ?_, ?_, rfl, ?_, ?_⟩
  · rw [on_attack_anim_finish_hit w s self target cs tcs hcs hst htar hz htcs hd hr, hval]
    simp
  · simp [hp_of, hit_applied_get, h1]
  · simp [phase_of, hit_applied_get, h1, hdying hd]
  · simp [registered, hit_applied, attack_resolved]
  · simp only [phase_of, hit_applied_get, attack_resolved_get, hcs]
    by_cases h : self.uid = cs.target_uid <;> simp [h]

/-- C1 (witness): the amended scenario at the example state. -/
theorem C1_scenario_hit_leaves_five_witness :
    ∃ s1, on_attack_anim_finish scenario_world scenario_state scenario_attacker = some s1
      ∧ hp_of s1 2 = some 5
      ∧ phase_of s1 2 ≠ some STATE_DEATH_ANIM_PLAYING
      ∧ s1.dying = []
      ∧ ¬ registered s1 1 anim_handler.attack_anim_finish
      ∧ phase_of s1 1 = some STATE_CAN_ATTACK :=
  C1_scenario_hit_leaves_five scenario_world scenario_state scenario_attacker scenario_target
    (ex_record 10 0 10 COMBAT_STANCE_AGGRESSIVE STATE_ATTACK_ANIM_PLAYING 2)
    (ex_record 0 (1 / 2) 10 COMBAT_STANCE_AGGRESSIVE STATE_NOT_IN_COMBAT 0)
    rfl rfl rfl rfl rfl rfl (by decide) rfl rfl (by decide!)

theorem kill_target_table (s : State) (target : entity) (t : Nat) :
    (kill_target s target t).table
      = combatstate_modify (fun c => { c with state := STATE_DEATH_ANIM_PLAYING }) s.table t := by
  unfold kill_target
  by_cases h : target.flags.selectable = true <;>
    simp [h, G_Move_Stop, G_Sel_Remove, clear_selectable, E_Entity_Unregister, E_Entity_Notify,
      E_Entity_Register]

theorem kill_target_dying (s : State) (target : entity) (t : Nat) :
    (kill_target s target t).dying = s.dying ++ [target.uid] := by
  unfold kill_target
  by_cases h : target.flags.selectable = true <;>
    simp [h, G_Move_Stop, G_Sel_Remove, clear_selectable, E_Entity_Unregister, E_Entity_Notify,
      E_Entity_Register]

theorem kill_target_handlers (s : State) (target : entity) (t : Nat) :
    (kill_target s target t).handlers
      = s.handlers.filter (fun p => p ≠ (t, anim_handler.attack_anim_finish))
          ++ [(t, anim_handler.death_anim_finish)] := by
  unfold kill_target
  by_cases h : target.flags.selectable = true <;>
    simp [h, G_Move_Stop, G_Sel_Remove, clear_selectable, E_Entity_Unregister, E_Entity_Notify,
      E_Entity_Register]

theorem kill_target_ents (s : State) (target : entity) (t : Nat) :
    (kill_target s target t).ents
      = if target.flags.selectable = true then
          s.ents.map (fun e => if e.uid = target.uid then
            { e with flags := { e.flags with selectable := false } } else e)
        else s.ents := by
  unfold kill_target
  by_cases h : target.flags.selectable = true <;>
    simp [h, G_Move_Stop, G_Sel_Remove, clear_selectable, E_Entity_Unregister, E_Entity_Notify,
      E_Entity_Register]

theorem kill_target_hp_of (s : State) (target : entity) (t u : Nat) :
    hp_of (kill_target s target t) u = hp_of s u := by
  unfold hp_of
  rw [kill_target_table]
  by_cases h : u = t
  · subst h
    rw [combatstate_get_modify_self]
    cases combatstate_get s.table u <;> rfl
  · rw [combatstate_get_modify_other _ _ h]

theorem kill_target_phase_of (s : State) (target : entity) (t u : Nat) :
    phase_of (kill_target s target t) u
      = if u = t then (phase_of s u).map (fun _ => STATE_DEATH_ANIM_PLAYING)
        else phase_of s u := by
  unfold phase_of
  rw [kill_target_table]
  by_cases h : u = t
  · subst h
    rw [combatstate_get_modify_self]
    cases combatstate_get s.table u <;> simp
  · rw [combatstate_get_modify_other _ _ h]
    simp [h]

/-- C3 (counterexample): rounding changes the stored hit points.  The attacker has base
damage 10, the target has the armour fraction `0.7f` (the `float` 11744051 / 16777216)
and 4 hit points.  The formula of the claim gives 4 - 10 * (1 - 0.7f) = 0.99999994...,
truncated to 0; the code rounds the product 3.00000006... to `3.0f` and stores 1, and the
target stays out of the dying phase. -/
theorem C3_damage_formula_rounds :
    (7 / 10 : c_float) = c_float.fin (11744051 / 16777216)
    ∧ ents_distance scenario_world scenario_attacker scenario_target ≤ 5
    ∧ (on_attack_anim_finish scenario_world rounding_state scenario_attacker).map
        (fun s1 => (hp_of s1 2, phase_of s1 2)) = some (some 1, some STATE_NOT_IN_COMBAT)
    ∧ spec_hp_after_hit 4 10 (11744051 / 16777216) = 0
    ∧ ¬ ∃ s1, on_attack_anim_finish scenario_world rounding_state scenario_attacker = some s1
        ∧ hp_of s1 2 = some (spec_hp_after_hit 4 10 (11744051 / 16777216)) := by
  have hrun : (on_attack_anim_finish scenario_world rounding_state scenario_attacker).map
      (fun s1 => (hp_of s1 2, phase_of s1 2)) = some (some 1, some STATE_NOT_IN_COMBAT) := by
    decide!
  have hspec : spec_hp_after_hit 4 10 (11744051 / 16777216) = 0 := by
    unfold spec_hp_after_hit trunc_toward_zero
    norm_num
  refine ⟨by decide!, by decide!, hrun, hspec, ?_⟩
  rintro ⟨s1, h1, hhp⟩
  rw [h1] at hrun
  simp only [Option.map_some', Option.some.injEq, Prod.mk.injEq] at hrun
  rw [hrun.1, hspec] at hhp
  exact absurd hhp (by decide)

/-- C3 (amended): for an attacker in phase Striking whose target exists, is not a zombie,
is not dying and is within melee range, attack resolution returns and stores as the hit
points of the target the value of `MAX(0, current_hp - base_dmg * (1.0f - armour))`
computed in binary32: both `int`s are converted to `float`, the difference, the product
and the second difference are each rounded, and the result is truncated toward zero.
The stored value is that of the formula in exact arithmetic whenever none of the five
operations rounds and the result is below 2 ^ 31. -/
theorem C3_damage_formula_binary32 (w : World) (s : State) (self target : entity)
    (cs tcs : combatstate)
    (hcs : combatstate_get s.table self.uid = some cs)
    (hst : cs.state = STATE_ATTACK_ANIM_PLAYING)
    (htar : G_EntityForUID s cs.target_uid = some target)
    (hz : target.flags.zombie = false)
    (htcs : combatstate_get s.table cs.target_uid = some tcs)
    (hd : tcs.state ≠ STATE_DEATH_ANIM_PLAYING)
    (hr : ents_distance w self target ≤ 5) :
    ∃ s1, on_attack_anim_finish w s self = some s1
      ∧ hp_of s1 cs.target_uid = some (c_float_to_int (MAX 0
          (int_to_float tcs.current_hp
            - int_to_float cs.stats.base_dmg * (1 - tcs.stats.base_armour_pc))))
      ∧ ∀ a : ℚ, tcs.stats.base_armour_pc = c_float.fin a →
          f32_round (1 - a) = c_float.fin (1 - a) →
          f32_round (cs.stats.base_dmg : ℚ) = c_float.fin cs.stats.base_dmg →
          f32_round ((cs.stats.base_dmg : ℚ) * (1 - a))
            = c_float.fin ((cs.stats.base_dmg : ℚ) * (1 - a)) →
          f32_round (tcs.current_hp : ℚ) = c_float.fin tcs.current_hp →
          f32_round ((tcs.current_hp : ℚ) - (cs.stats.base_dmg : ℚ) * (1 - a))
            = c_float.fin ((tcs.current_hp : ℚ) - (cs.stats.base_dmg : ℚ) * (1 - a)) →
          (tcs.current_hp : ℚ) - (cs.stats.base_dmg : ℚ) * (1 - a) < 2147483648 →
          hp_of s1 cs.target_uid
            = some (spec_hp_after_hit tcs.current_hp cs.stats.base_dmg a) := by
  have hval : hp_after_hit cs tcs = c_float_to_int (MAX 0
      (int_to_float tcs.current_hp
        - int_to_float cs.stats.base_dmg * (1 - tcs.stats.base_armour_pc))) := rfl
  obtain ⟨tcs1, h1, -, -, -, -⟩ := attack_resolved_target s self htcs
  have hr5 : ents_distance w self target ≤ ENEMY_MELEE_ATTACK_RANGE := hr
  have hrun := on_attack_anim_finish_hit w s self target cs tcs hcs hst htar hz htcs hd hr5
  have hhit : hp_of (hit_applied s self cs.target_uid (hp_after_hit cs tcs)) cs.target_uid
      = some (hp_after_hit cs tcs) := by
    simp [hp_of, hit_applied_get, h1]
  have hexact : ∀ a : ℚ, tcs.stats.base_armour_pc = c_float.fin a →
      f32_round (1 - a) = c_float.fin (1 - a) →
      f32_round (cs.stats.base_dmg : ℚ) = c_float.fin cs.stats.base_dmg →
      f32_round ((cs.stats.base_dmg : ℚ) * (1 - a))
        = c_float.fin ((cs.stats.base_dmg : ℚ) * (1 - a)) →
      f32_round (tcs.current_hp : ℚ) = c_float.fin tcs.current_hp →
      f32_round ((tcs.current_hp : ℚ) - (cs.stats.base_dmg : ℚ) * (1 - a))
        = c_float.fin ((tcs.current_hp : ℚ) - (cs.stats.base_dmg : ℚ) * (1 - a)) →
      (tcs.current_hp : ℚ) - (cs.stats.base_dmg : ℚ) * (1 - a) < 2147483648 →
      hp_after_hit cs tcs = spec_hp_after_hit tcs.current_hp cs.stats.base_dmg a := by
    intro a ha h1 h2 h3 h4 h5 h6
    rw [hval, ha]
    exact hp_after_hit_exact _ _ a h1 h2 h3 h4 h5 h6
  by_cases hk : hp_after_hit cs tcs = 0 ∧ target.max_hp > 0
  · refine ⟨_, by rw [hrun, if_pos hk], ?_, ?_⟩
    · rw [← hval, kill_target_hp_of]
      exact hhit
    · intro a ha h1 h2 h3 h4 h5 h6
      rw [← hexact a ha h1 h2 h3 h4 h5 h6, kill_target_hp_of]
      exact hhit
  · refine ⟨_, by rw [hrun, if_neg hk], ?_, ?_⟩
    · rw [← hval]
      exact hhit
    · intro a ha h1 h2 h3 h4 h5 h6
      rw [← hexact a ha h1 h2 h3 h4 h5 h6]
      exact hhit

/-- C3 (witness): the damage formula at the state of the lethal-hit scenario, where no
operation rounds and both the code and the exact formula give 5. -/
theorem C3_damage_formula_binary32_witness :
    ∃ s1, on_attack_anim_finish scenario_world scenario_state scenario_attacker = some s1
      ∧ hp_of s1 2 = some (c_float_to_int (MAX 0
          (int_to_float 10 - int_to_float 10 * (1 - 1 / 2))))
      ∧ ∀ a : ℚ, (1 / 2 : c_float) = c_float.fin a →
          f32_round (1 - a) = c_float.fin (1 - a) →
          f32_round ((10 : Int) : ℚ) = c_float.fin (10 : Int) →
          f32_round (((10 : Int) : ℚ) * (1 - a)) = c_float.fin (((10 : Int) : ℚ) * (1 - a)) →
          f32_round ((10 : Int) : ℚ) = c_float.fin (10 : Int) →
          f32_round (((10 : Int) : ℚ) - ((10 : Int) : ℚ) * (1 - a))
            = c_float.fin (((10 : Int) : ℚ) - ((10 : Int) : ℚ) * (1 - a)) →
          ((10 : Int) : ℚ) - ((10 : Int) : ℚ) * (1 - a) < 2147483648 →
          hp_of s1 2 = some (spec_hp_after_hit 10 10 a) :=
  C3_damage_formula_binary32 scenario_world scenario_state scenario_attacker scenario_target
    (ex_record 10 0 10 COMBAT_STANCE_AGGRESSIVE STATE_ATTACK_ANIM_PLAYING 2)
    (ex_record 0 (1 / 2) 10 COMBAT_STANCE_AGGRESSIVE STATE_NOT_IN_COMBAT 0)
    rfl rfl rfl rfl rfl (by decide) (by decide!)

theorem find_map_uid (f : entity → entity) (hf : ∀ e, (f e).uid = e.uid)
    (l : List entity) (u : Nat) :
    (l.map f).find? (fun e => e.uid = u) = (l.find? (fun e => e.uid = u)).map f := by
  induction l with
  | nil => rfl
  | cons e rest ih =>
    rw [List.map_cons, List.find?_cons, List.find?_cons, hf e]
    by_cases he : e.uid = u
    · simp [he]
    · simp [he, ih]

theorem find_map_clear_selectable (l : List entity) (t u : Nat) :
    (l.map (fun e => if e.uid = t then
        { e with flags := { e.flags with selectable := false } } else e)).find?
        (fun e => e.uid = u)
      = (l.find? (fun e => e.uid = u)).map (fun e => if e.uid = t then
        { e with flags := { e.flags with selectable := false } } else e) := by
  apply find_map_uid
  intro e
  by_cases ht : e.uid = t <;> simp [ht]

theorem kill_target_selectable_of (s : State) (target : entity) (t : Nat)
    (htar : G_EntityForUID s t = some target) :
    selectable_of (kill_target s target t) t = some false := by
  have huid := G_EntityForUID_uid htar
  unfold selectable_of G_EntityForUID
  rw [kill_target_ents]
  by_cases h : target.flags.selectable = true
  · rw [if_pos h, find_map_clear_selectable]
    unfold G_EntityForUID at htar
    simp [htar, huid]
  · rw [if_neg h]
    unfold G_EntityForUID at htar
    simp [htar]
    simpa using h

/-- C4: when attack resolution applies a hit (the target exists, is not a zombie, has a
record that is not dying and is within melee range, whatever its phase otherwise), the
target enters the dying phase, and is appended to the pending-death set, if and only if
its new hit points are exactly 0 and its maximum hit points are positive; in that case
it is no longer selectable, its attack-completion callback is deregistered and a
death-animation-completion callback is registered for it; otherwise the pending-death
set is unchanged.  A target with maximum hit points 0 does not enter the dying phase. -/
theorem C4_death_transition (w : World) (s : State) (self target : entity)
    (cs tcs : combatstate)
    (hcs : combatstate_get s.table self.uid = some cs)
    (hst : cs.state = STATE_ATTACK_ANIM_PLAYING)
    (htar : G_EntityForUID s cs.target_uid = some target)
    (hz : target.flags.zombie = false)
    (htcs : combatstate_get s.table cs.target_uid = some tcs)
    (hd : tcs.state ≠ STATE_DEATH_ANIM_PLAYING)
    (hr : ents_distance w self target ≤ 5) :
    ∃ s1 hp1, on_attack_anim_finish w s self = some s1
      ∧ hp_of s1 cs.target_uid = some hp1
      ∧ (phase_of s1 cs.target_uid = some STATE_DEATH_ANIM_PLAYING
          ↔ hp1 = 0 ∧ 0 < target.max_hp)
      ∧ (s1.dying = s.dying ++ [cs.target_uid] ↔ hp1 = 0 ∧ 0 < target.max_hp)
      ∧ (hp1 = 0 ∧ 0 < target.max_hp →
          selectable_of s1 cs.target_uid = some false
          ∧ ¬ registered s1 cs.target_uid anim_handler.attack_anim_finish
          ∧ registered s1 cs.target_uid anim_handler.death_anim_finish)
      ∧ (¬ (hp1 = 0 ∧ 0 < target.max_hp) → s1.dying = s.dying)
      ∧ (target.max_hp = 0 → phase_of s1 cs.target_uid ≠ some STATE_DEATH_ANIM_PLAYING) := by
  obtain ⟨tcs1, h1, -, -, hdying, -⟩ := attack_resolved_target s self htcs
  have hrun := on_attack_anim_finish_hit w s self target cs tcs hcs hst htar hz htcs hd hr
  have huid := G_EntityForUID_uid htar
  have hhit : hp_of (hit_applied s self cs.target_uid (hp_after_hit cs tcs)) cs.target_uid
      = some (hp_after_hit cs tcs) := by
    simp [hp_of, hit_applied_get, h1]
  have hphase : phase_of (hit_applied s self cs.target_uid (hp_after_hit cs tcs)) cs.target_uid
      = some tcs1.state := by
    simp [phase_of, hit_applied_get, h1]
  by_cases hk : hp_after_hit cs tcs = 0 ∧ target.max_hp > 0
  · refine ⟨_, hp_after_hit cs tcs, by rw [hrun, if_pos hk], ?_, ?_, ?_, ?_, ?_, ?_⟩
    · rw [kill_target_hp_of]; exact hhit
    · rw [kill_target_phase_of, if_pos rfl, hphase]
      simpa using hk
    · rw [kill_target_dying, huid]
      simpa [hit_applied, attack_resolved] using hk
    · intro _
      refine ⟨?_, ?_, ?_⟩
      · exact kill_target_selectable_of _ target cs.target_uid htar
      · simp [registered, kill_target_handlers]
      · simp [registered, kill_target_handlers]
    · intro hn; exact absurd hk hn
    · intro h0; exact absurd hk.2 (by omega)
  · refine ⟨_, hp_after_hit cs tcs, by rw [hrun, if_neg hk], hhit, ?_, ?_, ?_, ?_, ?_⟩
    · rw [hphase]
      constructor
      · intro h; exact absurd (Option.some.inj h) (hdying hd)
      · intro h; exact absurd h hk
    · constructor
      · intro h
        have := congrArg List.length h
        simp [hit_applied, attack_resolved] at this
      · intro h; exact absurd h hk
    · intro h; exact absurd h hk
    · intro _; rfl
    · intro _
      rw [hphase]
      intro h; exact absurd (Option.some.inj h) (hdying hd)

/-- C4 (witness): the death transition at a state where the hit is lethal. -/
theorem C4_death_transition_witness :
    ∃ s1 hp1, on_attack_anim_finish scenario_world lethal_state scenario_attacker = some s1
      ∧ hp_of s1 2 = some hp1
      ∧ (phase_of s1 2 = some STATE_DEATH_ANIM_PLAYING ↔ hp1 = 0 ∧ 0 < scenario_target.max_hp)
      ∧ (s1.dying = [] ++ [2] ↔ hp1 = 0 ∧ 0 < scenario_target.max_hp)
      ∧ (hp1 = 0 ∧ 0 < scenario_target.max_hp →
          selectable_of s1 2 = some false
          ∧ ¬ registered s1 2 anim_handler.attack_anim_finish
          ∧ registered s1 2 anim_handler.death_anim_finish)
      ∧ (¬ (hp1 = 0 ∧ 0 < scenario_target.max_hp) → s1.dying = [])
      ∧ (scenario_target.max_hp = 0 → phase_of s1 2 ≠ some STATE_DEATH_ANIM_PLAYING) :=
  C4_death_transition scenario_world lethal_state scenario_attacker scenario_target
    (ex_record 10 0 10 COMBAT_STANCE_AGGRESSIVE STATE_ATTACK_ANIM_PLAYING 2)
    (ex_record 0 0 10 COMBAT_STANCE_AGGRESSIVE STATE_ATTACK_ANIM_PLAYING 1)
    rfl rfl rfl rfl rfl (by decide) (by decide!)

theorem attack_resolved_phase_self (s : State) (self : entity) (cs : combatstate)
    (hcs : combatstate_get s.table self.uid = some cs) :
    phase_of (attack_resolved s self) self.uid = some STATE_CAN_ATTACK := by
  simp [phase_of, attack_resolved_get, hcs]

theorem attack_resolved_not_registered (s : State) (self : entity) :
    ¬ registered (attack_resolved s self) self.uid anim_handler.attack_anim_finish := by
  simp [registered, attack_resolved]

/-- C5 (counterexample): an attacker that is its own target.  After entity `1` is added
and its base damage set to 10, the load of a stream whose record for entity `1` holds
the phase Striking and the target `1` returns `true` and leaves entity `1` striking
itself, with its handler registered.  Its attack-animation-completion callback then
applies the hit to the attacker itself, which is killed: the callback returns with the
attacker in the phase Dying, not Ready. -/
theorem C5_self_target_ends_dying :
    (run_ops self_target_ops empty_state).map
        (fun s => G_Combat_LoadState s self_target_stream)
      = some (load_result.loaded self_target_state [])
    ∧ phase_of self_target_state 1 = some STATE_ATTACK_ANIM_PLAYING
    ∧ registered self_target_state 1 anim_handler.attack_anim_finish
    ∧ (on_attack_anim_finish scenario_world self_target_state scenario_attacker).map
        (fun s1 => (phase_of s1 1, hp_of s1 1, s1.dying))
      = some (some STATE_DEATH_ANIM_PLAYING, some 0, [1])
    ∧ ¬ ∃ s1, on_attack_anim_finish scenario_world self_target_state scenario_attacker
          = some s1
        ∧ phase_of s1 1 = some STATE_CAN_ATTACK := by
  have hrun : (on_attack_anim_finish scenario_world self_target_state scenario_attacker).map
      (fun s1 => (phase_of s1 1, hp_of s1 1, s1.dying))
      = some (some STATE_DEATH_ANIM_PLAYING, some 0, [1]) := by decide!
  refine ⟨by decide!, by decide!, List.mem_cons_self _ _, hrun, ?_⟩
  rintro ⟨s1, h1, hph⟩
  rw [h1] at hrun
  simp only [Option.map_some', Option.some.injEq, Prod.mk.injEq] at hrun
  rw [hrun.1] at hph
  exact absurd hph (by decide)

/-- C5 (amended): for an attacker in phase Striking whose target is another entity,
whenever the attack-animation-completion callback returns, the phase of the attacker is
Ready and its attack-completion callback is not registered, whether the target was
missing, a zombie, dying, out of range, damaged or killed; and the callback returns
unless the target is a live registry entity without a combat record (the failing
`assert(target_cs)`). -/
theorem C5_attacker_returns_to_ready (w : World) (s : State) (self : entity)
    (cs : combatstate)
    (hcs : combatstate_get s.table self.uid = some cs)
    (hst : cs.state = STATE_ATTACK_ANIM_PLAYING)
    (hne : cs.target_uid ≠ self.uid) :
    (∀ s1, on_attack_anim_finish w s self = some s1 →
        phase_of s1 self.uid = some STATE_CAN_ATTACK
        ∧ ¬ registered s1 self.uid anim_handler.attack_anim_finish)
    ∧ (on_attack_anim_finish w s self = none ↔
        ∃ target, G_EntityForUID s cs.target_uid = some target
          ∧ target.flags.zombie = false ∧ combatstate_get s.table cs.target_uid = none) := by
  have hA := attack_resolved_phase_self s self cs hcs
  have hB := attack_resolved_not_registered s self
  have htbl : combatstate_get (attack_resolved s self).table cs.target_uid
      = combatstate_get s.table cs.target_uid := by
    rw [attack_resolved_get, if_neg hne]
  have hhitA : ∀ hp, phase_of (hit_applied s self cs.target_uid hp) self.uid
      = some STATE_CAN_ATTACK := by
    intro hp
    have hne2 : self.uid ≠ cs.target_uid := fun h => hne h.symm
    simp only [phase_of, hit_applied_get, if_neg hne2]
    exact hA
  have hhitB : ∀ hp, ¬ registered (hit_applied s self cs.target_uid hp) self.uid
      anim_handler.attack_anim_finish := fun hp => hB
  rw [on_attack_anim_finish_eq w s self cs hcs hst, htbl]
  cases htar : G_EntityForUID s cs.target_uid with
  | none => simp [hA, hB]
  | some target =>
    by_cases hz : target.flags.zombie = true
    · simp [hz, hA, hB]
    · have hz2 : target.flags.zombie = false := by simpa using hz
      cases htcs : combatstate_get s.table cs.target_uid with
      | none => simp [hz2]
      | some tcs =>
        by_cases hd : tcs.state = STATE_DEATH_ANIM_PLAYING
        · simp [hz2, hd, hA, hB]
        · by_cases hr : ents_distance w self target ≤ ENEMY_MELEE_ATTACK_RANGE
          · by_cases hk : hp_after_hit cs tcs = 0 ∧ target.max_hp > 0
            · have hne2 : self.uid ≠ cs.target_uid := fun h => hne h.symm
              have hkA : phase_of (kill_target (hit_applied s self cs.target_uid
                  (hp_after_hit cs tcs)) target cs.target_uid) self.uid
                  = some STATE_CAN_ATTACK := by
                rw [kill_target_phase_of, if_neg hne2]; exact hhitA _
              have hkB : ¬ registered (kill_target (hit_applied s self cs.target_uid
                  (hp_after_hit cs tcs)) target cs.target_uid) self.uid
                  anim_handler.attack_anim_finish := by
                have := hhitB (hp_after_hit cs tcs)
                simp only [registered] at this ⊢
                simp [kill_target_handlers, this]
              simp only [hz2, hd, hr, if_pos hk]
              simp [hkA, hkB]
            · simp only [hz2, hd, hr, if_neg hk]
              simp [hhitA, hhitB]
          · simp [hz2, hd, hr, hA, hB]

/-- C5 (witness): the attacker of the example state returns to Ready. -/
theorem C5_attacker_returns_to_ready_witness :
    (∀ s1, on_attack_anim_finish scenario_world lethal_state scenario_attacker = some s1 →
        phase_of s1 1 = some STATE_CAN_ATTACK
        ∧ ¬ registered s1 1 anim_handler.attack_anim_finish)
    ∧ (on_attack_anim_finish scenario_world lethal_state scenario_attacker = none ↔
        ∃ target, G_EntityForUID lethal_state 2 = some target
          ∧ target.flags.zombie = false ∧ combatstate_get lethal_state.table 2 = none) :=
  C5_attacker_returns_to_ready scenario_world lethal_state scenario_attacker
    (ex_record 10 0 10 COMBAT_STANCE_AGGRESSIVE STATE_ATTACK_ANIM_PLAYING 2)
    rfl rfl (by decide)

theorem attack_resolved_hp_of (s : State) (self : entity) (u : Nat) :
    hp_of (attack_resolved s self) u = hp_of s u := by
  simp only [hp_of, attack_resolved_get]
  by_cases h : u = self.uid
  · rw [if_pos h]
    cases combatstate_get s.table u <;> rfl
  · rw [if_neg h]

/-- The comparison with the melee range is that of the rounded distance: in `edge_world`
the target stands `5.3f - 0.3f` from the attacker, which exceeds 5 in exact arithmetic;
the subtraction rounds to `5.0f`, the hit is applied and the target is killed. -/
theorem edge_world_hit_is_applied :
    (∃ d, spec_surface_distance edge_world scenario_attacker edge_target = some d ∧ 5 < d)
    ∧ ents_distance edge_world scenario_attacker edge_target = 5
    ∧ (on_attack_anim_finish edge_world edge_state scenario_attacker).map
        (fun s1 => (hp_of s1 2, phase_of s1 2, s1.dying))
      = some (some 0, some STATE_DEATH_ANIM_PLAYING, [2]) := by
  refine ⟨⟨83886083 / 16777216, by decide!, by norm_num⟩, by decide!, by decide!⟩

/-! ## Hit-point bounds -/

theorem hp_after_hit_congr (cs tcs tcs1 : combatstate) (hhp : tcs1.current_hp = tcs.current_hp)
    (hstats : tcs1.stats = tcs.stats) : hp_after_hit cs tcs1 = hp_after_hit cs tcs := by
  simp [hp_after_hit, hit_damage, hhp, hstats]

/-- The hit points that a hit stores, for hit points up to `2 ^ 24` and a damage that is
not negative: they are not negative, and exceed neither the old hit points nor, for
negative old hit points, zero. -/
theorem hp_after_hit_bounds (cs tcs : combatstate) (hh : tcs.current_hp ≤ 16777216)
    (hd : 0 ≤ hit_damage cs tcs) :
    0 ≤ hp_after_hit cs tcs ∧ hp_after_hit cs tcs ≤ max tcs.current_hp 0 :=
  hit_value_bounds tcs.current_hp (hit_damage cs tcs) hh hd

/-- The damage of a hit is not negative for a base damage from 0 to `2 ^ 24` and an
armour fraction from 0 to 1, the valid range that `struct combatstats` documents. -/
theorem hit_damage_nonneg (cs tcs : combatstate) (a : ℚ)
    (hb0 : 0 ≤ cs.stats.base_dmg) (hb : cs.stats.base_dmg ≤ 16777216)
    (harm : tcs.stats.base_armour_pc = c_float.fin a) (ha0 : 0 ≤ a) (ha : a ≤ 1) :
    0 ≤ hit_damage cs tcs := by
  unfold hit_damage
  rw [harm]
  exact damage_nonneg _ a hb0 hb ha0 ha

/-- The hit points of a record after `hit_applied`: those of the target are the new
value, all others are unchanged. -/
theorem hit_applied_hp_of (s : State) (self : entity) (t : Nat) (hp : Int) (u : Nat)
    (tcs : combatstate) (hu : combatstate_get s.table u = some tcs) :
    hp_of (hit_applied s self t hp) u = if u = t then some hp else some tcs.current_hp := by
  obtain ⟨tcs1, h1, hhp, -, -, -⟩ := attack_resolved_target s self hu
  by_cases h : u = t
  · subst h
    simp [hp_of, hit_applied_get, h1]
  · simp [hp_of, hit_applied_get, h1, h, hhp]

/-- C2 (counterexample): the hit points leave the range from 0 to the maximum hit points
in three ways.  `G_Combat_SetHP` with the negative value -5 on an entity with maximum
hit points 10 stores -5.  A hit with damage 0 on a target with 16777219 hit points, its
maximum, stores 16777220: the conversion of the hit points to `float` rounds.  A hit with
base damage 10 on a target with the armour fraction 2 and 10 hit points, its maximum,
stores 20: the damage is negative. -/
theorem C2_hp_leaves_range :
    (G_Combat_SetHP scenario_state scenario_target (-5)).map (fun s1 => hp_of s1 2)
      = some (some (-5))
    ∧ (¬ ∃ s1 hp1, G_Combat_SetHP scenario_state scenario_target (-5) = some s1
        ∧ hp_of s1 2 = some hp1 ∧ 0 ≤ hp1 ∧ hp1 ≤ scenario_target.max_hp)
    ∧ big_hp_target.max_hp = 16777219
    ∧ hp_of big_hp_state 2 = some 16777219
    ∧ (on_attack_anim_finish scenario_world big_hp_state scenario_attacker).map
        (fun s1 => hp_of s1 2) = some (some 16777220)
    ∧ scenario_target.max_hp = 10
    ∧ hp_of negative_damage_state 2 = some 10
    ∧ (on_attack_anim_finish scenario_world negative_damage_state scenario_attacker).map
        (fun s1 => hp_of s1 2) = some (some 20) := by
  have hrun : (G_Combat_SetHP scenario_state scenario_target (-5)).map (fun s1 => hp_of s1 2)
      = some (some (-5)) := by decide!
  refine ⟨hrun, ?_, rfl, by decide!, by decide!, rfl, by decide!, by decide!⟩
  rintro ⟨s1, hp1, h1, hhp, h0, -⟩
  rw [h1] at hrun
  simp only [Option.map_some', Option.some.injEq] at hrun
  rw [hrun] at hhp
  have : hp1 = -5 := (Option.some.inj hhp).symm
  omega

/-- C2 (amended): `G_Combat_SetHP` returns for every entity with a record, stores the
minimum of the given value and the maximum hit points of the entity, and leaves the other
records alone; the stored value is at most the maximum hit points, and is not negative
when neither the given value nor the maximum hit points are.  Attack resolution changes
the hit points of no record but that of the target of the attacker, for which it stores
the value of the damage formula; when the old hit points are at most 2 ^ 24 and the
damage that the formula computes is not negative, that value is not negative and exceeds
neither the old hit points nor, for negative old hit points, zero. -/
theorem C2_hp_bounds :
    (∀ (s : State) (ent : entity) (hp : Int) (cs : combatstate),
      combatstate_get s.table ent.uid = some cs →
      ∃ s1, G_Combat_SetHP s ent hp = some s1
        ∧ combatstate_get s1.table ent.uid = some { cs with current_hp := min hp ent.max_hp }
        ∧ (∀ u, u ≠ ent.uid → combatstate_get s1.table u = combatstate_get s.table u)
        ∧ min hp ent.max_hp ≤ ent.max_hp
        ∧ (0 ≤ hp → 0 ≤ ent.max_hp → 0 ≤ min hp ent.max_hp))
    ∧ (∀ (w : World) (s s1 : State) (self : entity) (cs : combatstate),
      combatstate_get s.table self.uid = some cs →
      on_attack_anim_finish w s self = some s1 →
      ∀ u tcs, combatstate_get s.table u = some tcs →
        hp_of s1 u = some tcs.current_hp
        ∨ (u = cs.target_uid ∧ hp_of s1 u = some (hp_after_hit cs tcs)
            ∧ (tcs.current_hp ≤ 16777216 → 0 ≤ hit_damage cs tcs →
                0 ≤ hp_after_hit cs tcs ∧ hp_after_hit cs tcs ≤ max tcs.current_hp 0))) := by
  constructor
  · intro s ent hp cs hcs
    have hmin : MIN hp ent.max_hp = min hp ent.max_hp := by
      unfold MIN
      split_ifs with h
      · exact (min_eq_left (le_of_lt h)).symm
      · exact (min_eq_right (not_lt.mp h)).symm
    have hrun : G_Combat_SetHP s ent hp = some { s with table := (combatstate_modify
        (fun c => { c with current_hp := MIN hp ent.max_hp }) s.table ent.uid) } := by
      simp only [G_Combat_SetHP, hcs]
    refine ⟨_, hrun, ?_, ?_, min_le_right _ _, fun h0 hm => le_min h0 hm⟩
    · simp [combatstate_get_modify_self, hcs, hmin]
    · intro u hu
      exact combatstate_get_modify_other _ _ hu
  · intro w s s1 self cs hcs hrun u tcs hu
    have hres : hp_of (attack_resolved s self) u = some tcs.current_hp := by
      rw [attack_resolved_hp_of]; simp [hp_of, hu]
    have hhit : ∀ tcs1, combatstate_get (attack_resolved s self).table cs.target_uid
          = some tcs1 →
        hp_of (hit_applied s self cs.target_uid (hp_after_hit cs tcs1)) u
            = some tcs.current_hp
        ∨ (u = cs.target_uid
            ∧ hp_of (hit_applied s self cs.target_uid (hp_after_hit cs tcs1)) u
                = some (hp_after_hit cs tcs)
            ∧ (tcs.current_hp ≤ 16777216 → 0 ≤ hit_damage cs tcs →
                0 ≤ hp_after_hit cs tcs ∧ hp_after_hit cs tcs ≤ max tcs.current_hp 0)) := by
      intro tcs1 htcs1
      rw [hit_applied_hp_of s self _ _ u tcs hu]
      by_cases h : u = cs.target_uid
      · right
        obtain ⟨tcs2, h2, hhp, hstats, -, -⟩ := attack_resolved_target s self hu
        rw [h, htcs1] at h2
        have h12 : tcs1 = tcs2 := Option.some.inj h2
        rw [if_pos h, h12, hp_after_hit_congr cs tcs tcs2 hhp hstats]
        exact ⟨h, rfl, hp_after_hit_bounds cs tcs⟩
      · left
        rw [if_neg h]
    by_cases hst : cs.state = STATE_ATTACK_ANIM_PLAYING
    · rw [on_attack_anim_finish_eq w s self cs hcs hst] at hrun
      cases htar : G_EntityForUID s cs.target_uid with
      | none =>
        simp only [htar, Option.some.injEq] at hrun
        rw [← hrun]; exact Or.inl hres
      | some target =>
        simp only [htar] at hrun
        split at hrun
        · rw [← Option.some.inj hrun]; exact Or.inl hres
        · split at hrun
          · exact absurd hrun (by simp)
          · rename_i tcs1 htcs1
            split at hrun
            · rw [← Option.some.inj hrun]; exact Or.inl hres
            · split at hrun
              · split at hrun
                · rw [← Option.some.inj hrun, kill_target_hp_of]
                  exact hhit tcs1 htcs1
                · rw [← Option.some.inj hrun]; exact hhit tcs1 htcs1
              · rw [← Option.some.inj hrun]; exact Or.inl hres
    · simp [on_attack_anim_finish, E_Entity_Unregister, hcs, hst] at hrun

theorem lethal_state_run :
    on_attack_anim_finish scenario_world lethal_state scenario_attacker
      = some lethal_state_after := by decide!

/-- C2 (witness): `G_Combat_SetHP` with 25 on an entity with maximum hit points 10, and
attack resolution at a state where the hit is lethal. -/
theorem C2_hp_bounds_witness :
    (∃ s1, G_Combat_SetHP scenario_state scenario_target 25 = some s1
        ∧ combatstate_get s1.table 2
            = some { ex_record 0 (1 / 2) 10 COMBAT_STANCE_AGGRESSIVE STATE_NOT_IN_COMBAT 0 with
                current_hp := min 25 10 }
        ∧ (∀ u, u ≠ 2 → combatstate_get s1.table u = combatstate_get scenario_state.table u)
        ∧ min (25 : Int) 10 ≤ 10
        ∧ ((0 : Int) ≤ 25 → (0 : Int) ≤ 10 → (0 : Int) ≤ min 25 10))
    ∧ (hp_of lethal_state_after 2 = some 10
        ∨ (2 = 2 ∧ hp_of lethal_state_after 2
              = some (hp_after_hit
                  (ex_record 10 0 10 COMBAT_STANCE_AGGRESSIVE STATE_ATTACK_ANIM_PLAYING 2)
                  (ex_record 0 0 10 COMBAT_STANCE_AGGRESSIVE STATE_ATTACK_ANIM_PLAYING 1))
            ∧ ((10 : Int) ≤ 16777216 →
                0 ≤ hit_damage
                  (ex_record 10 0 10 COMBAT_STANCE_AGGRESSIVE STATE_ATTACK_ANIM_PLAYING 2)
                  (ex_record 0 0 10 COMBAT_STANCE_AGGRESSIVE STATE_ATTACK_ANIM_PLAYING 1) →
                0 ≤ hp_after_hit
                  (ex_record 10 0 10 COMBAT_STANCE_AGGRESSIVE STATE_ATTACK_ANIM_PLAYING 2)
                  (ex_record 0 0 10 COMBAT_STANCE_AGGRESSIVE STATE_ATTACK_ANIM_PLAYING 1)
                ∧ hp_after_hit
                  (ex_record 10 0 10 COMBAT_STANCE_AGGRESSIVE STATE_ATTACK_ANIM_PLAYING 2)
                  (ex_record 0 0 10 COMBAT_STANCE_AGGRESSIVE STATE_ATTACK_ANIM_PLAYING 1)
                  ≤ max 10 0))) :=
  ⟨C2_hp_bounds.1 scenario_state scenario_target 25
      (ex_record 0 (1 / 2) 10 COMBAT_STANCE_AGGRESSIVE STATE_NOT_IN_COMBAT 0) rfl,
    C2_hp_bounds.2 scenario_world lethal_state lethal_state_after scenario_attacker
      (ex_record 10 0 10 COMBAT_STANCE_AGGRESSIVE STATE_ATTACK_ANIM_PLAYING 2) rfl
      lethal_state_run 2
      (ex_record 0 0 10 COMBAT_STANCE_AGGRESSIVE STATE_ATTACK_ANIM_PLAYING 1) rfl⟩

/-! ## Target acquisition -/

theorem closest_enemy_loop_cons (w : World) (tbl : List (Nat × combatstate))
    (ent curr : entity) (rest : List entity) (md : c_float) (ret : Option entity) :
    closest_enemy_loop w tbl ent (curr :: rest) md ret =
      match candidate_filter w tbl ent curr with
      | none => none
      | some false => closest_enemy_loop w tbl ent rest md ret
      | some true =>
        if ents_distance w ent curr < md then
          closest_enemy_loop w tbl ent rest (ents_distance w ent curr) (some curr)
        else closest_enemy_loop w tbl ent rest md ret := by
  rw [closest_enemy_loop]
  unfold candidate_filter
  by_cases h1 : curr.uid = ent.uid
  · simp [h1]
  · by_cases h2 : curr.flags.combatable = true
    · by_cases h3 : curr.flags.zombie = true
      · simp [h1, h2, h3]
      · simp only [h1, h2, h3, if_false, Bool.not_true, Bool.false_eq_true]
        cases henemy : enemies w ent curr with
        | none => rfl
        | some b =>
          cases b with
          | false => rfl
          | true =>
            simp only []
            cases hget : combatstate_get tbl curr.uid with
            | none => rfl
            | some cs =>
              by_cases hd : cs.state = STATE_DEATH_ANIM_PLAYING <;> simp [hd]
    · simp [h1, h2]

theorem candidate_filter_true_iff (w : World) (tbl : List (Nat × combatstate))
    (ent curr : entity) :
    candidate_filter w tbl ent curr = some true ↔ valid_enemy w tbl ent curr := by
  unfold candidate_filter valid_enemy enemies
  by_cases h1 : curr.uid = ent.uid
  · simp [h1]
  · by_cases h2 : curr.flags.combatable = true
    · by_cases h3 : curr.flags.zombie = true
      · simp [h1, h2, h3]
      · by_cases h4 : ent.faction_id = curr.faction_id
        · simp [h1, h2, h3, h4]
        · have h4b : curr.faction_id ≠ ent.faction_id := fun h => h4 h.symm
          cases hdip : w.G_GetDiplomacyState ent.faction_id curr.faction_id with
          | none => simp [h1, h2, h3, h4]
          | some ds =>
            by_cases hwar : ds = DIPLOMACY_STATE_WAR
            · cases hget : combatstate_get tbl curr.uid with
              | none => simp [h1, h2, h3, h4, hwar]
              | some cs => simp [h1, h2, h3, h4, h4b, hwar]
            · simp [h1, h2, h3, h4, hwar]
    · simp [h1, h2]

/-- The invariant of the loop of `closest_enemy_in_range`: either no valid enemy is below
the incoming minimum, or the result is a valid enemy below the incoming minimum such that
no valid enemy before it is as close and no valid enemy after it is closer.  The
comparisons are those of `float`, which fail on a NaN. -/
theorem closest_enemy_loop_spec (w : World) (tbl : List (Nat × combatstate)) (ent : entity)
    (l : List entity) :
    ∀ (md : c_float) (ret r : Option entity), closest_enemy_loop w tbl ent l md ret = some r →
      (r = ret ∧ ∀ c ∈ l, valid_enemy w tbl ent c → ¬ ents_distance w ent c < md)
      ∨ ∃ e pre post, r = some e ∧ l = pre ++ e :: post ∧ valid_enemy w tbl ent e
          ∧ ents_distance w ent e < md
          ∧ (∀ c ∈ pre, valid_enemy w tbl ent c →
              ¬ ents_distance w ent c ≤ ents_distance w ent e)
          ∧ (∀ c ∈ post, valid_enemy w tbl ent c →
              ¬ ents_distance w ent c < ents_distance w ent e) := by
  induction l with
  | nil =>
    intro md ret r h
    simp only [closest_enemy_loop, Option.some.injEq] at h
    exact Or.inl ⟨h.symm, fun c hc => absurd hc (List.not_mem_nil c)⟩
  | cons curr rest ih =>
    intro md ret r h
    rw [closest_enemy_loop_cons] at h
    cases hf : candidate_filter w tbl ent curr with
    | none => rw [hf] at h; exact absurd h (by simp)
    | some b =>
      rw [hf] at h
      cases b with
      | false =>
        have hnv : ¬ valid_enemy w tbl ent curr := by
          rw [← candidate_filter_true_iff, hf]; simp
        simp only [] at h
        rcases ih md ret r h with ⟨hr, hall⟩ | ⟨e, pre, post, hr, hl, hv, hlt, hpre, hpost⟩
        · refine Or.inl ⟨hr, ?_⟩
          intro c hc hvc
          rcases List.mem_cons.mp hc with rfl | hc
          · exact absurd hvc hnv
          · exact hall c hc hvc
        · refine Or.inr ⟨e, curr :: pre, post, hr, by rw [hl]; rfl, hv, hlt, ?_, hpost⟩
          intro c hc hvc
          rcases List.mem_cons.mp hc with rfl | hc
          · exact absurd hvc hnv
          · exact hpre c hc hvc
      | true =>
        have hvcurr : valid_enemy w tbl ent curr := (candidate_filter_true_iff _ _ _ _).mp hf
        simp only [] at h
        by_cases hlt : ents_distance w ent curr < md
        · rw [if_pos hlt] at h
          rcases ih _ _ r h with ⟨hr, hall⟩ | ⟨e, pre, post, hr, hl, hv, hlt2, hpre, hpost⟩
          · exact Or.inr ⟨curr, [], rest, hr, rfl, hvcurr, hlt,
              fun c hc => absurd hc (List.not_mem_nil c), hall⟩
          · refine Or.inr ⟨e, curr :: pre, post, hr, by rw [hl]; rfl, hv,
              c_float_lt_trans hlt2 hlt, ?_, hpost⟩
            intro c hc hvc
            rcases List.mem_cons.mp hc with rfl | hc
            · exact c_float_not_le_of_lt hlt2
            · exact hpre c hc hvc
        · rw [if_neg hlt] at h
          rcases ih md ret r h with ⟨hr, hall⟩ | ⟨e, pre, post, hr, hl, hv, hlt2, hpre, hpost⟩
          · refine Or.inl ⟨hr, ?_⟩
            intro c hc hvc
            rcases List.mem_cons.mp hc with rfl | hc
            · exact hlt
            · exact hall c hc hvc
          · refine Or.inr ⟨e, curr :: pre, post, hr, by rw [hl]; rfl, hv, hlt2, ?_, hpost⟩
            intro c hc hvc
            rcases List.mem_cons.mp hc with rfl | hc
            · exact fun hle => hlt (c_float_lt_of_le_of_lt hle hlt2)
            · exact hpre c hc hvc

/-- The loop of `closest_enemy_in_range` returns when no `assert` fails on a candidate. -/
theorem closest_enemy_loop_returns (w : World) (tbl : List (Nat × combatstate))
    (ent : entity) (l : List entity)
    (hok : ∀ c ∈ l, candidate_filter w tbl ent c ≠ none) :
    ∀ (md : c_float) (ret : Option entity),
      ∃ r, closest_enemy_loop w tbl ent l md ret = some r := by
  induction l with
  | nil => intro md ret; exact ⟨ret, rfl⟩
  | cons curr rest ih =>
    intro md ret
    have ih2 := ih (fun c hc => hok c (List.mem_cons_of_mem _ hc))
    rw [closest_enemy_loop_cons]
    cases hf : candidate_filter w tbl ent curr with
    | none => exact absurd hf (hok curr (List.mem_cons_self _ _))
    | some b =>
      cases b with
      | false => exact ih2 md ret
      | true =>
        simp only []
        split_ifs
        · exact ih2 _ _
        · exact ih2 _ _

theorem candidate_filter_ne_none (w : World) (tbl : List (Nat × combatstate))
    (ent c : entity)
    (hdip : w.G_GetDiplomacyState ent.faction_id c.faction_id ≠ none)
    (hrec : c.flags.combatable = true → combatstate_get tbl c.uid ≠ none) :
    candidate_filter w tbl ent c ≠ none := by
  unfold candidate_filter enemies
  by_cases h1 : c.uid = ent.uid
  · simp [h1]
  · by_cases h2 : c.flags.combatable = true
    · by_cases h3 : c.flags.zombie = true
      · simp [h1, h2, h3]
      · by_cases h4 : ent.faction_id = c.faction_id
        · simp [h1, h2, h3, h4]
        · cases hd : w.G_GetDiplomacyState ent.faction_id c.faction_id with
          | none => exact absurd hd hdip
          | some ds =>
            cases hg : combatstate_get tbl c.uid with
            | none => exact absurd hg (hrec h2)
            | some cs =>
              by_cases hwar : ds = DIPLOMACY_STATE_WAR <;> simp [h1, h2, h3, h4, hwar]
    · simp [h1, h2]

/-- C7: whatever the spatial query returns, an entity returned by
`closest_enemy_in_range` is one of the candidates and is not the querying entity, not of
the same faction, of a faction at war with the querying one, combat-capable, not a
zombie, and has a record whose phase is not Dying. -/
theorem C7_closest_enemy_is_valid (w : World) (tbl : List (Nat × combatstate))
    (ent e : entity) (h : closest_enemy_in_range w tbl ent = some (some e)) :
    e ∈ near_ents w ent
    ∧ e.uid ≠ ent.uid
    ∧ e.faction_id ≠ ent.faction_id
    ∧ w.G_GetDiplomacyState ent.faction_id e.faction_id = some DIPLOMACY_STATE_WAR
    ∧ e.flags.combatable = true
    ∧ e.flags.zombie = false
    ∧ ∃ cs, combatstate_get tbl e.uid = some cs ∧ cs.state ≠ STATE_DEATH_ANIM_PLAYING := by
  rcases closest_enemy_loop_spec w tbl ent _ _ _ _ h with ⟨hr, -⟩
    | ⟨e1, pre, post, hr, hl, hv, -, -, -⟩
  · exact absurd hr (by simp)
  · have he : e = e1 := Option.some.inj hr
    subst he
    obtain ⟨h1, h2, h3, h4, h5, h6⟩ := hv
    exact ⟨by rw [hl]; simp, h1, h4, h5, h2, h3, h6⟩

/-- C7 (witness): in the acquisition example the entity returned for entity `1` is the
enemy `2`. -/
theorem C7_closest_enemy_is_valid_witness :
    ex_entity 2 1 10 ∈ near_ents acquisition_world (ex_entity 1 0 10)
    ∧ (ex_entity 2 1 10).uid ≠ (ex_entity 1 0 10).uid
    ∧ (ex_entity 2 1 10).faction_id ≠ (ex_entity 1 0 10).faction_id
    ∧ acquisition_world.G_GetDiplomacyState (ex_entity 1 0 10).faction_id
        (ex_entity 2 1 10).faction_id = some DIPLOMACY_STATE_WAR
    ∧ (ex_entity 2 1 10).flags.combatable = true
    ∧ (ex_entity 2 1 10).flags.zombie = false
    ∧ ∃ cs, combatstate_get acquisition_table (ex_entity 2 1 10).uid = some cs
        ∧ cs.state ≠ STATE_DEATH_ANIM_PLAYING :=
  C7_closest_enemy_is_valid acquisition_world acquisition_table (ex_entity 1 0 10)
    (ex_entity 2 1 10) (by decide!)

/-- C8 (counterexample): the distances that the code compares are rounded.  In
`tie_world` the enemies `2` and `6` both stand 10 units from entity `1`; the radius of
`2` is `0.3f` and that of `6` is the next `float` above `0.3f`, so that `6` is strictly
closer surface to surface.  Both computed distances round to the same `float`, and the
code returns `2`, which is listed first.  In `remote_world` the only enemy stands 3
units away and has the selection radius `-FLT_MAX`; its computed distance is `FLT_MAX`,
the initial minimum, and the code returns none although the enemy survives the
filters. -/
theorem C8_rounded_tie_returns_farther :
    f32_round (10066331 / 33554432) = c_float.fin (10066331 / 33554432)
    ∧ closest_enemy_in_range tie_world tie_table (ex_entity 1 0 10) = some (some tie_enemy_a)
    ∧ valid_enemy tie_world tie_table (ex_entity 1 0 10) tie_enemy_b
    ∧ tie_enemy_b ∈ near_ents tie_world (ex_entity 1 0 10)
    ∧ (∃ da db, spec_surface_distance tie_world (ex_entity 1 0 10) tie_enemy_a = some da
        ∧ spec_surface_distance tie_world (ex_entity 1 0 10) tie_enemy_b = some db
        ∧ db < da)
    ∧ ents_distance tie_world (ex_entity 1 0 10) tie_enemy_a
        = ents_distance tie_world (ex_entity 1 0 10) tie_enemy_b
    ∧ ents_distance remote_world (ex_entity 1 0 10) remote_enemy = FLT_MAX
    ∧ closest_enemy_in_range remote_world acquisition_table (ex_entity 1 0 10) = some none
    ∧ valid_enemy remote_world acquisition_table (ex_entity 1 0 10) remote_enemy
    ∧ remote_enemy ∈ near_ents remote_world (ex_entity 1 0 10) := by
  refine ⟨by decide!, by decide!, ?_, by decide!, ?_, by decide!, by decide!, by decide!, ?_,
    by decide!⟩
  · rw [← candidate_filter_true_iff]
    decide!
  · refine ⟨162738995 / 16777216, 325477989 / 33554432, by decide!, by decide!, ?_⟩
    norm_num
  · rw [← candidate_filter_true_iff]
    decide!

/-- C8 (amended): a result of `closest_enemy_in_range` is none exactly when no surviving
candidate has a computed distance below `FLT_MAX`, the initial minimum; otherwise it is a
surviving candidate whose computed distance is below `FLT_MAX`, such that no surviving
candidate has a smaller computed distance (the returned one is at least as close as every
survivor whose computed distance is not a NaN) and no surviving candidate listed before
it is as close: a closest one, and the first of the closest in the candidate list.  The
computed distance is that of `ents_distance`, in binary32 with both subtractions rounded.
The function returns whenever the diplomacy query succeeds for every candidate and every
combat-capable candidate has a record. -/
theorem C8_closest_enemy_minimal (w : World) (tbl : List (Nat × combatstate)) (ent : entity) :
    (∀ r, closest_enemy_in_range w tbl ent = some r →
      (r = none ↔ ∀ c ∈ near_ents w ent, valid_enemy w tbl ent c →
          ¬ ents_distance w ent c < FLT_MAX)
      ∧ ∀ e, r = some e →
          valid_enemy w tbl ent e
          ∧ ents_distance w ent e < FLT_MAX
          ∧ (∀ c ∈ near_ents w ent, valid_enemy w tbl ent c →
              ¬ ents_distance w ent c < ents_distance w ent e)
          ∧ (∀ c ∈ near_ents w ent, valid_enemy w tbl ent c →
              ents_distance w ent c ≠ c_float.nan →
              ents_distance w ent e ≤ ents_distance w ent c)
          ∧ ∃ pre post, near_ents w ent = pre ++ e :: post
              ∧ ∀ c ∈ pre, valid_enemy w tbl ent c →
                  ¬ ents_distance w ent c ≤ ents_distance w ent e)
    ∧ ((∀ c ∈ near_ents w ent, w.G_GetDiplomacyState ent.faction_id c.faction_id ≠ none) →
        (∀ c ∈ near_ents w ent, c.flags.combatable = true → combatstate_get tbl c.uid ≠ none) →
        ∃ r, closest_enemy_in_range w tbl ent = some r) := by
  constructor
  · intro r hrun
    rcases closest_enemy_loop_spec w tbl ent _ _ _ _ hrun with ⟨hr, hall⟩
      | ⟨e1, pre, post, hr, hl, hv, hlt, hpre, hpost⟩
    · refine ⟨⟨fun _ => hall, fun _ => hr⟩, ?_⟩
      intro e he
      rw [hr] at he
      exact absurd he (by simp)
    · have hmem : e1 ∈ near_ents w ent := by rw [hl]; simp
      refine ⟨⟨fun h => ?_, fun h => absurd hlt (h e1 hmem hv)⟩, ?_⟩
      · rw [hr] at h; exact absurd h (by simp)
      · intro e he
        rw [hr] at he
        have : e1 = e := Option.some.inj he
        subst this
        have hnot : ∀ c ∈ near_ents w ent, valid_enemy w tbl ent c →
            ¬ ents_distance w ent c < ents_distance w ent e1 := by
          intro c hc hvc
          rw [hl] at hc
          rcases List.mem_append.mp hc with hc | hc
          · exact fun hlt2 => hpre c hc hvc (c_float_le_of_lt hlt2)
          · rcases List.mem_cons.mp hc with rfl | hc
            · exact c_float_lt_irrefl _
            · exact hpost c hc hvc
        refine ⟨hv, hlt, hnot, ?_, pre, post, hl, hpre⟩
        intro c hc hvc hnan
        exact c_float_le_of_not_lt hnan (c_float_ne_nan_of_lt hlt).1 (hnot c hc hvc)
  · intro hdip hrec
    exact closest_enemy_loop_returns w tbl ent _
      (fun c hc => candidate_filter_ne_none w tbl ent c (hdip c hc) (hrec c hc)) _ _

/-- C8 (witness): in the acquisition example the enemies `2` and `6` are both 3 units
away and `2`, listed first, is returned. -/
theorem C8_closest_enemy_minimal_witness :
    closest_enemy_in_range acquisition_world acquisition_table (ex_entity 1 0 10)
      = some (some (ex_entity 2 1 10))
    ∧ ents_distance acquisition_world (ex_entity 1 0 10) (ex_entity 2 1 10)
      = ents_distance acquisition_world (ex_entity 1 0 10) (ex_entity 6 1 10)
    ∧ ((some (ex_entity 2 1 10) = none ↔
        ∀ c ∈ near_ents acquisition_world (ex_entity 1 0 10),
          valid_enemy acquisition_world acquisition_table (ex_entity 1 0 10) c →
          ¬ ents_distance acquisition_world (ex_entity 1 0 10) c < FLT_MAX)
      ∧ ∀ e, some (ex_entity 2 1 10) = some e →
          valid_enemy acquisition_world acquisition_table (ex_entity 1 0 10) e
          ∧ ents_distance acquisition_world (ex_entity 1 0 10) e < FLT_MAX
          ∧ (∀ c ∈ near_ents acquisition_world (ex_entity 1 0 10),
              valid_enemy acquisition_world acquisition_table (ex_entity 1 0 10) c →
              ¬ ents_distance acquisition_world (ex_entity 1 0 10) c
                < ents_distance acquisition_world (ex_entity 1 0 10) e)
          ∧ (∀ c ∈ near_ents acquisition_world (ex_entity 1 0 10),
              valid_enemy acquisition_world acquisition_table (ex_entity 1 0 10) c →
              ents_distance acquisition_world (ex_entity 1 0 10) c ≠ c_float.nan →
              ents_distance acquisition_world (ex_entity 1 0 10) e
                ≤ ents_distance acquisition_world (ex_entity 1 0 10) c)
          ∧ ∃ pre post, near_ents acquisition_world (ex_entity 1 0 10) = pre ++ e :: post
              ∧ ∀ c ∈ pre,
                  valid_enemy acquisition_world acquisition_table (ex_entity 1 0 10) c →
                  ¬ ents_distance acquisition_world (ex_entity 1 0 10) c
                    ≤ ents_distance acquisition_world (ex_entity 1 0 10) e) :=
  ⟨by decide!, by decide!,
    (C8_closest_enemy_minimal acquisition_world acquisition_table (ex_entity 1 0 10)).1
      (some (ex_entity 2 1 10)) (by decide!)⟩

/-! ## The tick -/

theorem combatstate_modify_modify (f g : combatstate → combatstate)
    (tbl : List (Nat × combatstate)) (u : Nat) :
    combatstate_modify g (combatstate_modify f tbl u) u = combatstate_modify (g ∘ f) tbl u := by
  induction tbl with
  | nil => rfl
  | cons p rest ih =>
    obtain ⟨k, c⟩ := p
    by_cases hk : k = u
    · simp [combatstate_modify, hk]
    · simp [combatstate_modify, hk, ih]

theorem combatstate_modify_id (tbl : List (Nat × combatstate)) (u : Nat) :
    combatstate_modify id tbl u = tbl := by
  induction tbl with
  | nil => rfl
  | cons p rest ih =>
    obtain ⟨k, c⟩ := p
    by_cases hk : k = u
    · simp [combatstate_modify, hk]
    · simp [combatstate_modify, hk, ih]

theorem tick_entity_modify (w : World) (s s1 : State) (curr : entity)
    (h : tick_entity w s curr = some s1) :
    ∃ f, s1.table = combatstate_modify f s.table curr.uid
      ∧ (∀ c, combatstate_get s.table curr.uid = some c → record_kept c (f c))
      ∧ s1.dying = s.dying ∧ s1.ents = s.ents := by
  have hid : ∃ f, s.table = combatstate_modify f s.table curr.uid
      ∧ (∀ c, combatstate_get s.table curr.uid = some c → record_kept c (f c))
      ∧ s.dying = s.dying ∧ s.ents = s.ents :=
    ⟨id, (combatstate_modify_id _ _).symm, fun c _ => ⟨rfl, rfl, rfl, Iff.rfl, id⟩, rfl, rfl⟩
  have hkept : ∀ f : combatstate → combatstate,
      (∀ c, c.state ≠ STATE_DEATH_ANIM_PLAYING → record_kept c (f c)) →
      ∀ cs, combatstate_get s.table curr.uid = some cs → cs.state ≠ STATE_DEATH_ANIM_PLAYING →
      ∀ c, combatstate_get s.table curr.uid = some c → record_kept c (f c) := by
    intro f hf cs hcs hne c hc
    have := Option.some.inj (hcs.symm.trans hc)
    subst this
    exact hf _ hne
  unfold tick_entity at h
  split at h
  · rw [← Option.some.inj h]; exact hid
  · split at h
    · exact absurd h (by simp)
    · rename_i cs hcs
      split at h
      · rename_i hst
        have hne : cs.state ≠ STATE_DEATH_ANIM_PLAYING := by rw [hst]; decide
        unfold tick_not_in_combat at h
        repeat' (first | split at h | (dsimp only at h; split at h))
        all_goals first
          | exact (Option.some_ne_none _ h.symm).elim
          | (rw [← Option.some.inj h]; exact hid)
          | (rw [← Option.some.inj h]
             exact ⟨_, rfl, hkept _ (fun c hc => by simp [record_kept, phase_known, hc]) cs hcs hne, rfl, rfl⟩)
          | (rw [← Option.some.inj h]
             exact ⟨_, combatstate_modify_modify _ _ _ _,
               hkept _ (fun c hc => by simp [record_kept, phase_known, hc]) cs hcs hne, rfl, rfl⟩)
      · rename_i hst
        have hne : cs.state ≠ STATE_DEATH_ANIM_PLAYING := by rw [hst]; decide
        unfold tick_moving_to_target restore_move_cmd at h
        repeat' split at h
        all_goals first
          | exact (Option.some_ne_none _ h.symm).elim
          | (rw [← Option.some.inj h]; exact hid)
          | (rw [← Option.some.inj h]
             exact ⟨_, rfl, hkept _ (fun c hc => by simp [record_kept, phase_known, hc]) cs hcs hne, rfl, rfl⟩)
          | (rw [← Option.some.inj h]
             exact ⟨_, combatstate_modify_modify _ _ _ _,
               hkept _ (fun c hc => by simp [record_kept, phase_known, hc]) cs hcs hne, rfl, rfl⟩)
      · rename_i hst
        have hne : cs.state ≠ STATE_DEATH_ANIM_PLAYING := by rw [hst]; decide
        unfold tick_can_attack attack_ends restore_move_cmd at h
        repeat' split at h
        all_goals first
          | exact (Option.some_ne_none _ h.symm).elim
          | (rw [← Option.some.inj h]
             exact ⟨_, rfl, hkept _ (fun c hc => by simp [record_kept, phase_known, hc]) cs hcs hne, rfl, rfl⟩)
          | (rw [← Option.some.inj h]
             exact ⟨_, combatstate_modify_modify _ _ _ _,
               hkept _ (fun c hc => by simp [record_kept, phase_known, hc]) cs hcs hne, rfl, rfl⟩)
      · rw [← Option.some.inj h]; exact hid
      · rw [← Option.some.inj h]; exact hid
      · exact absurd h (by simp)

theorem tick_entity_get_other (w : World) (s s1 : State) (curr : entity)
    (h : tick_entity w s curr = some s1) {v : Nat} (hv : v ≠ curr.uid) :
    combatstate_get s1.table v = combatstate_get s.table v := by
  obtain ⟨f, htbl, -, -, -⟩ := tick_entity_modify w s s1 curr h
  rw [htbl, combatstate_get_modify_other _ _ hv]

theorem tick_entity_dying_view (w : World) (s s1 : State) (curr : entity)
    (h : tick_entity w s curr = some s1) (v : Nat) :
    dying_view s1.table v = dying_view s.table v := by
  obtain ⟨f, htbl, hkept, -, -⟩ := tick_entity_modify w s s1 curr h
  unfold dying_view
  by_cases hv : v = curr.uid
  · subst hv
    rw [htbl, combatstate_get_modify_self]
    cases hc : combatstate_get s.table curr.uid with
    | none => rfl
    | some c =>
      have := (hkept c hc).2.2.2.1
      simp [this]
  · rw [htbl, combatstate_get_modify_other _ _ hv]

theorem candidate_filter_congr (w : World) (t1 t2 : List (Nat × combatstate))
    (hview : ∀ v, dying_view t1 v = dying_view t2 v) (ent c : entity) :
    candidate_filter w t1 ent c = candidate_filter w t2 ent c := by
  have hv := hview c.uid
  unfold dying_view at hv
  unfold candidate_filter
  cases h1 : combatstate_get t1 c.uid with
  | none =>
    cases h2 : combatstate_get t2 c.uid with
    | none => rfl
    | some c2 => rw [h1, h2] at hv; exact absurd hv (by simp)
  | some c1 =>
    cases h2 : combatstate_get t2 c.uid with
    | none => rw [h1, h2] at hv; exact absurd hv (by simp)
    | some c2 =>
      rw [h1, h2] at hv
      have hiff : (c1.state = STATE_DEATH_ANIM_PLAYING) ↔ (c2.state = STATE_DEATH_ANIM_PLAYING) := by
        simpa using hv
      simp [hiff]

theorem closest_enemy_loop_congr (w : World) (t1 t2 : List (Nat × combatstate))
    (hview : ∀ v, dying_view t1 v = dying_view t2 v) (ent : entity) (l : List entity) :
    ∀ (md : c_float) (ret : Option entity),
      closest_enemy_loop w t1 ent l md ret = closest_enemy_loop w t2 ent l md ret := by
  induction l with
  | nil => intro md ret; rfl
  | cons curr rest ih =>
    intro md ret
    rw [closest_enemy_loop_cons, closest_enemy_loop_cons,
      candidate_filter_congr w t1 t2 hview ent curr]
    simp only [ih]

theorem closest_enemy_in_range_congr (w : World) (t1 t2 : List (Nat × combatstate))
    (hview : ∀ v, dying_view t1 v = dying_view t2 v) (ent : entity) :
    closest_enemy_in_range w t1 ent = closest_enemy_in_range w t2 ent :=
  closest_enemy_loop_congr w t1 t2 hview ent _ _ _

theorem valid_enemy_congr (w : World) (t1 t2 : List (Nat × combatstate))
    (hview : ∀ v, dying_view t1 v = dying_view t2 v) (ent c : entity) :
    valid_enemy w t1 ent c ↔ valid_enemy w t2 ent c := by
  rw [← candidate_filter_true_iff, ← candidate_filter_true_iff,
    candidate_filter_congr w t1 t2 hview]

/-- With no valid enemy among the candidates, a result of `closest_enemy_in_range` is
`NULL`. -/
theorem closest_enemy_none_of_no_valid (w : World) (tbl : List (Nat × combatstate))
    (ent : entity) (hno : ∀ c ∈ near_ents w ent, ¬ valid_enemy w tbl ent c)
    (r : Option entity) (h : closest_enemy_in_range w tbl ent = some r) : r = none := by
  rcases closest_enemy_loop_spec w tbl ent _ _ _ _ h with ⟨hr, -⟩
    | ⟨e, pre, post, -, hl, hv, -, -, -⟩
  · exact hr
  · exact absurd hv (hno e (by rw [hl]; simp))

/-- A tick of an entity out of combat with no valid enemy among its candidates changes
nothing. -/
theorem tick_entity_idle_no_enemy (w : World) (s s1 : State) (curr : entity)
    (cs : combatstate) (hcs : combatstate_get s.table curr.uid = some cs)
    (hst : cs.state = STATE_NOT_IN_COMBAT)
    (hno : ∀ c ∈ near_ents w curr, ¬ valid_enemy w s.table curr c)
    (h : tick_entity w s curr = some s1) : s1 = s := by
  unfold tick_entity at h
  split at h
  · exact (Option.some.inj h).symm
  · rw [hcs] at h
    simp only [hst] at h
    unfold tick_not_in_combat at h
    split at h
    · exact (Option.some.inj h).symm
    · cases hce : closest_enemy_in_range w s.table curr with
      | none => rw [hce] at h; exact (Option.some_ne_none _ h.symm).elim
      | some r =>
        have := closest_enemy_none_of_no_valid w s.table curr hno r hce
        subst this
        rw [hce] at h
        exact (Option.some.inj h).symm

/-- A tick of an entity out of combat whose stance is no-engagement changes nothing. -/
theorem tick_entity_idle_no_engagement (w : World) (s s1 : State) (curr : entity)
    (cs : combatstate) (hcs : combatstate_get s.table curr.uid = some cs)
    (hst : cs.state = STATE_NOT_IN_COMBAT)
    (hstance : cs.stance = COMBAT_STANCE_NO_ENGAGEMENT)
    (h : tick_entity w s curr = some s1) : s1 = s := by
  unfold tick_entity at h
  split at h
  · exact (Option.some.inj h).symm
  · rw [hcs] at h
    simp only [hst] at h
    unfold tick_not_in_combat at h
    rw [if_pos hstance] at h
    exact (Option.some.inj h).symm

/-- The loop of a tick keeps a record when every step on the entity of that record
changes nothing. -/
theorem tick_loop_keeps_record (w : World) (uid : Nat) (cs : combatstate)
    (l : List entity) :
    ∀ (s s1 : State), combatstate_get s.table uid = some cs →
      (∀ s2 s3 curr, curr ∈ l → curr.uid = uid → combatstate_get s2.table uid = some cs →
        (∀ v, dying_view s2.table v = dying_view s.table v) →
        tick_entity w s2 curr = some s3 → s3 = s2) →
      tick_loop w l s = some s1 →
      combatstate_get s1.table uid = some cs ∧ ∀ v, dying_view s1.table v = dying_view s.table v := by
  induction l with
  | nil =>
    intro s s1 hcs _ h
    simp only [tick_loop, Option.some.injEq] at h
    subst h
    exact ⟨hcs, fun _ => rfl⟩
  | cons curr rest ih =>
    intro s s1 hcs hstep h
    simp only [tick_loop] at h
    cases hte : tick_entity w s curr with
    | none => rw [hte] at h; exact (Option.some_ne_none _ h.symm).elim
    | some s2 =>
      rw [hte] at h
      have hview2 : ∀ v, dying_view s2.table v = dying_view s.table v :=
        tick_entity_dying_view w s s2 curr hte
      have hcs2 : combatstate_get s2.table uid = some cs := by
        by_cases hu : curr.uid = uid
        · have := hstep s s2 curr (List.mem_cons_self _ _) hu hcs (fun _ => rfl) hte
          rw [this]; exact hcs
        · rw [tick_entity_get_other w s s2 curr hte (fun h => hu h.symm)]; exact hcs
      have := ih s2 s1 hcs2 (fun s3 s4 c hc hcu hget hv hrun =>
        hstep s3 s4 c (List.mem_cons_of_mem _ hc) hcu hget
          (fun v => (hv v).trans (hview2 v)) hrun) h
      exact ⟨this.1, fun v => (this.2 v).trans (hview2 v)⟩
theorem get_ne_none_of_dying_view {t1 t2 : List (Nat × combatstate)}
    (hview : ∀ v, dying_view t1 v = dying_view t2 v) (v : Nat)
    (h : combatstate_get t2 v ≠ none) : combatstate_get t1 v ≠ none := by
  have hv := hview v
  unfold dying_view at hv
  intro h1
  rw [h1] at hv
  cases h2 : combatstate_get t2 v with
  | none => exact h h2
  | some c => rw [h2] at hv; exact absurd hv (by simp)

theorem enums_kept_refl (s : State) : enums_kept s s :=
  fun _ c1 h => ⟨c1, h, rfl, id⟩

theorem enums_kept_trans {s s1 s2 : State} (h1 : enums_kept s s1) (h2 : enums_kept s1 s2) :
    enums_kept s s2 := by
  intro v c2 hc2
  obtain ⟨c1, hc1, hs1, hp1⟩ := h2 v c2 hc2
  obtain ⟨c, hc, hs, hp⟩ := h1 v c1 hc1
  exact ⟨c, hc, hs1.trans hs, fun hk => hp1 (hp hk)⟩

/-- A step of a tick keeps the values of the enumerations. -/
theorem tick_entity_enums_kept (w : World) (s s1 : State) (curr : entity)
    (h : tick_entity w s curr = some s1) : enums_kept s s1 := by
  obtain ⟨f, htbl, hkept, -, -⟩ := tick_entity_modify w s s1 curr h
  intro v c1 hc1
  rw [htbl] at hc1
  by_cases hv : v = curr.uid
  · subst hv
    rw [combatstate_get_modify_self] at hc1
    cases hc : combatstate_get s.table curr.uid with
    | none => rw [hc] at hc1; exact absurd hc1 (by simp)
    | some c =>
      rw [hc] at hc1
      have hfc : f c = c1 := by simpa using hc1
      have hk := hkept c hc
      rw [hfc] at hk
      exact ⟨c, rfl, hk.2.1, hk.2.2.2.2⟩
  · rw [combatstate_get_modify_other _ _ hv] at hc1
    exact ⟨c1, hc1, rfl, id⟩

theorem tick_loop_enums_kept (w : World) (l : List entity) :
    ∀ s s1, tick_loop w l s = some s1 → enums_kept s s1 := by
  induction l with
  | nil =>
    intro s s1 h
    simp only [tick_loop, Option.some.injEq] at h
    subst h
    exact enums_kept_refl s
  | cons curr rest ih =>
    intro s s1 h
    simp only [tick_loop] at h
    cases hte : tick_entity w s curr with
    | none => rw [hte] at h; exact (Option.some_ne_none _ h.symm).elim
    | some s2 =>
      rw [hte] at h
      exact enums_kept_trans (tick_entity_enums_kept w s s2 curr hte) (ih s2 s1 h)

theorem tick_ok_congr (w : World) (s s1 : State)
    (hview : ∀ v, dying_view s1.table v = dying_view s.table v) (hents : s1.ents = s.ents)
    (henum : enums_kept s s1)
    (h : tick_ok w s) : tick_ok w s1 := by
  obtain ⟨h1, h2, h3, h4⟩ := h
  refine ⟨?_, ?_, ?_, ?_⟩
  rotate_left 3
  · intro e he c1 hc1
    obtain ⟨c, hc, hs, hp⟩ := henum e.uid c1 hc1
    obtain ⟨hk1, hk2⟩ := h4 e he c hc
    exact ⟨by rw [hs]; exact hk1, hp hk2⟩
  · intro e he hc
    exact get_ne_none_of_dying_view hview _ (h1 e he hc)
  · intro e he c hc
    obtain ⟨ha, hb, hd⟩ := h2 e he c hc
    exact ⟨ha, fun hcomb => get_ne_none_of_dying_view hview _ (hb hcomb), hd⟩
  · intro t target htar hz
    have htar2 : G_EntityForUID s t = some target := by
      unfold G_EntityForUID at htar ⊢
      rw [← hents]; exact htar
    exact get_ne_none_of_dying_view hview _ (h3 t target htar2 hz)

theorem closest_enemy_in_range_returns_of_tick_ok (w : World) (s : State) (curr : entity)
    (hok : tick_ok w s) (hmem : curr ∈ w.G_GetDynamicEntsSet) :
    ∃ r, closest_enemy_in_range w s.table curr = some r := by
  apply closest_enemy_loop_returns
  intro c hc
  obtain ⟨ha, hb, -⟩ := hok.2.1 curr hmem c hc
  exact candidate_filter_ne_none w s.table curr c ha hb

theorem closest_enemy_mem_ne (w : World) (tbl : List (Nat × combatstate))
    (ent e : entity) (h : closest_enemy_in_range w tbl ent = some (some e)) :
    e ∈ near_ents w ent ∧ e.uid ≠ ent.uid ∧ valid_enemy w tbl ent e := by
  rcases closest_enemy_loop_spec w tbl ent _ _ _ _ h with ⟨hr, -⟩
    | ⟨e1, pre, post, hr, hl, hv, -, -, -⟩
  · exact absurd hr (by simp)
  · have he : e = e1 := Option.some.inj hr
    subst he
    exact ⟨by rw [hl]; simp, hv.1, hv⟩

theorem turn_ok_of_closest (w : World) (s : State) (curr enemy : entity)
    (hok : tick_ok w s) (hmem : curr ∈ w.G_GetDynamicEntsSet)
    (h : closest_enemy_in_range w s.table curr = some (some enemy)) :
    entity_turn_to_target w curr enemy = true := by
  obtain ⟨hin, hne, -⟩ := closest_enemy_mem_ne w s.table curr enemy h
  exact (hok.2.1 curr hmem enemy hin).2.2 hne

theorem tick_not_in_combat_returns (w : World) (s : State) (curr : entity)
    (cs : combatstate) (r : Option entity)
    (hr : closest_enemy_in_range w s.table curr = some r)
    (hturn : ∀ enemy, r = some enemy → entity_turn_to_target w curr enemy = true)
    (hknown : stance_known cs.stance = true) :
    ∃ s1, tick_not_in_combat w s curr cs = some s1 := by
  unfold tick_not_in_combat
  rw [hr]
  by_cases hne : cs.stance = COMBAT_STANCE_NO_ENGAGEMENT
  · exact ⟨s, by rw [if_pos hne]⟩
  · rw [if_neg hne]
    cases r with
    | none => exact ⟨s, rfl⟩
    | some enemy =>
      have hstance : cs.stance = COMBAT_STANCE_AGGRESSIVE
          ∨ cs.stance = COMBAT_STANCE_HOLD_POSITION := by
        cases hs : cs.stance with
        | COMBAT_STANCE_AGGRESSIVE => exact Or.inl rfl
        | COMBAT_STANCE_HOLD_POSITION => exact Or.inr rfl
        | COMBAT_STANCE_NO_ENGAGEMENT => exact absurd hs hne
        | COMBAT_STANCE_OTHER i hi => rw [hs] at hknown; exact absurd hknown (by simp [stance_known])
      simp only [hturn enemy rfl, hstance, not_true_eq_false, if_false, Bool.not_true,
        Bool.false_eq_true]
      split_ifs <;> exact ⟨_, rfl⟩

theorem tick_moving_to_target_returns (w : World) (s : State) (curr : entity)
    (cs : combatstate) (r : Option entity)
    (hr : closest_enemy_in_range w s.table curr = some r)
    (hturn : ∀ enemy, r = some enemy → entity_turn_to_target w curr enemy = true) :
    ∃ s1, tick_moving_to_target w s curr cs = some s1 := by
  unfold tick_moving_to_target
  rw [hr]
  cases r with
  | none => simp only []; split_ifs <;> exact ⟨_, rfl⟩
  | some enemy =>
    simp only [hturn enemy rfl, Bool.not_true, Bool.false_eq_true, if_false]
    split_ifs <;> exact ⟨_, rfl⟩

theorem tick_can_attack_returns (w : World) (s : State) (curr : entity)
    (cs : combatstate) (r : Option entity)
    (hr : closest_enemy_in_range w s.table curr = some r)
    (hturn : ∀ enemy, r = some enemy → entity_turn_to_target w curr enemy = true)
    (hrec : ∀ t target, G_EntityForUID s t = some target → target.flags.zombie = false →
      combatstate_get s.table t ≠ none) :
    ∃ s1, tick_can_attack w s curr cs = some s1 := by
  unfold tick_can_attack
  have hti : ∃ b, target_invalid w s curr cs = some b := by
    unfold target_invalid
    cases htar : G_EntityForUID s cs.target_uid with
    | none => exact ⟨true, rfl⟩
    | some target =>
      simp only []
      by_cases hz : target.flags.zombie = true
      · exact ⟨true, by rw [if_pos hz]⟩
      · rw [if_neg hz]
        cases htcs : combatstate_get s.table cs.target_uid with
        | none => exact absurd htcs (hrec _ target htar (by simpa using hz))
        | some tcs => simp only []; split_ifs <;> exact ⟨_, rfl⟩
  obtain ⟨b, hb⟩ := hti
  rw [hb, hr]
  cases b with
  | false => exact ⟨_, rfl⟩
  | true =>
    cases r with
    | none => exact ⟨_, rfl⟩
    | some enemy =>
      simp only [hturn enemy rfl, Bool.not_true, Bool.false_eq_true, if_false]
      split_ifs <;> exact ⟨_, rfl⟩

theorem tick_entity_returns (w : World) (s : State) (curr : entity)
    (hok : tick_ok w s) (hmem : curr ∈ w.G_GetDynamicEntsSet) :
    ∃ s1, tick_entity w s curr = some s1 := by
  unfold tick_entity
  by_cases hc : curr.flags.combatable = true
  · simp only [hc, Bool.not_true, Bool.false_eq_true, if_false]
    cases hcs : combatstate_get s.table curr.uid with
    | none => exact absurd hcs (hok.1 curr hmem hc)
    | some cs =>
      obtain ⟨r, hr⟩ := closest_enemy_in_range_returns_of_tick_ok w s curr hok hmem
      have hturn : ∀ enemy, r = some enemy → entity_turn_to_target w curr enemy = true :=
        fun enemy he => turn_ok_of_closest w s curr enemy hok hmem (by rw [hr, he])
      obtain ⟨hks, hkp⟩ := hok.2.2.2 curr hmem cs hcs
      simp only []
      split
      · exact tick_not_in_combat_returns w s curr cs r hr hturn hks
      · exact tick_moving_to_target_returns w s curr cs r hr hturn
      · exact tick_can_attack_returns w s curr cs r hr hturn hok.2.2.1
      · exact ⟨s, rfl⟩
      · exact ⟨s, rfl⟩
      · rename_i hst
        rw [hst] at hkp
        exact absurd hkp (by simp [phase_known])
  · simp only [hc, Bool.not_false, if_true]
    exact ⟨s, by simp⟩

theorem tick_loop_returns (w : World) (l : List entity) :
    ∀ s, tick_ok w s → (∀ e ∈ l, e ∈ w.G_GetDynamicEntsSet) →
      ∃ s1, tick_loop w l s = some s1 := by
  induction l with
  | nil => intro s _ _; exact ⟨s, rfl⟩
  | cons curr rest ih =>
    intro s hok hsub
    obtain ⟨s2, hs2⟩ := tick_entity_returns w s curr hok (hsub curr (List.mem_cons_self _ _))
    obtain ⟨-, -, -, -, hents⟩ := tick_entity_modify w s s2 curr hs2
    have hok2 := tick_ok_congr w s s2 (tick_entity_dying_view w s s2 curr hs2) hents
      (tick_entity_enums_kept w s s2 curr hs2) hok
    obtain ⟨s1, hs1⟩ := ih s2 hok2 (fun e he => hsub e (List.mem_cons_of_mem _ he))
    exact ⟨s1, by simp only [tick_loop, hs2, hs1]⟩

/-- A tick returns when no `assert` can fail. -/
theorem on_30hz_tick_returns (w : World) (s : State) (hok : tick_ok w s) :
    ∃ s1, on_30hz_tick w s = some s1 :=
  tick_loop_returns w _ s hok (fun _ he => he)

theorem tick_loop_view (w : World) (l : List entity) :
    ∀ s s1, tick_loop w l s = some s1 →
      (∀ v, dying_view s1.table v = dying_view s.table v) ∧ s1.ents = s.ents
        ∧ s1.dying = s.dying := by
  induction l with
  | nil =>
    intro s s1 h
    simp only [tick_loop, Option.some.injEq] at h
    subst h
    exact ⟨fun _ => rfl, rfl, rfl⟩
  | cons curr rest ih =>
    intro s s1 h
    simp only [tick_loop] at h
    cases hte : tick_entity w s curr with
    | none => rw [hte] at h; exact (Option.some_ne_none _ h.symm).elim
    | some s2 =>
      rw [hte] at h
      obtain ⟨-, -, -, hdy, hents⟩ := tick_entity_modify w s s2 curr hte
      obtain ⟨hv, he, hd⟩ := ih s2 s1 h
      exact ⟨fun v => (hv v).trans (tick_entity_dying_view w s s2 curr hte v),
        he.trans hents, hd.trans hdy⟩

/-- A tick keeps the record of an entity out of combat that has no valid enemy among the
candidates of its spatial query. -/
theorem on_30hz_tick_keeps_idle (w : World) (s s1 : State) (uid : Nat) (cs : combatstate)
    (hcs : combatstate_get s.table uid = some cs)
    (hphase : cs.state = STATE_NOT_IN_COMBAT)
    (hno : ∀ curr ∈ w.G_GetDynamicEntsSet, curr.uid = uid →
      ∀ c ∈ near_ents w curr, ¬ valid_enemy w s.table curr c)
    (h : on_30hz_tick w s = some s1) :
    combatstate_get s1.table uid = some cs := by
  refine (tick_loop_keeps_record w uid cs _ s s1 hcs ?_ h).1
  intro s2 s3 curr hmem hu hget hview hrun
  subst hu
  refine tick_entity_idle_no_enemy w s2 s3 curr cs hget hphase ?_ hrun
  intro c hc hv
  exact hno curr hmem rfl c hc ((valid_enemy_congr w _ _ hview curr c).mp hv)

/-- C9: for every world and every entity whose stance is no-engagement and whose phase
is Idle, a tick that returns leaves the record of the entity as it was, so the entity is
still Idle with the same target and the same saved move command, whatever the spatial
query reports around it; and the tick returns when no `assert` can fail. -/
theorem C9_no_engagement_stays_idle (w : World) (s : State) (uid : Nat) (cs : combatstate)
    (hcs : combatstate_get s.table uid = some cs)
    (hstance : cs.stance = COMBAT_STANCE_NO_ENGAGEMENT)
    (hphase : cs.state = STATE_NOT_IN_COMBAT) :
    (∀ s1, on_30hz_tick w s = some s1 →
        phase_of s1 uid = some STATE_NOT_IN_COMBAT
        ∧ (combatstate_get s1.table uid).map (fun c => c.target_uid) = some cs.target_uid
        ∧ (combatstate_get s1.table uid).map (fun c => (c.move_cmd_interrupted, c.move_cmd_xz))
            = some (cs.move_cmd_interrupted, cs.move_cmd_xz)
        ∧ combatstate_get s1.table uid = some cs)
    ∧ (tick_ok w s → ∃ s1, on_30hz_tick w s = some s1) := by
  refine ⟨?_, on_30hz_tick_returns w s⟩
  intro s1 h
  have hkeep : combatstate_get s1.table uid = some cs := by
    refine (tick_loop_keeps_record w uid cs _ s s1 hcs ?_ h).1
    intro s2 s3 curr _ hu hget _ hrun
    subst hu
    exact tick_entity_idle_no_engagement w s2 s3 curr cs hget hphase hstance hrun
  refine ⟨?_, ?_, ?_, hkeep⟩
  · rw [phase_of, hkeep]; simp [hphase]
  · rw [hkeep]; rfl
  · rw [hkeep]; rfl

/-- C9 (witness): entity `1`, with the stance no-engagement, stays Idle in a tick in which
its enemy `2`, 3 units away, gets ready to attack it. -/
theorem C9_no_engagement_stays_idle_witness :
    on_30hz_tick scenario_world no_engagement_state = some no_engagement_state_after
    ∧ (∀ s1, on_30hz_tick scenario_world no_engagement_state = some s1 →
        phase_of s1 1 = some STATE_NOT_IN_COMBAT
        ∧ (combatstate_get s1.table 1).map (fun c => c.target_uid) = some 0
        ∧ (combatstate_get s1.table 1).map (fun c => (c.move_cmd_interrupted, c.move_cmd_xz))
            = some (false, ⟨0, 0⟩)
        ∧ combatstate_get s1.table 1
            = some (ex_record 10 0 10 COMBAT_STANCE_NO_ENGAGEMENT STATE_NOT_IN_COMBAT 0)) :=
  ⟨by decide!,
    (C9_no_engagement_stays_idle scenario_world no_engagement_state 1
      (ex_record 10 0 10 COMBAT_STANCE_NO_ENGAGEMENT STATE_NOT_IN_COMBAT 0) rfl rfl rfl).1⟩

theorem on_30hz_tick_view (w : World) (s s1 : State) (h : on_30hz_tick w s = some s1) :
    (∀ v, dying_view s1.table v = dying_view s.table v) ∧ s1.ents = s.ents
      ∧ s1.dying = s.dying :=
  tick_loop_view w _ s s1 h

/-- C10: for an entity in phase Idle, of any stance, for which no valid enemy is among
the candidates of the 50-unit spatial query, a tick that returns leaves the combat record
unchanged; hence after any number of consecutive ticks in each of which no valid enemy is
in range the record is unchanged and the entity is still Idle.  The ticks return when no
`assert` can fail. -/
theorem C10_idle_without_enemy_stays_idle (ws : List World) (s : State) (uid : Nat)
    (cs : combatstate)
    (hcs : combatstate_get s.table uid = some cs)
    (hphase : cs.state = STATE_NOT_IN_COMBAT)
    (hno : ∀ w ∈ ws, ∀ curr ∈ w.G_GetDynamicEntsSet, curr.uid = uid →
      ∀ c ∈ near_ents w curr, ¬ valid_enemy w s.table curr c) :
    (∀ w s1, w ∈ ws → on_30hz_tick w s = some s1 → combatstate_get s1.table uid = some cs)
    ∧ (∀ s1, run_ticks ws s = some s1 →
        combatstate_get s1.table uid = some cs ∧ phase_of s1 uid = some STATE_NOT_IN_COMBAT)
    ∧ ((∀ w ∈ ws, tick_ok w s) → ∃ s1, run_ticks ws s = some s1) := by
  refine ⟨?_, ?_, ?_⟩
  · intro w s1 hw h
    exact on_30hz_tick_keeps_idle w s s1 uid cs hcs hphase (hno w hw) h
  · have key : ∀ (l : List World) (s0 s1 : State),
        combatstate_get s0.table uid = some cs →
        (∀ w ∈ l, ∀ curr ∈ w.G_GetDynamicEntsSet, curr.uid = uid →
          ∀ c ∈ near_ents w curr, ¬ valid_enemy w s0.table curr c) →
        run_ticks l s0 = some s1 → combatstate_get s1.table uid = some cs := by
      intro l
      induction l with
      | nil =>
        intro s0 s1 h0 _ h
        simp only [run_ticks, Option.some.injEq] at h
        subst h; exact h0
      | cons w rest ih =>
        intro s0 s1 h0 hno0 h
        simp only [run_ticks] at h
        cases ht : on_30hz_tick w s0 with
        | none => rw [ht] at h; exact (Option.some_ne_none _ h.symm).elim
        | some s2 =>
          rw [ht] at h
          have h2 := on_30hz_tick_keeps_idle w s0 s2 uid cs h0 hphase
            (hno0 w (List.mem_cons_self _ _)) ht
          have hview := (on_30hz_tick_view w s0 s2 ht).1
          refine ih s2 s1 h2 ?_ h
          intro w1 hw1 curr hcurr hu c hc hv
          exact hno0 w1 (List.mem_cons_of_mem _ hw1) curr hcurr hu c hc
            ((valid_enemy_congr w1 _ _ hview curr c).mp hv)
    intro s1 h
    have hk := key ws s s1 hcs hno h
    exact ⟨hk, by rw [phase_of, hk]; simp [hphase]⟩
  · have key : ∀ (l : List World) (s0 : State), (∀ w ∈ l, tick_ok w s0) →
        ∃ s1, run_ticks l s0 = some s1 := by
      intro l
      induction l with
      | nil => intro s0 _; exact ⟨s0, rfl⟩
      | cons w rest ih =>
        intro s0 hok
        obtain ⟨s2, hs2⟩ := on_30hz_tick_returns w s0 (hok w (List.mem_cons_self _ _))
        obtain ⟨hview, hents, -⟩ := on_30hz_tick_view w s0 s2 hs2
        obtain ⟨s1, hs1⟩ := ih s2 (fun w1 hw1 =>
          tick_ok_congr w1 s0 s2 hview hents (tick_loop_enums_kept w _ s0 s2 hs2)
            (hok w1 (List.mem_cons_of_mem _ hw1)))
        exact ⟨s1, by simp only [run_ticks, hs2, hs1]⟩
    exact key ws s

theorem quiet_world_no_valid_enemy :
    ∀ w ∈ [quiet_world, quiet_world, quiet_world], ∀ curr ∈ w.G_GetDynamicEntsSet,
      curr.uid = 1 → ∀ c ∈ near_ents w curr, ¬ valid_enemy w quiet_state.table curr c := by
  have h : ∀ w ∈ [quiet_world, quiet_world, quiet_world], ∀ curr ∈ w.G_GetDynamicEntsSet,
      ∀ c ∈ near_ents w curr, candidate_filter w quiet_state.table curr c ≠ some true := by
    intro w hw
    have hw2 : w = quiet_world := by simpa using hw
    subst hw2
    decide!
  intro w hw curr hcurr _ c hc hv
  exact h w hw curr hcurr c hc ((candidate_filter_true_iff _ _ _ _).mpr hv)

/-- C10 (witness): the aggressive entity `1`, with only an ally around it, keeps its
record over three consecutive ticks. -/
theorem C10_idle_without_enemy_stays_idle_witness :
    run_ticks [quiet_world, quiet_world, quiet_world] quiet_state = some quiet_state
    ∧ (∀ w s1, w ∈ [quiet_world, quiet_world, quiet_world] →
        on_30hz_tick w quiet_state = some s1 →
        combatstate_get s1.table 1
          = some (ex_record 10 0 10 COMBAT_STANCE_AGGRESSIVE STATE_NOT_IN_COMBAT 0))
    ∧ (∀ s1, run_ticks [quiet_world, quiet_world, quiet_world] quiet_state = some s1 →
        combatstate_get s1.table 1
          = some (ex_record 10 0 10 COMBAT_STANCE_AGGRESSIVE STATE_NOT_IN_COMBAT 0)
        ∧ phase_of s1 1 = some STATE_NOT_IN_COMBAT) :=
  ⟨by decide!,
    (C10_idle_without_enemy_stays_idle [quiet_world, quiet_world, quiet_world] quiet_state 1
      (ex_record 10 0 10 COMBAT_STANCE_AGGRESSIVE STATE_NOT_IN_COMBAT 0) rfl rfl
      quiet_world_no_valid_enemy).1,
    (C10_idle_without_enemy_stays_idle [quiet_world, quiet_world, quiet_world] quiet_state 1
      (ex_record 10 0 10 COMBAT_STANCE_AGGRESSIVE STATE_NOT_IN_COMBAT 0) rfl rfl
      quiet_world_no_valid_enemy).2.1⟩

/-! ## Stance changes -/

theorem move_order_of_filter_self (l : List (Nat × move_order)) (u : Nat) :
    move_order_of (l.filter (fun p => p.1 ≠ u)) u = none := by
  induction l with
  | nil => rfl
  | cons p rest ih =>
    obtain ⟨k, o⟩ := p
    by_cases hk : k = u
    · simpa [List.filter_cons, hk] using ih
    · simpa [List.filter_cons, hk, move_order_of] using ih

/-- C12 (counterexample): entity `1` pursues with the move command to (5, 5) saved;
`G_Combat_SetStance` with hold-position makes it Idle and clears the saved command, but
movement holds no destination for the entity afterwards: its movement association is
removed, the destination (5, 5) is not set. -/
theorem C12_hold_position_does_not_restore :
    (G_Combat_SetStance pursuing_state (ex_entity 1 0 10) COMBAT_STANCE_HOLD_POSITION).map
        (fun s1 => (phase_of s1 1, G_Move_GetDest s1 1, move_order_of s1.move 1))
      = some (some STATE_NOT_IN_COMBAT, none, none)
    ∧ ¬ ∃ s1, G_Combat_SetStance pursuing_state (ex_entity 1 0 10) COMBAT_STANCE_HOLD_POSITION
          = some s1 ∧ G_Move_GetDest s1 1 = some ⟨5, 5⟩ := by
  have hrun : (G_Combat_SetStance pursuing_state (ex_entity 1 0 10)
        COMBAT_STANCE_HOLD_POSITION).map
        (fun s1 => (phase_of s1 1, G_Move_GetDest s1 1, move_order_of s1.move 1))
      = some (some STATE_NOT_IN_COMBAT, none, none) := by decide!
  refine ⟨hrun, ?_⟩
  rintro ⟨s1, h1, hd⟩
  rw [h1] at hrun
  simp only [Option.map_some', Option.some.injEq, Prod.mk.injEq] at hrun
  rw [hrun.2.1] at hd
  exact absurd hd (by simp)

/-- C12 (amended): for every combat-capable entity in phase Pursuing whose stance is not
hold-position, with or without a saved move command, `G_Combat_SetStance` with
hold-position returns and cancels the pursuit: the phase is Idle, the stance is
hold-position and the saved move command is cleared; the movement association of the
entity is removed, so that movement holds no destination for it (the saved destination is
discarded, not restored); the other records, the handlers and the notifications are
unchanged. -/
theorem C12_hold_position_cancels_pursuit (s : State) (ent : entity) (cs : combatstate)
    (hcomb : ent.flags.combatable = true)
    (hcs : combatstate_get s.table ent.uid = some cs)
    (hphase : cs.state = STATE_MOVING_TO_TARGET)
    (hstance : cs.stance ≠ COMBAT_STANCE_HOLD_POSITION) :
    ∃ s1, G_Combat_SetStance s ent COMBAT_STANCE_HOLD_POSITION = some s1
      ∧ combatstate_get s1.table ent.uid
          = some { cs with state := STATE_NOT_IN_COMBAT, move_cmd_interrupted := false,
                           stance := COMBAT_STANCE_HOLD_POSITION }
      ∧ move_order_of s1.move ent.uid = none
      ∧ G_Move_GetDest s1 ent.uid = none
      ∧ (∀ u, u ≠ ent.uid → combatstate_get s1.table u = combatstate_get s.table u)
      ∧ s1.handlers = s.handlers ∧ s1.notified = s.notified ∧ s1.dying = s.dying := by
  have hne : COMBAT_STANCE_HOLD_POSITION ≠ cs.stance := fun h => hstance h.symm
  have hrun : G_Combat_SetStance s ent COMBAT_STANCE_HOLD_POSITION
      = some { G_Move_RemoveEntity s ent.uid with
          table := combatstate_modify (fun c => { c with stance := COMBAT_STANCE_HOLD_POSITION })
            (combatstate_modify
              (fun c => { c with state := STATE_NOT_IN_COMBAT, move_cmd_interrupted := false })
              s.table ent.uid) ent.uid } := by
    simp only [G_Combat_SetStance, hcomb, hcs, hne, hphase, Bool.not_true, Bool.false_eq_true,
      if_false, reduceCtorEq, and_self, if_true]
    rfl
  refine ⟨_, hrun, ?_, ?_, ?_, ?_, rfl, rfl, rfl⟩
  · simp [combatstate_modify_modify, combatstate_get_modify_self, hcs]
  · exact move_order_of_filter_self s.move ent.uid
  · have h := move_order_of_filter_self s.move ent.uid
    show (match move_order_of (s.move.filter (fun p => p.1 ≠ ent.uid)) ent.uid with
      | some (move_order.dest xz) => some xz
      | _ => none) = none
    rw [h]
  · intro u hu
    simp [combatstate_modify_modify, combatstate_get_modify_other _ _ hu]

/-- C12 (witness): the amended statement at the example state. -/
theorem C12_hold_position_cancels_pursuit_witness :
    ∃ s1, G_Combat_SetStance pursuing_state (ex_entity 1 0 10) COMBAT_STANCE_HOLD_POSITION
        = some s1
      ∧ combatstate_get s1.table 1
          = some ⟨⟨10, 0⟩, 10, COMBAT_STANCE_HOLD_POSITION, STATE_NOT_IN_COMBAT, 2, false,
              ⟨5, 5⟩⟩
      ∧ move_order_of s1.move 1 = none
      ∧ G_Move_GetDest s1 1 = none
      ∧ (∀ u, u ≠ 1 → combatstate_get s1.table u = combatstate_get pursuing_state.table u)
      ∧ s1.handlers = pursuing_state.handlers ∧ s1.notified = pursuing_state.notified
      ∧ s1.dying = pursuing_state.dying :=
  C12_hold_position_cancels_pursuit pursuing_state (ex_entity 1 0 10)
    ⟨⟨10, 0⟩, 10, COMBAT_STANCE_AGGRESSIVE, STATE_MOVING_TO_TARGET, 2, true, ⟨5, 5⟩⟩
    rfl rfl rfl (by decide)

theorem G_Combat_StopAttack_table (s : State) (ent : entity) (cs : combatstate)
    (hcs : combatstate_get s.table ent.uid = some cs) :
    (G_Combat_StopAttack s ent).table
      = combatstate_modify
          (fun c => { c with state := STATE_NOT_IN_COMBAT,
                             move_cmd_interrupted :=
                               if cs.move_cmd_interrupted then false else c.move_cmd_interrupted })
          s.table ent.uid := by
  unfold G_Combat_StopAttack
  rw [hcs]
  by_cases hf : cs.move_cmd_interrupted = true
  · by_cases hp : cs.state = STATE_ATTACK_ANIM_PLAYING ∨ cs.state = STATE_CAN_ATTACK
    · simp only [hf, hp, if_true, restore_move_cmd, G_Move_SetDest, E_Entity_Notify,
        E_Entity_Unregister, combatstate_modify_modify]
      rfl
    · simp only [hf, hp, if_true, if_false, restore_move_cmd, G_Move_SetDest,
        E_Entity_Unregister, combatstate_modify_modify]
      rfl
  · by_cases hp : cs.state = STATE_ATTACK_ANIM_PLAYING ∨ cs.state = STATE_CAN_ATTACK
    · simp only [hf, hp, if_true, Bool.false_eq_true, if_false, E_Entity_Notify,
        E_Entity_Unregister]
    · simp only [hf, hp, Bool.false_eq_true, if_false, E_Entity_Unregister]

theorem G_Combat_StopAttack_rest (s : State) (ent : entity) (cs : combatstate)
    (hcs : combatstate_get s.table ent.uid = some cs) :
    (G_Combat_StopAttack s ent).handlers
        = s.handlers.filter (fun p => p ≠ (ent.uid, anim_handler.attack_anim_finish))
    ∧ (G_Combat_StopAttack s ent).notified
        = (if cs.state = STATE_ATTACK_ANIM_PLAYING ∨ cs.state = STATE_CAN_ATTACK then
            s.notified ++ [(event_kind.EVENT_ATTACK_END, ent.uid)]
          else s.notified)
    ∧ (G_Combat_StopAttack s ent).move
        = (if cs.move_cmd_interrupted then (ent.uid, move_order.dest cs.move_cmd_xz) :: s.move
          else s.move)
    ∧ (G_Combat_StopAttack s ent).dying = s.dying
    ∧ (G_Combat_StopAttack s ent).ents = s.ents
    ∧ (G_Combat_StopAttack s ent).selection = s.selection := by
  unfold G_Combat_StopAttack
  rw [hcs]
  by_cases hf : cs.move_cmd_interrupted = true <;>
    by_cases hp : cs.state = STATE_ATTACK_ANIM_PLAYING ∨ cs.state = STATE_CAN_ATTACK <;>
    simp [hf, hp, restore_move_cmd, G_Move_SetDest, E_Entity_Notify, E_Entity_Unregister]

theorem G_Combat_StopAttack_get (s : State) (ent : entity) (cs : combatstate)
    (hcs : combatstate_get s.table ent.uid = some cs) :
    combatstate_get (G_Combat_StopAttack s ent).table ent.uid
      = some { cs with state := STATE_NOT_IN_COMBAT, move_cmd_interrupted := false } := by
  rw [G_Combat_StopAttack_table s ent cs hcs, combatstate_get_modify_self, hcs]
  cases hf : cs.move_cmd_interrupted <;> simp [hf]

theorem G_Combat_StopAttack_get_other (s : State) (ent : entity) {u : Nat}
    (hu : u ≠ ent.uid) :
    combatstate_get (G_Combat_StopAttack s ent).table u = combatstate_get s.table u := by
  cases hcs : combatstate_get s.table ent.uid with
  | none => simp [G_Combat_StopAttack, hcs]
  | some cs =>
    rw [G_Combat_StopAttack_table s ent cs hcs, combatstate_get_modify_other _ _ hu]
theorem G_Combat_SetStance_no_engagement (s : State) (ent : entity) (cs : combatstate)
    (hcomb : ent.flags.combatable = true)
    (hcs : combatstate_get s.table ent.uid = some cs)
    (hstance : cs.stance ≠ COMBAT_STANCE_NO_ENGAGEMENT) :
    G_Combat_SetStance s ent COMBAT_STANCE_NO_ENGAGEMENT
      = some { G_Combat_StopAttack s ent with
          table := combatstate_modify
            (fun c => { c with stance := COMBAT_STANCE_NO_ENGAGEMENT })
            (G_Combat_StopAttack s ent).table ent.uid } := by
  have hne : COMBAT_STANCE_NO_ENGAGEMENT ≠ cs.stance := fun h => hstance h.symm
  simp only [G_Combat_SetStance, hcomb, hcs, hne, Bool.not_true, Bool.false_eq_true,
    if_false, if_true, G_Combat_StopAttack_get s ent cs hcs, reduceCtorEq, false_and]

/-- C13: for every combat-capable entity with a record whose stance is not no-engagement,
`G_Combat_SetStance` with no-engagement returns and force-ends any active attack: the
stance is no-engagement, the phase is Idle, the saved move command is cleared and the rest
of the record is kept; no attack-completion callback is registered for the entity; a saved
move command has been handed back to movement as the destination of the entity (and
movement is untouched when there was none); the attack-end notification is appended when
the phase was Ready or Striking, and nothing is notified otherwise.  The other records
are unchanged. -/
theorem C13_no_engagement_ends_attack (s : State) (ent : entity) (cs : combatstate)
    (hcomb : ent.flags.combatable = true)
    (hcs : combatstate_get s.table ent.uid = some cs)
    (hstance : cs.stance ≠ COMBAT_STANCE_NO_ENGAGEMENT) :
    ∃ s1, G_Combat_SetStance s ent COMBAT_STANCE_NO_ENGAGEMENT = some s1
      ∧ combatstate_get s1.table ent.uid
          = some { cs with stance := COMBAT_STANCE_NO_ENGAGEMENT, state := STATE_NOT_IN_COMBAT,
                           move_cmd_interrupted := false }
      ∧ ¬ registered s1 ent.uid anim_handler.attack_anim_finish
      ∧ (cs.move_cmd_interrupted = true →
          G_Move_GetDest s1 ent.uid = some cs.move_cmd_xz
          ∧ s1.move = (ent.uid, move_order.dest cs.move_cmd_xz) :: s.move)
      ∧ (cs.move_cmd_interrupted = false → s1.move = s.move)
      ∧ (cs.state = STATE_CAN_ATTACK ∨ cs.state = STATE_ATTACK_ANIM_PLAYING →
          s1.notified = s.notified ++ [(event_kind.EVENT_ATTACK_END, ent.uid)])
      ∧ (¬ (cs.state = STATE_CAN_ATTACK ∨ cs.state = STATE_ATTACK_ANIM_PLAYING) →
          s1.notified = s.notified)
      ∧ (∀ u, u ≠ ent.uid → combatstate_get s1.table u = combatstate_get s.table u) := by
  obtain ⟨hh, hn, hm, -, -, -⟩ := G_Combat_StopAttack_rest s ent cs hcs
  refine ⟨_, G_Combat_SetStance_no_engagement s ent cs hcomb hcs hstance,
    ?_, ?_, ?_, ?_, ?_, ?_, ?_⟩
  · simp only [combatstate_get_modify_self, G_Combat_StopAttack_get s ent cs hcs]
    rfl
  · simp only [registered]
    rw [hh]
    simp
  · intro hf
    have hmove : (G_Combat_StopAttack s ent).move
        = (ent.uid, move_order.dest cs.move_cmd_xz) :: s.move := by rw [hm, if_pos hf]
    refine ⟨?_, hmove⟩
    simp only [G_Move_GetDest, hmove, move_order_of, if_true]
  · intro hf
    simp only [hm, hf, Bool.false_eq_true, if_false]
  · intro hp
    have hp2 : cs.state = STATE_ATTACK_ANIM_PLAYING ∨ cs.state = STATE_CAN_ATTACK := hp.symm
    simp only [hn, if_pos hp2]
  · intro hp
    have hp2 : ¬ (cs.state = STATE_ATTACK_ANIM_PLAYING ∨ cs.state = STATE_CAN_ATTACK) :=
      fun h => hp h.symm
    simp only [hn, if_neg hp2]
  · intro u hu
    simp only [combatstate_get_modify_other _ _ hu, G_Combat_StopAttack_get_other s ent hu]

/-- C13 (witness): entity `1` of the example state, pursuing with the move command to
(5, 5) saved, is set to no-engagement. -/
theorem C13_no_engagement_ends_attack_witness :
    ∃ s1, G_Combat_SetStance pursuing_state (ex_entity 1 0 10) COMBAT_STANCE_NO_ENGAGEMENT
        = some s1
      ∧ combatstate_get s1.table 1
          = some ⟨⟨10, 0⟩, 10, COMBAT_STANCE_NO_ENGAGEMENT, STATE_NOT_IN_COMBAT, 2, false,
              ⟨5, 5⟩⟩
      ∧ ¬ registered s1 1 anim_handler.attack_anim_finish
      ∧ (true = true →
          G_Move_GetDest s1 1 = some ⟨5, 5⟩
          ∧ s1.move = (1, move_order.dest ⟨5, 5⟩) :: pursuing_state.move)
      ∧ (true = false → s1.move = pursuing_state.move)
      ∧ (STATE_MOVING_TO_TARGET = STATE_CAN_ATTACK
          ∨ STATE_MOVING_TO_TARGET = STATE_ATTACK_ANIM_PLAYING →
          s1.notified = pursuing_state.notified ++ [(event_kind.EVENT_ATTACK_END, 1)])
      ∧ (¬ (STATE_MOVING_TO_TARGET = STATE_CAN_ATTACK
          ∨ STATE_MOVING_TO_TARGET = STATE_ATTACK_ANIM_PLAYING) →
          s1.notified = pursuing_state.notified)
      ∧ (∀ u, u ≠ 1 → combatstate_get s1.table u = combatstate_get pursuing_state.table u) :=
  C13_no_engagement_ends_attack pursuing_state (ex_entity 1 0 10)
    ⟨⟨10, 0⟩, 10, COMBAT_STANCE_AGGRESSIVE, STATE_MOVING_TO_TARGET, 2, true, ⟨5, 5⟩⟩
    rfl rfl (by decide)

/-- What a step of the tick leaves alone for the entities other than its own: their
movement orders, their notifications and their handlers. -/
theorem tick_entity_frame_other (w : World) (s s1 : State) (curr : entity)
    (h : tick_entity w s curr = some s1) (v : Nat) (hv : v ≠ curr.uid) :
    move_order_of s1.move v = move_order_of s.move v
    ∧ (∀ ev, s1.notified.count (ev, v) = s.notified.count (ev, v))
    ∧ (∀ hd, s1.handlers.count (v, hd) = s.handlers.count (v, hd))
    ∧ s1.selection = s.selection := by
  have hv2 : ¬ curr.uid = v := fun e => hv e.symm
  have hid : move_order_of s.move v = move_order_of s.move v
      ∧ (∀ ev, s.notified.count (ev, v) = s.notified.count (ev, v))
      ∧ (∀ hd, s.handlers.count (v, hd) = s.handlers.count (v, hd))
      ∧ s.selection = s.selection := ⟨rfl, fun _ => rfl, fun _ => rfl, rfl⟩
  unfold tick_entity at h
  split at h
  · rw [← Option.some.inj h]; exact hid
  · split at h
    · exact (Option.some_ne_none _ h.symm).elim
    · rename_i cs hcs
      split at h
      · unfold tick_not_in_combat at h
        repeat' (first | split at h | (dsimp only at h; split at h))
        all_goals first
          | exact (Option.some_ne_none _ h.symm).elim
          | (rw [← Option.some.inj h]; exact hid)
          | (rw [← Option.some.inj h]
             simp [E_Entity_Notify, G_Move_SetSeekEnemies, move_order_of, hv2, hv,
               List.count_cons, List.count_append])
      · unfold tick_moving_to_target restore_move_cmd at h
        repeat' split at h
        all_goals first
          | exact (Option.some_ne_none _ h.symm).elim
          | (rw [← Option.some.inj h]; exact hid)
          | (rw [← Option.some.inj h]
             simp [E_Entity_Notify, G_Move_Stop, G_Move_SetDest, move_order_of, hv2, hv,
               List.count_cons, List.count_append])
      · unfold tick_can_attack attack_ends restore_move_cmd at h
        repeat' split at h
        all_goals first
          | exact (Option.some_ne_none _ h.symm).elim
          | (rw [← Option.some.inj h]; exact hid)
          | (rw [← Option.some.inj h]
             simp [E_Entity_Notify, E_Entity_Register, G_Move_SetDest, move_order_of, hv2, hv,
               List.count_cons, List.count_append])
      · rw [← Option.some.inj h]; exact hid
      · rw [← Option.some.inj h]; exact hid
      · exact (Option.some_ne_none _ h.symm).elim
theorem tick_loop_append (w : World) (l1 l2 : List entity) :
    ∀ s, tick_loop w (l1 ++ l2) s = (tick_loop w l1 s).bind (tick_loop w l2) := by
  induction l1 with
  | nil => intro s; rfl
  | cons e rest ih =>
    intro s
    simp only [List.cons_append, tick_loop]
    cases tick_entity w s e with
    | none => rfl
    | some s2 => exact ih s2

/-- The steps of entities other than `u` leave alone the record, the movement order, the
notifications and the handlers of `u`. -/
theorem tick_loop_frame_other (w : World) (u : Nat) (l : List entity)
    (hl : ∀ e ∈ l, e.uid ≠ u) :
    ∀ s s1, tick_loop w l s = some s1 →
      combatstate_get s1.table u = combatstate_get s.table u
      ∧ move_order_of s1.move u = move_order_of s.move u
      ∧ (∀ ev, s1.notified.count (ev, u) = s.notified.count (ev, u))
      ∧ (∀ hd, s1.handlers.count (u, hd) = s.handlers.count (u, hd)) := by
  induction l with
  | nil =>
    intro s s1 h
    simp only [tick_loop, Option.some.injEq] at h
    subst h
    exact ⟨rfl, rfl, fun _ => rfl, fun _ => rfl⟩
  | cons e rest ih =>
    intro s s1 h
    simp only [tick_loop] at h
    cases hte : tick_entity w s e with
    | none => rw [hte] at h; exact (Option.some_ne_none _ h.symm).elim
    | some s2 =>
      rw [hte] at h
      have hne : u ≠ e.uid := fun hu => hl e (List.mem_cons_self _ _) hu.symm
      obtain ⟨hm, hn, hh, -⟩ := tick_entity_frame_other w s s2 e hte u hne
      obtain ⟨h1, h2, h3, h4⟩ := ih (fun x hx => hl x (List.mem_cons_of_mem _ hx)) s2 s1 h
      exact ⟨h1.trans (tick_entity_get_other w s s2 e hte hne), h2.trans hm,
        fun ev => (h3 ev).trans (hn ev), fun hd => (h4 hd).trans (hh hd)⟩

/-- A tick over a dynamic set that holds the entity `curr` once splits at the step of
`curr`: the steps before it and after it leave alone what belongs to `curr`, and no step
changes which records are dying. -/
theorem on_30hz_tick_split (w : World) (s s1 : State) (curr : entity)
    (pre post : List entity)
    (hdyn : w.G_GetDynamicEntsSet = pre ++ curr :: post)
    (huniq : ∀ e ∈ pre ++ post, e.uid ≠ curr.uid)
    (h : on_30hz_tick w s = some s1) :
    ∃ sa sb, tick_entity w sa curr = some sb
      ∧ combatstate_get sa.table curr.uid = combatstate_get s.table curr.uid
      ∧ move_order_of sa.move curr.uid = move_order_of s.move curr.uid
      ∧ (∀ ev, sa.notified.count (ev, curr.uid) = s.notified.count (ev, curr.uid))
      ∧ (∀ hd, sa.handlers.count (curr.uid, hd) = s.handlers.count (curr.uid, hd))
      ∧ (∀ v, dying_view sa.table v = dying_view s.table v)
      ∧ sa.ents = s.ents
      ∧ combatstate_get s1.table curr.uid = combatstate_get sb.table curr.uid
      ∧ move_order_of s1.move curr.uid = move_order_of sb.move curr.uid
      ∧ (∀ ev, s1.notified.count (ev, curr.uid) = sb.notified.count (ev, curr.uid))
      ∧ (∀ hd, s1.handlers.count (curr.uid, hd) = sb.handlers.count (curr.uid, hd)) := by
  unfold on_30hz_tick at h
  rw [hdyn, tick_loop_append] at h
  cases hpre : tick_loop w pre s with
  | none => rw [hpre] at h; exact (Option.some_ne_none _ h.symm).elim
  | some sa =>
    rw [hpre] at h
    simp only [Option.some_bind, tick_loop] at h
    cases hstep : tick_entity w sa curr with
    | none => rw [hstep] at h; exact (Option.some_ne_none _ h.symm).elim
    | some sb =>
      rw [hstep] at h
      obtain ⟨a1, a2, a3, a4⟩ := tick_loop_frame_other w curr.uid pre
        (fun e he => huniq e (List.mem_append_left _ he)) s sa hpre
      obtain ⟨b1, b2, b3, b4⟩ := tick_loop_frame_other w curr.uid post
        (fun e he => huniq e (List.mem_append_right _ he)) sb s1 h
      obtain ⟨hview, hents, -⟩ := tick_loop_view w pre s sa hpre
      exact ⟨sa, sb, hstep, a1, a2, a3, a4, hview, hents, b1, b2, b3, b4⟩

/-- The step of the tick for a pursuing entity for which `closest_enemy_in_range` finds no
enemy. -/
theorem tick_entity_pursuit_lost (w : World) (s : State) (curr : entity) (cs : combatstate)
    (hcomb : curr.flags.combatable = true)
    (hcs : combatstate_get s.table curr.uid = some cs)
    (hphase : cs.state = STATE_MOVING_TO_TARGET)
    (hnone : closest_enemy_in_range w s.table curr = some none) :
    ∃ s1, tick_entity w s curr = some s1
      ∧ combatstate_get s1.table curr.uid
          = some { cs with state := STATE_NOT_IN_COMBAT, move_cmd_interrupted := false }
      ∧ (cs.move_cmd_interrupted = true →
          s1.move = (curr.uid, move_order.dest cs.move_cmd_xz) :: s.move)
      ∧ (cs.move_cmd_interrupted = false →
          s1.move = (curr.uid, move_order.stopped) :: s.move) := by
  unfold tick_entity
  simp only [hcomb, Bool.not_true, Bool.false_eq_true, if_false, hcs, hphase]
  unfold tick_moving_to_target
  simp only [hnone]
  cases hf : cs.move_cmd_interrupted with
  | true =>
    simp only [if_true]
    refine ⟨_, rfl, ?_, fun _ => ?_, fun h => absurd h (by simp)⟩
    · simp [restore_move_cmd, G_Move_SetDest, combatstate_modify_modify,
        combatstate_get_modify_self, hcs]
    · simp [restore_move_cmd, G_Move_SetDest]
  | false =>
    simp only [Bool.false_eq_true, if_false]
    refine ⟨_, rfl, ?_, fun h => absurd h (by simp), fun _ => ?_⟩
    · simp only [G_Move_Stop, combatstate_get_modify_self, hcs, Option.map_some']
      rw [← hf]
    · simp [G_Move_Stop]
/-- C11: for every combat-capable entity of the dynamic set in phase Pursuing for which
`closest_enemy_in_range` finds no enemy, a tick that returns sets the phase to Idle and
leaves the saved move command cleared; if a move command with destination d was saved,
movement holds d as the destination of the entity, and if none was saved the movement of
the entity is stopped.  The tick returns when no `assert` can fail. -/
theorem C11_pursuit_ends_without_enemy (w : World) (s : State) (curr : entity)
    (cs : combatstate) (pre post : List entity)
    (hdyn : w.G_GetDynamicEntsSet = pre ++ curr :: post)
    (huniq : ∀ e ∈ pre ++ post, e.uid ≠ curr.uid)
    (hcomb : curr.flags.combatable = true)
    (hcs : combatstate_get s.table curr.uid = some cs)
    (hphase : cs.state = STATE_MOVING_TO_TARGET)
    (hnone : closest_enemy_in_range w s.table curr = some none) :
    (∀ s1, on_30hz_tick w s = some s1 →
        phase_of s1 curr.uid = some STATE_NOT_IN_COMBAT
        ∧ combatstate_get s1.table curr.uid
            = some { cs with state := STATE_NOT_IN_COMBAT, move_cmd_interrupted := false }
        ∧ (cs.move_cmd_interrupted = true →
            move_order_of s1.move curr.uid = some (move_order.dest cs.move_cmd_xz)
            ∧ G_Move_GetDest s1 curr.uid = some cs.move_cmd_xz)
        ∧ (cs.move_cmd_interrupted = false →
            move_order_of s1.move curr.uid = some move_order.stopped))
    ∧ (tick_ok w s → ∃ s1, on_30hz_tick w s = some s1) := by
  refine ⟨?_, on_30hz_tick_returns w s⟩
  intro s1 h
  obtain ⟨sa, sb, hstep, a1, -, -, -, hview, -, b1, b2, -, -⟩ :=
    on_30hz_tick_split w s s1 curr pre post hdyn huniq h
  have hcsa : combatstate_get sa.table curr.uid = some cs := a1.trans hcs
  have hnonea : closest_enemy_in_range w sa.table curr = some none := by
    rw [closest_enemy_in_range_congr w sa.table s.table hview curr]; exact hnone
  obtain ⟨sb2, hstep2, hget, hmt, hmf⟩ :=
    tick_entity_pursuit_lost w sa curr cs hcomb hcsa hphase hnonea
  have hsb : sb2 = sb := Option.some.inj (hstep2.symm.trans hstep)
  subst hsb
  have hrec : combatstate_get s1.table curr.uid
      = some { cs with state := STATE_NOT_IN_COMBAT, move_cmd_interrupted := false } :=
    b1.trans hget
  refine ⟨by rw [phase_of, hrec]; rfl, hrec, ?_, ?_⟩
  · intro hf
    have hm : move_order_of s1.move curr.uid = some (move_order.dest cs.move_cmd_xz) := by
      rw [b2, hmt hf]; simp [move_order_of]
    exact ⟨hm, by simp only [G_Move_GetDest, hm]⟩
  · intro hf
    rw [b2, hmf hf]; simp [move_order_of]

/-- C11 (witness): entity `1`, pursuing with the move command to (5, 5) saved, finds only
an ally around it: after the tick it is Idle and its destination is (5, 5). -/
theorem C11_pursuit_ends_without_enemy_witness :
    (on_30hz_tick quiet_world pursuing_state).isSome = true
    ∧ (∀ s1, on_30hz_tick quiet_world pursuing_state = some s1 →
        phase_of s1 1 = some STATE_NOT_IN_COMBAT
        ∧ combatstate_get s1.table 1
            = some ⟨⟨10, 0⟩, 10, COMBAT_STANCE_AGGRESSIVE, STATE_NOT_IN_COMBAT, 2, false,
                ⟨5, 5⟩⟩
        ∧ (true = true →
            move_order_of s1.move 1 = some (move_order.dest ⟨5, 5⟩)
            ∧ G_Move_GetDest s1 1 = some ⟨5, 5⟩)
        ∧ (true = false → move_order_of s1.move 1 = some move_order.stopped)) :=
  ⟨by decide!,
    (C11_pursuit_ends_without_enemy quiet_world pursuing_state (ex_entity 1 0 10)
      ⟨⟨10, 0⟩, 10, COMBAT_STANCE_AGGRESSIVE, STATE_MOVING_TO_TARGET, 2, true, ⟨5, 5⟩⟩
      [] [ex_entity 3 0 10] rfl (by decide) rfl rfl rfl (by decide!)).1⟩

/-! ## Reachable states -/

/-- C19 (failing input): from the empty subsystem, two enemies are added, two ticks bring
both to the phase Striking, and the attack of entity `1` kills entity `2`, which is then
Dying and in the pending-death list; `G_Combat_StopAttack` on entity `2` puts it back in
the phase Idle while it stays in the pending-death list. -/
theorem C19_stop_attack_revives_dying :
    empty_subsystem empty_state
    ∧ (run_ops [combat_op.add scenario_attacker COMBAT_STANCE_AGGRESSIVE,
          combat_op.add scenario_target COMBAT_STANCE_AGGRESSIVE,
          combat_op.set_base_damage scenario_attacker 10,
          combat_op.tick scenario_world, combat_op.tick scenario_world,
          combat_op.attack_anim_finish scenario_world scenario_attacker] empty_state).map
        (fun s => (phase_of s 2, s.dying))
      = some (some STATE_DEATH_ANIM_PLAYING, [2])
    ∧ (run_ops [combat_op.add scenario_attacker COMBAT_STANCE_AGGRESSIVE,
          combat_op.add scenario_target COMBAT_STANCE_AGGRESSIVE,
          combat_op.set_base_damage scenario_attacker 10,
          combat_op.tick scenario_world, combat_op.tick scenario_world,
          combat_op.attack_anim_finish scenario_world scenario_attacker,
          combat_op.stop_attack scenario_target] empty_state).map
        (fun s => (phase_of s 2, s.dying))
      = some (some STATE_NOT_IN_COMBAT, [2]) :=
  ⟨⟨rfl, rfl, rfl⟩, by decide!, by decide!⟩

theorem get_modify_pred (P : combatstate → Prop) (f : combatstate → combatstate)
    (tbl : List (Nat × combatstate)) (u : Nat)
    (hinv : ∀ v c, combatstate_get tbl v = some c → P c)
    (hf : ∀ c, combatstate_get tbl u = some c → P (f c)) :
    ∀ v c, combatstate_get (combatstate_modify f tbl u) v = some c → P c := by
  intro v c hc
  by_cases hv : v = u
  · subst hv
    rw [combatstate_get_modify_self] at hc
    cases hg : combatstate_get tbl v with
    | none => rw [hg] at hc; exact absurd hc (by simp)
    | some c0 =>
      rw [hg] at hc
      have : f c0 = c := by simpa using hc
      rw [← this]; exact hf c0 hg
  · rw [combatstate_get_modify_other _ _ hv] at hc
    exact hinv v c hc

theorem combatstate_get_append (tbl : List (Nat × combatstate)) (k : Nat) (c : combatstate)
    (u : Nat) :
    combatstate_get (tbl ++ [(k, c)]) u
      = match combatstate_get tbl u with
        | some c0 => some c0
        | none => if k = u then some c else none := by
  induction tbl with
  | nil => simp [combatstate_get]
  | cons p rest ih =>
    obtain ⟨k0, c0⟩ := p
    by_cases hk : k0 = u
    · simp [combatstate_get, hk]
    · simp [combatstate_get, hk, ih]

theorem combatstate_get_filter (tbl : List (Nat × combatstate)) (k u : Nat) :
    combatstate_get (tbl.filter (fun p => p.1 ≠ k)) u
      = if u = k then none else combatstate_get tbl u := by
  induction tbl with
  | nil => simp [combatstate_get]
  | cons p rest ih =>
    obtain ⟨k0, c0⟩ := p
    by_cases hk : k0 = k
    · subst hk
      by_cases hu : u = k0
      · simpa [List.filter_cons, hu] using ih
      · have hu2 : ¬ k0 = u := fun h => hu h.symm
        simpa [List.filter_cons, combatstate_get, hu, hu2] using ih
    · by_cases hu : k0 = u
      · subst hu
        simp [List.filter_cons, hk, combatstate_get]
      · simpa [List.filter_cons, hk, combatstate_get, hu] using ih
theorem tick_entity_idle_has_no_saved_cmd (w : World) (s s1 : State) (curr : entity)
    (h : tick_entity w s curr = some s1) (hinv : idle_has_no_saved_cmd s) :
    idle_has_no_saved_cmd s1 := by
  suffices hex : ∃ f, s1.table = combatstate_modify f s.table curr.uid
      ∧ ∀ c, combatstate_get s.table curr.uid = some c →
          ((f c).state = STATE_NOT_IN_COMBAT → (f c).move_cmd_interrupted = false) by
    obtain ⟨f, htbl, hf⟩ := hex
    intro v c hc
    rw [htbl] at hc
    exact get_modify_pred (fun c => c.state = STATE_NOT_IN_COMBAT → c.move_cmd_interrupted = false)
      f s.table curr.uid hinv hf v c hc
  have hid : ∃ f, s.table = combatstate_modify f s.table curr.uid
      ∧ ∀ c, combatstate_get s.table curr.uid = some c →
          ((f c).state = STATE_NOT_IN_COMBAT → (f c).move_cmd_interrupted = false) :=
    ⟨id, (combatstate_modify_id _ _).symm, fun c hc => hinv _ c hc⟩
  unfold tick_entity at h
  split at h
  · rw [← Option.some.inj h]; exact hid
  · split at h
    · exact (Option.some_ne_none _ h.symm).elim
    · rename_i cs hcs
      have hP := hinv _ cs hcs
      have hk : ∀ f : combatstate → combatstate,
          ((f cs).state = STATE_NOT_IN_COMBAT → (f cs).move_cmd_interrupted = false) →
          ∀ c, combatstate_get s.table curr.uid = some c →
            ((f c).state = STATE_NOT_IN_COMBAT → (f c).move_cmd_interrupted = false) := by
        intro f hf c hc
        have := Option.some.inj (hcs.symm.trans hc)
        subst this
        exact hf
      split at h
      · rename_i hst
        unfold tick_not_in_combat at h
        repeat' (first | split at h | (dsimp only at h; split at h))
        all_goals first
          | exact (Option.some_ne_none _ h.symm).elim
          | (rw [← Option.some.inj h]; exact hid)
          | (rw [← Option.some.inj h]
             exact ⟨_, rfl, hk _ (by simp_all)⟩)
          | (rw [← Option.some.inj h]
             exact ⟨_, combatstate_modify_modify _ _ _ _, hk _ (by simp_all)⟩)
      · rename_i hst
        unfold tick_moving_to_target restore_move_cmd at h
        repeat' split at h
        all_goals first
          | exact (Option.some_ne_none _ h.symm).elim
          | (rw [← Option.some.inj h]; exact hid)
          | (rw [← Option.some.inj h]
             exact ⟨_, rfl, hk _ (by simp_all)⟩)
          | (rw [← Option.some.inj h]
             exact ⟨_, combatstate_modify_modify _ _ _ _, hk _ (by simp_all)⟩)
      · rename_i hst
        unfold tick_can_attack attack_ends restore_move_cmd at h
        repeat' split at h
        all_goals first
          | exact (Option.some_ne_none _ h.symm).elim
          | (rw [← Option.some.inj h]
             exact ⟨_, rfl, hk _ (by simp_all)⟩)
          | (rw [← Option.some.inj h]
             exact ⟨_, combatstate_modify_modify _ _ _ _, hk _ (by simp_all)⟩)
      · rw [← Option.some.inj h]; exact hid
      · rw [← Option.some.inj h]; exact hid
      · exact (Option.some_ne_none _ h.symm).elim
theorem idle_has_no_saved_cmd_modify {s : State} {tbl : List (Nat × combatstate)}
    {f : combatstate → combatstate} {u : Nat}
    (htbl : s.table = combatstate_modify f tbl u)
    (hinv : ∀ v c, combatstate_get tbl v = some c → c.state = STATE_NOT_IN_COMBAT →
      c.move_cmd_interrupted = false)
    (hf : ∀ c, combatstate_get tbl u = some c →
      (f c).state = STATE_NOT_IN_COMBAT → (f c).move_cmd_interrupted = false) :
    idle_has_no_saved_cmd s := by
  intro v c hc
  rw [htbl] at hc
  exact get_modify_pred
    (fun c => c.state = STATE_NOT_IN_COMBAT → c.move_cmd_interrupted = false)
    f tbl u hinv hf v c hc

theorem idle_has_no_saved_cmd_filter {s s1 : State} {k : Nat}
    (htbl : s1.table = s.table.filter (fun p => p.1 ≠ k)) (hinv : idle_has_no_saved_cmd s) :
    idle_has_no_saved_cmd s1 := by
  intro v c hc hst
  rw [htbl, combatstate_get_filter] at hc
  by_cases hv : v = k
  · simp [hv] at hc
  · rw [if_neg hv] at hc
    exact hinv v c hc hst

theorem tick_loop_idle_has_no_saved_cmd (w : World) (l : List entity) :
    ∀ s s1, tick_loop w l s = some s1 → idle_has_no_saved_cmd s → idle_has_no_saved_cmd s1 := by
  induction l with
  | nil =>
    intro s s1 h hinv
    simp only [tick_loop, Option.some.injEq] at h
    subst h; exact hinv
  | cons e rest ih =>
    intro s s1 h hinv
    simp only [tick_loop] at h
    cases hte : tick_entity w s e with
    | none => rw [hte] at h; exact (Option.some_ne_none _ h.symm).elim
    | some s2 =>
      rw [hte] at h
      exact ih s2 s1 h (tick_entity_idle_has_no_saved_cmd w s s2 e hte hinv)

theorem G_Combat_StopAttack_idle_has_no_saved_cmd (s : State) (ent : entity)
    (hinv : idle_has_no_saved_cmd s) : idle_has_no_saved_cmd (G_Combat_StopAttack s ent) := by
  cases hcs : combatstate_get s.table ent.uid with
  | none =>
    have : G_Combat_StopAttack s ent = s := by simp [G_Combat_StopAttack, hcs]
    rw [this]; exact hinv
  | some cs =>
    refine idle_has_no_saved_cmd_modify (G_Combat_StopAttack_table s ent cs hcs) hinv ?_
    intro c hc _
    have := Option.some.inj (hcs.symm.trans hc)
    subst this
    cases hf : cs.move_cmd_interrupted <;> simp [hf]

theorem on_attack_anim_finish_idle_has_no_saved_cmd (w : World) (s s1 : State)
    (self : entity) (h : on_attack_anim_finish w s self = some s1)
    (hinv : idle_has_no_saved_cmd s) : idle_has_no_saved_cmd s1 := by
  have hres : idle_has_no_saved_cmd (attack_resolved s self) :=
    idle_has_no_saved_cmd_modify (rfl : (attack_resolved s self).table = combatstate_modify
      (fun c => { c with state := STATE_CAN_ATTACK }) s.table self.uid) hinv
      (fun c _ hst => absurd hst (by simp))
  have hhit : ∀ t hp, idle_has_no_saved_cmd (hit_applied s self t hp) := fun t hp =>
    idle_has_no_saved_cmd_modify (rfl : (hit_applied s self t hp).table = combatstate_modify
      (fun c => { c with current_hp := hp }) (attack_resolved s self).table t) hres
      (fun c hc hst => hres t c hc hst)
  have hkill : ∀ t hp target, idle_has_no_saved_cmd
      (kill_target (hit_applied s self t hp) target t) := fun t hp target =>
    idle_has_no_saved_cmd_modify (kill_target_table _ _ _) (hhit t hp)
      (fun c _ hst => absurd hst (by simp))
  cases hcs : combatstate_get s.table self.uid with
  | none => simp [on_attack_anim_finish, E_Entity_Unregister, hcs] at h
  | some cs =>
    by_cases hst : cs.state = STATE_ATTACK_ANIM_PLAYING
    · rw [on_attack_anim_finish_eq w s self cs hcs hst] at h
      repeat' split at h
      all_goals first
        | exact (Option.some_ne_none _ h.symm).elim
        | (rw [← Option.some.inj h]; exact hres)
        | (rw [← Option.some.inj h]; exact hhit _ _)
        | (rw [← Option.some.inj h]; exact hkill _ _ _)
    · simp [on_attack_anim_finish, E_Entity_Unregister, hcs, hst] at h

theorem G_Combat_SetStance_idle_has_no_saved_cmd (s s1 : State) (ent : entity)
    (stance : combat_stance) (h : G_Combat_SetStance s ent stance = some s1)
    (hinv : idle_has_no_saved_cmd s) : idle_has_no_saved_cmd s1 := by
  unfold G_Combat_SetStance at h
  split at h
  · exact (Option.some_ne_none _ h.symm).elim
  · split at h
    · exact (Option.some_ne_none _ h.symm).elim
    · split at h
      · rw [← Option.some.inj h]; exact hinv
      · have h2 : idle_has_no_saved_cmd
            (if stance = COMBAT_STANCE_NO_ENGAGEMENT then G_Combat_StopAttack s ent else s) := by
          split_ifs
          · exact G_Combat_StopAttack_idle_has_no_saved_cmd s ent hinv
          · exact hinv
        generalize (if stance = COMBAT_STANCE_NO_ENGAGEMENT then G_Combat_StopAttack s ent
          else s) = s2 at h h2
        dsimp only at h
        have h3 : idle_has_no_saved_cmd
            (match combatstate_get s2.table ent.uid with
              | none => s2
              | some cs1 =>
                if stance = COMBAT_STANCE_HOLD_POSITION ∧ cs1.state = STATE_MOVING_TO_TARGET then
                  { G_Move_RemoveEntity s2 ent.uid with
                    table := combatstate_modify
                      (fun c => { c with state := STATE_NOT_IN_COMBAT,
                                         move_cmd_interrupted := false })
                      (G_Move_RemoveEntity s2 ent.uid).table ent.uid }
                else s2) := by
          split
          · exact h2
          · split_ifs
            · exact idle_has_no_saved_cmd_modify (rfl : _ = combatstate_modify
                (fun c => { c with state := STATE_NOT_IN_COMBAT, move_cmd_interrupted := false })
                s2.table ent.uid) h2 (fun _ _ _ => rfl)
            · exact h2
        rw [← Option.some.inj h]
        exact idle_has_no_saved_cmd_modify (rfl : _ = combatstate_modify
          (fun c => { c with stance := stance }) _ ent.uid) h3 (fun c hc hst => h3 _ c hc hst)

theorem apply_op_idle_has_no_saved_cmd (s s1 : State) (op : combat_op)
    (h : apply_op s op = some s1) (hinv : idle_has_no_saved_cmd s) :
    idle_has_no_saved_cmd s1 := by
  cases op with
  | add ent initial =>
    simp only [apply_op, G_Combat_AddEntity, combatstate_set] at h
    repeat' split at h
    all_goals first
      | exact (Option.some_ne_none _ h.symm).elim
      | skip
    simp only [Option.map_some', Option.some.injEq] at h
    subst h
    intro v c hc hst
    simp only [combatstate_get_append] at hc
    cases hg : combatstate_get s.table v with
    | some c0 =>
      rw [hg] at hc
      have : c0 = c := by simpa using hc
      subst this
      exact hinv v _ hg hst
    | none =>
      rw [hg] at hc
      by_cases hk : ent.uid = v
      · simp only [hk, if_true, Option.some.injEq] at hc
        rw [← hc]
      · simp [hk] at hc
  | remove ent =>
    simp only [apply_op, G_Combat_RemoveEntity, combatstate_remove] at h
    repeat' split at h
    all_goals first
      | exact (Option.some_ne_none _ h.symm).elim
      | (rw [← Option.some.inj h]; exact hinv)
      | (simp only [Option.map_some', Option.some.injEq] at h
         subst h
         exact idle_has_no_saved_cmd_filter rfl hinv)
  | tick w => exact tick_loop_idle_has_no_saved_cmd w _ s s1 h hinv
  | attack_anim_finish w self =>
    simp only [apply_op] at h
    split at h
    · exact on_attack_anim_finish_idle_has_no_saved_cmd w s s1 self h hinv
    · exact (Option.some_ne_none _ h.symm).elim
  | set_stance ent stance =>
    simp only [apply_op] at h
    split at h
    · exact G_Combat_SetStance_idle_has_no_saved_cmd s s1 ent stance h hinv
    · exact (Option.some_ne_none _ h.symm).elim
  | stop_attack ent =>
    simp only [apply_op, Option.some.injEq] at h
    subst h
    exact G_Combat_StopAttack_idle_has_no_saved_cmd s ent hinv
  | clear_saved_move_cmd ent =>
    simp only [apply_op, Option.some.injEq, G_Combat_ClearSavedMoveCmd] at h
    subst h
    split
    · exact hinv
    · exact idle_has_no_saved_cmd_modify (rfl : _ = combatstate_modify
        (fun c => { c with move_cmd_interrupted := false }) s.table ent.uid) hinv
        (fun _ _ _ => rfl)
  | set_hp ent hp =>
    simp only [apply_op, G_Combat_SetHP] at h
    split at h
    · exact (Option.some_ne_none _ h.symm).elim
    · rw [← Option.some.inj h]
      exact idle_has_no_saved_cmd_modify rfl hinv (fun c hc hst => hinv _ c hc hst)
  | set_base_damage ent dmg =>
    simp only [apply_op, G_Combat_SetBaseDamage] at h
    split at h
    · exact (Option.some_ne_none _ h.symm).elim
    · rw [← Option.some.inj h]
      exact idle_has_no_saved_cmd_modify rfl hinv (fun c hc hst => hinv _ c hc hst)
  | set_base_armour ent armour_pc =>
    simp only [apply_op, G_Combat_SetBaseArmour] at h
    split at h
    · exact (Option.some_ne_none _ h.symm).elim
    · rw [← Option.some.inj h]
      exact idle_has_no_saved_cmd_modify rfl hinv (fun c hc hst => hinv _ c hc hst)

theorem run_ops_idle_has_no_saved_cmd (ops : List combat_op) :
    ∀ s s1, run_ops ops s = some s1 → idle_has_no_saved_cmd s → idle_has_no_saved_cmd s1 := by
  induction ops with
  | nil =>
    intro s s1 h hinv
    simp only [run_ops, Option.some.injEq] at h
    subst h; exact hinv
  | cons op rest ih =>
    intro s s1 h hinv
    simp only [run_ops] at h
    cases hop : apply_op s op with
    | none => rw [hop] at h; exact (Option.some_ne_none _ h.symm).elim
    | some s2 =>
      rw [hop] at h
      exact ih s2 s1 h (apply_op_idle_has_no_saved_cmd s s2 op hop hinv)
/-- C20: in every state reached from the empty subsystem by adding and removing entities,
ticks, attack resolutions, stance changes, `G_Combat_StopAttack`,
`G_Combat_ClearSavedMoveCmd` and the setters, a record in phase Idle holds no saved move
command. -/
theorem C20_idle_holds_no_saved_move_cmd (s0 s : State) (ops : List combat_op)
    (hempty : empty_subsystem s0) (hrun : run_ops ops s0 = some s)
    (u : Nat) (c : combatstate) (hc : combatstate_get s.table u = some c)
    (hidle : c.state = STATE_NOT_IN_COMBAT) :
    c.move_cmd_interrupted = false := by
  have h0 : idle_has_no_saved_cmd s0 := by
    intro v c0 hc0
    rw [hempty.1] at hc0
    exact absurd hc0 (by simp [combatstate_get])
  exact run_ops_idle_has_no_saved_cmd ops s0 s hrun h0 u c hc hidle

/-- C20 (witness): entity `1`, on its way to (5, 5), starts to pursue and saves the move
command; when its attack is stopped it is Idle again and the saved command is cleared. -/
theorem C20_idle_holds_no_saved_move_cmd_witness :
    (run_ops (pursuit_ops.take 3) empty_state).map
        (fun s => (combatstate_get s.table 1).map (fun c => (c.state, c.move_cmd_interrupted)))
      = some (some (STATE_MOVING_TO_TARGET, true))
    ∧ run_ops pursuit_ops empty_state = some pursuit_ops_end
    ∧ (⟨⟨0, 0⟩, 10, COMBAT_STANCE_AGGRESSIVE, STATE_NOT_IN_COMBAT, 2, false, ⟨5, 5⟩⟩ :
        combatstate).move_cmd_interrupted = false :=
  ⟨by decide!, by decide!,
    C20_idle_holds_no_saved_move_cmd empty_state pursuit_ops_end pursuit_ops ⟨rfl, rfl, rfl⟩
      (by decide!) 1 ⟨⟨0, 0⟩, 10, COMBAT_STANCE_AGGRESSIVE, STATE_NOT_IN_COMBAT, 2, false, ⟨5, 5⟩⟩
      rfl rfl⟩

/-! ## Persistence -/

theorem load_write_get_isSome (s : State) (u v : Nat) (f : combatstate → combatstate) :
    (∃ c, combatstate_get (load_write s u f).table v = some c)
      ↔ ∃ c, combatstate_get s.table v = some c := by
  unfold load_write
  by_cases hv : v = u
  · subst hv
    simp only [combatstate_get_modify_self]
    cases combatstate_get s.table v <;> simp
  · simp only [combatstate_get_modify_other _ _ hv]

theorem G_EntityForUID_load_write (s : State) (u : Nat) (f : combatstate → combatstate)
    (k : Nat) : G_EntityForUID (load_write s u f) k = G_EntityForUID s k := rfl

theorem restore_record_table (s : State) (p : Nat × combatstate) :
    (restore_record s p).table
      = combatstate_modify
          (fun c => { c with stance := p.2.stance, state := p.2.state,
                             target_uid := p.2.target_uid,
                             move_cmd_interrupted := p.2.move_cmd_interrupted,
                             move_cmd_xz := p.2.move_cmd_xz })
          s.table p.1 := by
  unfold restore_record
  by_cases hst : p.2.state = STATE_ATTACK_ANIM_PLAYING
  · simp only [hst, if_true, load_write, E_Entity_Register, combatstate_modify_modify]
    rfl
  · simp only [hst, if_false, load_write, combatstate_modify_modify]
    rfl

theorem restore_record_rest (s : State) (p : Nat × combatstate) :
    (restore_record s p).ents = s.ents ∧ (restore_record s p).dying = s.dying
    ∧ (restore_record s p).notified = s.notified ∧ (restore_record s p).move = s.move
    ∧ (restore_record s p).selection = s.selection
    ∧ (restore_record s p).handlers
        = (if p.2.state = STATE_ATTACK_ANIM_PLAYING then
            s.handlers ++ [(p.1, anim_handler.attack_anim_finish)]
          else s.handlers) := by
  unfold restore_record
  by_cases hst : p.2.state = STATE_ATTACK_ANIM_PLAYING
  · simp [hst, load_write, E_Entity_Register]
  · simp [hst, load_write]

theorem record_loadable_restore_record (s : State) (q p : Nat × combatstate) :
    record_loadable (restore_record s q) p ↔ record_loadable s p := by
  unfold record_loadable
  have hents : ∀ u, G_EntityForUID (restore_record s q) u = G_EntityForUID s u := by
    intro u; unfold G_EntityForUID; rw [(restore_record_rest s q).1]
  have hkeys : (∃ c, combatstate_get (restore_record s q).table p.1 = some c)
      ↔ ∃ c, combatstate_get s.table p.1 = some c := by
    rw [restore_record_table]
    exact load_write_get_isSome s q.1 p.1 _
  rw [hkeys, hents]

theorem restore_dying_rest (l : List Nat) :
    ∀ s, (restore_dying l s).table = s.table ∧ (restore_dying l s).ents = s.ents
      ∧ (restore_dying l s).dying = s.dying ++ l
      ∧ (restore_dying l s).notified = s.notified ∧ (restore_dying l s).move = s.move
      ∧ (restore_dying l s).selection = s.selection
      ∧ (restore_dying l s).handlers
          = s.handlers ++ l.map (fun u => (u, anim_handler.death_anim_finish)) := by
  induction l with
  | nil => intro s; simp [restore_dying]
  | cons u l ih =>
    intro s
    obtain ⟨h1, h2, h3, h4, h5, h6, h7⟩ :=
      ih (E_Entity_Register { s with dying := s.dying ++ [u] } u anim_handler.death_anim_finish)
    simp only [restore_dying]
    refine ⟨h1, h2, ?_, h4, h5, h6, ?_⟩
    · rw [h3]; simp [E_Entity_Register]
    · rw [h7]; simp [E_Entity_Register]

theorem restore_records_rest (l : List (Nat × combatstate)) :
    ∀ s, (restore_records l s).ents = s.ents ∧ (restore_records l s).dying = s.dying
      ∧ (restore_records l s).notified = s.notified ∧ (restore_records l s).move = s.move
      ∧ (restore_records l s).selection = s.selection := by
  induction l with
  | nil => intro s; exact ⟨rfl, rfl, rfl, rfl, rfl⟩
  | cons p l ih =>
    intro s
    obtain ⟨h1, h2, h3, h4, h5⟩ := ih (restore_record s p)
    obtain ⟨g1, g2, g3, g4, g5, -⟩ := restore_record_rest s p
    simp only [restore_records]
    exact ⟨h1.trans g1, h2.trans g2, h3.trans g3, h4.trans g4, h5.trans g5⟩

theorem combatstate_get_none_of_not_mem (l : List (Nat × combatstate)) (k : Nat)
    (h : k ∉ l.map Prod.fst) : combatstate_get l k = none := by
  induction l with
  | nil => rfl
  | cons p l ih =>
    obtain ⟨k0, c0⟩ := p
    simp only [List.map_cons, List.mem_cons, not_or] at h
    have hk : ¬ k0 = k := fun e => h.1 e.symm
    simp only [combatstate_get, hk, if_false]
    exact ih h.2

/-- The records after the saved records are restored: a record whose entity was saved has
the saved stance, phase, target and move command and keeps its other fields; the other
records are unchanged. -/
theorem restore_records_get (l : List (Nat × combatstate)) :
    ∀ s, (l.map Prod.fst).Nodup → ∀ u,
      combatstate_get (restore_records l s).table u
        = match combatstate_get l u with
          | some c => (combatstate_get s.table u).map
              (fun c0 => { c0 with stance := c.stance, state := c.state,
                                   target_uid := c.target_uid,
                                   move_cmd_interrupted := c.move_cmd_interrupted,
                                   move_cmd_xz := c.move_cmd_xz })
          | none => combatstate_get s.table u := by
  induction l with
  | nil => intro s _ u; rfl
  | cons p l ih =>
    intro s hnd u
    obtain ⟨k, c⟩ := p
    simp only [List.map_cons, List.nodup_cons] at hnd
    simp only [restore_records]
    rw [ih (restore_record s (k, c)) hnd.2 u, restore_record_table]
    by_cases hu : k = u
    · subst hu
      simp only [combatstate_get, if_true, combatstate_get_none_of_not_mem l k hnd.1,
        combatstate_get_modify_self]
    · have hu2 : u ≠ k := fun e => hu e.symm
      simp only [combatstate_get, hu, if_false, combatstate_get_modify_other _ _ hu2]

theorem combatstate_modify_keys (f : combatstate → combatstate)
    (tbl : List (Nat × combatstate)) (u : Nat) :
    (combatstate_modify f tbl u).map Prod.fst = tbl.map Prod.fst := by
  induction tbl with
  | nil => rfl
  | cons p l ih =>
    obtain ⟨k, c0⟩ := p
    by_cases hk : k = u
    · simp only [combatstate_modify, hk, if_true, List.map_cons]
    · simp only [combatstate_modify, hk, if_false, List.map_cons, ih]

theorem load_frame_refl (s : State) : load_frame s s :=
  ⟨rfl, fun _ => rfl, ⟨[], (List.append_nil _).symm⟩, ⟨[], (List.append_nil _).symm⟩,
    rfl, rfl, rfl, rfl⟩

theorem load_frame_trans {s0 s1 s2 : State} (h1 : load_frame s0 s1) (h2 : load_frame s1 s2) :
    load_frame s0 s2 := by
  obtain ⟨a1, a2, ⟨l1, a3⟩, ⟨g1, a4⟩, a5, a6, a7, a8⟩ := h1
  obtain ⟨b1, b2, ⟨l2, b3⟩, ⟨g2, b4⟩, b5, b6, b7, b8⟩ := h2
  refine ⟨b1.trans a1, fun u => (b2 u).trans (a2 u), ⟨l1 ++ l2, ?_⟩, ⟨g1 ++ g2, ?_⟩,
    b5.trans a5, b6.trans a6, b7.trans a7, b8.trans a8⟩
  · rw [b3, a3, List.append_assoc]
  · rw [b4, a4, List.append_assoc]

/-- A write of `G_Combat_LoadState` to a field other than the hit points and the combat
profile. -/
theorem load_frame_write {s0 s : State} (u : Nat) (f : combatstate → combatstate)
    (h : load_frame s0 s)
    (hf : ∀ c, (f c).current_hp = c.current_hp ∧ (f c).stats = c.stats) :
    load_frame s0 (load_write s u f) := by
  refine load_frame_trans h ⟨combatstate_modify_keys f s.table u, ?_,
    ⟨[], (List.append_nil _).symm⟩, ⟨[], (List.append_nil _).symm⟩, rfl, rfl, rfl, rfl⟩
  intro v
  show (combatstate_get (combatstate_modify f s.table u) v).map _ = _
  by_cases hv : v = u
  · subst hv
    rw [combatstate_get_modify_self]
    cases combatstate_get s.table v with
    | none => rfl
    | some c => simp only [Option.map_some', (hf c).1, (hf c).2]
  · rw [combatstate_get_modify_other _ _ hv]

theorem load_frame_register {s0 s : State} (u : Nat) (a : anim_handler)
    (h : load_frame s0 s) : load_frame s0 (E_Entity_Register s u a) :=
  load_frame_trans h ⟨rfl, fun _ => rfl, ⟨[], (List.append_nil _).symm⟩, ⟨[(u, a)], rfl⟩,
    rfl, rfl, rfl, rfl⟩

theorem load_frame_reregister {s0 s s1 : State} (u : Nat) (st : combat_phase)
    (h : load_frame s0 s) (h1 : load_reregister s u st = some s1) : load_frame s0 s1 := by
  unfold load_reregister at h1
  split at h1
  · split at h1
    · exact (Option.some_ne_none _ h1.symm).elim
    · simp only [Option.some.injEq] at h1
      subst h1
      exact load_frame_register u _ h
  · simp only [Option.some.injEq] at h1
    subst h1
    exact h

/-- The state in which the body of the first loop of `G_Combat_LoadState` ends, with or
without a failure, keeps the frame of the state in which it starts. -/
theorem load_record_frame (s : State) (stream : List attr) (s1 : State)
    (h : (load_record s stream).state = some s1) : load_frame s s1 := by
  unfold load_record at h
  repeat' (first | split at h | (dsimp only at h; split at h))
  all_goals first
    | (exact (Option.some_ne_none _ h.symm).elim)
    | (simp only [load_result.state, Option.some.injEq] at h
       subst h
       repeat (first
         | exact load_frame_refl _
         | (refine load_frame_write _ _ ?_ (fun c => ⟨rfl, rfl⟩))
         | (refine load_frame_reregister _ _ ?_ (by assumption))))
theorem load_records_frame (n : Nat) : ∀ (s : State) (stream : List attr) (s1 : State),
    (load_records n s stream).state = some s1 → load_frame s s1 := by
  induction n with
  | zero =>
    intro s stream s1 h
    simp only [load_records, load_result.state, Option.some.injEq] at h
    subst h
    exact load_frame_refl _
  | succ n ih =>
    intro s stream s1 h
    simp only [load_records] at h
    cases hrec : load_record s stream with
    | loaded s2 rest =>
      rw [hrec] at h
      exact load_frame_trans (load_record_frame s stream s2 (by rw [hrec]; rfl))
        (ih s2 rest s1 h)
    | failed s2 =>
      rw [hrec] at h
      exact load_record_frame s stream s1 (by rw [hrec]; exact h)

theorem load_dying_ent_frame (s : State) (stream : List attr) (s1 : State)
    (h : (load_dying_ent s stream).state = some s1) : load_frame s s1 := by
  unfold load_dying_ent at h
  repeat' (first | split at h | (dsimp only at h; split at h))
  all_goals
    simp only [load_result.state, Option.some.injEq] at h
    subst h
  · exact load_frame_refl _
  · exact load_frame_refl _
  · exact load_frame_register _ _
      ⟨rfl, fun _ => rfl, ⟨[_], rfl⟩, ⟨[], (List.append_nil _).symm⟩, rfl, rfl, rfl, rfl⟩

theorem load_dying_frame (n : Nat) : ∀ (s : State) (stream : List attr) (s1 : State),
    (load_dying n s stream).state = some s1 → load_frame s s1 := by
  induction n with
  | zero =>
    intro s stream s1 h
    simp only [load_dying, load_result.state, Option.some.injEq] at h
    subst h
    exact load_frame_refl _
  | succ n ih =>
    intro s stream s1 h
    simp only [load_dying] at h
    cases hrec : load_dying_ent s stream with
    | loaded s2 rest =>
      rw [hrec] at h
      exact load_frame_trans (load_dying_ent_frame s stream s2 (by rw [hrec]; rfl))
        (ih s2 rest s1 h)
    | failed s2 =>
      rw [hrec] at h
      exact load_dying_ent_frame s stream s1 (by rw [hrec]; exact h)

/-- The state in which `G_Combat_LoadState` returns, `true` or `false`, keeps the frame
of the state in which it starts. -/
theorem G_Combat_LoadState_frame (s : State) (stream : List attr) (s1 : State)
    (h : (G_Combat_LoadState s stream).state = some s1) : load_frame s s1 := by
  unfold G_Combat_LoadState at h
  cases hp : parse_int stream with
  | none =>
    rw [hp] at h
    simp only [load_result.state, Option.some.injEq] at h
    subst h
    exact load_frame_refl _
  | some q =>
    obtain ⟨i, rest⟩ := q
    rw [hp] at h
    dsimp only at h
    cases hrec : load_records (int_to_size_t i) s rest with
    | failed s2 =>
      rw [hrec] at h
      exact load_records_frame _ s rest s1 (by rw [hrec]; exact h)
    | loaded s2 rest2 =>
      rw [hrec] at h
      dsimp only at h
      have h2 : load_frame s s2 := load_records_frame _ s rest s2 (by rw [hrec]; rfl)
      cases hp2 : parse_int rest2 with
      | none =>
        rw [hp2] at h
        simp only [load_result.state, Option.some.injEq] at h
        subst h
        exact h2
      | some q2 =>
        obtain ⟨j, rest3⟩ := q2
        rw [hp2] at h
        exact load_frame_trans h2 (load_dying_frame _ s2 rest3 s1 h)

theorem erase_hp_length (l : List (Nat × combatstate)) : (erase_hp l).length = l.length := by
  simp [erase_hp]

theorem save_records_erase_hp (l : List (Nat × combatstate)) :
    save_records (erase_hp l) = save_records l := by
  induction l with
  | nil => rfl
  | cons p l ih =>
    show save_record _ ++ save_records (erase_hp l) = save_record p ++ save_records l
    rw [ih]
    rfl

theorem save_record_length (p : Nat × combatstate) : (save_record p).length = 6 := rfl

theorem save_records_drop (l : List (Nat × combatstate)) :
    ∀ (i : Nat) (p : Nat × combatstate), l[i]? = some p → ∀ rest : List attr,
      (save_records l ++ rest).drop (6 * i)
        = save_record p ++ (save_records (l.drop (i + 1)) ++ rest) := by
  induction l with
  | nil => intro i p h; simp at h
  | cons q l ih =>
    intro i p h rest
    cases i with
    | zero =>
      simp only [List.getElem?_cons_zero, Option.some.injEq] at h
      subst h
      simp only [Nat.mul_zero, List.drop_zero, save_records, List.append_assoc, zero_add,
        List.drop_succ_cons]
    | succ i =>
      simp only [List.getElem?_cons_succ] at h
      have h6 : 6 * (i + 1) = (save_record q).length + 6 * i := by
        rw [save_record_length]; omega
      simp only [save_records, List.append_assoc, List.drop_succ_cons]
      rw [h6, List.drop_append, ih i p h rest]

theorem save_records_length (l : List (Nat × combatstate)) :
    (save_records l).length = 6 * l.length := by
  induction l with
  | nil => rfl
  | cons p l ih =>
    simp only [save_records, List.length_append, save_record_length, ih, List.length_cons]
    omega

theorem save_dying_eq_map (l : List Nat) :
    save_dying l = l.map (fun u => ⟨"dying_ent_uid", attr_val.as_int (unsigned_to_int u)⟩) := by
  induction l with
  | nil => rfl
  | cons u l ih => simp only [save_dying, List.map_cons, ih]

/-- The body of the first loop of `G_Combat_LoadState` accepts a record exactly when the
six attributes can be read and the record is loadable, and then restores it. -/
theorem load_record_loaded_iff (s : State) (stream : List attr) (s1 : State)
    (rest : List attr) :
    load_record s stream = load_result.loaded s1 rest
      ↔ ∃ p, read_record stream = some (p, rest) ∧ record_loadable s p
          ∧ s1 = restore_record s p := by
  unfold load_record read_record record_loadable
  cases h1 : parse_int stream with
  | none => simp
  | some q1 =>
    obtain ⟨i1, r1⟩ := q1
    dsimp only
    cases hg : combatstate_get s.table (int_to_uint32 i1) with
    | none =>
      constructor
      · intro h; exact absurd h (by simp)
      rintro ⟨p, hp, hl, -⟩
      exfalso
      repeat' split at hp
      all_goals first
        | exact (Option.some_ne_none _ hp.symm).elim
        | (simp only [Option.some.injEq, Prod.mk.injEq] at hp
           obtain ⟨c, hc⟩ := hl.1
           rw [← hp.1] at hc
           simp only at hc
           rw [hg] at hc
           exact absurd hc (by simp))
    | some c0 =>
      dsimp only
      cases h2 : parse_int r1 with
      | none => simp
      | some q2 =>
        obtain ⟨i2, r2⟩ := q2
        dsimp only
        cases h3 : parse_int r2 with
        | none => simp
        | some q3 =>
          obtain ⟨i3, r3⟩ := q3
          dsimp only
          unfold load_reregister
          by_cases hst : phase_of_int i3 = STATE_ATTACK_ANIM_PLAYING
          · simp only [hst, if_true, G_EntityForUID_load_write]
            cases hent : G_EntityForUID s (int_to_uint32 i1) with
            | none =>
              constructor
              · intro h; exact absurd h (by simp)
              rintro ⟨p, hp, hl, -⟩
              exfalso
              repeat' split at hp
              all_goals first
                | exact (Option.some_ne_none _ hp.symm).elim
                | (simp only [Option.some.injEq, Prod.mk.injEq] at hp
                   have h5 := hl.2
                   rw [← hp.1] at h5
                   simp only at h5
                   obtain ⟨e, he⟩ := h5 trivial
                   rw [hent] at he
                   exact absurd he (by simp))
            | some e =>
              dsimp only
              cases h4 : parse_int r3 with
              | none => simp
              | some q4 =>
                obtain ⟨i4, r4⟩ := q4
                dsimp only
                cases h5 : parse_bool r4 with
                | none => simp
                | some q5 =>
                  obtain ⟨b, r5⟩ := q5
                  dsimp only
                  cases h6 : parse_vec2 r5 with
                  | none => simp
                  | some q6 =>
                    obtain ⟨v, r6⟩ := q6
                    simp only [load_result.loaded.injEq, Option.some.injEq, Prod.mk.injEq]
                    constructor
                    · rintro ⟨hs, hr⟩
                      refine ⟨_, ⟨rfl, hr⟩, ⟨⟨c0, hg⟩, fun _ => ⟨e, hent⟩⟩, ?_⟩
                      rw [← hs]
                      simp [restore_record, hst]
                    · rintro ⟨p, ⟨hp, hr⟩, -, hs⟩
                      refine ⟨?_, hr⟩
                      rw [hs, ← hp]
                      simp [restore_record, hst]
          · simp only [hst, if_false]
            cases h4 : parse_int r3 with
            | none => simp
            | some q4 =>
              obtain ⟨i4, r4⟩ := q4
              dsimp only
              cases h5 : parse_bool r4 with
              | none => simp
              | some q5 =>
                obtain ⟨b, r5⟩ := q5
                dsimp only
                cases h6 : parse_vec2 r5 with
                | none => simp
                | some q6 =>
                  obtain ⟨v, r6⟩ := q6
                  simp only [load_result.loaded.injEq, Option.some.injEq, Prod.mk.injEq]
                  constructor
                  · rintro ⟨hs, hr⟩
                    refine ⟨_, ⟨rfl, hr⟩, ⟨⟨c0, hg⟩, fun h => absurd h hst⟩, ?_⟩
                    rw [← hs]
                    simp [restore_record, hst]
                  · rintro ⟨p, ⟨hp, hr⟩, -, hs⟩
                    refine ⟨?_, hr⟩
                    rw [hs, ← hp]
                    simp [restore_record, hst]

/-- The body of the first loop of `G_Combat_LoadState` fails with the state unchanged
when the id of the record cannot be read or names an entity without a record. -/
theorem load_record_failed_at_id (s : State) (stream : List attr)
    (h : parse_int stream = none
      ∨ ∃ i r, parse_int stream = some (i, r)
          ∧ combatstate_get s.table (int_to_uint32 i) = none) :
    load_record s stream = load_result.failed s := by
  unfold load_record
  rcases h with h | ⟨i, r, h, hg⟩
  · rw [h]
  · rw [h]
    dsimp only
    rw [hg]

theorem load_result_cases (r : load_result) :
    (∃ s rest, r = load_result.loaded s rest) ∨ ∃ s, r = load_result.failed s := by
  cases r with
  | loaded s rest => exact Or.inl ⟨s, rest, rfl⟩
  | failed s => exact Or.inr ⟨s, rfl⟩

/-- The first loop of `G_Combat_LoadState` accepts the records exactly when they can all
be read and are all loadable, and then restores them in order. -/
theorem load_records_loaded_iff (n : Nat) :
    ∀ (s : State) (stream : List attr) (s1 : State) (rest : List attr),
      load_records n s stream = load_result.loaded s1 rest
        ↔ ∃ recs, read_records n stream = some (recs, rest)
            ∧ (∀ p ∈ recs, record_loadable s p) ∧ s1 = restore_records recs s := by
  induction n with
  | zero =>
    intro s stream s1 rest
    simp only [load_records, read_records, load_result.loaded.injEq, Option.some.injEq,
      Prod.mk.injEq]
    constructor
    · rintro ⟨rfl, rfl⟩
      exact ⟨[], ⟨rfl, rfl⟩, fun p hp => absurd hp (List.not_mem_nil p), rfl⟩
    · rintro ⟨recs, ⟨rfl, rfl⟩, -, hs⟩
      exact ⟨hs.symm, rfl⟩
  | succ n ih =>
    intro s stream s1 rest
    simp only [load_records, read_records]
    constructor
    · intro h
      cases hrec : load_record s stream with
      | failed s2 => rw [hrec] at h; exact absurd h (by simp)
      | loaded s2 r2 =>
        rw [hrec] at h
        obtain ⟨p, hp, hl, hs2⟩ := (load_record_loaded_iff s stream s2 r2).mp hrec
        obtain ⟨recs, hrecs, hall, hs1⟩ := (ih s2 r2 s1 rest).mp h
        refine ⟨p :: recs, by rw [hp]; dsimp only; rw [hrecs], ?_, ?_⟩
        · intro q hq
          rcases List.mem_cons.mp hq with rfl | hq
          · exact hl
          · have := hall q hq
            rw [hs2] at this
            exact (record_loadable_restore_record s p q).mp this
        · rw [hs1, hs2]; rfl
    · rintro ⟨l, hl, hall, hs1⟩
      cases hp : read_record stream with
      | none => rw [hp] at hl; exact absurd hl (by simp)
      | some q =>
        obtain ⟨p, r2⟩ := q
        rw [hp] at hl
        dsimp only at hl
        cases hrecs : read_records n r2 with
        | none => rw [hrecs] at hl; exact absurd hl (by simp)
        | some q2 =>
          obtain ⟨recs, r3⟩ := q2
          rw [hrecs] at hl
          simp only [Option.some.injEq, Prod.mk.injEq] at hl
          obtain ⟨hl1, hl2⟩ := hl
          subst hl1 hl2
          have hload : load_record s stream = load_result.loaded (restore_record s p) r2 :=
            (load_record_loaded_iff s stream _ r2).mpr
              ⟨p, hp, hall p (List.mem_cons_self _ _), rfl⟩
          rw [hload]
          dsimp only
          refine (ih (restore_record s p) r2 s1 r3).mpr ⟨recs, hrecs, ?_, hs1⟩
          intro q hq
          exact (record_loadable_restore_record s p q).mpr
            (hall q (List.mem_cons_of_mem _ hq))

/-- When the first `k` records are read and accepted and the body of the loop fails on
the next one, the first loop of `G_Combat_LoadState` fails in the state in which that
body fails: the `k` records stay restored. -/
theorem load_records_failed_at (m : Nat) (sf : State) :
    ∀ (k : Nat) (s : State) (stream : List attr) (recs : List (Nat × combatstate))
      (rest : List attr),
      read_records k stream = some (recs, rest) →
      (∀ p ∈ recs, record_loadable s p) →
      load_record (restore_records recs s) rest = load_result.failed sf →
      load_records (k + (m + 1)) s stream = load_result.failed sf := by
  intro k
  induction k with
  | zero =>
    intro s stream recs rest hr _ hf
    simp only [read_records, Option.some.injEq, Prod.mk.injEq] at hr
    obtain ⟨rfl, rfl⟩ := hr
    have h0 : 0 + (m + 1) = m + 1 := by omega
    rw [h0]
    simp only [load_records]
    simp only [restore_records] at hf
    rw [hf]
  | succ k ih =>
    intro s stream l rest hr hall hf
    have h0 : k + 1 + (m + 1) = (k + (m + 1)) + 1 := by omega
    rw [h0]
    simp only [load_records]
    simp only [read_records] at hr
    cases hp : read_record stream with
    | none => rw [hp] at hr; exact absurd hr (by simp)
    | some q =>
      obtain ⟨p, r2⟩ := q
      rw [hp] at hr
      dsimp only at hr
      cases hrecs : read_records k r2 with
      | none => rw [hrecs] at hr; exact absurd hr (by simp)
      | some q2 =>
        obtain ⟨recs, r3⟩ := q2
        rw [hrecs] at hr
        simp only [Option.some.injEq, Prod.mk.injEq] at hr
        obtain ⟨hl1, hl2⟩ := hr
        subst hl1 hl2
        have hload : load_record s stream = load_result.loaded (restore_record s p) r2 :=
          (load_record_loaded_iff s stream _ r2).mpr
            ⟨p, hp, hall p (List.mem_cons_self _ _), rfl⟩
        rw [hload]
        dsimp only
        exact ih (restore_record s p) r2 recs r3 hrecs
          (fun q hq => (record_loadable_restore_record s p q).mpr
            (hall q (List.mem_cons_of_mem _ hq))) hf

/-- The body of the second loop of `G_Combat_LoadState` accepts an id exactly when it can
be read and names an entity of the registry. -/
theorem load_dying_ent_loaded_iff (s : State) (stream : List attr) (s1 : State)
    (rest : List attr) :
    load_dying_ent s stream = load_result.loaded s1 rest
      ↔ ∃ i, parse_int stream = some (i, rest)
          ∧ (∃ e, G_EntityForUID s (int_to_uint32 i) = some e)
          ∧ s1 = E_Entity_Register { s with dying := s.dying ++ [int_to_uint32 i] }
              (int_to_uint32 i) anim_handler.death_anim_finish := by
  unfold load_dying_ent
  cases h1 : parse_int stream with
  | none => simp
  | some q =>
    obtain ⟨i, r⟩ := q
    dsimp only
    cases he : G_EntityForUID s (int_to_uint32 i) with
    | none => simp [he]
    | some e =>
      have huid := G_EntityForUID_uid he
      simp only [load_result.loaded.injEq, Option.some.injEq, Prod.mk.injEq, huid]
      constructor
      · rintro ⟨hs, hr⟩
        exact ⟨i, ⟨rfl, hr⟩, ⟨e, he⟩, hs.symm⟩
      · rintro ⟨j, ⟨hj, hr⟩, -, hs⟩
        subst hj
        exact ⟨hs.symm, hr⟩

/-- The body of the second loop of `G_Combat_LoadState` fails with the state unchanged
when the id cannot be read or names no entity of the registry. -/
theorem load_dying_ent_failed_at_id (s : State) (stream : List attr)
    (h : parse_int stream = none
      ∨ ∃ i r, parse_int stream = some (i, r) ∧ G_EntityForUID s (int_to_uint32 i) = none) :
    load_dying_ent s stream = load_result.failed s := by
  unfold load_dying_ent
  rcases h with h | ⟨i, r, h, hg⟩
  · rw [h]
  · rw [h]
    dsimp only
    rw [hg]

/-- The second loop of `G_Combat_LoadState` accepts the ids exactly when they can all be
read and all name entities of the registry, and then restores them in order. -/
theorem load_dying_loaded_iff (n : Nat) :
    ∀ (s : State) (stream : List attr) (s1 : State) (rest : List attr),
      load_dying n s stream = load_result.loaded s1 rest
        ↔ ∃ ds, read_dying n stream = some (ds, rest)
            ∧ (∀ u ∈ ds, ∃ e, G_EntityForUID s u = some e) ∧ s1 = restore_dying ds s := by
  induction n with
  | zero =>
    intro s stream s1 rest
    simp only [load_dying, read_dying, load_result.loaded.injEq, Option.some.injEq,
      Prod.mk.injEq]
    constructor
    · rintro ⟨rfl, rfl⟩
      exact ⟨[], ⟨rfl, rfl⟩, fun p hp => absurd hp (List.not_mem_nil p), rfl⟩
    · rintro ⟨recs, ⟨rfl, rfl⟩, -, hs⟩
      exact ⟨hs.symm, rfl⟩
  | succ n ih =>
    intro s stream s1 rest
    simp only [load_dying, read_dying]
    constructor
    · intro h
      cases hrec : load_dying_ent s stream with
      | failed s2 => rw [hrec] at h; exact absurd h (by simp)
      | loaded s2 r2 =>
        rw [hrec] at h
        obtain ⟨i, hp, hl, hs2⟩ := (load_dying_ent_loaded_iff s stream s2 r2).mp hrec
        obtain ⟨ds, hds, hall, hs1⟩ := (ih s2 r2 s1 rest).mp h
        refine ⟨int_to_uint32 i :: ds, by rw [hp]; dsimp only; rw [hds], ?_, ?_⟩
        · intro u hu
          rcases List.mem_cons.mp hu with rfl | hu
          · exact hl
          · have := hall u hu
            rw [hs2] at this
            exact this
        · rw [hs1, hs2]; rfl
    · rintro ⟨l, hl, hall, hs1⟩
      cases hp : parse_int stream with
      | none => rw [hp] at hl; exact absurd hl (by simp)
      | some q =>
        obtain ⟨i, r2⟩ := q
        rw [hp] at hl
        dsimp only at hl
        cases hds : read_dying n r2 with
        | none => rw [hds] at hl; exact absurd hl (by simp)
        | some q2 =>
          obtain ⟨ds, r3⟩ := q2
          rw [hds] at hl
          simp only [Option.some.injEq, Prod.mk.injEq] at hl
          obtain ⟨hl1, hl2⟩ := hl
          subst hl1 hl2
          have hload : load_dying_ent s stream = load_result.loaded
              (E_Entity_Register { s with dying := s.dying ++ [int_to_uint32 i] }
                (int_to_uint32 i) anim_handler.death_anim_finish) r2 :=
            (load_dying_ent_loaded_iff s stream _ r2).mpr
              ⟨i, hp, hall _ (List.mem_cons_self _ _), rfl⟩
          rw [hload]
          dsimp only
          exact (ih _ r2 s1 r3).mpr ⟨ds, hds,
            fun u hu => hall u (List.mem_cons_of_mem _ hu), hs1⟩

/-- When the first `k` ids are read and accepted and the body of the loop fails on the
next one, the second loop of `G_Combat_LoadState` fails in the state in which that body
fails: the `k` dying entities stay restored. -/
theorem load_dying_failed_at (m : Nat) (sf : State) :
    ∀ (k : Nat) (s : State) (stream : List attr) (ds : List Nat) (rest : List attr),
      read_dying k stream = some (ds, rest) →
      (∀ u ∈ ds, ∃ e, G_EntityForUID s u = some e) →
      load_dying_ent (restore_dying ds s) rest = load_result.failed sf →
      load_dying (k + (m + 1)) s stream = load_result.failed sf := by
  intro k
  induction k with
  | zero =>
    intro s stream ds rest hr _ hf
    simp only [read_dying, Option.some.injEq, Prod.mk.injEq] at hr
    obtain ⟨rfl, rfl⟩ := hr
    have h0 : 0 + (m + 1) = m + 1 := by omega
    rw [h0]
    simp only [load_dying]
    simp only [restore_dying] at hf
    rw [hf]
  | succ k ih =>
    intro s stream l rest hr hall hf
    have h0 : k + 1 + (m + 1) = (k + (m + 1)) + 1 := by omega
    rw [h0]
    simp only [load_dying]
    simp only [read_dying] at hr
    cases hp : parse_int stream with
    | none => rw [hp] at hr; exact absurd hr (by simp)
    | some q =>
      obtain ⟨i, r2⟩ := q
      rw [hp] at hr
      dsimp only at hr
      cases hds : read_dying k r2 with
      | none => rw [hds] at hr; exact absurd hr (by simp)
      | some q2 =>
        obtain ⟨ds, r3⟩ := q2
        rw [hds] at hr
        simp only [Option.some.injEq, Prod.mk.injEq] at hr
        obtain ⟨hl1, hl2⟩ := hr
        subst hl1 hl2
        have hload : load_dying_ent s stream = load_result.loaded
            (E_Entity_Register { s with dying := s.dying ++ [int_to_uint32 i] }
              (int_to_uint32 i) anim_handler.death_anim_finish) r2 :=
          (load_dying_ent_loaded_iff s stream _ r2).mpr
            ⟨i, hp, hall _ (List.mem_cons_self _ _), rfl⟩
        rw [hload]
        dsimp only
        exact ih _ r2 ds r3 hds (fun u hu => hall u (List.mem_cons_of_mem _ hu)) hf

/-- The function `G_Combat_LoadState` returns `true` exactly when the stream has the
layout that it reads, every record is loadable and every dying entity is in the
registry; it then restores the records and the dying entities in order. -/
theorem G_Combat_LoadState_loaded_iff (s : State) (stream : List attr) (s1 : State)
    (rest : List attr) :
    G_Combat_LoadState s stream = load_result.loaded s1 rest
      ↔ ∃ recs ds, read_stream stream = some (recs, ds, rest)
          ∧ (∀ p ∈ recs, record_loadable s p)
          ∧ (∀ u ∈ ds, ∃ e, G_EntityForUID s u = some e)
          ∧ s1 = restore_dying ds (restore_records recs s) := by
  have hents : ∀ recs u, G_EntityForUID (restore_records recs s) u = G_EntityForUID s u := by
    intro recs u; unfold G_EntityForUID; rw [(restore_records_rest recs s).1]
  unfold G_Combat_LoadState read_stream
  cases h1 : parse_int stream with
  | none => simp
  | some q =>
    obtain ⟨n, r1⟩ := q
    dsimp only
    constructor
    · intro h
      cases hrec : load_records (int_to_size_t n) s r1 with
      | failed s2 => rw [hrec] at h; exact absurd h (by simp)
      | loaded s2 r2 =>
        rw [hrec] at h
        dsimp only at h
        obtain ⟨recs, hrecs, hall, hs2⟩ := (load_records_loaded_iff _ s r1 s2 r2).mp hrec
        cases h2 : parse_int r2 with
        | none => rw [h2] at h; exact absurd h (by simp)
        | some q2 =>
          obtain ⟨m, r3⟩ := q2
          rw [h2] at h
          dsimp only at h
          obtain ⟨ds, hds, halld, hs1⟩ := (load_dying_loaded_iff _ s2 r3 s1 rest).mp h
          refine ⟨recs, ds, by rw [hrecs]; dsimp only; rw [h2]; dsimp only; rw [hds], hall,
            ?_, by rw [hs1, hs2]⟩
          intro u hu
          have := halld u hu
          rw [hs2, hents] at this
          exact this
    · rintro ⟨recs, ds, hl, hall, halld, hs1⟩
      cases hrecs : read_records (int_to_size_t n) r1 with
      | none => rw [hrecs] at hl; exact absurd hl (by simp)
      | some q2 =>
        obtain ⟨recs2, r2⟩ := q2
        rw [hrecs] at hl
        dsimp only at hl
        cases h2 : parse_int r2 with
        | none => rw [h2] at hl; exact absurd hl (by simp)
        | some q3 =>
          obtain ⟨m, r3⟩ := q3
          rw [h2] at hl
          dsimp only at hl
          cases hds : read_dying (int_to_size_t m) r3 with
          | none => rw [hds] at hl; exact absurd hl (by simp)
          | some q4 =>
            obtain ⟨ds2, r4⟩ := q4
            rw [hds] at hl
            simp only [Option.some.injEq, Prod.mk.injEq] at hl
            obtain ⟨e1, e2, e3⟩ := hl
            subst e1 e2 e3
            rw [(load_records_loaded_iff _ s r1 _ r2).mpr ⟨recs2, hrecs, hall, rfl⟩]
            dsimp only
            rw [h2]
            dsimp only
            exact (load_dying_loaded_iff _ _ r3 s1 r4).mpr ⟨ds2, hds,
              fun u hu => by rw [hents]; exact halld u hu, hs1⟩

theorem restore_records_get_none (recs : List (Nat × combatstate)) :
    ∀ (s : State) (u : Nat),
      combatstate_get (restore_records recs s).table u = none
        ↔ combatstate_get s.table u = none := by
  induction recs with
  | nil => intro s u; rfl
  | cons p l ih =>
    intro s u
    rw [show restore_records (p :: l) s = restore_records l (restore_record s p) from rfl, ih,
      restore_record_table]
    have := load_write_get_isSome s p.1 u
      (fun c => { c with stance := p.2.stance, state := p.2.state,
                         target_uid := p.2.target_uid,
                         move_cmd_interrupted := p.2.move_cmd_interrupted,
                         move_cmd_xz := p.2.move_cmd_xz })
    unfold load_write at this
    simp only at this
    constructor
    · intro h
      cases hg : combatstate_get s.table u with
      | none => rfl
      | some c =>
        obtain ⟨c1, hc1⟩ := this.mpr ⟨c, hg⟩
        rw [h] at hc1
        exact absurd hc1 (by simp)
    · intro h
      cases hg : combatstate_get (combatstate_modify
          (fun c => { c with stance := p.2.stance, state := p.2.state,
                             target_uid := p.2.target_uid,
                             move_cmd_interrupted := p.2.move_cmd_interrupted,
                             move_cmd_xz := p.2.move_cmd_xz }) s.table p.1) u with
      | none => rfl
      | some c =>
        obtain ⟨c1, hc1⟩ := this.mp ⟨c, hg⟩
        rw [h] at hc1
        exact absurd hc1 (by simp)

/-- C15 (counterexample): in the state that `pursuit_ops` reaches from the empty
subsystem, the record of entity `1` has the interrupted-move-command flag unset, and the
stream holds its destination (5, 5) all the same, as it holds the destination (0, 0) of
entity `2`. -/
theorem C15_destination_written_without_flag :
    run_ops pursuit_ops empty_state = some pursuit_ops_end
    ∧ (combatstate_get pursuit_ops_end.table 1).map (fun c => c.move_cmd_interrupted)
        = some false
    ∧ G_Combat_SaveState pursuit_ops_end
        = [⟨"num_ents", attr_val.as_int 2⟩,
           ⟨"uid", attr_val.as_int 1⟩,
           ⟨"stance", attr_val.as_int 0⟩,
           ⟨"state", attr_val.as_int 0⟩,
           ⟨"target_uid", attr_val.as_int 2⟩,
           ⟨"move_cmd_interrupted", attr_val.as_bool false⟩,
           ⟨"move_cmd_xz", attr_val.as_vec2 ⟨5, 5⟩⟩,
           ⟨"uid", attr_val.as_int 2⟩,
           ⟨"stance", attr_val.as_int 0⟩,
           ⟨"state", attr_val.as_int 1⟩,
           ⟨"target_uid", attr_val.as_int 1⟩,
           ⟨"move_cmd_interrupted", attr_val.as_bool false⟩,
           ⟨"move_cmd_xz", attr_val.as_vec2 ⟨0, 0⟩⟩,
           ⟨"num_dying", attr_val.as_int 0⟩] :=
  ⟨by decide!, by decide!, by decide!⟩

/-- C15 (amended): the stream written by save consists, in order, of the count of
records; then for each record, in the order of the table, six attributes: its entity id,
stance, phase, target id, the interrupted-move-command flag and the saved destination,
which is written whether or not the flag is set; then the count of dying entities
followed by the id of each one. -/
theorem C15_stream_layout (s : State) :
    (G_Combat_SaveState s).head?
        = some ⟨"num_ents", attr_val.as_int (unsigned_to_int s.table.length)⟩
    ∧ (∀ i p, s.table[i]? = some p →
        ((G_Combat_SaveState s).drop (1 + 6 * i)).take 6
          = [⟨"uid", attr_val.as_int (unsigned_to_int p.1)⟩,
             ⟨"stance", attr_val.as_int (stance_to_int p.2.stance)⟩,
             ⟨"state", attr_val.as_int (phase_to_int p.2.state)⟩,
             ⟨"target_uid", attr_val.as_int (unsigned_to_int p.2.target_uid)⟩,
             ⟨"move_cmd_interrupted", attr_val.as_bool p.2.move_cmd_interrupted⟩,
             ⟨"move_cmd_xz", attr_val.as_vec2 p.2.move_cmd_xz⟩])
    ∧ (G_Combat_SaveState s).drop (1 + 6 * s.table.length)
        = ⟨"num_dying", attr_val.as_int (unsigned_to_int s.dying.length)⟩
            :: s.dying.map
                (fun u => ⟨"dying_ent_uid", attr_val.as_int (unsigned_to_int u)⟩)
    ∧ (G_Combat_SaveState s).length = 1 + 6 * s.table.length + 1 + s.dying.length := by
  refine ⟨rfl, ?_, ?_, ?_⟩
  · intro i p h
    have h1 : 1 + 6 * i = 6 * i + 1 := by omega
    simp only [G_Combat_SaveState, List.cons_append, h1, List.drop_succ_cons]
    rw [save_records_drop s.table i p h]
    rfl
  · have h1 : 1 + 6 * s.table.length = (save_records s.table).length + 1 := by
      rw [save_records_length]; omega
    simp only [G_Combat_SaveState, List.cons_append, h1, List.drop_succ_cons]
    rw [List.drop_left, save_dying_eq_map]
  · simp only [G_Combat_SaveState, List.cons_append, List.length_cons, List.length_append,
      save_records_length, save_dying_eq_map, List.length_map]
    omega

/-- C15 (witness): the second record of `saved_state`, with the flag unset, is the six
attributes from position 7 of the stream, the destination (0, 0) among them. -/
theorem C15_stream_layout_witness :
    saved_state.table[1]?
        = some (2, ⟨⟨4, 1 / 2⟩, 10, COMBAT_STANCE_HOLD_POSITION, STATE_ATTACK_ANIM_PLAYING, 1,
            false, ⟨0, 0⟩⟩)
    ∧ ((G_Combat_SaveState saved_state).drop (1 + 6 * 1)).take 6
        = [⟨"uid", attr_val.as_int (unsigned_to_int 2)⟩,
           ⟨"stance", attr_val.as_int (stance_to_int COMBAT_STANCE_HOLD_POSITION)⟩,
           ⟨"state", attr_val.as_int (phase_to_int STATE_ATTACK_ANIM_PLAYING)⟩,
           ⟨"target_uid", attr_val.as_int (unsigned_to_int 1)⟩,
           ⟨"move_cmd_interrupted", attr_val.as_bool false⟩,
           ⟨"move_cmd_xz", attr_val.as_vec2 ⟨0, 0⟩⟩] :=
  ⟨rfl, (C15_stream_layout saved_state).2.1 1
    (2, ⟨⟨4, 1 / 2⟩, 10, COMBAT_STANCE_HOLD_POSITION, STATE_ATTACK_ANIM_PLAYING, 1, false,
      ⟨0, 0⟩⟩) rfl⟩

/-- C16: hit points are excluded from persistence.  Two states whose tables differ only in
the hit points of their records, with the same dying entities, write the same stream; and
a load that succeeds, from any stream, leaves the hit points, the base damage and the
base armour of every record as they were, and adds or removes no record. -/
theorem C16_hit_points_not_persisted :
    (∀ s1 s2 : State, erase_hp s1.table = erase_hp s2.table → s1.dying = s2.dying →
      G_Combat_SaveState s1 = G_Combat_SaveState s2)
    ∧ (∀ (s0 s1 : State) (stream rest : List attr),
        G_Combat_LoadState s0 stream = load_result.loaded s1 rest →
        ∀ u, (combatstate_get s1.table u).map
                (fun c => (c.current_hp, c.stats.base_dmg, c.stats.base_armour_pc))
              = (combatstate_get s0.table u).map
                (fun c => (c.current_hp, c.stats.base_dmg, c.stats.base_armour_pc))) := by
  constructor
  · intro s1 s2 htbl hdy
    have hlen : s1.table.length = s2.table.length := by
      rw [← erase_hp_length s1.table, htbl, erase_hp_length]
    have hrec : save_records s1.table = save_records s2.table := by
      rw [← save_records_erase_hp s1.table, htbl, save_records_erase_hp]
    simp only [G_Combat_SaveState, hlen, hrec, hdy]
  · intro s0 s1 stream rest h u
    have hf := (G_Combat_LoadState_frame s0 stream s1 (by rw [h]; rfl)).2.1 u
    cases h1 : combatstate_get s1.table u with
    | none =>
      rw [h1] at hf
      cases h0 : combatstate_get s0.table u with
      | none => rfl
      | some c0 => rw [h0] at hf; simp at hf
    | some c1 =>
      rw [h1] at hf
      cases h0 : combatstate_get s0.table u with
      | none => rw [h0] at hf; simp at hf
      | some c0 =>
        rw [h0] at hf
        simp only [Option.map_some', Option.some.injEq, Prod.mk.injEq] at hf ⊢
        exact ⟨hf.1, by rw [hf.2], by rw [hf.2]⟩

/-- C16 (witness): `saved_state` and `saved_state_other_hp` differ only in the hit points
and write the same stream; the load of that stream into `fresh_state` leaves the 7 hit
points, the base damage 10 and the base armour 0 of entity `1`. -/
theorem C16_hit_points_not_persisted_witness :
    saved_state.table ≠ saved_state_other_hp.table
    ∧ G_Combat_SaveState saved_state = G_Combat_SaveState saved_state_other_hp
    ∧ (combatstate_get fresh_state_loaded.table 1).map
          (fun c => (c.current_hp, c.stats.base_dmg, c.stats.base_armour_pc))
        = (combatstate_get fresh_state.table 1).map
          (fun c => (c.current_hp, c.stats.base_dmg, c.stats.base_armour_pc)) :=
  ⟨by decide!,
    C16_hit_points_not_persisted.1 saved_state saved_state_other_hp (by decide!) rfl,
    C16_hit_points_not_persisted.2 fresh_state fresh_state_loaded
      (G_Combat_SaveState saved_state) [] (by decide!) 1⟩

/-- C17 (counterexample): a stream that names, as the id of a record, an entity absent
from the registry, and that is loaded all the same.  `G_Combat_AddEntity` gives the
entity `9` a record in a state whose registry does not hold it; the stream holds one
record, of entity `9`, out of combat; `G_Combat_LoadState` finds the record of entity `9`
in the table, does not consult the registry, and returns `true` with the stance of the
record overwritten. -/
theorem C17_record_of_unregistered_entity_loads :
    run_ops [combat_op.add (ex_entity 9 1 10) COMBAT_STANCE_AGGRESSIVE] bare_state
      = some orphan_state
    ∧ G_EntityForUID orphan_state 9 = none
    ∧ read_stream orphan_stream
        = some ([(9, ex_record 0 0 0 COMBAT_STANCE_HOLD_POSITION STATE_NOT_IN_COMBAT 0)], [], [])
    ∧ G_Combat_LoadState orphan_state orphan_stream
        = load_result.loaded orphan_state_loaded []
    ∧ ¬ ∃ s1, G_Combat_LoadState orphan_state orphan_stream = load_result.failed s1 := by
  have hrun : G_Combat_LoadState orphan_state orphan_stream
      = load_result.loaded orphan_state_loaded [] := by decide!
  refine ⟨by decide!, by decide!, by decide!, hrun, ?_⟩
  rintro ⟨s1, h⟩
  rw [hrun] at h
  exact absurd h (by simp)

/-- C17 (amended): `G_Combat_LoadState` returns `false` on every stream in which the id of
a record names an entity without a record in the table, the id of a record in the phase
Striking names an entity absent from the registry, or the id of a dying entity names an
entity absent from the registry; it returns `true` on every stream with the layout of the
save format in which no id does so, also when the id of a record that is not Striking
names an entity absent from the registry; and it returns `false` on every stream without
that layout. -/
theorem C17_load_fails_on_unknown_id (s0 : State) (stream : List attr) :
    (∀ recs ds rest, read_stream stream = some (recs, ds, rest) →
      ((∃ p ∈ recs, combatstate_get s0.table p.1 = none)
        ∨ (∃ p ∈ recs, p.2.state = STATE_ATTACK_ANIM_PLAYING ∧ G_EntityForUID s0 p.1 = none)
        ∨ (∃ u ∈ ds, G_EntityForUID s0 u = none)) →
      ∃ s1, G_Combat_LoadState s0 stream = load_result.failed s1)
    ∧ (∀ recs ds rest, read_stream stream = some (recs, ds, rest) →
      (∀ p ∈ recs, combatstate_get s0.table p.1 ≠ none) →
      (∀ p ∈ recs, p.2.state = STATE_ATTACK_ANIM_PLAYING → G_EntityForUID s0 p.1 ≠ none) →
      (∀ u ∈ ds, G_EntityForUID s0 u ≠ none) →
      ∃ s1, G_Combat_LoadState s0 stream = load_result.loaded s1 rest)
    ∧ (read_stream stream = none →
      ∃ s1, G_Combat_LoadState s0 stream = load_result.failed s1) := by
  have hfail : (¬ ∃ s1 rest, G_Combat_LoadState s0 stream = load_result.loaded s1 rest) →
      ∃ s1, G_Combat_LoadState s0 stream = load_result.failed s1 := by
    intro hno
    rcases load_result_cases (G_Combat_LoadState s0 stream) with ⟨s1, rest, h⟩ | ⟨s1, h⟩
    · exact absurd ⟨s1, rest, h⟩ hno
    · exact ⟨s1, h⟩
  refine ⟨?_, ?_, ?_⟩
  · intro recs ds rest hread hmiss
    apply hfail
    rintro ⟨s1, rest1, h⟩
    obtain ⟨recs1, ds1, hread1, hall, halld, -⟩ :=
      (G_Combat_LoadState_loaded_iff s0 stream s1 rest1).mp h
    rw [hread] at hread1
    simp only [Option.some.injEq, Prod.mk.injEq] at hread1
    obtain ⟨e1, e2, -⟩ := hread1
    subst e1 e2
    rcases hmiss with ⟨p, hp, hnone⟩ | ⟨p, hp, hst, hnone⟩ | ⟨u, hu, hnone⟩
    · obtain ⟨c, hc⟩ := (hall p hp).1
      rw [hnone] at hc
      exact absurd hc (by simp)
    · obtain ⟨e, he⟩ := (hall p hp).2 hst
      rw [hnone] at he
      exact absurd he (by simp)
    · obtain ⟨e, he⟩ := halld u hu
      rw [hnone] at he
      exact absurd he (by simp)
  · intro recs ds rest hread hrec hstr hdy
    exact ⟨_, (G_Combat_LoadState_loaded_iff s0 stream _ rest).mpr ⟨recs, ds, hread,
      fun p hp => ⟨Option.ne_none_iff_exists'.mp (hrec p hp),
        fun hst => Option.ne_none_iff_exists'.mp (hstr p hp hst)⟩,
      fun u hu => Option.ne_none_iff_exists'.mp (hdy u hu), rfl⟩⟩
  · intro hread
    apply hfail
    rintro ⟨s1, rest1, h⟩
    obtain ⟨recs1, ds1, hread1, -⟩ := (G_Combat_LoadState_loaded_iff s0 stream s1 rest1).mp h
    rw [hread] at hread1
    exact absurd hread1 (by simp)

/-- C17 (witness): the stream of `unknown_record_state` names in its second record the
entity `9`, which has no record in `fresh_state`; the load fails. -/
theorem C17_load_fails_on_unknown_id_witness :
    read_stream (G_Combat_SaveState unknown_record_state)
      = some ([(1, ex_record 0 0 0 COMBAT_STANCE_NO_ENGAGEMENT STATE_NOT_IN_COMBAT 0),
               (9, ex_record 0 0 0 COMBAT_STANCE_AGGRESSIVE STATE_NOT_IN_COMBAT 0)], [], [])
    ∧ combatstate_get fresh_state.table 9 = none
    ∧ ∃ s1, G_Combat_LoadState fresh_state (G_Combat_SaveState unknown_record_state)
        = load_result.failed s1 :=
  ⟨by decide!, by decide!,
    (C17_load_fails_on_unknown_id fresh_state (G_Combat_SaveState unknown_record_state)).1
      [(1, ex_record 0 0 0 COMBAT_STANCE_NO_ENGAGEMENT STATE_NOT_IN_COMBAT 0),
       (9, ex_record 0 0 0 COMBAT_STANCE_AGGRESSIVE STATE_NOT_IN_COMBAT 0)] [] []
      (by decide!)
      (Or.inl ⟨(9, ex_record 0 0 0 COMBAT_STANCE_AGGRESSIVE STATE_NOT_IN_COMBAT 0),
        by decide!, by decide!⟩)⟩

/-- C18 (counterexample): the stream of `unknown_dying_state` holds the record of entity
`2` and the dying entities `3` and `9`; entity `9` is not in the registry of
`fresh_state`.  The load from `fresh_state` returns `false` in `fresh_state_failed`, in
which the record of entity `2` is overwritten, entity `3` is in the list of dying
entities and two handlers are registered: the table, the list of dying entities and the
handlers all differ from those before the load. -/
theorem C18_failed_load_is_applied :
    G_Combat_LoadState fresh_state (G_Combat_SaveState unknown_dying_state)
        = load_result.failed fresh_state_failed
    ∧ fresh_state_failed.table ≠ fresh_state.table
    ∧ fresh_state_failed.dying ≠ fresh_state.dying
    ∧ fresh_state_failed.handlers ≠ fresh_state.handlers
    ∧ combatstate_get fresh_state.table 2
        = some ⟨⟨4, 1 / 2⟩, 10, COMBAT_STANCE_AGGRESSIVE, STATE_NOT_IN_COMBAT, 0, false, ⟨0, 0⟩⟩
    ∧ combatstate_get fresh_state_failed.table 2
        = some ⟨⟨4, 1 / 2⟩, 10, COMBAT_STANCE_HOLD_POSITION, STATE_ATTACK_ANIM_PLAYING, 1, true,
            ⟨5, 5⟩⟩ :=
  ⟨by decide!, by decide!, by decide, by decide, by decide!, by decide!⟩

/-- C18 (amended): a load that fails is not undone.  `G_Combat_LoadState` returns `false`
at the first check that fails and keeps what it has written until then.  Of the state
before the load, the state in which it returns `false` keeps the keys of the table, the
hit points and the combat profile of every record, the dying entities and the registered
handlers, after which it only appends, and the registry, the notifications, the move
orders and the selection.  When the first attribute of the stream cannot be read as an
integer, the state is the one before the load.  When the first `k` records are read and
accepted and the id of the next record cannot be read or names an entity without a
record, the state is the one with the `k` records restored: each of them has the stance,
the phase, the target, the flag and the destination that the stream holds.  When all
records are read and accepted, the first `k` ids of dying entities are read and accepted,
and the next id cannot be read or names no entity of the registry, the state is the one
with all records and the `k` dying entities restored. -/
theorem C18_failed_load_keeps (s0 s1 : State) (stream : List attr)
    (h : G_Combat_LoadState s0 stream = load_result.failed s1) :
    s1.table.map Prod.fst = s0.table.map Prod.fst
    ∧ (∀ u, (combatstate_get s1.table u).map (fun c => (c.current_hp, c.stats))
          = (combatstate_get s0.table u).map (fun c => (c.current_hp, c.stats)))
    ∧ (∃ l, s1.dying = s0.dying ++ l)
    ∧ (∃ g, s1.handlers = s0.handlers ++ g)
    ∧ s1.ents = s0.ents ∧ s1.notified = s0.notified ∧ s1.move = s0.move
    ∧ s1.selection = s0.selection
    ∧ (parse_int stream = none → s1 = s0)
    ∧ (∀ n r0 k m recs rest,
        parse_int stream = some (n, r0) → int_to_size_t n = k + (m + 1) →
        read_records k r0 = some (recs, rest) →
        (∀ p ∈ recs, combatstate_get s0.table p.1 ≠ none
          ∧ (p.2.state = STATE_ATTACK_ANIM_PLAYING → G_EntityForUID s0 p.1 ≠ none)) →
        (parse_int rest = none
          ∨ ∃ i r, parse_int rest = some (i, r)
              ∧ combatstate_get s0.table (int_to_uint32 i) = none) →
        s1 = restore_records recs s0
        ∧ ((recs.map Prod.fst).Nodup → ∀ u c, combatstate_get recs u = some c →
            combatstate_get s1.table u
              = (combatstate_get s0.table u).map
                  (fun c0 => { c0 with stance := c.stance, state := c.state,
                                       target_uid := c.target_uid,
                                       move_cmd_interrupted := c.move_cmd_interrupted,
                                       move_cmd_xz := c.move_cmd_xz })))
    ∧ (∀ n r0 recs r1 j r2 k m ds rest,
        parse_int stream = some (n, r0) →
        read_records (int_to_size_t n) r0 = some (recs, r1) →
        (∀ p ∈ recs, combatstate_get s0.table p.1 ≠ none
          ∧ (p.2.state = STATE_ATTACK_ANIM_PLAYING → G_EntityForUID s0 p.1 ≠ none)) →
        parse_int r1 = some (j, r2) → int_to_size_t j = k + (m + 1) →
        read_dying k r2 = some (ds, rest) →
        (∀ u ∈ ds, G_EntityForUID s0 u ≠ none) →
        (parse_int rest = none
          ∨ ∃ i r, parse_int rest = some (i, r)
              ∧ G_EntityForUID s0 (int_to_uint32 i) = none) →
        s1 = restore_dying ds (restore_records recs s0)
        ∧ s1.table = (restore_records recs s0).table
        ∧ s1.dying = s0.dying ++ ds) := by
  obtain ⟨a1, a2, a3, a4, a5, a6, a7, a8⟩ :=
    G_Combat_LoadState_frame s0 stream s1 (by rw [h]; rfl)
  have hloadable : ∀ recs : List (Nat × combatstate),
      (∀ p ∈ recs, combatstate_get s0.table p.1 ≠ none
        ∧ (p.2.state = STATE_ATTACK_ANIM_PLAYING → G_EntityForUID s0 p.1 ≠ none)) →
      ∀ p ∈ recs, record_loadable s0 p :=
    fun recs hall p hp => ⟨Option.ne_none_iff_exists'.mp (hall p hp).1,
      fun hst => Option.ne_none_iff_exists'.mp ((hall p hp).2 hst)⟩
  refine ⟨a1, a2, a3, a4, a5, a6, a7, a8, ?_, ?_, ?_⟩
  · intro hp
    simp only [G_Combat_LoadState, hp, load_result.failed.injEq] at h
    exact h.symm
  · intro n r0 k m recs rest hp hn hread hall0 hbad
    have hall := hloadable recs hall0
    have hf : load_record (restore_records recs s0) rest
        = load_result.failed (restore_records recs s0) := by
      apply load_record_failed_at_id
      rcases hbad with hb | ⟨i, r, hb, hg⟩
      · exact Or.inl hb
      · exact Or.inr ⟨i, r, hb, (restore_records_get_none recs s0 _).mpr hg⟩
    have hl := load_records_failed_at m _ k s0 r0 recs rest hread hall hf
    have hs : s1 = restore_records recs s0 := by
      simp only [G_Combat_LoadState, hp, hn, hl, load_result.failed.injEq] at h
      exact h.symm
    refine ⟨hs, fun hnd u c hc => ?_⟩
    rw [hs, restore_records_get recs s0 hnd u, hc]
  · intro n r0 recs r1 j r2 k m ds rest hp hread hall0 hp2 hj hreadd halld0 hbad
    have hall := hloadable recs hall0
    have halld : ∀ u ∈ ds, ∃ e, G_EntityForUID s0 u = some e :=
      fun u hu => Option.ne_none_iff_exists'.mp (halld0 u hu)
    have hents : ∀ u, G_EntityForUID (restore_records recs s0) u = G_EntityForUID s0 u := by
      intro u; unfold G_EntityForUID; rw [(restore_records_rest recs s0).1]
    have hents2 : ∀ u, G_EntityForUID (restore_dying ds (restore_records recs s0)) u
        = G_EntityForUID s0 u := by
      intro u
      rw [← hents u]
      unfold G_EntityForUID
      rw [(restore_dying_rest ds (restore_records recs s0)).2.1]
    have hrec : load_records (int_to_size_t n) s0 r0
        = load_result.loaded (restore_records recs s0) r1 :=
      (load_records_loaded_iff _ s0 r0 _ r1).mpr ⟨recs, hread, hall, rfl⟩
    have hf : load_dying_ent (restore_dying ds (restore_records recs s0)) rest
        = load_result.failed (restore_dying ds (restore_records recs s0)) := by
      apply load_dying_ent_failed_at_id
      rcases hbad with hb | ⟨i, r, hb, hg⟩
      · exact Or.inl hb
      · exact Or.inr ⟨i, r, hb, by rw [hents2]; exact hg⟩
    have hl := load_dying_failed_at m _ k (restore_records recs s0) r2 ds rest hreadd
      (fun u hu => by rw [hents]; exact halld u hu) hf
    have hs : s1 = restore_dying ds (restore_records recs s0) := by
      simp only [G_Combat_LoadState, hp, hrec, hp2, hj, hl, load_result.failed.injEq] at h
      exact h.symm
    obtain ⟨e1, -, e3, -⟩ := restore_dying_rest ds (restore_records recs s0)
    refine ⟨hs, by rw [hs, e1], ?_⟩
    rw [hs, e3, (restore_records_rest recs s0).2.1]

/-- C18 (witness): the failed load of the counterexample keeps the three keys of the
table of `fresh_state` and the hit points of its records, and appends the dying entity
`3` and two handlers; it fails at the id `9` of the second dying entity, with the record
of entity `2` and the dying entity `3` restored. -/
theorem C18_failed_load_keeps_witness :
    fresh_state_failed.table.map Prod.fst = [3, 1, 2]
    ∧ fresh_state_failed.dying = fresh_state.dying ++ [3]
    ∧ fresh_state_failed.table.map Prod.fst = fresh_state.table.map Prod.fst
    ∧ (∀ u, (combatstate_get fresh_state_failed.table u).map (fun c => (c.current_hp, c.stats))
          = (combatstate_get fresh_state.table u).map (fun c => (c.current_hp, c.stats)))
    ∧ fresh_state_failed
        = restore_dying [3] (restore_records
            [(2, ⟨⟨0, 0⟩, 0, COMBAT_STANCE_HOLD_POSITION, STATE_ATTACK_ANIM_PLAYING, 1, true,
                ⟨5, 5⟩⟩)] fresh_state) :=
  ⟨by decide, by decide,
    (C18_failed_load_keeps fresh_state fresh_state_failed
      (G_Combat_SaveState unknown_dying_state) (by decide!)).1,
    (C18_failed_load_keeps fresh_state fresh_state_failed
      (G_Combat_SaveState unknown_dying_state) (by decide!)).2.1,
    ((C18_failed_load_keeps fresh_state fresh_state_failed
      (G_Combat_SaveState unknown_dying_state) (by decide!)).2.2.2.2.2.2.2.2.2.2
        1 ((G_Combat_SaveState unknown_dying_state).drop 1)
        [(2, ⟨⟨0, 0⟩, 0, COMBAT_STANCE_HOLD_POSITION, STATE_ATTACK_ANIM_PLAYING, 1, true,
                ⟨5, 5⟩⟩)]
        ((G_Combat_SaveState unknown_dying_state).drop 7) 2
        ((G_Combat_SaveState unknown_dying_state).drop 8) 1 0 [3]
        ((G_Combat_SaveState unknown_dying_state).drop 9)
        (by decide!) (by decide!) (by decide!) (by decide!) (by decide!) (by decide!)
        (by decide!) (Or.inr ⟨9, [], by decide!, by decide!⟩)).1⟩

/-! ## The store: add and remove -/

/-- C21: for every combat-capable entity that has no record and every stance,
`G_Combat_AddEntity` returns and creates a record with the maximum hit points of the
entity, the phase Idle, the given stance and no saved move command (a zero combat profile,
target and destination); the records of all other entities, the list of dying entities
and the collaborators are unchanged. -/
theorem C21_add_creates_fresh_record (s : State) (ent : entity) (initial : combat_stance)
    (hcomb : ent.flags.combatable = true)
    (hnew : combatstate_get s.table ent.uid = none) :
    ∃ s1, G_Combat_AddEntity s ent initial = some s1
      ∧ combatstate_get s1.table ent.uid
          = some ⟨⟨0, 0⟩, ent.max_hp, initial, STATE_NOT_IN_COMBAT, 0, false, ⟨0, 0⟩⟩
      ∧ (∀ u, u ≠ ent.uid → combatstate_get s1.table u = combatstate_get s.table u)
      ∧ s1.dying = s.dying ∧ s1.handlers = s.handlers ∧ s1.ents = s.ents
      ∧ s1.notified = s.notified ∧ s1.move = s.move ∧ s1.selection = s.selection := by
  have hrun : G_Combat_AddEntity s ent initial
      = some { s with table := s.table ++ [(ent.uid,
          ⟨⟨0, 0⟩, ent.max_hp, initial, STATE_NOT_IN_COMBAT, 0, false, ⟨0, 0⟩⟩)] } := by
    simp [G_Combat_AddEntity, combatstate_set, hcomb, hnew]
  refine ⟨_, hrun, ?_, ?_, rfl, rfl, rfl, rfl, rfl, rfl⟩
  · simp only [combatstate_get_append, hnew, if_true]
  · intro u hu
    have hu2 : ¬ ent.uid = u := fun e => hu e.symm
    simp only [combatstate_get_append, hu2, if_false]
    cases combatstate_get s.table u <;> rfl

/-- C21 (witness): entity `2` is added with the stance HoldPosition to the empty
subsystem `empty_state`. -/
theorem C21_add_creates_fresh_record_witness :
    ∃ s1, G_Combat_AddEntity empty_state scenario_target COMBAT_STANCE_HOLD_POSITION = some s1
      ∧ combatstate_get s1.table 2
          = some ⟨⟨0, 0⟩, 10, COMBAT_STANCE_HOLD_POSITION, STATE_NOT_IN_COMBAT, 0, false, ⟨0, 0⟩⟩
      ∧ (∀ u, u ≠ 2 → combatstate_get s1.table u = combatstate_get empty_state.table u)
      ∧ s1.dying = empty_state.dying ∧ s1.handlers = empty_state.handlers
      ∧ s1.ents = empty_state.ents
      ∧ s1.notified = empty_state.notified ∧ s1.move = empty_state.move
      ∧ s1.selection = empty_state.selection :=
  C21_add_creates_fresh_record empty_state scenario_target COMBAT_STANCE_HOLD_POSITION rfl rfl

/-- What `G_Combat_RemoveEntity` does for a combat-capable entity that has a record: the
record is erased, one occurrence of the entity is deleted from the list of dying
entities, both handlers of the entity are unregistered, `EVENT_ATTACK_END` is emitted
exactly when the phase was Ready or Striking, and the other records are unchanged.  The
entity is out of the list of dying entities when the list held it at most once. -/
theorem G_Combat_RemoveEntity_spec (s : State) (ent : entity) (cs : combatstate)
    (hcomb : ent.flags.combatable = true)
    (hcs : combatstate_get s.table ent.uid = some cs) :
    ∃ s1, G_Combat_RemoveEntity s ent = some s1
      ∧ combatstate_get s1.table ent.uid = none
      ∧ s1.dying = s.dying.erase ent.uid
      ∧ (s.dying.count ent.uid ≤ 1 → ent.uid ∉ s1.dying)
      ∧ (1 < s.dying.count ent.uid → ent.uid ∈ s1.dying)
      ∧ (ent.uid, anim_handler.attack_anim_finish) ∉ s1.handlers
      ∧ (ent.uid, anim_handler.death_anim_finish) ∉ s1.handlers
      ∧ s1.notified
          = (if cs.state = STATE_CAN_ATTACK ∨ cs.state = STATE_ATTACK_ANIM_PLAYING then
              s.notified ++ [(event_kind.EVENT_ATTACK_END, ent.uid)]
            else s.notified)
      ∧ (∀ u, u ≠ ent.uid → combatstate_get s1.table u = combatstate_get s.table u)
      ∧ s1.ents = s.ents ∧ s1.move = s.move ∧ s1.selection = s.selection := by
  have hcount : ∀ l : List Nat, (l.erase ent.uid).count ent.uid = l.count ent.uid - 1 := by
    intro l
    rw [List.count_erase_self]
  have hrun : G_Combat_RemoveEntity s ent
      = some { table := s.table.filter (fun p => p.1 ≠ ent.uid)
               dying := s.dying.erase ent.uid
               ents := s.ents
               handlers := (s.handlers.filter
                   (fun p => p ≠ (ent.uid, anim_handler.attack_anim_finish))).filter
                   (fun p => p ≠ (ent.uid, anim_handler.death_anim_finish))
               notified :=
                 (if cs.state = STATE_CAN_ATTACK ∨ cs.state = STATE_ATTACK_ANIM_PLAYING then
                   s.notified ++ [(event_kind.EVENT_ATTACK_END, ent.uid)]
                 else s.notified)
               move := s.move
               selection := s.selection } := by
    by_cases hp : cs.state = STATE_ATTACK_ANIM_PLAYING ∨ cs.state = STATE_CAN_ATTACK
    · have hp2 : cs.state = STATE_CAN_ATTACK ∨ cs.state = STATE_ATTACK_ANIM_PLAYING := hp.symm
      simp only [G_Combat_RemoveEntity, combatstate_remove, hcomb, hcs, hp, hp2,
        Bool.not_true, Bool.false_eq_true, if_false, if_true, Option.map_some']
      rfl
    · have hp2 : ¬ (cs.state = STATE_CAN_ATTACK ∨ cs.state = STATE_ATTACK_ANIM_PLAYING) :=
        fun h => hp h.symm
      simp only [G_Combat_RemoveEntity, combatstate_remove, hcomb, hcs, hp, hp2,
        Bool.not_true, Bool.false_eq_true, if_false, Option.map_some']
      rfl
  refine ⟨_, hrun, ?_, rfl, ?_, ?_, ?_, ?_, rfl, ?_, rfl, rfl, rfl⟩
  · show combatstate_get (s.table.filter (fun p => p.1 ≠ ent.uid)) ent.uid = none
    rw [combatstate_get_filter, if_pos rfl]
  · intro h hmem
    have := List.count_pos_iff.mpr hmem
    simp only [hcount] at this
    omega
  · intro h
    apply List.count_pos_iff.mp
    simp only [hcount]
    omega
  · simp [List.mem_filter]
  · simp [List.mem_filter]
  · intro u hu
    show combatstate_get (s.table.filter (fun p => p.1 ≠ ent.uid)) u = _
    rw [combatstate_get_filter, if_neg hu]

/-- C22 (failing input): `double_kill_ops` reaches from the empty subsystem a state in
which entity `2` has a record and is listed twice in the list of dying entities;
`G_Combat_RemoveEntity` for entity `2` then erases the record and deletes one occurrence,
so that entity `2` is still in the list of dying entities after its removal. -/
theorem C22_remove_leaves_dying_member :
    empty_subsystem empty_state
    ∧ (run_ops double_kill_ops empty_state).map
        (fun s => (phase_of s 2, s.dying))
      = some (some STATE_DEATH_ANIM_PLAYING, [2, 2])
    ∧ (run_ops (double_kill_ops ++ [combat_op.remove scenario_target]) empty_state).map
        (fun s => (phase_of s 2, s.dying, decide (2 ∈ s.dying)))
      = some (none, [2], true) :=
  ⟨⟨rfl, rfl, rfl⟩, by decide!, by decide!⟩

/-! ## The transitions of the tick -/

/-- The test of `STATE_CAN_ATTACK` on the target reads of the table only which records
are dying, and of the collaborators only the registry. -/
theorem target_invalid_congr (w : World) (s s1 : State) (curr : entity) (cs : combatstate)
    (hview : ∀ v, dying_view s1.table v = dying_view s.table v) (hents : s1.ents = s.ents) :
    target_invalid w s1 curr cs = target_invalid w s curr cs := by
  have hreg : G_EntityForUID s1 cs.target_uid = G_EntityForUID s cs.target_uid := by
    unfold G_EntityForUID; rw [hents]
  unfold target_invalid
  rw [hreg]
  cases G_EntityForUID s cs.target_uid with
  | none => rfl
  | some target =>
    dsimp only
    by_cases hz : target.flags.zombie = true
    · simp only [hz, if_true]
    · simp only [hz, if_false]
      have hv := hview cs.target_uid
      unfold dying_view at hv
      cases h1 : combatstate_get s1.table cs.target_uid with
      | none =>
        rw [h1] at hv
        cases h0 : combatstate_get s.table cs.target_uid with
        | none => rfl
        | some c0 => rw [h0] at hv; simp at hv
      | some c1 =>
        rw [h1] at hv
        cases h0 : combatstate_get s.table cs.target_uid with
        | none => rw [h0] at hv; simp at hv
        | some c0 =>
          rw [h0] at hv
          simp only [Option.map_some', Option.some.injEq, decide_eq_decide] at hv
          by_cases hd : c0.state = STATE_DEATH_ANIM_PLAYING
          · simp only [hd, hv.mpr hd, if_true]
          · have hd1 : ¬ c1.state = STATE_DEATH_ANIM_PLAYING := fun h => hd (hv.mp h)
            simp only [hd, hd1, if_false]

/-- The test of `STATE_CAN_ATTACK` finds the target invalid when it is absent from the
registry, a zombie, dying, or farther than the melee range. -/
theorem target_invalid_iff (w : World) (s : State) (curr : entity) (cs : combatstate) :
    target_invalid w s curr cs = some true ↔
      (G_EntityForUID s cs.target_uid = none
        ∨ ∃ target, G_EntityForUID s cs.target_uid = some target
            ∧ (target.flags.zombie = true
              ∨ (target.flags.zombie = false
                ∧ ∃ tcs, combatstate_get s.table cs.target_uid = some tcs
                  ∧ (tcs.state = STATE_DEATH_ANIM_PLAYING
                    ∨ ents_distance w curr target > ENEMY_MELEE_ATTACK_RANGE)))) := by
  unfold target_invalid
  cases G_EntityForUID s cs.target_uid with
  | none => simp
  | some target =>
    by_cases hz : target.flags.zombie = true
    · simp [hz]
    · cases hg : combatstate_get s.table cs.target_uid with
      | none => simp [hz]
      | some tcs =>
        by_cases hd : tcs.state = STATE_DEATH_ANIM_PLAYING
        · simp [hz, hd]
        · simp [hz, hd]

/-- A write to one record keeps a property of all records that the written record has. -/
theorem record_pred_modify (P : combatstate → Prop) {s : State}
    {tbl : List (Nat × combatstate)} {f : combatstate → combatstate} {u : Nat}
    (htbl : s.table = combatstate_modify f tbl u)
    (hinv : ∀ v c, combatstate_get tbl v = some c → P c)
    (hf : ∀ c, combatstate_get tbl u = some c → P (f c)) :
    ∀ v c, combatstate_get s.table v = some c → P c := by
  intro v c hc
  rw [htbl] at hc
  exact get_modify_pred P f tbl u hinv hf v c hc

theorem tick_entity_pursuing_is_aggressive (w : World) (s s1 : State) (curr : entity)
    (h : tick_entity w s curr = some s1) (hinv : pursuing_is_aggressive s) :
    pursuing_is_aggressive s1 := by
  suffices hex : ∃ f, s1.table = combatstate_modify f s.table curr.uid
      ∧ ∀ c, combatstate_get s.table curr.uid = some c →
          ((f c).state = STATE_MOVING_TO_TARGET → (f c).stance = COMBAT_STANCE_AGGRESSIVE) by
    obtain ⟨f, htbl, hf⟩ := hex
    exact record_pred_modify
      (fun c => c.state = STATE_MOVING_TO_TARGET → c.stance = COMBAT_STANCE_AGGRESSIVE)
      htbl hinv hf
  have hid : ∃ f, s.table = combatstate_modify f s.table curr.uid
      ∧ ∀ c, combatstate_get s.table curr.uid = some c →
          ((f c).state = STATE_MOVING_TO_TARGET → (f c).stance = COMBAT_STANCE_AGGRESSIVE) :=
    ⟨id, (combatstate_modify_id _ _).symm, fun c hc => hinv _ c hc⟩
  unfold tick_entity at h
  split at h
  · rw [← Option.some.inj h]; exact hid
  · split at h
    · exact (Option.some_ne_none _ h.symm).elim
    · rename_i cs hcs
      have hP := hinv _ cs hcs
      have hk : ∀ f : combatstate → combatstate,
          ((f cs).state = STATE_MOVING_TO_TARGET → (f cs).stance = COMBAT_STANCE_AGGRESSIVE) →
          ∀ c, combatstate_get s.table curr.uid = some c →
            ((f c).state = STATE_MOVING_TO_TARGET → (f c).stance = COMBAT_STANCE_AGGRESSIVE) := by
        intro f hf c hc
        have := Option.some.inj (hcs.symm.trans hc)
        subst this
        exact hf
      split at h
      · rename_i hst
        unfold tick_not_in_combat at h
        repeat' (first | split at h | (dsimp only at h; split at h))
        all_goals first
          | exact (Option.some_ne_none _ h.symm).elim
          | (rw [← Option.some.inj h]; exact hid)
          | (rw [← Option.some.inj h]
             exact ⟨_, rfl, hk _ (by simp_all)⟩)
          | (rw [← Option.some.inj h]
             exact ⟨_, combatstate_modify_modify _ _ _ _, hk _ (by simp_all)⟩)
      · rename_i hst
        unfold tick_moving_to_target restore_move_cmd at h
        repeat' split at h
        all_goals first
          | exact (Option.some_ne_none _ h.symm).elim
          | (rw [← Option.some.inj h]; exact hid)
          | (rw [← Option.some.inj h]
             exact ⟨_, rfl, hk _ (by simp_all)⟩)
          | (rw [← Option.some.inj h]
             exact ⟨_, combatstate_modify_modify _ _ _ _, hk _ (by simp_all)⟩)
      · rename_i hst
        unfold tick_can_attack attack_ends restore_move_cmd at h
        repeat' split at h
        all_goals first
          | exact (Option.some_ne_none _ h.symm).elim
          | (rw [← Option.some.inj h]
             exact ⟨_, rfl, hk _ (by simp_all)⟩)
          | (rw [← Option.some.inj h]
             exact ⟨_, combatstate_modify_modify _ _ _ _, hk _ (by simp_all)⟩)
      · rw [← Option.some.inj h]; exact hid
      · rw [← Option.some.inj h]; exact hid
      · exact (Option.some_ne_none _ h.symm).elim

theorem tick_loop_pursuing_is_aggressive (w : World) (l : List entity) :
    ∀ s s1, tick_loop w l s = some s1 → pursuing_is_aggressive s →
      pursuing_is_aggressive s1 := by
  induction l with
  | nil =>
    intro s s1 h hinv
    simp only [tick_loop, Option.some.injEq] at h
    subst h; exact hinv
  | cons e rest ih =>
    intro s s1 h hinv
    simp only [tick_loop] at h
    cases hte : tick_entity w s e with
    | none => rw [hte] at h; exact (Option.some_ne_none _ h.symm).elim
    | some s2 =>
      rw [hte] at h
      exact ih s2 s1 h (tick_entity_pursuing_is_aggressive w s s2 e hte hinv)

theorem G_Combat_StopAttack_pursuing_is_aggressive (s : State) (ent : entity)
    (hinv : pursuing_is_aggressive s) : pursuing_is_aggressive (G_Combat_StopAttack s ent) := by
  cases hcs : combatstate_get s.table ent.uid with
  | none =>
    have : G_Combat_StopAttack s ent = s := by simp [G_Combat_StopAttack, hcs]
    rw [this]; exact hinv
  | some cs =>
    exact record_pred_modify
      (fun c => c.state = STATE_MOVING_TO_TARGET → c.stance = COMBAT_STANCE_AGGRESSIVE)
      (G_Combat_StopAttack_table s ent cs hcs) hinv (fun c _ hst => absurd hst (by simp))

theorem on_attack_anim_finish_pursuing_is_aggressive (w : World) (s s1 : State)
    (self : entity) (h : on_attack_anim_finish w s self = some s1)
    (hinv : pursuing_is_aggressive s) : pursuing_is_aggressive s1 := by
  have hres : pursuing_is_aggressive (attack_resolved s self) :=
    record_pred_modify
      (fun c => c.state = STATE_MOVING_TO_TARGET → c.stance = COMBAT_STANCE_AGGRESSIVE)
      (rfl : (attack_resolved s self).table = combatstate_modify
        (fun c => { c with state := STATE_CAN_ATTACK }) s.table self.uid) hinv
      (fun c _ hst => absurd hst (by simp))
  have hhit : ∀ t hp, pursuing_is_aggressive (hit_applied s self t hp) := fun t hp =>
    record_pred_modify
      (fun c => c.state = STATE_MOVING_TO_TARGET → c.stance = COMBAT_STANCE_AGGRESSIVE)
      (rfl : (hit_applied s self t hp).table = combatstate_modify
        (fun c => { c with current_hp := hp }) (attack_resolved s self).table t) hres
      (fun c hc hst => hres t c hc hst)
  have hkill : ∀ t hp target, pursuing_is_aggressive
      (kill_target (hit_applied s self t hp) target t) := fun t hp target =>
    record_pred_modify
      (fun c => c.state = STATE_MOVING_TO_TARGET → c.stance = COMBAT_STANCE_AGGRESSIVE)
      (kill_target_table _ _ _) (hhit t hp)
      (fun c _ hst => absurd hst (by simp))
  cases hcs : combatstate_get s.table self.uid with
  | none => simp [on_attack_anim_finish, E_Entity_Unregister, hcs] at h
  | some cs =>
    by_cases hst : cs.state = STATE_ATTACK_ANIM_PLAYING
    · rw [on_attack_anim_finish_eq w s self cs hcs hst] at h
      repeat' split at h
      all_goals first
        | exact (Option.some_ne_none _ h.symm).elim
        | (rw [← Option.some.inj h]; exact hres)
        | (rw [← Option.some.inj h]; exact hhit _ _)
        | (rw [← Option.some.inj h]; exact hkill _ _ _)
    · simp [on_attack_anim_finish, E_Entity_Unregister, hcs, hst] at h

/-- A change of stance leaves no entity pursuing with a stance other than aggressive: the
stance no-engagement stops the attack and the stance hold-position cancels the
pursuit. -/
theorem G_Combat_SetStance_pursuing_is_aggressive (s s1 : State) (ent : entity)
    (stance : combat_stance) (h : G_Combat_SetStance s ent stance = some s1)
    (hknown : stance_known stance = true)
    (hinv : pursuing_is_aggressive s) : pursuing_is_aggressive s1 := by
  unfold G_Combat_SetStance at h
  split at h
  · exact (Option.some_ne_none _ h.symm).elim
  · split at h
    · exact (Option.some_ne_none _ h.symm).elim
    · rename_i cs hcs
      split at h
      · rw [← Option.some.inj h]; exact hinv
      · have h2 : pursuing_is_aggressive
              (if stance = COMBAT_STANCE_NO_ENGAGEMENT then G_Combat_StopAttack s ent else s)
            ∧ (stance = COMBAT_STANCE_NO_ENGAGEMENT →
              ∀ c, combatstate_get
                (if stance = COMBAT_STANCE_NO_ENGAGEMENT then G_Combat_StopAttack s ent
                  else s).table ent.uid = some c → c.state ≠ STATE_MOVING_TO_TARGET) := by
          split_ifs with hs
          · refine ⟨G_Combat_StopAttack_pursuing_is_aggressive s ent hinv, fun _ c hc => ?_⟩
            rw [G_Combat_StopAttack_get s ent cs hcs] at hc
            rw [← Option.some.inj hc]
            simp
          · exact ⟨hinv, fun hs2 => absurd hs2 hs⟩
        generalize (if stance = COMBAT_STANCE_NO_ENGAGEMENT then G_Combat_StopAttack s ent
          else s) = s2 at h h2
        dsimp only at h
        have h3 : pursuing_is_aggressive
              (match combatstate_get s2.table ent.uid with
                | none => s2
                | some cs1 =>
                  if stance = COMBAT_STANCE_HOLD_POSITION ∧ cs1.state = STATE_MOVING_TO_TARGET then
                    { G_Move_RemoveEntity s2 ent.uid with
                      table := combatstate_modify
                        (fun c => { c with state := STATE_NOT_IN_COMBAT,
                                           move_cmd_interrupted := false })
                        (G_Move_RemoveEntity s2 ent.uid).table ent.uid }
                  else s2)
            ∧ (stance ≠ COMBAT_STANCE_AGGRESSIVE →
              ∀ c, combatstate_get
                (match combatstate_get s2.table ent.uid with
                  | none => s2
                  | some cs1 =>
                    if stance = COMBAT_STANCE_HOLD_POSITION
                        ∧ cs1.state = STATE_MOVING_TO_TARGET then
                      { G_Move_RemoveEntity s2 ent.uid with
                        table := combatstate_modify
                          (fun c => { c with state := STATE_NOT_IN_COMBAT,
                                             move_cmd_interrupted := false })
                          (G_Move_RemoveEntity s2 ent.uid).table ent.uid }
                    else s2).table ent.uid = some c → c.state ≠ STATE_MOVING_TO_TARGET) := by
          cases hg : combatstate_get s2.table ent.uid with
          | none =>
            refine ⟨h2.1, fun _ c hc => ?_⟩
            simp only at hc
            rw [hg] at hc
            exact (Option.some_ne_none _ hc.symm).elim
          | some cs1 =>
            dsimp only
            by_cases hc1 : stance = COMBAT_STANCE_HOLD_POSITION ∧ cs1.state = STATE_MOVING_TO_TARGET
            · rw [if_pos hc1]
              refine ⟨record_pred_modify
                (fun c => c.state = STATE_MOVING_TO_TARGET → c.stance = COMBAT_STANCE_AGGRESSIVE)
                (rfl : _ = combatstate_modify
                  (fun c => { c with state := STATE_NOT_IN_COMBAT, move_cmd_interrupted := false })
                  s2.table ent.uid) h2.1 (fun c _ hst => absurd hst (by simp)),
                fun _ c hc => ?_⟩
              have hc2 : combatstate_get (combatstate_modify
                  (fun c => { c with state := STATE_NOT_IN_COMBAT, move_cmd_interrupted := false })
                  s2.table ent.uid) ent.uid = some c := hc
              rw [combatstate_get_modify_self, hg] at hc2
              rw [← Option.some.inj hc2]
              simp
            · rw [if_neg hc1]
              refine ⟨h2.1, fun hs c hc => ?_⟩
              rw [hg] at hc
              have := Option.some.inj hc
              subst this
              intro hm
              cases stance with
              | COMBAT_STANCE_AGGRESSIVE => exact hs rfl
              | COMBAT_STANCE_HOLD_POSITION => exact hc1 ⟨rfl, hm⟩
              | COMBAT_STANCE_NO_ENGAGEMENT => exact h2.2 rfl cs1 hg hm
              | COMBAT_STANCE_OTHER i hi => exact absurd hknown (by simp [stance_known])
        rw [← Option.some.inj h]
        refine record_pred_modify
          (fun c => c.state = STATE_MOVING_TO_TARGET → c.stance = COMBAT_STANCE_AGGRESSIVE)
          (rfl : _ = combatstate_modify (fun c => { c with stance := stance }) _ ent.uid)
          h3.1 (fun c hc hst => ?_)
        by_cases hs : stance = COMBAT_STANCE_AGGRESSIVE
        · exact hs
        · exact absurd hst (h3.2 hs c hc)

theorem apply_op_pursuing_is_aggressive (s s1 : State) (op : combat_op)
    (h : apply_op s op = some s1) (hinv : pursuing_is_aggressive s) :
    pursuing_is_aggressive s1 := by
  cases op with
  | add ent initial =>
    simp only [apply_op, G_Combat_AddEntity, combatstate_set] at h
    repeat' split at h
    all_goals first
      | exact (Option.some_ne_none _ h.symm).elim
      | skip
    simp only [Option.map_some', Option.some.injEq] at h
    subst h
    intro v c hc hst
    simp only [combatstate_get_append] at hc
    cases hg : combatstate_get s.table v with
    | some c0 =>
      rw [hg] at hc
      have : c0 = c := by simpa using hc
      subst this
      exact hinv v _ hg hst
    | none =>
      rw [hg] at hc
      by_cases hk : ent.uid = v
      · simp only [hk, if_true, Option.some.injEq] at hc
        rw [← hc] at hst
        exact absurd hst (by simp)
      · simp [hk] at hc
  | remove ent =>
    simp only [apply_op, G_Combat_RemoveEntity, combatstate_remove] at h
    repeat' split at h
    all_goals first
      | exact (Option.some_ne_none _ h.symm).elim
      | (rw [← Option.some.inj h]; exact hinv)
      | (simp only [Option.map_some', Option.some.injEq] at h
         subst h
         intro v c hc hst
         have hc2 : combatstate_get (List.filter (fun p => p.1 ≠ ent.uid) s.table) v = some c := hc
         rw [combatstate_get_filter] at hc2
         by_cases hv : v = ent.uid
         · simp [hv] at hc2
         · rw [if_neg hv] at hc2
           exact hinv v c hc2 hst)
  | tick w => exact tick_loop_pursuing_is_aggressive w _ s s1 h hinv
  | attack_anim_finish w self =>
    simp only [apply_op] at h
    split at h
    · exact on_attack_anim_finish_pursuing_is_aggressive w s s1 self h hinv
    · exact (Option.some_ne_none _ h.symm).elim
  | set_stance ent stance =>
    simp only [apply_op] at h
    split at h
    · rename_i hknown
      exact G_Combat_SetStance_pursuing_is_aggressive s s1 ent stance h hknown hinv
    · exact (Option.some_ne_none _ h.symm).elim
  | stop_attack ent =>
    simp only [apply_op, Option.some.injEq] at h
    subst h
    exact G_Combat_StopAttack_pursuing_is_aggressive s ent hinv
  | clear_saved_move_cmd ent =>
    simp only [apply_op, Option.some.injEq, G_Combat_ClearSavedMoveCmd] at h
    subst h
    split
    · exact hinv
    · exact record_pred_modify
        (fun c => c.state = STATE_MOVING_TO_TARGET → c.stance = COMBAT_STANCE_AGGRESSIVE)
        (rfl : _ = combatstate_modify
          (fun c => { c with move_cmd_interrupted := false }) s.table ent.uid) hinv
        (fun c hc hst => hinv _ c hc hst)
  | set_hp ent hp =>
    simp only [apply_op, G_Combat_SetHP] at h
    split at h
    · exact (Option.some_ne_none _ h.symm).elim
    · rw [← Option.some.inj h]
      exact record_pred_modify
        (fun c => c.state = STATE_MOVING_TO_TARGET → c.stance = COMBAT_STANCE_AGGRESSIVE)
        rfl hinv (fun c hc hst => hinv _ c hc hst)
  | set_base_damage ent dmg =>
    simp only [apply_op, G_Combat_SetBaseDamage] at h
    split at h
    · exact (Option.some_ne_none _ h.symm).elim
    · rw [← Option.some.inj h]
      exact record_pred_modify
        (fun c => c.state = STATE_MOVING_TO_TARGET → c.stance = COMBAT_STANCE_AGGRESSIVE)
        rfl hinv (fun c hc hst => hinv _ c hc hst)
  | set_base_armour ent armour_pc =>
    simp only [apply_op, G_Combat_SetBaseArmour] at h
    split at h
    · exact (Option.some_ne_none _ h.symm).elim
    · rw [← Option.some.inj h]
      exact record_pred_modify
        (fun c => c.state = STATE_MOVING_TO_TARGET → c.stance = COMBAT_STANCE_AGGRESSIVE)
        rfl hinv (fun c hc hst => hinv _ c hc hst)

theorem run_ops_pursuing_is_aggressive (ops : List combat_op) :
    ∀ s s1, run_ops ops s = some s1 → pursuing_is_aggressive s →
      pursuing_is_aggressive s1 := by
  induction ops with
  | nil =>
    intro s s1 h hinv
    simp only [run_ops, Option.some.injEq] at h
    subst h; exact hinv
  | cons op rest ih =>
    intro s s1 h hinv
    simp only [run_ops] at h
    cases hop : apply_op s op with
    | none => rw [hop] at h; exact (Option.some_ne_none _ h.symm).elim
    | some s2 =>
      rw [hop] at h
      exact ih s2 s1 h (apply_op_pursuing_is_aggressive s s2 op hop hinv)

/-- C27: in every state reached from the empty subsystem by adding and removing entities,
ticks, attack resolutions, stance changes, `G_Combat_StopAttack`,
`G_Combat_ClearSavedMoveCmd` and the setters, an entity in the phase Pursuing has the
stance Aggressive: an entity with the stance HoldPosition or NoEngagement is never
pursuing. -/
theorem C27_pursuing_is_aggressive (s0 s : State) (ops : List combat_op)
    (hempty : empty_subsystem s0) (hrun : run_ops ops s0 = some s)
    (u : Nat) (c : combatstate) (hc : combatstate_get s.table u = some c)
    (hpursuing : c.state = STATE_MOVING_TO_TARGET) :
    c.stance = COMBAT_STANCE_AGGRESSIVE
    ∧ c.stance ≠ COMBAT_STANCE_HOLD_POSITION ∧ c.stance ≠ COMBAT_STANCE_NO_ENGAGEMENT := by
  have h0 : pursuing_is_aggressive s0 := by
    intro v c0 hc0
    rw [hempty.1] at hc0
    exact absurd hc0 (by simp [combatstate_get])
  have hs := run_ops_pursuing_is_aggressive ops s0 s hrun h0 u c hc hpursuing
  exact ⟨hs, by rw [hs]; decide, by rw [hs]; decide⟩
theorem count_attack_filter (l : List (Nat × anim_handler)) (t u : Nat) (hd : anim_handler) :
    (l.filter (fun p => p ≠ (t, hd))).count (u, anim_handler.attack_anim_finish)
      = if u = t ∧ hd = anim_handler.attack_anim_finish then 0
        else l.count (u, anim_handler.attack_anim_finish) := by
  induction l with
  | nil => simp
  | cons x l ih =>
    by_cases hx : x = (t, hd)
    · have hf : (x :: l).filter (fun p => p ≠ (t, hd)) = l.filter (fun p => p ≠ (t, hd)) := by
        simp [List.filter_cons, hx]
      rw [hf, ih]
      by_cases h : u = t ∧ hd = anim_handler.attack_anim_finish
      · rw [if_pos h, if_pos h]
      · rw [if_neg h, if_neg h, List.count_cons]
        have hne : ¬ x = (u, anim_handler.attack_anim_finish) := by
          rw [hx]
          intro e
          exact h ⟨((Prod.mk.inj e).1).symm, (Prod.mk.inj e).2⟩
        simp [hne]
    · have hf : (x :: l).filter (fun p => p ≠ (t, hd))
          = x :: l.filter (fun p => p ≠ (t, hd)) := by
        simp [List.filter_cons, hx]
      rw [hf, List.count_cons, ih]
      by_cases h : u = t ∧ hd = anim_handler.attack_anim_finish
      · rw [if_pos h, if_pos h]
        have hne : ¬ x = (u, anim_handler.attack_anim_finish) := by
          rw [h.1, ← h.2]; exact hx
        simp [hne]
      · rw [if_neg h, if_neg h, List.count_cons]

/-- The invariant is kept when `on_attack_anim_finish` is unregistered for an entity and
its record gets a phase other than Striking. -/
theorem attack_handler_iff_striking_unregister {s s1 : State}
    {f : combatstate → combatstate} {t : Nat}
    (htbl : s1.table = combatstate_modify f s.table t)
    (hh : ∀ u, s1.handlers.count (u, anim_handler.attack_anim_finish)
      = if u = t then 0 else s.handlers.count (u, anim_handler.attack_anim_finish))
    (hf : ∀ c, (f c).state ≠ STATE_ATTACK_ANIM_PLAYING)
    (hinv : attack_handler_iff_striking s) : attack_handler_iff_striking s1 := by
  intro u
  rw [hh u]
  unfold phase_of
  rw [htbl]
  by_cases hu : u = t
  · subst hu
    rw [if_pos rfl, combatstate_get_modify_self]
    cases combatstate_get s.table u with
    | none => simp
    | some c => simp [hf c]
  · rw [if_neg hu, combatstate_get_modify_other _ _ hu]
    exact hinv u

/-- The invariant is kept by a write that does not change whether a record is in the
phase Striking, when the registrations of `on_attack_anim_finish` stay as they are. -/
theorem attack_handler_iff_striking_keep {s s1 : State}
    {f : combatstate → combatstate} {t : Nat}
    (htbl : s1.table = combatstate_modify f s.table t)
    (hh : ∀ u, s1.handlers.count (u, anim_handler.attack_anim_finish)
      = s.handlers.count (u, anim_handler.attack_anim_finish))
    (hf : ∀ c, combatstate_get s.table t = some c →
      ((f c).state = STATE_ATTACK_ANIM_PLAYING ↔ c.state = STATE_ATTACK_ANIM_PLAYING))
    (hinv : attack_handler_iff_striking s) : attack_handler_iff_striking s1 := by
  intro u
  rw [hh u, hinv u]
  unfold phase_of
  rw [htbl]
  by_cases hu : u = t
  · subst hu
    rw [combatstate_get_modify_self]
    cases hc : combatstate_get s.table u with
    | none => simp
    | some c => simp [hf c hc]
  · rw [combatstate_get_modify_other _ _ hu]

/-- The invariant is kept when `on_attack_anim_finish` is registered for an entity that
was not in the phase Striking and now is. -/
theorem attack_handler_iff_striking_register {s s1 : State}
    {f : combatstate → combatstate} {t : Nat} (c : combatstate)
    (htbl : s1.table = combatstate_modify f s.table t)
    (hh : s1.handlers = s.handlers ++ [(t, anim_handler.attack_anim_finish)])
    (hc : combatstate_get s.table t = some c)
    (hbefore : c.state ≠ STATE_ATTACK_ANIM_PLAYING)
    (hafter : (f c).state = STATE_ATTACK_ANIM_PLAYING)
    (hinv : attack_handler_iff_striking s) : attack_handler_iff_striking s1 := by
  intro u
  rw [hh, List.count_append, hinv u]
  unfold phase_of
  rw [htbl]
  by_cases hu : u = t
  · subst hu
    rw [combatstate_get_modify_self, hc]
    simp [hbefore, hafter]
  · have hne : ¬ t = u := fun e => hu e.symm
    rw [combatstate_get_modify_other _ _ hu]
    simp [List.count_cons, hne]

theorem tick_entity_attack_handler_iff_striking (w : World) (s s1 : State) (curr : entity)
    (h : tick_entity w s curr = some s1) (hinv : attack_handler_iff_striking s) :
    attack_handler_iff_striking s1 := by
  suffices hex : ∃ f, s1.table = combatstate_modify f s.table curr.uid
      ∧ ((s1.handlers = s.handlers
          ∧ ∀ c, combatstate_get s.table curr.uid = some c →
            ((f c).state = STATE_ATTACK_ANIM_PLAYING ↔ c.state = STATE_ATTACK_ANIM_PLAYING))
        ∨ (s1.handlers = s.handlers ++ [(curr.uid, anim_handler.attack_anim_finish)]
          ∧ ∃ c, combatstate_get s.table curr.uid = some c
            ∧ c.state ≠ STATE_ATTACK_ANIM_PLAYING
            ∧ (f c).state = STATE_ATTACK_ANIM_PLAYING)) by
    obtain ⟨f, htbl, hcase⟩ := hex
    rcases hcase with ⟨hh, hf⟩ | ⟨hh, c, hc, h1, h2⟩
    · exact attack_handler_iff_striking_keep htbl (fun u => by rw [hh]) hf hinv
    · exact attack_handler_iff_striking_register c htbl hh hc h1 h2 hinv
  have hid : ∃ f, s.table = combatstate_modify f s.table curr.uid
      ∧ ((s.handlers = s.handlers
          ∧ ∀ c, combatstate_get s.table curr.uid = some c →
            ((f c).state = STATE_ATTACK_ANIM_PLAYING ↔ c.state = STATE_ATTACK_ANIM_PLAYING))
        ∨ (s.handlers = s.handlers ++ [(curr.uid, anim_handler.attack_anim_finish)]
          ∧ ∃ c, combatstate_get s.table curr.uid = some c
            ∧ c.state ≠ STATE_ATTACK_ANIM_PLAYING
            ∧ (f c).state = STATE_ATTACK_ANIM_PLAYING)) :=
    ⟨id, (combatstate_modify_id _ _).symm, Or.inl ⟨rfl, fun c _ => Iff.rfl⟩⟩
  unfold tick_entity at h
  split at h
  · rw [← Option.some.inj h]; exact hid
  · split at h
    · exact (Option.some_ne_none _ h.symm).elim
    · rename_i cs hcs
      have hk : ∀ f : combatstate → combatstate,
          ((f cs).state = STATE_ATTACK_ANIM_PLAYING ↔ cs.state = STATE_ATTACK_ANIM_PLAYING) →
          ∀ c, combatstate_get s.table curr.uid = some c →
            ((f c).state = STATE_ATTACK_ANIM_PLAYING ↔ c.state = STATE_ATTACK_ANIM_PLAYING) := by
        intro f hf c hc
        have := Option.some.inj (hcs.symm.trans hc)
        subst this
        exact hf
      split at h
      · rename_i hst
        unfold tick_not_in_combat at h
        repeat' (first | split at h | (dsimp only at h; split at h))
        all_goals first
          | exact (Option.some_ne_none _ h.symm).elim
          | (rw [← Option.some.inj h]; exact hid)
          | (rw [← Option.some.inj h]
             exact ⟨_, rfl, Or.inl ⟨rfl, hk _ (by simp_all)⟩⟩)
          | (rw [← Option.some.inj h]
             exact ⟨_, combatstate_modify_modify _ _ _ _, Or.inl ⟨rfl, hk _ (by simp_all)⟩⟩)
      · rename_i hst
        unfold tick_moving_to_target restore_move_cmd at h
        repeat' split at h
        all_goals first
          | exact (Option.some_ne_none _ h.symm).elim
          | (rw [← Option.some.inj h]; exact hid)
          | (rw [← Option.some.inj h]
             exact ⟨_, rfl, Or.inl ⟨rfl, hk _ (by simp_all)⟩⟩)
          | (rw [← Option.some.inj h]
             exact ⟨_, combatstate_modify_modify _ _ _ _, Or.inl ⟨rfl, hk _ (by simp_all)⟩⟩)
      · rename_i hst
        unfold tick_can_attack attack_ends restore_move_cmd at h
        repeat' split at h
        all_goals first
          | exact (Option.some_ne_none _ h.symm).elim
          | (rw [← Option.some.inj h]
             exact ⟨_, rfl, Or.inl ⟨rfl, hk _ (by simp_all)⟩⟩)
          | (rw [← Option.some.inj h]
             exact ⟨_, combatstate_modify_modify _ _ _ _, Or.inl ⟨rfl, hk _ (by simp_all)⟩⟩)
          | (rw [← Option.some.inj h]
             exact ⟨_, rfl, Or.inr ⟨rfl, cs, hcs, by simp_all, rfl⟩⟩)
      · rw [← Option.some.inj h]; exact hid
      · rw [← Option.some.inj h]; exact hid
      · exact (Option.some_ne_none _ h.symm).elim

theorem tick_loop_attack_handler_iff_striking (w : World) (l : List entity) :
    ∀ s s1, tick_loop w l s = some s1 → attack_handler_iff_striking s →
      attack_handler_iff_striking s1 := by
  induction l with
  | nil =>
    intro s s1 h hinv
    simp only [tick_loop, Option.some.injEq] at h
    subst h; exact hinv
  | cons e rest ih =>
    intro s s1 h hinv
    simp only [tick_loop] at h
    cases hte : tick_entity w s e with
    | none => rw [hte] at h; exact (Option.some_ne_none _ h.symm).elim
    | some s2 =>
      rw [hte] at h
      exact ih s2 s1 h (tick_entity_attack_handler_iff_striking w s s2 e hte hinv)

theorem G_Combat_StopAttack_attack_handler_iff_striking (s : State) (ent : entity)
    (hinv : attack_handler_iff_striking s) :
    attack_handler_iff_striking (G_Combat_StopAttack s ent) := by
  cases hcs : combatstate_get s.table ent.uid with
  | none =>
    have : G_Combat_StopAttack s ent = s := by simp [G_Combat_StopAttack, hcs]
    rw [this]; exact hinv
  | some cs =>
    refine attack_handler_iff_striking_unregister (G_Combat_StopAttack_table s ent cs hcs)
      (fun u => ?_) (fun c => by simp) hinv
    rw [(G_Combat_StopAttack_rest s ent cs hcs).1, count_attack_filter]
    simp

theorem on_attack_anim_finish_attack_handler_iff_striking (w : World) (s s1 : State)
    (self : entity) (h : on_attack_anim_finish w s self = some s1)
    (hinv : attack_handler_iff_striking s) : attack_handler_iff_striking s1 := by
  have hres : attack_handler_iff_striking (attack_resolved s self) :=
    attack_handler_iff_striking_unregister
      (rfl : (attack_resolved s self).table = combatstate_modify
        (fun c => { c with state := STATE_CAN_ATTACK }) s.table self.uid)
      (fun u => by
        show (s.handlers.filter
          (fun p => p ≠ (self.uid, anim_handler.attack_anim_finish))).count _ = _
        rw [count_attack_filter]; simp)
      (fun c => by simp) hinv
  have hhit : ∀ t hp, attack_handler_iff_striking (hit_applied s self t hp) := fun t hp =>
    attack_handler_iff_striking_keep
      (rfl : (hit_applied s self t hp).table = combatstate_modify
        (fun c => { c with current_hp := hp }) (attack_resolved s self).table t)
      (fun _ => rfl) (fun _ _ => Iff.rfl) hres
  have hkill : ∀ t hp target, attack_handler_iff_striking
      (kill_target (hit_applied s self t hp) target t) := fun t hp target =>
    attack_handler_iff_striking_unregister (kill_target_table _ _ _)
      (fun u => by
        rw [kill_target_handlers, List.count_append, count_attack_filter]
        simp [List.count_cons])
      (fun c => by simp) (hhit t hp)
  cases hcs : combatstate_get s.table self.uid with
  | none => simp [on_attack_anim_finish, E_Entity_Unregister, hcs] at h
  | some cs =>
    by_cases hst : cs.state = STATE_ATTACK_ANIM_PLAYING
    · rw [on_attack_anim_finish_eq w s self cs hcs hst] at h
      repeat' split at h
      all_goals first
        | exact (Option.some_ne_none _ h.symm).elim
        | (rw [← Option.some.inj h]; exact hres)
        | (rw [← Option.some.inj h]; exact hhit _ _)
        | (rw [← Option.some.inj h]; exact hkill _ _ _)
    · simp [on_attack_anim_finish, E_Entity_Unregister, hcs, hst] at h

theorem G_Combat_SetStance_attack_handler_iff_striking (s s1 : State) (ent : entity)
    (stance : combat_stance) (h : G_Combat_SetStance s ent stance = some s1)
    (hinv : attack_handler_iff_striking s) : attack_handler_iff_striking s1 := by
  unfold G_Combat_SetStance at h
  split at h
  · exact (Option.some_ne_none _ h.symm).elim
  · split at h
    · exact (Option.some_ne_none _ h.symm).elim
    · split at h
      · rw [← Option.some.inj h]; exact hinv
      · have h2 : attack_handler_iff_striking
            (if stance = COMBAT_STANCE_NO_ENGAGEMENT then G_Combat_StopAttack s ent else s) := by
          split_ifs
          · exact G_Combat_StopAttack_attack_handler_iff_striking s ent hinv
          · exact hinv
        generalize (if stance = COMBAT_STANCE_NO_ENGAGEMENT then G_Combat_StopAttack s ent
          else s) = s2 at h h2
        dsimp only at h
        have h3 : attack_handler_iff_striking
            (match combatstate_get s2.table ent.uid with
              | none => s2
              | some cs1 =>
                if stance = COMBAT_STANCE_HOLD_POSITION ∧ cs1.state = STATE_MOVING_TO_TARGET then
                  { G_Move_RemoveEntity s2 ent.uid with
                    table := combatstate_modify
                      (fun c => { c with state := STATE_NOT_IN_COMBAT,
                                         move_cmd_interrupted := false })
                      (G_Move_RemoveEntity s2 ent.uid).table ent.uid }
                else s2) := by
          cases hg : combatstate_get s2.table ent.uid with
          | none => exact h2
          | some cs1 =>
            dsimp only
            split_ifs with hc1
            · refine attack_handler_iff_striking_keep (rfl : _ = combatstate_modify
                (fun c => { c with state := STATE_NOT_IN_COMBAT, move_cmd_interrupted := false })
                s2.table ent.uid) (fun _ => rfl) (fun c hc => ?_) h2
              have := Option.some.inj (hg.symm.trans hc)
              subst this
              simp [hc1.2]
            · exact h2
        rw [← Option.some.inj h]
        exact attack_handler_iff_striking_keep (rfl : _ = combatstate_modify
          (fun c => { c with stance := stance }) _ ent.uid) (fun _ => rfl)
          (fun _ _ => Iff.rfl) h3

theorem apply_op_attack_handler_iff_striking (s s1 : State) (op : combat_op)
    (h : apply_op s op = some s1) (hinv : attack_handler_iff_striking s) :
    attack_handler_iff_striking s1 := by
  cases op with
  | add ent initial =>
    simp only [apply_op, G_Combat_AddEntity, combatstate_set] at h
    repeat' split at h
    all_goals first
      | exact (Option.some_ne_none _ h.symm).elim
      | skip
    simp only [Option.map_some', Option.some.injEq] at h
    subst h
    intro u
    rw [show ({ s with table := s.table ++ [(ent.uid, _)] } : State).handlers = s.handlers
      from rfl, hinv u]
    unfold phase_of
    simp only [combatstate_get_append]
    cases hg : combatstate_get s.table u with
    | some c0 => rfl
    | none =>
      by_cases hk : ent.uid = u
      · simp [hk]
      · simp [hk]
  | remove ent =>
    simp only [apply_op, G_Combat_RemoveEntity, combatstate_remove] at h
    repeat' split at h
    all_goals first
      | exact (Option.some_ne_none _ h.symm).elim
      | (rw [← Option.some.inj h]; exact hinv)
      | (simp only [Option.map_some', Option.some.injEq] at h
         subst h
         intro u
         show ((s.handlers.filter
             (fun p => p ≠ (ent.uid, anim_handler.attack_anim_finish))).filter
             (fun p => p ≠ (ent.uid, anim_handler.death_anim_finish))).count _
           = if (combatstate_get (s.table.filter (fun p => p.1 ≠ ent.uid)) u).map
               (fun c => c.state) = some STATE_ATTACK_ANIM_PLAYING then 1 else 0
         rw [count_attack_filter, count_attack_filter, combatstate_get_filter]
         by_cases hu : u = ent.uid
         · simp [hu]
         · simp only [hu, false_and, if_false]
           exact hinv u)
  | tick w => exact tick_loop_attack_handler_iff_striking w _ s s1 h hinv
  | attack_anim_finish w self =>
    simp only [apply_op] at h
    split at h
    · exact on_attack_anim_finish_attack_handler_iff_striking w s s1 self h hinv
    · exact (Option.some_ne_none _ h.symm).elim
  | set_stance ent stance =>
    simp only [apply_op] at h
    split at h
    · exact G_Combat_SetStance_attack_handler_iff_striking s s1 ent stance h hinv
    · exact (Option.some_ne_none _ h.symm).elim
  | stop_attack ent =>
    simp only [apply_op, Option.some.injEq] at h
    subst h
    exact G_Combat_StopAttack_attack_handler_iff_striking s ent hinv
  | clear_saved_move_cmd ent =>
    simp only [apply_op, Option.some.injEq, G_Combat_ClearSavedMoveCmd] at h
    subst h
    split
    · exact hinv
    · exact attack_handler_iff_striking_keep (rfl : _ = combatstate_modify
        (fun c => { c with move_cmd_interrupted := false }) s.table ent.uid)
        (fun _ => rfl) (fun _ _ => Iff.rfl) hinv
  | set_hp ent hp =>
    simp only [apply_op, G_Combat_SetHP] at h
    split at h
    · exact (Option.some_ne_none _ h.symm).elim
    · rw [← Option.some.inj h]
      exact attack_handler_iff_striking_keep rfl (fun _ => rfl) (fun _ _ => Iff.rfl) hinv
  | set_base_damage ent dmg =>
    simp only [apply_op, G_Combat_SetBaseDamage] at h
    split at h
    · exact (Option.some_ne_none _ h.symm).elim
    · rw [← Option.some.inj h]
      exact attack_handler_iff_striking_keep rfl (fun _ => rfl) (fun _ _ => Iff.rfl) hinv
  | set_base_armour ent armour_pc =>
    simp only [apply_op, G_Combat_SetBaseArmour] at h
    split at h
    · exact (Option.some_ne_none _ h.symm).elim
    · rw [← Option.some.inj h]
      exact attack_handler_iff_striking_keep rfl (fun _ => rfl) (fun _ _ => Iff.rfl) hinv

theorem run_ops_attack_handler_iff_striking (ops : List combat_op) :
    ∀ s s1, run_ops ops s = some s1 → attack_handler_iff_striking s →
      attack_handler_iff_striking s1 := by
  induction ops with
  | nil =>
    intro s s1 h hinv
    simp only [run_ops, Option.some.injEq] at h
    subst h; exact hinv
  | cons op rest ih =>
    intro s s1 h hinv
    simp only [run_ops] at h
    cases hop : apply_op s op with
    | none => rw [hop] at h; exact (Option.some_ne_none _ h.symm).elim
    | some s2 =>
      rw [hop] at h
      exact ih s2 s1 h (apply_op_attack_handler_iff_striking s s2 op hop hinv)
/-- C27 (witness): the first three operations of `pursuit_ops` reach a state in which
entity `1` is pursuing; its stance is Aggressive. -/
theorem C27_pursuing_is_aggressive_witness :
    run_ops (pursuit_ops.take 3) empty_state = some pursuit_ops_mid
    ∧ (⟨⟨0, 0⟩, 10, COMBAT_STANCE_AGGRESSIVE, STATE_MOVING_TO_TARGET, 2, true, ⟨5, 5⟩⟩ :
        combatstate).stance = COMBAT_STANCE_AGGRESSIVE :=
  ⟨by decide!,
    (C27_pursuing_is_aggressive empty_state pursuit_ops_mid (pursuit_ops.take 3)
      ⟨rfl, rfl, rfl⟩ (by decide!) 1
      ⟨⟨0, 0⟩, 10, COMBAT_STANCE_AGGRESSIVE, STATE_MOVING_TO_TARGET, 2, true, ⟨5, 5⟩⟩
      rfl rfl).1⟩

/-- C28: in every state reached from the empty subsystem by adding and removing entities,
ticks, attack resolutions, stance changes, `G_Combat_StopAttack`,
`G_Combat_ClearSavedMoveCmd` and the setters, `on_attack_anim_finish` is registered for an
entity if and only if the phase of that entity is Striking, and it is registered at most
once for an entity; so whenever the event bus can call `on_attack_anim_finish` for an
entity, the entity has a record in the phase Striking, and the two `assert`s at the start
of the callback pass. -/
theorem C28_attack_handler_iff_striking (s0 s : State) (ops : List combat_op)
    (hempty : empty_subsystem s0) (hrun : run_ops ops s0 = some s) :
    (∀ u, (u, anim_handler.attack_anim_finish) ∈ s.handlers
      ↔ phase_of s u = some STATE_ATTACK_ANIM_PLAYING)
    ∧ (∀ u, s.handlers.count (u, anim_handler.attack_anim_finish) ≤ 1)
    ∧ (∀ self : entity, (self.uid, anim_handler.attack_anim_finish) ∈ s.handlers →
        ∃ cs, combatstate_get s.table self.uid = some cs
          ∧ cs.state = STATE_ATTACK_ANIM_PLAYING) := by
  have h0 : attack_handler_iff_striking s0 := by
    intro u
    unfold phase_of
    rw [hempty.1, hempty.2.2]
    simp [combatstate_get]
  have hinv := run_ops_attack_handler_iff_striking ops s0 s hrun h0
  have hiff : ∀ u, (u, anim_handler.attack_anim_finish) ∈ s.handlers
      ↔ phase_of s u = some STATE_ATTACK_ANIM_PLAYING := by
    intro u
    rw [← List.count_pos_iff, hinv u]
    by_cases hp : phase_of s u = some STATE_ATTACK_ANIM_PLAYING
    · simp [hp]
    · simp [hp]
  refine ⟨hiff, ?_, ?_⟩
  · intro u
    rw [hinv u]
    split_ifs <;> omega
  · intro self hmem
    have hp := (hiff self.uid).mp hmem
    unfold phase_of at hp
    cases hc : combatstate_get s.table self.uid with
    | none => rw [hc] at hp; simp at hp
    | some cs =>
      rw [hc] at hp
      simp only [Option.map_some', Option.some.injEq] at hp
      exact ⟨cs, rfl, hp⟩

/-- C28 (witness): the first five operations of `double_kill_ops` reach
`striking_pair_state`, in which the entities `1` and `2` are striking and each has one
registration of `on_attack_anim_finish`. -/
theorem C28_attack_handler_iff_striking_witness :
    run_ops (double_kill_ops.take 5) empty_state = some striking_pair_state
    ∧ striking_pair_state.handlers.count (1, anim_handler.attack_anim_finish) = 1
    ∧ ((∀ u, (u, anim_handler.attack_anim_finish) ∈ striking_pair_state.handlers
        ↔ phase_of striking_pair_state u = some STATE_ATTACK_ANIM_PLAYING)
      ∧ (∀ u, striking_pair_state.handlers.count (u, anim_handler.attack_anim_finish) ≤ 1)
      ∧ (∀ self : entity,
          (self.uid, anim_handler.attack_anim_finish) ∈ striking_pair_state.handlers →
          ∃ cs, combatstate_get striking_pair_state.table self.uid = some cs
            ∧ cs.state = STATE_ATTACK_ANIM_PLAYING)) :=
  ⟨by decide!, by decide,
    C28_attack_handler_iff_striking empty_state striking_pair_state (double_kill_ops.take 5)
      ⟨rfl, rfl, rfl⟩ (by decide!)⟩

/-! ## The order of the steps of a tick -/

/-- The step of an entity reads of the state only the record and the movement order of
the entity itself, which records are dying, and the registry; what it writes to the record
of the entity, and whether an `assert` fails, is the same in two states that agree on
these. -/
theorem tick_entity_local (w : World) (s s2 : State) (curr : entity)
    (hget : combatstate_get s2.table curr.uid = combatstate_get s.table curr.uid)
    (hmove : move_order_of s2.move curr.uid = move_order_of s.move curr.uid)
    (hview : ∀ v, dying_view s2.table v = dying_view s.table v)
    (hents : s2.ents = s.ents) :
    (tick_entity w s2 curr).map (fun x => combatstate_get x.table curr.uid)
      = (tick_entity w s curr).map (fun x => combatstate_get x.table curr.uid) := by
  have hclo : closest_enemy_in_range w s2.table curr = closest_enemy_in_range w s.table curr :=
    closest_enemy_in_range_congr w s2.table s.table hview curr
  have hinv : ∀ cs, target_invalid w s2 curr cs = target_invalid w s curr cs :=
    fun cs => target_invalid_congr w s s2 curr cs hview hents
  have hdest : ∀ t1 t2, G_Move_GetDest { s2 with table := t1 } curr.uid
      = G_Move_GetDest { s with table := t2 } curr.uid := by
    intro t1 t2
    unfold G_Move_GetDest
    show (match move_order_of s2.move curr.uid with
        | some (move_order.dest xz) => some xz
        | _ => none) = _
    rw [hmove]
  unfold tick_entity
  rw [hget]
  by_cases hcomb : curr.flags.combatable = true
  · simp only [hcomb, Bool.not_true, Bool.false_eq_true, if_false]
    cases hcs : combatstate_get s.table curr.uid with
    | none => rfl
    | some cs =>
      have hcs2 : combatstate_get s2.table curr.uid = some cs := hget.trans hcs
      dsimp only
      cases hst : cs.state with
      | STATE_NOT_IN_COMBAT =>
        dsimp only
        unfold tick_not_in_combat
        rw [hclo]
        by_cases hne : cs.stance = COMBAT_STANCE_NO_ENGAGEMENT
        · simp only [hne, if_true, Option.map_some', hcs, hcs2]
        · simp only [hne, if_false]
          cases hr : closest_enemy_in_range w s.table curr with
          | none => rfl
          | some r =>
            cases r with
            | none => simp only [Option.map_some', hcs, hcs2]
            | some e =>
              dsimp only
              by_cases hd : ents_distance w curr e ≤ ENEMY_MELEE_ATTACK_RANGE
              · simp only [hd, if_true]
                by_cases hs : cs.stance = COMBAT_STANCE_AGGRESSIVE
                    ∨ cs.stance = COMBAT_STANCE_HOLD_POSITION
                · simp only [hs, not_true_eq_false, if_false]
                  cases ht : entity_turn_to_target w curr e with
                  | false => simp
                  | true =>
                    simp only [Bool.not_true, Bool.false_eq_true, if_false, Option.map_some',
                      E_Entity_Notify, combatstate_get_modify_self, hcs, hcs2]
                · simp only [hs, not_false_eq_true, if_true, Option.map_none']
              · simp only [hd, if_false]
                by_cases hs : cs.stance = COMBAT_STANCE_AGGRESSIVE
                · simp only [hs, if_true, Option.map_some']
                  rw [hdest _ (combatstate_modify
                    (fun c => { c with target_uid := e.uid, state := STATE_MOVING_TO_TARGET })
                    s.table curr.uid)]
                  cases hf : cs.move_cmd_interrupted <;>
                  cases hg : G_Move_GetDest { s with table := (combatstate_modify
                    (fun c => { c with target_uid := e.uid, state := STATE_MOVING_TO_TARGET })
                    s.table curr.uid) } curr.uid <;>
                  simp only [G_Move_SetSeekEnemies, combatstate_get_modify_self, hcs, hcs2,
                    combatstate_modify_modify]
                · simp only [hs, if_false, Option.map_some', hcs, hcs2]
      | STATE_MOVING_TO_TARGET =>
        dsimp only
        unfold tick_moving_to_target
        rw [hclo]
        cases hr : closest_enemy_in_range w s.table curr with
        | none => rfl
        | some r =>
          cases r with
          | none =>
            dsimp only
            cases hf : cs.move_cmd_interrupted <;>
            simp [restore_move_cmd, G_Move_SetDest, G_Move_Stop, combatstate_get_modify_self,
              hcs, hcs2, combatstate_modify_modify]
          | some e =>
            dsimp only
            by_cases hd : ents_distance w curr e ≤ ENEMY_MELEE_ATTACK_RANGE
            · simp only [hd, if_true]
              cases ht : entity_turn_to_target w curr e with
              | false => simp
              | true =>
                by_cases hta : e.uid = cs.target_uid <;>
                simp [hta, E_Entity_Notify, G_Move_Stop, combatstate_get_modify_self, hcs, hcs2,
                  combatstate_modify_modify]
            · simp only [hd, if_false]
              by_cases hta : e.uid = cs.target_uid <;>
              simp [hta, combatstate_get_modify_self, hcs, hcs2]
      | STATE_CAN_ATTACK =>
        dsimp only
        unfold tick_can_attack
        rw [hinv, hclo]
        cases hti : target_invalid w s curr cs with
        | none => rfl
        | some b =>
          cases b with
          | false =>
            simp [E_Entity_Register, combatstate_get_modify_self, hcs, hcs2]
          | true =>
            dsimp only
            have hends : combatstate_get (attack_ends s2 curr cs).table curr.uid
                = combatstate_get (attack_ends s curr cs).table curr.uid := by
              unfold attack_ends
              cases hf : cs.move_cmd_interrupted <;>
              simp [restore_move_cmd, G_Move_SetDest, E_Entity_Notify,
                combatstate_get_modify_self, hcs, hcs2, combatstate_modify_modify]
            cases hr : closest_enemy_in_range w s.table curr with
            | none => rfl
            | some r =>
              cases r with
              | none => simp only [Option.map_some', hends]
              | some e =>
                dsimp only
                by_cases hd : ents_distance w curr e ≤ ENEMY_MELEE_ATTACK_RANGE
                · simp only [hd, if_true]
                  cases ht : entity_turn_to_target w curr e with
                  | false => simp
                  | true => simp [combatstate_get_modify_self, hcs, hcs2]
                · simp only [hd, if_false, Option.map_some', hends]
      | STATE_ATTACK_ANIM_PLAYING => simp only [Option.map_some', hcs, hcs2]
      | STATE_DEATH_ANIM_PLAYING => simp only [Option.map_some', hcs, hcs2]
      | STATE_OTHER i hi => rfl
  · have hc : curr.flags.combatable = false := by
      cases h : curr.flags.combatable
      · rfl
      · exact absurd h hcomb
    simp only [hc, Bool.not_false, if_true, Option.map_some', hget]
/-- Two tables with the same keys in the same order, each key once, and the same record
under every key are equal. -/
theorem table_ext : ∀ (t1 t2 : List (Nat × combatstate)),
    t1.map Prod.fst = t2.map Prod.fst → (t1.map Prod.fst).Nodup →
    (∀ u, combatstate_get t1 u = combatstate_get t2 u) → t1 = t2 := by
  intro t1
  induction t1 with
  | nil =>
    intro t2 hk _ _
    cases t2 with
    | nil => rfl
    | cons p r => simp at hk
  | cons p r1 ih =>
    intro t2 hk hnd hget
    cases t2 with
    | nil => simp at hk
    | cons q r2 =>
      obtain ⟨k, c⟩ := p
      obtain ⟨k2, c2⟩ := q
      simp only [List.map_cons, List.cons.injEq] at hk
      obtain ⟨hkk, hrest⟩ := hk
      subst hkk
      simp only [List.map_cons, List.nodup_cons] at hnd
      have hc : c = c2 := by
        have := hget k
        simpa [combatstate_get] using this
      subst hc
      have hr : r1 = r2 := by
        apply ih r2 hrest hnd.2
        intro u
        by_cases hu : k = u
        · subst hu
          rw [combatstate_get_none_of_not_mem r1 k hnd.1,
            combatstate_get_none_of_not_mem r2 k (by rw [← hrest]; exact hnd.1)]
        · have := hget u
          simpa [combatstate_get, hu] using this
      rw [hr]

/-- What the loop of a tick keeps: the keys of the table, the list of dying entities and,
of every record, the hit points, the stance and the combat profile. -/
theorem tick_loop_kept (w : World) (l : List entity) :
    ∀ s s1, tick_loop w l s = some s1 →
      s1.table.map Prod.fst = s.table.map Prod.fst
      ∧ s1.dying = s.dying
      ∧ ∀ u, (combatstate_get s1.table u).map (fun c => (c.current_hp, c.stance, c.stats))
          = (combatstate_get s.table u).map (fun c => (c.current_hp, c.stance, c.stats)) := by
  induction l with
  | nil =>
    intro s s1 h
    simp only [tick_loop, Option.some.injEq] at h
    subst h
    exact ⟨rfl, rfl, fun _ => rfl⟩
  | cons e rest ih =>
    intro s s1 h
    simp only [tick_loop] at h
    cases hte : tick_entity w s e with
    | none => rw [hte] at h; exact (Option.some_ne_none _ h.symm).elim
    | some s2 =>
      rw [hte] at h
      obtain ⟨f, htbl, hkept, hdy, -⟩ := tick_entity_modify w s s2 e hte
      obtain ⟨h1, h2, h3⟩ := ih s2 s1 h
      refine ⟨h1.trans (by rw [htbl, combatstate_modify_keys]), h2.trans hdy, fun u => ?_⟩
      rw [h3 u, htbl]
      by_cases hu : u = e.uid
      · subst hu
        rw [combatstate_get_modify_self]
        cases hc : combatstate_get s.table e.uid with
        | none => rfl
        | some c =>
          obtain ⟨k1, k2, k3, -⟩ := hkept c hc
          simp only [Option.map_some', k1, k2, k3]
      · rw [combatstate_get_modify_other _ _ hu]

/-- The loop of a tick over entities with distinct uids returns exactly when the step of
each entity returns from the initial state, and then the record of each entity is the one
that its own step writes from the initial state; the other records are unchanged. -/
theorem tick_loop_independent (w : World) (l : List entity) :
    (l.map (fun e => e.uid)).Nodup → ∀ s,
      ((tick_loop w l s).isSome = true ↔ ∀ curr ∈ l, (tick_entity w s curr).isSome = true)
      ∧ ∀ s1, tick_loop w l s = some s1 →
        (∀ curr ∈ l, ∀ sb, tick_entity w s curr = some sb →
          combatstate_get s1.table curr.uid = combatstate_get sb.table curr.uid)
        ∧ (∀ u, u ∉ l.map (fun e => e.uid) →
          combatstate_get s1.table u = combatstate_get s.table u) := by
  induction l with
  | nil =>
    intro _ s
    refine ⟨⟨fun _ c hc => absurd hc (List.not_mem_nil c), fun _ => rfl⟩, ?_⟩
    intro s1 h
    simp only [tick_loop, Option.some.injEq] at h
    subst h
    exact ⟨fun c hc => absurd hc (List.not_mem_nil c), fun _ _ => rfl⟩
  | cons c rest ih =>
    intro hnd s
    simp only [List.map_cons, List.nodup_cons] at hnd
    obtain ⟨hc_notin, hnd_rest⟩ := hnd
    have hne : ∀ curr ∈ rest, curr.uid ≠ c.uid := by
      intro curr hcurr e
      exact hc_notin (by rw [← e]; exact List.mem_map_of_mem (fun e => e.uid) hcurr)
    cases hte : tick_entity w s c with
    | none =>
      simp only [tick_loop, hte]
      refine ⟨⟨fun h => absurd h (by simp), fun h => ?_⟩, fun s1 h => absurd h (by simp)⟩
      have := h c (List.mem_cons_self _ _)
      rw [hte] at this
      exact absurd this (by simp)
    | some s2 =>
      have hloc : ∀ curr ∈ rest,
          (tick_entity w s2 curr).map (fun x => combatstate_get x.table curr.uid)
            = (tick_entity w s curr).map (fun x => combatstate_get x.table curr.uid) := by
        intro curr hcurr
        obtain ⟨hm, -, -, -⟩ := tick_entity_frame_other w s s2 c hte curr.uid (hne curr hcurr)
        exact tick_entity_local w s s2 curr
          (tick_entity_get_other w s s2 c hte (hne curr hcurr)) hm
          (tick_entity_dying_view w s s2 c hte)
          (tick_entity_modify w s s2 c hte).choose_spec.2.2.2
      obtain ⟨ih1, ih2⟩ := ih hnd_rest s2
      simp only [tick_loop, hte]
      constructor
      · rw [ih1]
        constructor
        · intro h curr hcurr
          rcases List.mem_cons.mp hcurr with rfl | hmem
          · rw [hte]; rfl
          · have h1 := h curr hmem
            have h2 := congrArg Option.isSome (hloc curr hmem)
            simp only [Option.isSome_map'] at h2
            rw [← h2]; exact h1
        · intro h curr hmem
          have h1 := h curr (List.mem_cons_of_mem _ hmem)
          have h2 := congrArg Option.isSome (hloc curr hmem)
          simp only [Option.isSome_map'] at h2
          rw [h2]; exact h1
      · intro s1 h
        obtain ⟨g1, g2⟩ := ih2 s1 h
        constructor
        · intro curr hcurr sb hsb
          rcases List.mem_cons.mp hcurr with rfl | hmem
          · have : s2 = sb := Option.some.inj (hte.symm.trans hsb)
            subst this
            exact g2 curr.uid hc_notin
          · have h2 := hloc curr hmem
            rw [hsb] at h2
            cases hs2 : tick_entity w s2 curr with
            | none => rw [hs2] at h2; simp at h2
            | some sb2 =>
              rw [hs2] at h2
              simp only [Option.map_some', Option.some.injEq] at h2
              rw [g1 curr hmem sb2 hs2, h2]
        · intro u hu
          simp only [List.map_cons, List.mem_cons, not_or] at hu
          rw [g2 u hu.2]
          exact tick_entity_get_other w s s2 c hte hu.1

/-- C29: the store that a tick produces does not depend on the order in which the dynamic
entities are visited.  For a dynamic set with distinct uids and the loop of the tick run
over any other ordering of it: the one returns exactly when the other does; the results
hold the same record under every uid and the same keys and dying entities, and are the
same table when the keys of the table are distinct.  A tick changes no hit points, stance,
base damage or armour of any record, and leaves the list of dying entities as it is. -/
theorem C29_tick_order_independent (w : World) (s : State) (l2 : List entity)
    (hperm : w.G_GetDynamicEntsSet.Perm l2)
    (hnodup : (w.G_GetDynamicEntsSet.map (fun e => e.uid)).Nodup) :
    ((on_30hz_tick w s).isSome = (tick_loop w l2 s).isSome)
    ∧ (∀ s1 s2, on_30hz_tick w s = some s1 → tick_loop w l2 s = some s2 →
        (∀ u, combatstate_get s1.table u = combatstate_get s2.table u)
        ∧ s1.table.map Prod.fst = s2.table.map Prod.fst
        ∧ s1.dying = s2.dying
        ∧ ((s.table.map Prod.fst).Nodup → s1.table = s2.table))
    ∧ (∀ s1, on_30hz_tick w s = some s1 →
        s1.dying = s.dying
        ∧ ∀ u, (combatstate_get s1.table u).map
                (fun c => (c.current_hp, c.stance, c.stats.base_dmg, c.stats.base_armour_pc))
            = (combatstate_get s.table u).map
                (fun c => (c.current_hp, c.stance, c.stats.base_dmg, c.stats.base_armour_pc))) := by
  have hnodup2 : (l2.map (fun e => e.uid)).Nodup :=
    (List.Perm.nodup_iff (List.Perm.map _ hperm)).mp hnodup
  obtain ⟨a1, a2⟩ := tick_loop_independent w w.G_GetDynamicEntsSet hnodup s
  obtain ⟨b1, b2⟩ := tick_loop_independent w l2 hnodup2 s
  refine ⟨?_, ?_, ?_⟩
  · unfold on_30hz_tick
    rw [Bool.eq_iff_iff, a1, b1]
    exact ⟨fun h c hc => h c (hperm.mem_iff.mpr hc), fun h c hc => h c (hperm.mem_iff.mp hc)⟩
  · intro s1 s2 h1 h2
    unfold on_30hz_tick at h1
    obtain ⟨c1, c2⟩ := a2 s1 h1
    obtain ⟨d1, d2⟩ := b2 s2 h2
    obtain ⟨k1, y1, -⟩ := tick_loop_kept w _ s s1 h1
    obtain ⟨k2, y2, -⟩ := tick_loop_kept w _ s s2 h2
    have hget : ∀ u, combatstate_get s1.table u = combatstate_get s2.table u := by
      intro u
      by_cases hu : u ∈ w.G_GetDynamicEntsSet.map (fun e => e.uid)
      · obtain ⟨curr, hcurr, rfl⟩ := List.mem_map.mp hu
        have hs : (tick_entity w s curr).isSome = true :=
          a1.mp (by rw [h1]; rfl) curr hcurr
        obtain ⟨sb, hsb⟩ := Option.isSome_iff_exists.mp hs
        rw [c1 curr hcurr sb hsb, d1 curr (hperm.mem_iff.mp hcurr) sb hsb]
      · have hu2 : u ∉ l2.map (fun e => e.uid) := fun hm =>
          hu ((List.Perm.map _ hperm).mem_iff.mpr hm)
        rw [c2 u hu, d2 u hu2]
    refine ⟨hget, k1.trans k2.symm, y1.trans y2.symm, fun hk => ?_⟩
    exact table_ext s1.table s2.table (k1.trans k2.symm) (by rw [k1]; exact hk) hget
  · intro s1 h1
    unfold on_30hz_tick at h1
    obtain ⟨-, y1, y3⟩ := tick_loop_kept w _ s s1 h1
    refine ⟨y1, fun u => ?_⟩
    have := y3 u
    cases hc1 : combatstate_get s1.table u with
    | none =>
      rw [hc1] at this
      cases hc0 : combatstate_get s.table u with
      | none => rfl
      | some c0 => rw [hc0] at this; simp at this
    | some c1 =>
      rw [hc1] at this
      cases hc0 : combatstate_get s.table u with
      | none => rw [hc0] at this; simp at this
      | some c0 =>
        rw [hc0] at this
        simp only [Option.map_some', Option.some.injEq, Prod.mk.injEq] at this ⊢
        exact ⟨this.1, this.2.1, by rw [this.2.2], by rw [this.2.2]⟩

/-- C29 (witness): in `scenario_world` the dynamic set is visited in the order `1`, `2`;
from `idle_pair_state` the loop over the order `2`, `1` reaches the same table, in which
both entities are ready to attack each other. -/
theorem C29_tick_order_independent_witness :
    (tick_loop scenario_world [scenario_target, scenario_attacker] idle_pair_state).map
        (fun x => x.table)
      = (on_30hz_tick scenario_world idle_pair_state).map (fun x => x.table)
    ∧ (tick_loop scenario_world [scenario_target, scenario_attacker] idle_pair_state).map
        (fun x => x.notified)
      ≠ (on_30hz_tick scenario_world idle_pair_state).map (fun x => x.notified)
    ∧ ((on_30hz_tick scenario_world idle_pair_state).isSome
        = (tick_loop scenario_world [scenario_target, scenario_attacker]
            idle_pair_state).isSome) :=
  ⟨by decide!, by decide!,
    (C29_tick_order_independent scenario_world idle_pair_state
      [scenario_target, scenario_attacker] (List.Perm.swap _ _ _) (by decide)).1⟩

end Combat

namespace UIStyle

/-! ## The serializer of colours of the UI style -/

theorem store_channel_byte (n : Nat) (hn : n < 256) : store_channel (n : Int) = n := by
  unfold store_channel
  omega

theorem byte_fits_int (n : Nat) (hn : n < 256) :
    -2147483648 ≤ (n : Int) ∧ (n : Int) < 2147483648 :=
  ⟨by omega, by omega⟩

theorem PyArg_ParseTuple_iiii_of_bytes (v0 v1 v2 v3 : Nat)
    (h0 : v0 < 256) (h1 : v1 < 256) (h2 : v2 < 256) (h3 : v3 < 256) :
    PyArg_ParseTuple_iiii (PyObject.tuple_of_ints [(v0 : Int), v1, v2, v3])
      = some ((v0 : Int), (v1 : Int), (v2 : Int), (v3 : Int)) := by
  simp only [PyArg_ParseTuple_iiii, byte_fits_int v0 h0, byte_fits_int v1 h1,
    byte_fits_int v2 h2, byte_fits_int v3 h3, and_self, if_true]

theorem load_color_cons (obj : PyObject) (rest : List PyObject) :
    load_color (obj :: rest)
      = match PyArg_ParseTuple_iiii obj with
        | none => none
        | some (v0, v1, v2, v3) =>
          some (⟨store_channel v0, store_channel v1, store_channel v2, store_channel v3⟩,
            rest) := rfl

theorem save_color_nil (clr : nk_color) :
    save_color [] clr = [PyObject.tuple_of_ints [(clr.r : Int), clr.g, clr.g, clr.a]] := rfl

/-- What `load_color` reads from the stream that `save_color` wrote for a colour: the
red, green and alpha channels of the colour, and its green channel in the place of the
blue channel. -/
theorem load_color_save_color (clr : nk_color)
    (hr : clr.r < 256) (hg : clr.g < 256) (ha : clr.a < 256) :
    load_color (save_color [] clr) = some (⟨clr.r, clr.g, clr.g, clr.a⟩, []) := by
  rw [save_color_nil, load_color_cons,
    PyArg_ParseTuple_iiii_of_bytes clr.r clr.g clr.g clr.a hr hg hg ha]
  show some ((⟨store_channel clr.r, store_channel clr.g, store_channel clr.g,
    store_channel clr.a⟩ : nk_color), ([] : List PyObject)) = _
  rw [store_channel_byte _ hr, store_channel_byte _ hg, store_channel_byte _ ha]

/-- C30 (failing input): the colour (1, 2, 3, 4) does not round-trip: `save_color` writes
the green channel twice and the blue channel not at all, and `load_color` reads back the
colour (1, 2, 2, 4). -/
theorem C30_blue_channel_not_saved :
    save_color [] ⟨1, 2, 3, 4⟩ = [PyObject.tuple_of_ints [1, 2, 2, 4]]
    ∧ load_color (save_color [] ⟨1, 2, 3, 4⟩) = some (⟨1, 2, 2, 4⟩, [])
    ∧ load_color (save_color [] ⟨1, 2, 3, 4⟩) ≠ some (⟨1, 2, 3, 4⟩, []) := by
  have h : load_color (save_color [] ⟨1, 2, 3, 4⟩) = some (⟨1, 2, 2, 4⟩, []) :=
    load_color_save_color ⟨1, 2, 3, 4⟩ (by decide) (by decide) (by decide)
  refine ⟨rfl, h, ?_⟩
  rw [h]
  decide

end UIStyle
